import Mathlib

/-!
# Post-processing pipeline of `Scene.cpp`

A shallow embedding of the effect chain of `RenderScene` and of the effect
application primitives it calls (`FullScreenPostProcess`, `AreaPostProcess`,
`PolygonPostProcess`, `RenderBloomTexture`, `ApplyPostProcess`).

The CPU side is a state transformer over the globals of `Scene.cpp` and the
part of the Direct3D context that the post-processing code sets; every
`gD3DContext->Draw(4, 0)` appends a `DrawCall` (a snapshot of the context and
of the constant buffer) to a log.  The GPU side gives the log a meaning on
texture contents through a `Gpu` record that holds what is not part of
`Scene.cpp`: the pixel shaders, the rasteriser coverage and the blend
equations.  Floating point values are modelled by rationals.

`UpdateScene` is embedded as far as it writes that state: the keys that edit
the transient effect list, the motion blur, the gradient hues, the retro pixel
size, the bloom timer and the number of directional bloom passes, the focused
object and the depth-of-field planes.
Its state adds the function's static variables and a free store of
`PostProcess` objects to the globals.  The order of the passes of a frame is
kept as a list of events.
-/

namespace PostProcessing

/-! ## Data model (Scene.cpp lines 30-100) -/

/-- Available post-processes (`enum class PostProcessType`). -/
inductive PostProcessType
  | None
  | Copy
  | Tint
  | GreyNoise
  | Burn
  | Distort
  | Spiral
  | HeatHaze
  | Gradient
  | BlurX
  | BlurY
  | Underwater
  | DepthOfField
  | Retro
  | Bloom
  | Brightness
  | DirectionalBlur
  | HueShift
  | ChromaticAberration
  | Outline
  | Dilation
  | FrostedGlass
  | Selection
  deriving DecidableEq, Repr

/-- The three scopes of an effect (`enum class PostProcessMode`). -/
inductive PostProcessMode
  | Fullscreen
  | Area
  | Polygon
  deriving DecidableEq, Repr

/-- A 2D vector of floats (`CVector2`), over the rationals. -/
structure CVector2 where
  x : ℚ
  y : ℚ
  deriving DecidableEq, Repr

/-- A 3D vector of floats (`CVector3`), over the rationals. -/
structure CVector3 where
  x : ℚ
  y : ℚ
  z : ℚ
  deriving DecidableEq, Repr

/-- A 4D vector of floats (`CVector4`), over the rationals. -/
structure CVector4 where
  x : ℚ
  y : ℚ
  z : ℚ
  w : ℚ
  deriving DecidableEq, Repr

/-- A 4x4 matrix of floats (`CMatrix4x4`), stored by rows. -/
structure CMatrix4x4 where
  e00 : ℚ
  e01 : ℚ
  e02 : ℚ
  e03 : ℚ
  e10 : ℚ
  e11 : ℚ
  e12 : ℚ
  e13 : ℚ
  e20 : ℚ
  e21 : ℚ
  e22 : ℚ
  e23 : ℚ
  e30 : ℚ
  e31 : ℚ
  e32 : ℚ
  e33 : ℚ
  deriving DecidableEq, Repr

/-- Modelled from the spec: the row-vector by matrix product `v * m` of the
maths library (`CVector4 operator*(CVector4, CMatrix4x4)`), which is not part
of `Scene.cpp`; the spec has each point "transformed by (pointTransform x
cameraViewProjection) into clip space". -/
def CVector4.mulMatrix (v : CVector4) (m : CMatrix4x4) : CVector4 :=
  { x := v.x * m.e00 + v.y * m.e10 + v.z * m.e20 + v.w * m.e30
    y := v.x * m.e01 + v.y * m.e11 + v.z * m.e21 + v.w * m.e31
    z := v.x * m.e02 + v.y * m.e12 + v.z * m.e22 + v.w * m.e32
    w := v.x * m.e03 + v.y * m.e13 + v.z * m.e23 + v.w * m.e33 }

/-- The constructor `CVector4(CVector3, float)`. -/
def CVector4.ofVector3 (v : CVector3) (w : ℚ) : CVector4 :=
  { x := v.x, y := v.y, z := v.z, w := w }

/-- The four points and the transform of a polygon-scope effect
(`class PolygonData`). -/
structure PolygonData where
  Points : Fin 4 → CVector3
  Matrix : CMatrix4x4

/-- An entry of an effect list (`class PostProcess`); the member `Type` is
named `Type_` here, and `PolyData = none` is the null pointer. -/
structure PostProcess where
  Type_ : PostProcessType
  Mode : PostProcessMode := PostProcessMode.Fullscreen
  PolyData : Option PolygonData := none

/-! ## binary32 arithmetic

The scope fields that `AreaPostProcess` computes are kept as binary32 values,
every operation of the code rounded to nearest (ties to even) as the hardware
does. -/

/-- The power `2 ^ k` for an integer exponent. -/
def twoPow (k : Int) : ℚ :=
  if 0 ≤ k then ((2 ^ k.toNat : Nat) : ℚ) else 1 / ((2 ^ (-k).toNat : Nat) : ℚ)

/-- The loop of `natLog2`, run for at most `fuel` halvings. -/
def log2Loop : Nat → Nat → Nat
  | 0, _ => 0
  | fuel + 1, n => if 2 ≤ n then log2Loop fuel (n / 2) + 1 else 0

/-- The position of the leading bit of `n`: the `k` with
`2 ^ k ≤ n < 2 ^ (k + 1)` for `n > 0`. -/
def natLog2 (n : Nat) : Nat :=
  log2Loop n n

/-- The exponent of the binade of a positive rational: the `k` with
`2 ^ k ≤ q < 2 ^ (k + 1)`. -/
def floorLog2 (q : ℚ) : Int :=
  let k : Int := (natLog2 q.num.natAbs : Int) - (natLog2 q.den : Int)
  if twoPow k ≤ q then k else k - 1

/-- Rounding to the nearest integer, a tie going to the even one. -/
def roundHalfEven (q : ℚ) : Int :=
  if q - ⌊q⌋ < 1 / 2 then ⌊q⌋
  else if 1 / 2 < q - ⌊q⌋ then ⌊q⌋ + 1
  else if ⌊q⌋ % 2 = 0 then ⌊q⌋ else ⌊q⌋ + 1

/-- A binary32 value: a finite number kept as sign and magnitude (so that the
two zeros differ), an infinity, or a NaN. -/
inductive Float32
  | finite (negative : Bool) (magnitude : ℚ)
  | infinite (negative : Bool)
  | nan
  deriving DecidableEq, Repr

namespace Float32

/-- The exponent of the last place of a binary32 number of magnitude `q`: 24
significant bits, and `-149` in the subnormal range. -/
def exponent (q : ℚ) : Int :=
  max (floorLog2 q - 23) (-149)

/-- The distance between neighbouring binary32 numbers at the magnitude
`q`. -/
def spacing (q : ℚ) : ℚ :=
  twoPow (exponent q)

/-- The magnitude `q ≥ 0` rounded to the nearest multiple of the spacing, ties
to even, as if the exponent range had no upper end. -/
def roundMagnitude (q : ℚ) : ℚ :=
  (roundHalfEven (q / spacing q) : ℚ) * spacing q

/-- The binary32 result for the exact value `q` (round to nearest, ties to
even): a zero result of an exact zero takes the sign `zeroNegative`, and a
magnitude that rounds to `2 ^ 128` or more gives an infinity. -/
def round (zeroNegative : Bool) (q : ℚ) : Float32 :=
  if q = 0 then finite zeroNegative 0
  else if twoPow 128 ≤ roundMagnitude |q| then infinite (decide (q < 0))
  else finite (decide (q < 0)) (roundMagnitude |q|)

/-- The value a `float` variable holds for the number `q`. -/
def ofRat (q : ℚ) : Float32 :=
  round false q

/-- The conversion of an `int` to `float`. -/
def ofInt (n : Int) : Float32 :=
  round false n

/-- The number that a finite value stands for. -/
def toRat : Float32 → ℚ
  | finite negative magnitude => if negative then -magnitude else magnitude
  | _ => 0

/-- The negation: the sign is flipped. -/
def neg : Float32 → Float32
  | finite negative magnitude => finite (!negative) magnitude
  | infinite negative => infinite (!negative)
  | nan => nan

/-- The binary32 sum. -/
def add : Float32 → Float32 → Float32
  | nan, _ => nan
  | _, nan => nan
  | infinite s, infinite t => if s = t then infinite s else nan
  | infinite s, finite _ _ => infinite s
  | finite _ _, infinite t => infinite t
  | finite s m, finite t n => round (s && t) ((finite s m).toRat + (finite t n).toRat)

/-- The binary32 difference. -/
def sub (a b : Float32) : Float32 :=
  add a (neg b)

/-- The binary32 product. -/
def mul : Float32 → Float32 → Float32
  | nan, _ => nan
  | _, nan => nan
  | infinite s, infinite t => infinite (xor s t)
  | infinite s, finite t n => if n = 0 then nan else infinite (xor s t)
  | finite s m, infinite t => if m = 0 then nan else infinite (xor s t)
  | finite s m, finite t n => round (xor s t) ((finite s m).toRat * (finite t n).toRat)

/-- The binary32 quotient. -/
def div : Float32 → Float32 → Float32
  | nan, _ => nan
  | _, nan => nan
  | infinite _, infinite _ => nan
  | infinite s, finite t _ => infinite (xor s t)
  | finite s _, infinite t => finite (xor s t) 0
  | finite s m, finite t n =>
      if n = 0 then (if m = 0 then nan else infinite (xor s t))
      else round (xor s t) ((finite s m).toRat / (finite t n).toRat)

instance : OfNat Float32 0 := ⟨finite false 0⟩

instance : OfNat Float32 1 := ⟨finite false 1⟩

end Float32

/-- A `CVector2` whose components are kept as binary32 values: the type of
the two scope fields `area2DTopLeft` and `area2DSize` of the constants. -/
structure CVector2F where
  x : Float32
  y : Float32
  deriving DecidableEq, Repr

/-! ## Textures, states and the constant buffer -/

/-- The GPU textures that post-processing reads or writes.  A shader resource
view and a render target view created from the same texture (lines 390-519)
are both modelled by the texture itself: `gSceneTextureSRV` and
`gSceneRenderTarget` are `gSceneTexture`, and so on. -/
inductive Texture
  | gSceneTexture
  | gSceneTexture2
  | gTempTexture
  | gTempTexture2
  | gNormalDepthTexture
  | gNormalDepthTexture2
  | gFocusedObjectTexture
  | gFocusedObjectTexture2
  | gBackBuffer
  | gNoiseMap
  | gBurnMap
  | gDistortMap
  | gNoiseMap2
  deriving DecidableEq, Repr

/-- The blend states passed to the post-processing functions. -/
inductive BlendState
  | gNoBlendingState
  | gAdditiveBlendingState
  | gAlphaBlendingState
  deriving DecidableEq, Repr

/-- The two vertex shaders used for post-processing quads. -/
inductive VertexShader
  | g2DQuadVertexShader
  | g2DPolygonVertexShader
  deriving DecidableEq, Repr

/-- The argument of `cos` and `sin` in `UpdateBloomEffectDirection`, kept
symbolic: it stands for `timer + j * (PI / n)`. -/
structure BlurAngle where
  timer : ℚ
  j : Nat
  n : Int
  deriving DecidableEq, Repr

/-- The fields of `gPostProcessingConstants` that the rendering functions
write, and the gradient hues, the retro pixel numbers and the depth-of-field
planes that `UpdateScene` publishes.  `directionalBlur` stands for the pair
`directionalBlurX`, `directionalBlurY`, the cosine and sine of the stored
angle. -/
structure PostProcessingConstants where
  area2DTopLeft : CVector2F
  area2DSize : CVector2F
  area2DDepth : Float32
  polygon2DPoints : Fin 4 → CVector4
  copyAlpha : ℚ
  directionalBlur : BlurAngle
  gradientHue : CVector2
  pixelNumber : CVector2
  nearPlane : ℚ
  focalPlane : ℚ
  farPlane : ℚ

/-- The methods of `Camera` that the post-processing code calls; the class is
not part of `Scene.cpp`. -/
structure Camera where
  PixelFromWorldPt : CVector3 → Int → Int → CVector3
  PixelSizeInWorldSpace : ℚ → Int → Int → CVector2
  ViewProjectionMatrix : CMatrix4x4
  NearClip : ℚ
  FarClip : ℚ

/-- What one `gD3DContext->Draw(4, 0)` sees: the render target, the source
texture in slot 0, the blend state, the vertex and pixel shader, the further
textures bound for that pixel shader and the constant buffer contents. -/
structure DrawCall where
  vertexCount : Nat
  renderTarget : Texture
  srv : Texture
  blendState : BlendState
  vertexShader : VertexShader
  pixelShader : PostProcessType
  psTextures : List Texture
  constants : PostProcessingConstants

/-- The part of the Direct3D context set by the post-processing functions.
`pixelShader = None` stands for a pixel shader that is not a post-process
shader; `psTextures` are the textures bound to slots 1 and up by the branch of
`SelectPostProcessShaderAndTextures` that selected the pixel shader (a shader
reads slot 0 and the slots its branch binds). -/
structure Context where
  renderTarget : Texture
  srv : Texture
  blendState : BlendState
  vertexShader : VertexShader
  pixelShader : PostProcessType
  psTextures : List Texture

/-- The globals of `Scene.cpp` that the effect chain reads or writes, the
Direct3D context and the log of draws issued so far.  The three
`gCurrent...TextureSRV` pointers are assigned before they are first read
(lines 1150, 1234, 1238), so their initial null value is not modelled. -/
structure Scene where
  gPolygonPostProcesses : List PostProcess
  gFullScreenPostProcesses : List PostProcess
  gFocusedObject : Int
  gTempTimer : ℚ
  gTempDiagonalBlurs : Int
  gCopyAlpha : ℚ
  gCamera : Camera
  gViewportWidth : Int
  gViewportHeight : Int
  light0Position : CVector3
  gPostProcessingConstants : PostProcessingConstants
  gCurrentBloomTextureSRV : Texture
  gCurrentNormalDepthTextureSRV : Texture
  gCurrentFocusedObjectTextureSRV : Texture
  context : Context
  draws : List DrawCall

open PostProcessType PostProcessMode Texture BlendState VertexShader

/-! ## Effect application primitives (Scene.cpp lines 839-1185) -/

/-- The textures that the branch of `SelectPostProcessShaderAndTextures` for
an effect binds to slots 1 and 2, in slot order. -/
def selectTextures (s : Scene) : PostProcessType → List Texture
  | DepthOfField => [s.gCurrentNormalDepthTextureSRV]
  | Bloom => [s.gCurrentBloomTextureSRV]
  | Outline => [s.gCurrentNormalDepthTextureSRV]
  | FrostedGlass => [gNoiseMap2]
  | Selection => [s.gCurrentNormalDepthTextureSRV, s.gCurrentFocusedObjectTextureSRV]
  | GreyNoise => [gNoiseMap]
  | Burn => [gBurnMap]
  | Distort => [gDistortMap]
  | _ => []

/-- `SelectPostProcessShaderAndTextures`: every branch sets the pixel shader
of its effect and binds its textures; `None` has no branch and leaves the
context as it is. -/
def SelectPostProcessShaderAndTextures (postProcess : PostProcessType) (s : Scene) : Scene :=
  if postProcess = None then s
  else { s with context := { s.context with
                             pixelShader := postProcess
                             psTextures := selectTextures s postProcess } }

/-- `PostProcessSetup`: binds the render target, the source view in slot 0,
the 2D quad vertex shader and the blend state. -/
def PostProcessSetup (srv renderTarget : Texture) (blendState : BlendState) (s : Scene) : Scene :=
  { s with context := { s.context with
                        renderTarget := renderTarget
                        srv := srv
                        vertexShader := g2DQuadVertexShader
                        blendState := blendState } }

/-- The draw that `gD3DContext->Draw(4, 0)` issues in state `s`: four
vertices, with the context and the constants as they are now (every draw is
issued right after `UpdateConstantBuffer`). -/
def currentDraw (s : Scene) : DrawCall :=
  { vertexCount := 4
    renderTarget := s.context.renderTarget
    srv := s.context.srv
    blendState := s.context.blendState
    vertexShader := s.context.vertexShader
    pixelShader := s.context.pixelShader
    psTextures := s.context.psTextures
    constants := s.gPostProcessingConstants }

/-- The call `gD3DContext->Draw(4, 0)`: the draw is appended to the log. -/
def Draw (s : Scene) : Scene :=
  { s with draws := s.draws ++ [currentDraw s] }

/-- The state in which `FullScreenPostProcess` issues its draw: set-up,
shader selection and the full-screen scope `(0,0)`, `(1,1)`, depth `0`. -/
def FullScreenSetup (postProcess : PostProcessType) (srv renderTarget : Texture)
    (blendState : BlendState) (s : Scene) : Scene :=
  let s := PostProcessSetup srv renderTarget blendState s
  let s := SelectPostProcessShaderAndTextures postProcess s
  { s with gPostProcessingConstants := { s.gPostProcessingConstants with
                                         area2DTopLeft := { x := 0, y := 0 }
                                         area2DSize := { x := 1, y := 1 }
                                         area2DDepth := 0 } }

/-- `FullScreenPostProcess`. -/
def FullScreenPostProcess (postProcess : PostProcessType) (srv renderTarget : Texture)
    (blendState : BlendState) (s : Scene) : Scene :=
  Draw (FullScreenSetup postProcess srv renderTarget blendState s)

/-- The view depth of the anchor in `AreaPostProcess`
(`worldPointTo2D.z`). -/
def areaDistance (s : Scene) (worldPoint : CVector3) : ℚ :=
  (s.gCamera.PixelFromWorldPt worldPoint s.gViewportWidth s.gViewportHeight).z

/-- The state in which `AreaPostProcess` issues its draw when the anchor is
not behind the camera: the scope fields are computed from the projected
anchor and the world-space size, in binary32 arithmetic.  The results of the
camera methods and the clip distances are the values of `float` variables;
`area2DCentre.x /= gViewportWidth` converts the `int` to `float` and divides;
`area2DCentre - 0.5f * area2DSize` is taken component by component; the depth
is `FarClip * (areaDistance - NearClip) / (FarClip - NearClip)`, then divided
by `areaDistance` (lines 1072-1073). -/
def AreaSetup (postProcess : PostProcessType) (srv renderTarget : Texture)
    (blendState : BlendState) (worldPoint : CVector3) (areaSize : CVector2) (s : Scene) : Scene :=
  let s := PostProcessSetup srv renderTarget blendState s
  let s := SelectPostProcessShaderAndTextures postProcess s
  let worldPointTo2D := s.gCamera.PixelFromWorldPt worldPoint s.gViewportWidth s.gViewportHeight
  let areaDistance := worldPointTo2D.z
  let centreX := Float32.div (Float32.ofRat worldPointTo2D.x) (Float32.ofInt s.gViewportWidth)
  let centreY := Float32.div (Float32.ofRat worldPointTo2D.y) (Float32.ofInt s.gViewportHeight)
  let pixelSizeAtPoint :=
    s.gCamera.PixelSizeInWorldSpace areaDistance s.gViewportWidth s.gViewportHeight
  let sizeX :=
    Float32.div (Float32.div (Float32.ofRat areaSize.x) (Float32.ofRat pixelSizeAtPoint.x))
      (Float32.ofInt s.gViewportWidth)
  let sizeY :=
    Float32.div (Float32.div (Float32.ofRat areaSize.y) (Float32.ofRat pixelSizeAtPoint.y))
      (Float32.ofInt s.gViewportHeight)
  { s with gPostProcessingConstants := { s.gPostProcessingConstants with
      area2DTopLeft :=
        { x := Float32.sub centreX (Float32.mul (Float32.ofRat (1 / 2)) sizeX)
          y := Float32.sub centreY (Float32.mul (Float32.ofRat (1 / 2)) sizeY) }
      area2DSize := { x := sizeX, y := sizeY }
      area2DDepth :=
        Float32.div
          (Float32.div
            (Float32.mul (Float32.ofRat s.gCamera.FarClip)
              (Float32.sub (Float32.ofRat areaDistance) (Float32.ofRat s.gCamera.NearClip)))
            (Float32.sub (Float32.ofRat s.gCamera.FarClip) (Float32.ofRat s.gCamera.NearClip)))
          (Float32.ofRat areaDistance) } }

/-- `AreaPostProcess`: after set-up and shader selection it returns without
drawing when the anchor is nearer than the near clip distance. -/
def AreaPostProcess (postProcess : PostProcessType) (srv renderTarget : Texture)
    (blendState : BlendState) (worldPoint : CVector3) (areaSize : CVector2) (s : Scene) : Scene :=
  if areaDistance s worldPoint < s.gCamera.NearClip then
    SelectPostProcessShaderAndTextures postProcess (PostProcessSetup srv renderTarget blendState s)
  else
    Draw (AreaSetup postProcess srv renderTarget blendState worldPoint areaSize s)

/-- The state in which `PolygonPostProcess` issues its draw: the four points
are taken to clip space and stored, and the polygon vertex shader is
selected. -/
def PolygonSetup (postProcess : PostProcessType) (srv renderTarget : Texture)
    (blendState : BlendState) (points : Fin 4 → CVector3) (worldMatrix : CMatrix4x4)
    (s : Scene) : Scene :=
  let s := PostProcessSetup srv renderTarget blendState s
  let s := SelectPostProcessShaderAndTextures postProcess s
  let s := { s with gPostProcessingConstants := { s.gPostProcessingConstants with
      polygon2DPoints := fun i =>
        ((CVector4.ofVector3 (points i) 1).mulMatrix worldMatrix).mulMatrix
          s.gCamera.ViewProjectionMatrix } }
  { s with context := { s.context with vertexShader := g2DPolygonVertexShader } }

/-- `PolygonPostProcess`. -/
def PolygonPostProcess (postProcess : PostProcessType) (srv renderTarget : Texture)
    (blendState : BlendState) (points : Fin 4 → CVector3) (worldMatrix : CMatrix4x4)
    (s : Scene) : Scene :=
  Draw (PolygonSetup postProcess srv renderTarget blendState points worldMatrix s)

/-- `UpdateBloomEffectDirection` called with `j * (PI / gTempDiagonalBlurs)`:
sets `directionalBlurX` and `directionalBlurY` to the cosine and sine of
`gTempTimer + directionOffset`. -/
def UpdateBloomEffectDirection (j : Nat) (s : Scene) : Scene :=
  { s with gPostProcessingConstants := { s.gPostProcessingConstants with
      directionalBlur := { timer := s.gTempTimer, j := j, n := s.gTempDiagonalBlurs } } }

/-- `RenderBloomTexture`: brightness pass into temp 2, vertical blur into temp
1, horizontal blur into temp 2, then one additive directional blur from temp
1 into temp 2 for each `j < gTempDiagonalBlurs`; temp 2 becomes the bloom
texture. -/
def RenderBloomTexture (srv : Texture) (s : Scene) : Scene :=
  let s := FullScreenPostProcess Brightness srv gTempTexture2 gNoBlendingState s
  let s := FullScreenPostProcess BlurY gTempTexture2 gTempTexture gNoBlendingState s
  let s := FullScreenPostProcess BlurX gTempTexture gTempTexture2 gNoBlendingState s
  let s := (List.range s.gTempDiagonalBlurs.toNat).foldl
    (fun s j => FullScreenPostProcess DirectionalBlur gTempTexture gTempTexture2
                  gAdditiveBlendingState (UpdateBloomEffectDirection j s)) s
  { s with gCurrentBloomTextureSRV := gTempTexture2 }

/-- The scope dispatch at the end of `ApplyPostProcess` (lines 1166-1184). -/
def applyByMode (postProcess : PostProcess) (srv renderTarget : Texture) (s : Scene) : Scene :=
  match postProcess.Mode with
  | Fullscreen => FullScreenPostProcess postProcess.Type_ srv renderTarget gNoBlendingState s
  | Area =>
      AreaPostProcess postProcess.Type_ srv renderTarget gAlphaBlendingState s.light0Position
        { x := 10, y := 10 } s
  | Polygon =>
      match postProcess.PolyData with
      | some polyData =>
          PolygonPostProcess postProcess.Type_ srv renderTarget gNoBlendingState
            polyData.Points polyData.Matrix s
      | none => s

/-- `ApplyPostProcess`: returns at once for a Selection effect when no object
is focused, renders the bloom texture first for a Bloom effect, then applies
the effect by its scope. -/
def ApplyPostProcess (postProcess : PostProcess) (srv renderTarget : Texture) (s : Scene) : Scene :=
  if postProcess.Type_ = Selection ∧ s.gFocusedObject ≤ 0 then s
  else
    let s := if postProcess.Type_ = Bloom then RenderBloomTexture srv s else s
    applyByMode postProcess srv renderTarget s

/-! ## The effect chain of `RenderScene` (Scene.cpp lines 1233-1349) -/

/-- The effects that distort the image (the condition of lines 1284-1287). -/
def distorts (t : PostProcessType) : Bool :=
  t = Retro || t = Spiral || t = Underwater || t = BlurX || t = BlurY ||
    t = PostProcessType.Dilation || t = FrostedGlass

/-- The local variables of the effect chain together with the globals:
`srv`/`renderTarget` for the colour pair, `ndRenderTarget` and
`foRenderTarget` for the write targets of the two auxiliary pairs (their read
views are the globals `gCurrentNormalDepthTextureSRV` and
`gCurrentFocusedObjectTextureSRV`), the iterators `itA`, `itB` as indices into
the two lists and the counters `i`, `j`. -/
structure Chain where
  scene : Scene
  srv : Texture
  renderTarget : Texture
  ndRenderTarget : Texture
  foRenderTarget : Texture
  itA : Nat
  itB : Nat
  i : Nat
  j : Nat

/-- Lines 1233-1258: the start of the chain.  The read views and write targets
of the three pairs are initialised, `copyAlpha` is set to `1.0` and the three
initial copies are drawn (the focused-object one only when an object is
focused).  `RenderFocusedObject` and `RenderSceneNormalsAndDepth` draw scene
geometry, not post-process quads: the images they leave in
`gFocusedObjectTexture` and `gNormalDepthTexture` are part of the texture
contents at the start of the chain. -/
def chainInit (s : Scene) : Chain :=
  let s := { s with gCurrentFocusedObjectTextureSRV := gFocusedObjectTexture }
  let foRenderTarget := gFocusedObjectTexture2
  let s := { s with gCurrentNormalDepthTextureSRV := gNormalDepthTexture }
  let ndRenderTarget := gNormalDepthTexture2
  let srv := gSceneTexture
  let renderTarget := gSceneTexture2
  let s := { s with gPostProcessingConstants := { s.gPostProcessingConstants with copyAlpha := 1 } }
  let s := FullScreenPostProcess Copy srv renderTarget gNoBlendingState s
  let s := FullScreenPostProcess Copy s.gCurrentNormalDepthTextureSRV ndRenderTarget
             gNoBlendingState s
  let s := if s.gFocusedObject > 0 then
             FullScreenPostProcess Copy s.gCurrentFocusedObjectTextureSRV foRenderTarget
               gNoBlendingState s
           else s
  { scene := s, srv := srv, renderTarget := renderTarget, ndRenderTarget := ndRenderTarget
    foRenderTarget := foRenderTarget, itA := 0, itB := 0, i := 0, j := 0 }

/-- Lines 1264-1281: the effect is applied from `srv` to `renderTarget`, the
colour pair is switched by the parity of `i`, and a copy follows a polygon or
area effect. -/
def chainColour (postProcess : PostProcess) (c : Chain) : Chain :=
  let s := ApplyPostProcess postProcess c.srv c.renderTarget c.scene
  let c := if c.i % 2 = 0 then
             { c with scene := s, srv := gSceneTexture2, renderTarget := gSceneTexture }
           else
             { c with scene := s, srv := gSceneTexture, renderTarget := gSceneTexture2 }
  if postProcess.Mode = Polygon ∨ postProcess.Mode = Area then
    { c with scene := FullScreenPostProcess Copy c.srv c.renderTarget gNoBlendingState c.scene }
  else c

/-- Lines 1289-1293: the effect is applied again from the current
normal/depth view to its write target and, when an object is focused, from the
current focused-object view to its write target. -/
def auxiliaryApply (postProcess : PostProcess) (c : Chain) : Scene :=
  let s := ApplyPostProcess postProcess c.scene.gCurrentNormalDepthTextureSRV c.ndRenderTarget
             c.scene
  if s.gFocusedObject ≠ 0 then
    ApplyPostProcess postProcess s.gCurrentFocusedObjectTextureSRV c.foRenderTarget s
  else s

/-- Lines 1296-1315: the normal/depth pair is switched by the parity of `j`,
and with it the focused-object pair when an object is focused. -/
def auxiliarySwitch (c : Chain) : Chain :=
  if c.j % 2 = 0 then
    let c : Chain :=
      { c with scene := { c.scene with gCurrentNormalDepthTextureSRV := gNormalDepthTexture2 }
               ndRenderTarget := gNormalDepthTexture }
    if c.scene.gFocusedObject ≠ 0 then
      { c with scene := { c.scene with gCurrentFocusedObjectTextureSRV := gFocusedObjectTexture2 }
               foRenderTarget := gFocusedObjectTexture }
    else c
  else
    let c : Chain :=
      { c with scene := { c.scene with gCurrentNormalDepthTextureSRV := gNormalDepthTexture }
               ndRenderTarget := gNormalDepthTexture2 }
    if c.scene.gFocusedObject ≠ 0 then
      { c with scene := { c.scene with gCurrentFocusedObjectTextureSRV := gFocusedObjectTexture }
               foRenderTarget := gFocusedObjectTexture2 }
    else c

/-- Lines 1317-1324: only when `j = 0`, a polygon or area effect is followed
by a copy from the new normal/depth view to its new write target and, when an
object is focused, by the same copy for the focused-object pair. -/
def auxiliaryCopy (postProcess : PostProcess) (c : Chain) : Scene :=
  if c.j = 0 ∧ (postProcess.Mode = Polygon ∨ postProcess.Mode = Area) then
    let s := FullScreenPostProcess Copy c.scene.gCurrentNormalDepthTextureSRV c.ndRenderTarget
               gNoBlendingState c.scene
    if s.gFocusedObject ≠ 0 then
      FullScreenPostProcess Copy s.gCurrentFocusedObjectTextureSRV c.foRenderTarget
        gNoBlendingState s
    else s
  else c.scene

/-- Lines 1289-1326, the body of the test for a distorting effect: the effect
is applied again to the auxiliary pairs, the pairs are switched, the copy for
`j = 0` is made and `j` is incremented. -/
def chainAuxiliary (postProcess : PostProcess) (c : Chain) : Chain :=
  let c : Chain := { c with scene := auxiliaryApply postProcess c }
  let c : Chain := auxiliarySwitch c
  let c : Chain := { c with scene := auxiliaryCopy postProcess c }
  { c with j := c.j + 1 }

/-- Lines 1329-1338: the iterator of the polygon list advances while it is not
at the end, otherwise the one of the full-screen list; `i` is incremented. -/
def chainAdvance (c : Chain) : Chain :=
  let c := if c.itA ≠ c.scene.gPolygonPostProcesses.length then { c with itA := c.itA + 1 }
           else if c.itB ≠ c.scene.gFullScreenPostProcesses.length then { c with itB := c.itB + 1 }
           else c
  { c with i := c.i + 1 }

/-- One pass through the body of the `while` loop for the entry
`postProcess`. -/
def chainBody (postProcess : PostProcess) (c : Chain) : Chain :=
  let c := chainColour postProcess c
  let c := if distorts postProcess.Type_ then chainAuxiliary postProcess c else c
  chainAdvance c

/-- The entry the loop reads at line 1262: `*itA` while `itA` is not at the
end of the polygon list, `*itB` otherwise; `none` when that iterator is out of
range. -/
def chainCurrent (c : Chain) : Option PostProcess :=
  if c.itA ≠ c.scene.gPolygonPostProcesses.length then c.scene.gPolygonPostProcesses.get? c.itA
  else c.scene.gFullScreenPostProcesses.get? c.itB

/-- The `while` loop of lines 1260-1339 run for at most `fuel` passes.  It
returns `none` when the fuel is used up before the loop condition fails (or an
iterator is read out of range), and otherwise the final state with the
entries applied, in order. -/
def chainLoop : Nat → Chain → Option (Chain × List PostProcess)
  | 0, c =>
      if c.itA ≠ c.scene.gPolygonPostProcesses.length ∨
          c.itB ≠ c.scene.gFullScreenPostProcesses.length then none
      else some (c, [])
  | fuel + 1, c =>
      if c.itA ≠ c.scene.gPolygonPostProcesses.length ∨
          c.itB ≠ c.scene.gFullScreenPostProcesses.length then
        match chainCurrent c with
        | some postProcess =>
            match chainLoop fuel (chainBody postProcess c) with
            | some (c, applied) => some (c, postProcess :: applied)
            | none => none
        | none => none
      else some (c, [])

/-- Lines 1341-1349: the final composite into the back buffer, alpha blended
with `copyAlpha = gCopyAlpha` when `gCopyAlpha < 1.0`. -/
def finalComposite (c : Chain) : Scene :=
  if c.scene.gCopyAlpha < 1 then
    let s := { c.scene with gPostProcessingConstants :=
                 { c.scene.gPostProcessingConstants with copyAlpha := c.scene.gCopyAlpha } }
    FullScreenPostProcess Copy c.srv gBackBuffer gAlphaBlendingState s
  else
    FullScreenPostProcess Copy c.srv gBackBuffer gNoBlendingState c.scene

/-- `RenderScene` from line 1233 on: the effect chain and the final composite,
with the loop run for at most `fuel` passes (`none` when the fuel does not
suffice).  The main scene pass before it leaves the rendered scene in
`gSceneTexture`. -/
def RenderScene (fuel : Nat) (s : Scene) : Option Scene :=
  match chainLoop fuel (chainInit s) with
  | some (c, _) => some (finalComposite c)
  | none => none

/-! ## Meaning of the draws on texture contents -/

/-- An image: a colour for every pixel. -/
abbrev Image (Pixel Colour : Type) : Type := Pixel → Colour

/-- The contents of all textures. -/
abbrev Memory (Pixel Colour : Type) : Type := Texture → Image Pixel Colour

/-- What the GPU does and `Scene.cpp` does not define: the output of each
pixel shader (from the constant buffer, the source image in slot 0 and the
images of the further textures bound for it), the pixels that the quad of each
vertex shader covers and that pass the depth test (the depth buffer is not
written during the chain), and the additive and alpha blend equations (shader
output first, old destination second). -/
structure Gpu (Pixel Colour : Type) where
  shader : PostProcessType → PostProcessingConstants → Image Pixel Colour →
    List (Image Pixel Colour) → Image Pixel Colour
  quadCovers : PostProcessingConstants → Pixel → Bool
  polygonCovers : PostProcessingConstants → Pixel → Bool
  additive : Colour → Colour → Colour
  alpha : Colour → Colour → Colour

section Semantics

variable {Pixel Colour : Type}

/-- The pixels a draw writes. -/
def Gpu.covers (G : Gpu Pixel Colour) (d : DrawCall) (p : Pixel) : Bool :=
  match d.vertexShader with
  | g2DQuadVertexShader => G.quadCovers d.constants p
  | g2DPolygonVertexShader => G.polygonCovers d.constants p

/-- The colour stored for a written pixel: with no blending the shader output
replaces the old colour. -/
def Gpu.blend (G : Gpu Pixel Colour) : BlendState → Colour → Colour → Colour
  | gNoBlendingState, out, _ => out
  | gAdditiveBlendingState, out, old => G.additive out old
  | gAlphaBlendingState, out, old => G.alpha out old

/-- The output of the pixel shader of a draw when slot 0 holds `src`. -/
def Gpu.shaded (G : Gpu Pixel Colour) (d : DrawCall) (m : Memory Pixel Colour)
    (src : Image Pixel Colour) : Image Pixel Colour :=
  G.shader d.pixelShader d.constants src (d.psTextures.map m)

/-- The image a draw leaves in its render target when slot 0 holds `src` and
the target held `dst`: covered pixels get the blended shader output, the
others keep their colour. -/
def Gpu.paint (G : Gpu Pixel Colour) (d : DrawCall) (m : Memory Pixel Colour)
    (src dst : Image Pixel Colour) : Image Pixel Colour :=
  fun p => if G.covers d p then G.blend d.blendState (G.shaded d m src p) (dst p) else dst p

/-- The effect of one draw on the textures. -/
def Gpu.execDraw (G : Gpu Pixel Colour) (d : DrawCall) (m : Memory Pixel Colour) :
    Memory Pixel Colour :=
  Function.update m d.renderTarget (G.paint d m (m d.srv) (m d.renderTarget))

/-- The effect of a list of draws, executed in submission order. -/
def Gpu.execDraws (G : Gpu Pixel Colour) (ds : List DrawCall) (m : Memory Pixel Colour) :
    Memory Pixel Colour :=
  ds.foldl (fun m d => G.execDraw d m) m

/-- The texture contents once every draw logged in `s` has been executed,
starting from the contents `m0`. -/
def Scene.memory (G : Gpu Pixel Colour) (m0 : Memory Pixel Colour) (s : Scene) :
    Memory Pixel Colour :=
  G.execDraws s.draws m0

/-- Modelled from the spec: the Copy pixel shader, which is not part of
`Scene.cpp`, reproduces its source when `copyAlpha` is `1` ("an extra
full-screen identity copy (Type=Copy)"). -/
def Gpu.CopyExact (G : Gpu Pixel Colour) : Prop :=
  ∀ (c : PostProcessingConstants) (src : Image Pixel Colour) (aux : List (Image Pixel Colour)),
    c.copyAlpha = 1 → G.shader Copy c src aux = src

/-- Modelled from the spec: the quad of the 2D quad vertex shader, which is
not part of `Scene.cpp`, covers every pixel for the full-screen scope
("Fullscreen: writes the entire destination from the entire source; scope
rectangle = [0,1]x[0,1], depth = nearest"). -/
def Gpu.FullScreenCovers (G : Gpu Pixel Colour) : Prop :=
  ∀ (c : PostProcessingConstants) (p : Pixel),
    c.area2DTopLeft = { x := 0, y := 0 } → c.area2DSize = { x := 1, y := 1 } →
      c.area2DDepth = 0 → G.quadCovers c p = true

end Semantics

/-! ## The draw of an effect -/

/-- The state in which the scope dispatch of `ApplyPostProcess` issues its
draw, `none` when it issues none (an area effect with its anchor nearer than
the near clip distance, a polygon effect without polygon data). -/
def modeDrawState (postProcess : PostProcess) (srv renderTarget : Texture) (s : Scene) :
    Option Scene :=
  match postProcess.Mode with
  | Fullscreen => some (FullScreenSetup postProcess.Type_ srv renderTarget gNoBlendingState s)
  | Area =>
      if areaDistance s s.light0Position < s.gCamera.NearClip then none
      else some (AreaSetup postProcess.Type_ srv renderTarget gAlphaBlendingState
                   s.light0Position { x := 10, y := 10 } s)
  | Polygon =>
      match postProcess.PolyData with
      | some polyData =>
          some (PolygonSetup postProcess.Type_ srv renderTarget gNoBlendingState
                  polyData.Points polyData.Matrix s)
      | none => none

/-- The state in which `ApplyPostProcess` issues the draw of the effect
itself (after the bloom sub-pipeline for a Bloom effect), `none` when the
effect is skipped. -/
def effectDrawState (postProcess : PostProcess) (srv renderTarget : Texture) (s : Scene) :
    Option Scene :=
  if postProcess.Type_ = Selection ∧ s.gFocusedObject ≤ 0 then none
  else
    modeDrawState postProcess srv renderTarget
      (if postProcess.Type_ = Bloom then RenderBloomTexture srv s else s)

/-- The draws of the effect itself: one or none. -/
def effectDraws (postProcess : PostProcess) (srv renderTarget : Texture) (s : Scene) :
    List DrawCall :=
  match effectDrawState postProcess srv renderTarget s with
  | some t => [currentDraw t]
  | none => []

/-- The entries that the loop still has to apply in state `c`: the rest of
the polygon list followed by the rest of the full-screen list. -/
def Chain.remaining (c : Chain) : List PostProcess :=
  c.scene.gPolygonPostProcesses.drop c.itA ++ c.scene.gFullScreenPostProcesses.drop c.itB

/-- The loop passes for a list of entries, one after the other. -/
def chainPasses (l : List PostProcess) (c : Chain) : Chain :=
  l.foldl (fun c postProcess => chainBody postProcess c) c

/-- The assignments of lines 1234-1244, before the initial copies. -/
def chainStart (s : Scene) : Scene :=
  { s with gCurrentFocusedObjectTextureSRV := gFocusedObjectTexture
           gCurrentNormalDepthTextureSRV := gNormalDepthTexture
           gPostProcessingConstants := { s.gPostProcessingConstants with copyAlpha := 1 } }

/-! ## The images at the end of the chain and their specification -/

section Images

variable {Pixel Colour : Type}

/-- The image read by the final composite: the contents of `srv` when the loop
has ended, `none` when the fuel does not suffice. -/
def compositeSource (G : Gpu Pixel Colour) (m0 : Memory Pixel Colour) (fuel : Nat) (s : Scene) :
    Option (Image Pixel Colour) :=
  (chainLoop fuel (chainInit s)).map (fun r => r.1.scene.memory G m0 r.1.srv)

/-- The normal/depth image in the current read view when the loop has
ended. -/
def normalDepthResult (G : Gpu Pixel Colour) (m0 : Memory Pixel Colour) (fuel : Nat)
    (s : Scene) : Option (Image Pixel Colour) :=
  (chainLoop fuel (chainInit s)).map
    (fun r => r.1.scene.memory G m0 r.1.scene.gCurrentNormalDepthTextureSRV)

/-- The focused-object mask in the current read view when the loop has
ended. -/
def focusedObjectResult (G : Gpu Pixel Colour) (m0 : Memory Pixel Colour) (fuel : Nat)
    (s : Scene) : Option (Image Pixel Colour) :=
  (chainLoop fuel (chainInit s)).map
    (fun r => r.1.scene.memory G m0 r.1.scene.gCurrentFocusedObjectTextureSRV)

/-- "effect(previous)": the output of the pixel shader selected in the draw
state `t` of an effect when its source image is `previous`, with the constant
buffer and the further textures of that draw. -/
def effectOutput (G : Gpu Pixel Colour) (m0 : Memory Pixel Colour) (t : Scene)
    (previous : Image Pixel Colour) : Image Pixel Colour :=
  G.shader t.context.pixelShader t.gPostProcessingConstants previous
    (t.context.psTextures.map (t.memory G m0))

/-- An effect applied to the image `previous` and confined to its scope, for
the draw that `ApplyPostProcess postProcess srv renderTarget` issues in state
`s`: a full-screen effect replaces the whole image by effect(previous); a
polygon effect replaces the pixels inside its quad by effect(previous) and
keeps `previous` elsewhere; an area effect blends effect(previous) over
`previous` inside its rectangle; an effect that is not drawn leaves
`previous`. -/
def applyEffect (G : Gpu Pixel Colour) (m0 : Memory Pixel Colour) (postProcess : PostProcess)
    (srv renderTarget : Texture) (s : Scene) (previous : Image Pixel Colour) :
    Image Pixel Colour :=
  match effectDrawState postProcess srv renderTarget s with
  | none => previous
  | some t =>
      match postProcess.Mode with
      | Fullscreen => effectOutput G m0 t previous
      | Polygon =>
          fun p => if G.polygonCovers t.gPostProcessingConstants p
                   then effectOutput G m0 t previous p else previous p
      | Area =>
          fun p => if G.quadCovers t.gPostProcessingConstants p
                   then G.alpha (effectOutput G m0 t previous p) (previous p) else previous p

/-- The colour image with the effects of a list applied in order, each
confined to its scope, starting from `image` in chain state `c` (the chain
state supplies the constants and the further textures of each draw). -/
def colourSpec (G : Gpu Pixel Colour) (m0 : Memory Pixel Colour) :
    List PostProcess → Chain → Image Pixel Colour → Image Pixel Colour
  | [], _, image => image
  | postProcess :: l, c, image =>
      colourSpec G m0 l (chainBody postProcess c)
        (applyEffect G m0 postProcess c.srv c.renderTarget c.scene image)

/-- The normal/depth image with exactly the distorting effects of a list
applied in order, each confined to its scope, starting from `image` in chain
state `c`. -/
def normalDepthSpec (G : Gpu Pixel Colour) (m0 : Memory Pixel Colour) :
    List PostProcess → Chain → Image Pixel Colour → Image Pixel Colour
  | [], _, image => image
  | postProcess :: l, c, image =>
      normalDepthSpec G m0 l (chainBody postProcess c)
        (if distorts postProcess.Type_ then
           applyEffect G m0 postProcess c.scene.gCurrentNormalDepthTextureSRV c.ndRenderTarget
             (chainColour postProcess c).scene image
         else image)

/-- The focused-object mask with exactly the distorting effects of a list
applied in order, each confined to its scope, starting from `image` in chain
state `c`. -/
def focusedObjectSpec (G : Gpu Pixel Colour) (m0 : Memory Pixel Colour) :
    List PostProcess → Chain → Image Pixel Colour → Image Pixel Colour
  | [], _, image => image
  | postProcess :: l, c, image =>
      focusedObjectSpec G m0 l (chainBody postProcess c)
        (if distorts postProcess.Type_ then
           applyEffect G m0 postProcess c.scene.gCurrentFocusedObjectTextureSRV c.foRenderTarget
             (ApplyPostProcess postProcess c.scene.gCurrentNormalDepthTextureSRV
               c.ndRenderTarget (chainColour postProcess c).scene) image
         else image)

end Images

/-! ## Sample inputs -/

/-- The identity matrix. -/
def identityMatrix : CMatrix4x4 :=
  { e00 := 1, e01 := 0, e02 := 0, e03 := 0
    e10 := 0, e11 := 1, e12 := 0, e13 := 0
    e20 := 0, e21 := 0, e22 := 1, e23 := 0
    e30 := 0, e31 := 0, e32 := 0, e33 := 1 }

/-- A camera looking down the z axis that projects a world point to itself,
with one world unit per pixel and clip distances 1 and 1000. -/
def sampleCamera : Camera :=
  { PixelFromWorldPt := fun worldPoint _ _ => worldPoint
    PixelSizeInWorldSpace := fun _ _ _ => { x := 1, y := 1 }
    ViewProjectionMatrix := identityMatrix
    NearClip := 1
    FarClip := 1000 }

/-- A scene as `InitScene` and `InitGeometry` leave the globals, with empty
effect lists: no focused object, three directional bloom passes,
`gCopyAlpha = 1`, a 1280 by 960 viewport and the first light at
`(30, 10, 0)`. -/
def sampleScene : Scene :=
  { gPolygonPostProcesses := []
    gFullScreenPostProcesses := []
    gFocusedObject := 0
    gTempTimer := 0
    gTempDiagonalBlurs := 3
    gCopyAlpha := 1
    gCamera := sampleCamera
    gViewportWidth := 1280
    gViewportHeight := 960
    light0Position := { x := 30, y := 10, z := 0 }
    gPostProcessingConstants :=
      { area2DTopLeft := { x := 0, y := 0 }
        area2DSize := { x := 1, y := 1 }
        area2DDepth := 0
        polygon2DPoints := fun _ => { x := 0, y := 0, z := 0, w := 0 }
        copyAlpha := 1
        directionalBlur := { timer := 0, j := 0, n := 3 }
        gradientHue := { x := 0, y := 0 }
        pixelNumber := { x := 0, y := 0 }
        nearPlane := 0
        focalPlane := 0
        farPlane := 0 }
    gCurrentBloomTextureSRV := gTempTexture2
    gCurrentNormalDepthTextureSRV := gNormalDepthTexture
    gCurrentFocusedObjectTextureSRV := gFocusedObjectTexture
    context :=
      { renderTarget := gBackBuffer
        srv := gSceneTexture
        blendState := gNoBlendingState
        vertexShader := g2DQuadVertexShader
        pixelShader := None
        psTextures := [] }
    draws := [] }

/-- The condition under which `ApplyPostProcess` draws nothing into its
destination: a Selection effect with no focused object, a polygon effect
without polygon data, or an area effect whose anchor (the first light) has a
projected depth below the near clip distance. -/
def Skipped (postProcess : PostProcess) (s : Scene) : Prop :=
  (postProcess.Type_ = Selection ∧ s.gFocusedObject ≤ 0) ∨
    (postProcess.Mode = Polygon ∧ postProcess.PolyData = none) ∨
    (postProcess.Mode = Area ∧ areaDistance s s.light0Position < s.gCamera.NearClip)

/-- A Bloom effect with full-screen scope, as pushed by `Key_6`. -/
def sampleBloom : PostProcess :=
  { Type_ := Bloom }

/-- A GPU that records history: the colour of a pixel is the list of the
effects applied to it, newest first.  Copy reproduces its source, every other
shader prepends its type; the quad covers every pixel; a polygon covers the
pixel whose number is the `x` coordinate of its first clip-space point;
additive blending appends the old colour, alpha blending keeps the output. -/
def historyGpu : Gpu ℚ (List PostProcessType) :=
  { shader := fun t _ src _ p => if t = Copy then src p else t :: src p
    quadCovers := fun _ _ => true
    polygonCovers := fun c p => decide ((c.polygon2DPoints 0).x = p)
    additive := fun out old => out ++ old
    alpha := fun out _ => out }

/-- Textures in which no effect has been applied to any pixel. -/
def blankMemory : Memory ℚ (List PostProcessType) :=
  fun _ _ => []

/-- A polygon-scope effect of type `t` whose four points have `x` coordinate
`x`, with the identity transform. -/
def polygonAt (t : PostProcessType) (x : ℚ) : PostProcess :=
  { Type_ := t
    Mode := Polygon
    PolyData := some { Points := fun _ => { x := x, y := 0, z := 0 }, Matrix := identityMatrix } }

/-- The sample scene with one polygon-scope Underwater effect and the
full-screen Gradient of `Key_1`. -/
def samplePolygonThenGradient : Scene :=
  { sampleScene with gPolygonPostProcesses := [polygonAt Underwater 1]
                     gFullScreenPostProcesses := [{ Type_ := Gradient }] }

/-- The constants with the full-screen scope that `FullScreenPostProcess`
sets. -/
def fullScreenConstants (c : PostProcessingConstants) : PostProcessingConstants :=
  { c with area2DTopLeft := { x := 0, y := 0 }
           area2DSize := { x := 1, y := 1 }
           area2DDepth := 0 }

/-- The constants in force during a frame that draws only full-screen passes
outside the bloom sub-pipeline: those of the scene with `copyAlpha = 1` and
the full-screen scope. -/
def frameConstants (s : Scene) : PostProcessingConstants :=
  fullScreenConstants { s.gPostProcessingConstants with copyAlpha := 1 }

/-- The sample scene with an object focused and the two full-screen blurs of
`Key_2`. -/
def sampleBlurs : Scene :=
  { sampleScene with gFocusedObject := 1
                     gFullScreenPostProcesses := [{ Type_ := BlurX }, { Type_ := BlurY }] }

/-- The polygon list that `InitScene` builds (lines 545-572), for the
transform `polyMatrix` that it computes from the position of the wall. -/
def initScenePolygonPostProcesses (polyMatrix : CMatrix4x4) : List PostProcess :=
  let quad (a b c d : CVector3) : Fin 4 → CVector3 := fun i =>
    match i with
    | 0 => a
    | 1 => b
    | 2 => c
    | 3 => d
  let points := quad { x := -5, y := 13, z := 0 } { x := -5, y := 3, z := 0 }
    { x := 5, y := 13, z := 0 } { x := 5, y := 3, z := 0 }
  let points2 := quad { x := 20, y := 28, z := 0 } { x := 20, y := 18, z := 0 }
    { x := 10, y := 28, z := 0 } { x := 10, y := 18, z := 0 }
  let points3 := quad { x := 10, y := 28, z := 0 } { x := 10, y := 18, z := 0 }
    { x := 0, y := 28, z := 0 } { x := 0, y := 18, z := 0 }
  let points4 := quad { x := 0, y := 28, z := 0 } { x := 0, y := 18, z := 0 }
    { x := -10, y := 28, z := 0 } { x := -10, y := 18, z := 0 }
  let points5 := quad { x := -10, y := 28, z := 0 } { x := -10, y := 18, z := 0 }
    { x := -20, y := 28, z := 0 } { x := -20, y := 18, z := 0 }
  [ { Type_ := Underwater, Mode := Polygon, PolyData := some { Points := points, Matrix := polyMatrix } }
  , { Type_ := HueShift, Mode := Polygon, PolyData := some { Points := points2, Matrix := polyMatrix } }
  , { Type_ := Retro, Mode := Polygon, PolyData := some { Points := points2, Matrix := polyMatrix } }
  , { Type_ := Gradient, Mode := Polygon, PolyData := some { Points := points3, Matrix := polyMatrix } }
  , { Type_ := FrostedGlass, Mode := Polygon, PolyData := some { Points := points3, Matrix := polyMatrix } }
  , { Type_ := ChromaticAberration, Mode := Polygon
      PolyData := some { Points := points4, Matrix := polyMatrix } }
  , { Type_ := HueShift, Mode := Polygon, PolyData := some { Points := points5, Matrix := polyMatrix } }
  , { Type_ := Retro, Mode := Polygon, PolyData := some { Points := points5, Matrix := polyMatrix } }
  , { Type_ := Spiral, Mode := Polygon, PolyData := some { Points := points5, Matrix := polyMatrix } }
  , { Type_ := Distort, Mode := Polygon, PolyData := some { Points := points5, Matrix := polyMatrix } }
  , { Type_ := ChromaticAberration, Mode := Polygon
      PolyData := some { Points := points5, Matrix := polyMatrix } } ]

/-- The scene after `InitScene`: the polygon list it builds (with the
identity transform standing for `polyMatrix`), an empty transient list and no
focused object. -/
def sampleInitScene : Scene :=
  { sampleScene with gPolygonPostProcesses := initScenePolygonPostProcesses identityMatrix }

/-- The sample scene after `Key_1`: the transient list `[Gradient]`. -/
def sampleGradient : Scene :=
  { sampleScene with gFullScreenPostProcesses := [{ Type_ := Gradient }] }

/-- The sample scene after `Key_1` and `Key_F7` with no object focused: the
transient list `[Gradient, Selection]`. -/
def sampleGradientSelection : Scene :=
  { sampleScene with gFullScreenPostProcesses := [{ Type_ := Gradient }, { Type_ := Selection }] }

/-- The scene after `InitScene`, `Key_1` and `Key_F7` with no object
focused. -/
def sampleInitGradientSelection : Scene :=
  { sampleInitScene with
      gFullScreenPostProcesses := [{ Type_ := Gradient }, { Type_ := Selection }] }

/-- The scene after `InitScene` and `Key_1`. -/
def sampleInitGradient : Scene :=
  { sampleInitScene with gFullScreenPostProcesses := [{ Type_ := Gradient }] }

/-- A four-vertex draw with pixel shader `t` from `srv` into `rt` with blend
state `b`. -/
def PassDraw (t : PostProcessType) (srv rt : Texture) (b : BlendState) (d : DrawCall) : Prop :=
  d.vertexCount = 4 ∧ d.pixelShader = t ∧ d.srv = srv ∧ d.renderTarget = rt ∧ d.blendState = b


/-! ## `UpdateScene`: effect keys, motion blur, hues, pixel size, bloom timer and
passes, depth of field (Scene.cpp lines 1368-1707) -/

/-- The keys that the modelled statements of `UpdateScene` ask about. -/
inductive KeyCode
  | Key_0 | Key_1 | Key_2 | Key_3 | Key_4 | Key_5 | Key_6 | Key_7 | Key_8 | Key_9
  | Key_F1 | Key_F2 | Key_F3 | Key_F4 | Key_F5 | Key_F6 | Key_F7
  | Key_Z | Key_X | Key_C | Key_T | Key_Y | Key_U | Key_I | Key_N | Key_M
  deriving DecidableEq, Repr

open KeyCode

/-- The answers of `KeyHit` and `KeyHeld` during one call of `UpdateScene`.
The two functions belong to `Input.h`, which is not part of `Scene.cpp`; each
modelled key is asked about once per call. -/
structure Input where
  KeyHit : KeyCode → Bool
  KeyHeld : KeyCode → Bool

/-- Modelled from the spec: the helper `Clamp(value, min, max)` of
`MathHelpers.h` is not part of `Scene.cpp`.  The spec has the parameters
"clamp to a range" (the number of directional passes is "configurable 0–20"):
a value inside the range is returned as it is, a value outside is replaced by
the bound it passed. -/
def Clamp {α : Type} [LinearOrder α] (value lo hi : α) : α :=
  if value < lo then lo else if hi < value then hi else value

/-- Modelled from the spec: `Clamp` with one argument, whose default bounds
are declared in `MathHelpers.h`; taken as the unit range `[0, 1]` of the
normalised depths it is applied to. -/
def Clamp01 (value : ℚ) : ℚ :=
  Clamp value 0 1

/-- The state that `UpdateScene` reads and writes: the globals shared with
`RenderScene`, the positions of the models of `gObjects`, the function's
static variables `hue`, `hue2`, `hue1ChangeSpeedMult`, `hue2ChangeSpeedMult`,
`pixelSize`, `bloomTimerChange`, `focalPlane` and `planeDist`, and the free
store of `PostProcess` objects.  A vector of `PostProcess*` is kept as two
lists of the same length: the objects pointed to (in `scene`) and their
addresses.  `live` holds the addresses that `new` has returned and `delete`
has not yet been called on; `nextAddress` is the address that the next `new`
returns.  `EPSILON` is the constant of that name of `MathHelpers.h`, which is
not part of `Scene.cpp`: it is carried along and never written. -/
structure UpdateState where
  scene : Scene
  gObjects : List CVector3
  fullScreenAddresses : List Nat
  polygonAddresses : List Nat
  live : List Nat
  nextAddress : Nat
  hue : ℚ
  hue2 : ℚ
  hue1ChangeSpeedMult : ℚ
  hue2ChangeSpeedMult : ℚ
  pixelSize : ℚ
  bloomTimerChange : ℚ
  focalPlane : ℚ
  planeDist : ℚ
  EPSILON : ℚ

/-- The statement
`gFullScreenPostProcesses.push_back(new PostProcess(type))`: the constructor's
defaults give mode `Fullscreen` and no polygon data. -/
def pushFullScreen (type : PostProcessType) (u : UpdateState) : UpdateState :=
  { u with
    scene := { u.scene with
               gFullScreenPostProcesses :=
                 u.scene.gFullScreenPostProcesses ++ [{ Type_ := type }] }
    fullScreenAddresses := u.fullScreenAddresses ++ [u.nextAddress]
    live := u.live ++ [u.nextAddress]
    nextAddress := u.nextAddress + 1 }

/-- The branch of `Key_0` (lines 1422-1429): `delete` on every entry, from the
last to the first, then `clear()`. -/
def clearFullScreen (u : UpdateState) : UpdateState :=
  { u with
    scene := { u.scene with gFullScreenPostProcesses := [] }
    fullScreenAddresses := []
    live := u.fullScreenAddresses.reverse.foldl (fun live address => live.erase address)
              u.live }

/-- The branch of `Key_Z` (lines 1430-1436): when the vector is not empty its
last entry is erased; there is no `delete`. -/
def popFullScreen (u : UpdateState) : UpdateState :=
  if u.scene.gFullScreenPostProcesses.length > 0 then
    { u with
      scene := { u.scene with
                 gFullScreenPostProcesses := u.scene.gFullScreenPostProcesses.dropLast }
      fullScreenAddresses := u.fullScreenAddresses.dropLast }
  else u

/-- The chain of `if` / `else if` on the effect keys (lines 1373-1436): the
branch of the first key that was hit is taken, in this order. -/
def updateEffectLists (keys : Input) (u : UpdateState) : UpdateState :=
  if keys.KeyHit Key_1 then pushFullScreen Gradient u
  else if keys.KeyHit Key_2 then pushFullScreen BlurY (pushFullScreen BlurX u)
  else if keys.KeyHit Key_3 then pushFullScreen Underwater u
  else if keys.KeyHit Key_4 then pushFullScreen DepthOfField u
  else if keys.KeyHit Key_5 then pushFullScreen Retro u
  else if keys.KeyHit Key_6 then pushFullScreen Bloom u
  else if keys.KeyHit Key_7 then pushFullScreen PostProcessType.Dilation u
  else if keys.KeyHit Key_8 then pushFullScreen ChromaticAberration u
  else if keys.KeyHit Key_9 then pushFullScreen Outline u
  else if keys.KeyHit Key_F1 then pushFullScreen HueShift u
  else if keys.KeyHit Key_F2 then pushFullScreen FrostedGlass u
  else if keys.KeyHit Key_F7 then pushFullScreen Selection u
  else if keys.KeyHit Key_0 then clearFullScreen u
  else if keys.KeyHit Key_Z then popFullScreen u
  else u

/-- The motion blur statements (lines 1438-1448). -/
def updateMotionBlur (frameTime : ℚ) (keys : Input) (s : Scene) : Scene :=
  let copyAlphaChange : ℚ := 1 / 4
  let s :=
    if keys.KeyHeld Key_F3 then { s with gCopyAlpha := s.gCopyAlpha + copyAlphaChange * frameTime }
    else if keys.KeyHeld Key_F4 then
      { s with gCopyAlpha := s.gCopyAlpha - copyAlphaChange * frameTime }
    else s
  { s with gCopyAlpha := Clamp s.gCopyAlpha (1 / 20) 1 }

/-- The gradient hue statements (lines 1455-1480): the two hues are published,
then each moves by `0.2 * multiplier * frameTime`; a hue that has left
`[-EPSILON, 1 + EPSILON]` is passed through the one-argument `Clamp`.  For
`hue` the multiplier is assigned to itself (line 1472), for `hue2` it is
negated (line 1478). -/
def updateGradientHues (frameTime : ℚ) (u : UpdateState) : UpdateState :=
  let hue1ChangeSpeed : ℚ := 1 / 5
  let hue2ChangeSpeed : ℚ := 1 / 5
  let min : ℚ := -u.EPSILON
  let max : ℚ := 1 + u.EPSILON
  let u : UpdateState :=
    { u with scene := { u.scene with gPostProcessingConstants :=
        { u.scene.gPostProcessingConstants with gradientHue := { x := u.hue, y := u.hue2 } } } }
  let u : UpdateState :=
    { u with hue := u.hue + hue1ChangeSpeed * u.hue1ChangeSpeedMult * frameTime }
  let u : UpdateState :=
    { u with hue2 := u.hue2 + hue2ChangeSpeed * u.hue2ChangeSpeedMult * frameTime }
  let u : UpdateState :=
    if u.hue < min ∨ u.hue > max then
      { u with hue1ChangeSpeedMult := u.hue1ChangeSpeedMult
               hue := Clamp01 u.hue }
    else u
  if u.hue2 < min ∨ u.hue2 > max then
    { u with hue2ChangeSpeedMult := -u.hue2ChangeSpeedMult
             hue2 := Clamp01 u.hue2 }
  else u

/-- The retro statements (lines 1521-1538): `Key_N` lowers the pixel size by
`10 * frameTime`, not below `1`; `Key_M` raises it; the numbers of pixels are
the viewport sizes divided by `floor(pixelSize)`. -/
def updateRetro (frameTime : ℚ) (keys : Input) (u : UpdateState) : UpdateState :=
  let pixelSizeChangeSpeed : ℚ := 10
  let u : UpdateState :=
    if keys.KeyHeld Key_N then
      let u : UpdateState := { u with pixelSize := u.pixelSize - pixelSizeChangeSpeed * frameTime }
      if u.pixelSize < 1 then { u with pixelSize := 1 } else u
    else if keys.KeyHeld Key_M then
      { u with pixelSize := u.pixelSize + pixelSizeChangeSpeed * frameTime }
    else u
  { u with scene := { u.scene with gPostProcessingConstants :=
      { u.scene.gPostProcessingConstants with
        pixelNumber := { x := (u.scene.gViewportWidth : ℚ) / (⌊u.pixelSize⌋ : ℚ)
                         y := (u.scene.gViewportHeight : ℚ) / (⌊u.pixelSize⌋ : ℚ) } } } }

/-- The bloom timer statements (lines 1564-1585): the blur direction is set
from the timer with offset `0` (`UpdateBloomEffectDirection(0.0f)`, the angle
`timer + 0 * (PI / 1)`), the timer moves by `bloomTimerChange * frameTime`, and
it turns round above `bloomTimerMax = 1` and below `0`. -/
def updateBloomTimer (frameTime : ℚ) (u : UpdateState) : UpdateState :=
  let bloomTimerMax : ℚ := 1
  let u : UpdateState :=
    { u with scene := { u.scene with gPostProcessingConstants :=
        { u.scene.gPostProcessingConstants with
          directionalBlur := { timer := u.scene.gTempTimer, j := 0, n := 1 } } } }
  let u : UpdateState :=
    { u with scene := { u.scene with
        gTempTimer := u.scene.gTempTimer + u.bloomTimerChange * frameTime } }
  let u : UpdateState :=
    if u.scene.gTempTimer > bloomTimerMax then
      { u with scene := { u.scene with gTempTimer := bloomTimerMax - u.EPSILON }
               bloomTimerChange := -1 }
    else u
  if u.scene.gTempTimer < 0 then
    { u with scene := { u.scene with gTempTimer := u.EPSILON }
             bloomTimerChange := 1 }
  else u

/-- The two statements on `Key_X` and `Key_C` (lines 1587-1595), one after the
other.  The `int` arithmetic is exact: the count stays far from the bounds of
`int`. -/
def updateDiagonalBlurs (keys : Input) (s : Scene) : Scene :=
  let s :=
    if keys.KeyHit Key_X then { s with gTempDiagonalBlurs := Clamp (s.gTempDiagonalBlurs - 1) 0 20 }
    else s
  if keys.KeyHit Key_C then { s with gTempDiagonalBlurs := Clamp (s.gTempDiagonalBlurs + 1) 0 20 }
  else s

/-- The value of an `int` converted to `size_t` (64 bits), as in the
comparison `gFocusedObject >= gObjects.size()`. -/
def toSizeT (x : Int) : Int :=
  x % 2 ^ 64

/-- The value of a `size_t` converted to `int` (32 bits, two's complement), as
in the assignment `gFocusedObject = gObjects.size() - 1`. -/
def toInt32 (x : Int) : Int :=
  (x + 2 ^ 31) % 2 ^ 32 - 2 ^ 31

/-- The position `gObjects[index]->mModel->Position()`; the origin stands for
the value of an access outside the vector, which the statements below never
make when `gFocusedObject` starts inside it. -/
def objectPosition (gObjects : List CVector3) (index : Int) : CVector3 :=
  gObjects.getD index.toNat { x := 0, y := 0, z := 0 }

/-- The statements on `Key_T` and `Key_Y` (lines 1659-1668): the held key
moves the focal plane, within `[-1, 1]`, and sets `gFocusedObject = 0`. -/
def updateManualFocus (frameTime : ℚ) (keys : Input) (u : UpdateState) : UpdateState :=
  let planeChangeSpeed : ℚ := 1 / 10
  if keys.KeyHeld Key_T then
    { u with focalPlane := Clamp (u.focalPlane - planeChangeSpeed * frameTime) (-1) 1
             scene := { u.scene with gFocusedObject := 0 } }
  else if keys.KeyHeld Key_Y then
    { u with focalPlane := Clamp (u.focalPlane + planeChangeSpeed * frameTime) (-1) 1
             scene := { u.scene with gFocusedObject := 0 } }
  else u

/-- The statements on `Key_U` and `Key_I` (lines 1670-1677). -/
def updatePlaneDist (frameTime : ℚ) (keys : Input) (u : UpdateState) : UpdateState :=
  let planeDistChangeSpeed : ℚ := 1 / 5
  if keys.KeyHeld Key_U then
    { u with planeDist := Clamp (u.planeDist - planeDistChangeSpeed * frameTime) (1 / 50) (1 / 2) }
  else if keys.KeyHeld Key_I then
    { u with planeDist := Clamp (u.planeDist + planeDistChangeSpeed * frameTime) (1 / 50) (1 / 2) }
  else u

/-- The statements on `Key_F6` and `Key_F5` (lines 1679-1694), one after the
other: the next object, back to `0` past the last one; the previous object,
to the last one from `1` or `0`.  The comparison with `gObjects.size()` is
made in `size_t`. -/
def updateFocusedObject (keys : Input) (u : UpdateState) : UpdateState :=
  let u :=
    if keys.KeyHit Key_F6 then
      let focused := toInt32 (u.scene.gFocusedObject + 1)
      { u with scene := { u.scene with
          gFocusedObject := if toSizeT focused ≥ (u.gObjects.length : Int) then 0 else focused } }
    else u
  if keys.KeyHit Key_F5 then
    let focused := toInt32 (u.scene.gFocusedObject - 1)
    { u with scene := { u.scene with
        gFocusedObject :=
          if focused ≤ 0 then toInt32 (toSizeT ((u.gObjects.length : Int) - 1)) else focused } }
  else u

/-- The projected depth of the focused object (lines 1698-1699): the `z` of its
position taken to clip space, divided by `500`. -/
def focusedDepth (u : UpdateState) : ℚ :=
  ((CVector4.ofVector3 (objectPosition u.gObjects u.scene.gFocusedObject) 1).mulMatrix
      u.scene.gCamera.ViewProjectionMatrix).z / 500

/-- The override of the focal plane by the focused object and the three
published planes (lines 1696-1707). -/
def publishDepthOfField (u : UpdateState) : UpdateState :=
  let u := if u.scene.gFocusedObject > 0 then { u with focalPlane := focusedDepth u } else u
  { u with scene := { u.scene with gPostProcessingConstants :=
      { u.scene.gPostProcessingConstants with
        nearPlane := Clamp01 (u.focalPlane - u.planeDist)
        focalPlane := u.focalPlane
        farPlane := Clamp01 (u.focalPlane + u.planeDist) } } }

/-- The depth-of-field statements of `UpdateScene` (lines 1654-1707). -/
def updateDepthOfField (frameTime : ℚ) (keys : Input) (u : UpdateState) : UpdateState :=
  publishDepthOfField
    (updateFocusedObject keys (updatePlaneDist frameTime keys (updateManualFocus frameTime keys u)))

/-- `UpdateScene`, as far as it writes the state above: the effect keys, the
motion blur, the gradient hues, the retro pixel size, the bloom timer, the
number of directional bloom passes and the depth of field, in the order of the
source.  The statements in between write other constants and static variables
(hue shift, blur size, wobble, thresholds, dilation), which are not part of
this state. -/
def UpdateScene (frameTime : ℚ) (keys : Input) (u : UpdateState) : UpdateState :=
  let u := updateEffectLists keys u
  let u := { u with scene := updateMotionBlur frameTime keys u.scene }
  let u := updateGradientHues frameTime u
  let u := updateRetro frameTime keys u
  let u := updateBloomTimer frameTime u
  let u := { u with scene := updateDiagonalBlurs keys u.scene }
  updateDepthOfField frameTime keys u

/-- A run of `UpdateScene` over the frames of a list, each with its frame time
and its keys. -/
def updates (frames : List (ℚ × Input)) (u : UpdateState) : UpdateState :=
  frames.foldl (fun u frame => UpdateScene frame.1 frame.2 u) u

/-- The manually controlled focal plane after a frame: the stored value,
moved by the held key `Key_T` or `Key_Y` and kept within `[-1, 1]`. -/
def manualFocalPlane (frameTime : ℚ) (keys : Input) (focalPlane : ℚ) : ℚ :=
  if keys.KeyHeld Key_T then Clamp (focalPlane - 1 / 10 * frameTime) (-1) 1
  else if keys.KeyHeld Key_Y then Clamp (focalPlane + 1 / 10 * frameTime) (-1) 1
  else focalPlane

/-- The effect keys in the order in which `UpdateScene` asks about them. -/
def effectKeys : List KeyCode :=
  [Key_1, Key_2, Key_3, Key_4, Key_5, Key_6, Key_7, Key_8, Key_9, Key_F1, Key_F2, Key_F7,
    Key_0, Key_Z]

/-- The command of `key` is given: the key was hit and none of the effect keys
asked about before it was. -/
def Selects (keys : Input) (key : KeyCode) : Prop :=
  keys.KeyHit key = true ∧
    ∀ earlier ∈ effectKeys.takeWhile (fun k => decide (k ≠ key)), keys.KeyHit earlier = false

instance (keys : Input) (key : KeyCode) : Decidable (Selects keys key) := by
  unfold Selects
  infer_instance

/-- The effect types that the branch of a push key creates, in order; empty
for every other key. -/
def pushedEffects : KeyCode → List PostProcessType
  | Key_1 => [Gradient]
  | Key_2 => [BlurX, BlurY]
  | Key_3 => [Underwater]
  | Key_4 => [DepthOfField]
  | Key_5 => [Retro]
  | Key_6 => [Bloom]
  | Key_7 => [PostProcessType.Dilation]
  | Key_8 => [ChromaticAberration]
  | Key_9 => [Outline]
  | Key_F1 => [HueShift]
  | Key_F2 => [FrostedGlass]
  | Key_F7 => [Selection]
  | _ => []

/-! ## The passes of a frame (Scene.cpp lines 1188-1360) -/

/-- The functions of `Scene.cpp` that render the models of the scene. -/
inductive GeometryPass
  | RenderSceneFromCamera
  | RenderFocusedObject
  | RenderSceneNormalsAndDepth
  deriving DecidableEq, Repr

/-- What `RenderScene` sends to the device, at the grain of this model: models
rendered into a target by one of the geometry functions, a draw of a
post-processing quad, and the presentation of the back buffer. -/
inductive FrameEvent
  | render (pass : GeometryPass) (renderTarget : Texture)
  | draw (d : DrawCall)
  | Present

/-- `RenderSceneFromCamera(gCamera)` at line 1228, with `gSceneRenderTarget`
bound (line 1213). -/
def RenderSceneFromCamera : List FrameEvent :=
  [FrameEvent.render GeometryPass.RenderSceneFromCamera gSceneTexture]

/-- `RenderFocusedObject` (lines 808-833): returns at once when
`gFocusedObject == 0`, else renders the focused object into
`gFocusedObjectRenderTarget`. -/
def RenderFocusedObject (s : Scene) : List FrameEvent :=
  if s.gFocusedObject = 0 then []
  else [FrameEvent.render GeometryPass.RenderFocusedObject gFocusedObjectTexture]

/-- `RenderSceneNormalsAndDepth` (lines 783-806): renders every object into
the given target. -/
def RenderSceneNormalsAndDepth (renderTarget : Texture) : List FrameEvent :=
  [FrameEvent.render GeometryPass.RenderSceneNormalsAndDepth renderTarget]

/-- The events of one call of `RenderScene`, in program order: the main
render (line 1228), `RenderFocusedObject()` (line 1233),
`RenderSceneNormalsAndDepth(gNormalDepthRenderTarget)` (line 1237), the draws
of the effect chain and of the final composite (lines 1246-1349, the draws
that `RenderScene` adds to the log) and `Present` (line 1359). -/
def RenderSceneEvents (fuel : Nat) (s : Scene) : Option (List FrameEvent) :=
  match RenderScene fuel s with
  | none => none
  | some t =>
      some (RenderSceneFromCamera ++ RenderFocusedObject s
        ++ RenderSceneNormalsAndDepth gNormalDepthTexture
        ++ (t.draws.drop s.draws.length).map FrameEvent.draw ++ [FrameEvent.Present])

/-- The states of the frame in the spec. -/
inductive FramePass
  | MainRender
  | NormalDepthPass
  | FocusedObjectPass
  | EffectChain
  | FinalComposite
  | Present
  deriving DecidableEq, Repr

/-- The state of the spec that an event belongs to: the draw into the back
buffer is the final composite, every other draw belongs to the effect
chain. -/
def FrameEvent.pass : FrameEvent → FramePass
  | FrameEvent.render GeometryPass.RenderSceneFromCamera _ => FramePass.MainRender
  | FrameEvent.render GeometryPass.RenderFocusedObject _ => FramePass.FocusedObjectPass
  | FrameEvent.render GeometryPass.RenderSceneNormalsAndDepth _ => FramePass.NormalDepthPass
  | FrameEvent.draw d =>
      if d.renderTarget = gBackBuffer then FramePass.FinalComposite else FramePass.EffectChain
  | FrameEvent.Present => FramePass.Present

/-- A sequence of states with every run of the same state counted once. -/
def passOrder : List FramePass → List FramePass
  | [] => []
  | [p] => [p]
  | p :: q :: rest => if p = q then passOrder (q :: rest) else p :: passOrder (q :: rest)

/-- The order of the states that a frame goes through. -/
def framePasses (fuel : Nat) (s : Scene) : Option (List FramePass) :=
  (RenderSceneEvents fuel s).map (fun events => passOrder (events.map FrameEvent.pass))

/-! ## Sample inputs of `UpdateScene` -/

/-- The positions that `InitScene` gives the seven objects (lines 537-543). -/
def initObjects : List CVector3 :=
  [{ x := 0, y := 0, z := 0 }, { x := 42, y := 5, z := -10 }, { x := -10, y := 0, z := 90 },
    { x := 15, y := 0, z := -5 }, { x := 15, y := 15, z := -5 }, { x := 35, y := 0, z := 65 },
    { x := -20, y := 5, z := 55 }]

/-- The state before the first `UpdateScene`, with empty effect lists: the
sample scene, the seven objects, the static variables at their initial values
(`hue = 0.5`, `hue2 = 0`, both multipliers `1`, `pixelSize = 8`,
`bloomTimerChange = 1`, `focalPlane = 0.2`, `planeDist = 0.15`), and no
`PostProcess` on the free store; `EPSILON` is given a small positive sample
value. -/
def sampleUpdateState : UpdateState :=
  { scene := sampleScene
    gObjects := initObjects
    fullScreenAddresses := []
    polygonAddresses := []
    live := []
    nextAddress := 0
    hue := 1 / 2
    hue2 := 0
    hue1ChangeSpeedMult := 1
    hue2ChangeSpeedMult := 1
    pixelSize := 8
    bloomTimerChange := 1
    focalPlane := 1 / 5
    planeDist := 3 / 20
    EPSILON := 1 / 100000 }

/-- The sample state with object `1` (the cube) focused. -/
def sampleFocusedState : UpdateState :=
  { sampleUpdateState with scene := { sampleScene with gFocusedObject := 1 } }

/-- No key is hit or held. -/
def noKeys : Input :=
  { KeyHit := fun _ => false, KeyHeld := fun _ => false }

/-- Only the keys of the list are hit, none is held. -/
def hitKeys (hit : List KeyCode) : Input :=
  { KeyHit := fun k => decide (k ∈ hit), KeyHeld := fun _ => false }

/-- Only the keys of the list are held, none is hit. -/
def heldKeys (held : List KeyCode) : Input :=
  { KeyHit := fun _ => false, KeyHeld := fun k => decide (k ∈ held) }



/-- The effect lists and the free store are the same in `u` and `v`. -/
structure SameEffects (u v : UpdateState) : Prop where
  fullScreen : v.scene.gFullScreenPostProcesses = u.scene.gFullScreenPostProcesses
  polygon : v.scene.gPolygonPostProcesses = u.scene.gPolygonPostProcesses
  fullScreenAddresses : v.fullScreenAddresses = u.fullScreenAddresses
  polygonAddresses : v.polygonAddresses = u.polygonAddresses
  live : v.live = u.live
  nextAddress : v.nextAddress = u.nextAddress

/-- What the depth-of-field statements read is the same in `u` and `v`: the
objects, the camera, the focused object and the two static variables. -/
structure SameFocus (u v : UpdateState) : Prop where
  objects : v.gObjects = u.gObjects
  camera : v.scene.gCamera = u.scene.gCamera
  focused : v.scene.gFocusedObject = u.scene.gFocusedObject
  focalPlane : v.focalPlane = u.focalPlane
  planeDist : v.planeDist = u.planeDist


/-- The depth value of an area effect as the spec's formula gives it: the view
depth `d` remapped into the range of the clip distances. -/
def areaDepthSpec (near far d : ℚ) : ℚ :=
  far * (d - near) / ((far - near) * d)

/-- The depth of lines 1072-1073 as the code computes it: every operation
rounded to binary32. -/
def areaDepthFloat (near far d : ℚ) : Float32 :=
  Float32.div
    (Float32.div
      (Float32.mul (Float32.ofRat far) (Float32.sub (Float32.ofRat d) (Float32.ofRat near)))
      (Float32.sub (Float32.ofRat far) (Float32.ofRat near)))
    (Float32.ofRat d)

/-- The sample scene with the near clip distance `0.1f` (the `float` next to
one tenth) and the far clip distance `1000`. -/
def sampleTenthScene : Scene :=
  { sampleScene with gCamera := { sampleCamera with NearClip := 13421773 / 134217728 } }


/-- Modelled from the spec: the matrix product `a * b` of the maths library
(`CMatrix4x4 operator*(CMatrix4x4, CMatrix4x4)`), which is not part of
`Scene.cpp`; it is the product in the spec's "(pointTransform x
cameraViewProjection)", rows of `a` by columns of `b`. -/
def CMatrix4x4.mul (a b : CMatrix4x4) : CMatrix4x4 :=
  { e00 := a.e00 * b.e00 + a.e01 * b.e10 + a.e02 * b.e20 + a.e03 * b.e30
    e01 := a.e00 * b.e01 + a.e01 * b.e11 + a.e02 * b.e21 + a.e03 * b.e31
    e02 := a.e00 * b.e02 + a.e01 * b.e12 + a.e02 * b.e22 + a.e03 * b.e32
    e03 := a.e00 * b.e03 + a.e01 * b.e13 + a.e02 * b.e23 + a.e03 * b.e33
    e10 := a.e10 * b.e00 + a.e11 * b.e10 + a.e12 * b.e20 + a.e13 * b.e30
    e11 := a.e10 * b.e01 + a.e11 * b.e11 + a.e12 * b.e21 + a.e13 * b.e31
    e12 := a.e10 * b.e02 + a.e11 * b.e12 + a.e12 * b.e22 + a.e13 * b.e32
    e13 := a.e10 * b.e03 + a.e11 * b.e13 + a.e12 * b.e23 + a.e13 * b.e33
    e20 := a.e20 * b.e00 + a.e21 * b.e10 + a.e22 * b.e20 + a.e23 * b.e30
    e21 := a.e20 * b.e01 + a.e21 * b.e11 + a.e22 * b.e21 + a.e23 * b.e31
    e22 := a.e20 * b.e02 + a.e21 * b.e12 + a.e22 * b.e22 + a.e23 * b.e32
    e23 := a.e20 * b.e03 + a.e21 * b.e13 + a.e22 * b.e23 + a.e23 * b.e33
    e30 := a.e30 * b.e00 + a.e31 * b.e10 + a.e32 * b.e20 + a.e33 * b.e30
    e31 := a.e30 * b.e01 + a.e31 * b.e11 + a.e32 * b.e21 + a.e33 * b.e31
    e32 := a.e30 * b.e02 + a.e31 * b.e12 + a.e32 * b.e22 + a.e33 * b.e32
    e33 := a.e30 * b.e03 + a.e31 * b.e13 + a.e32 * b.e23 + a.e33 * b.e33 }


/-- The state that `InitScene` leaves for the first `UpdateScene`: the sample
state with the polygon list of `InitScene` (identity transform) at the
addresses `0..10`. -/
def sampleInitState : UpdateState :=
  { sampleUpdateState with
    scene := sampleInitScene
    polygonAddresses := List.range 11
    live := List.range 11
    nextAddress := 11 }


/-- A draw with `copyAlpha = alpha` in its constants which, when its pixel
shader is the copy shader, is not blended, unless `area` holds. -/
def CopyRule (alpha : ℚ) (area : Prop) (d : DrawCall) : Prop :=
  d.constants.copyAlpha = alpha ∧
    (d.pixelShader = PostProcessType.Copy → d.blendState = BlendState.gNoBlendingState ∨ area)


/-! ## Auxiliary notions for the proofs -/

/-- The globals that no effect application primitive writes are the same in
`s` and `t`. -/
structure Frame (s t : Scene) : Prop where
  polygon : t.gPolygonPostProcesses = s.gPolygonPostProcesses
  fullScreen : t.gFullScreenPostProcesses = s.gFullScreenPostProcesses
  focused : t.gFocusedObject = s.gFocusedObject
  timer : t.gTempTimer = s.gTempTimer
  blurs : t.gTempDiagonalBlurs = s.gTempDiagonalBlurs
  alpha : t.gCopyAlpha = s.gCopyAlpha
  camera : t.gCamera = s.gCamera
  width : t.gViewportWidth = s.gViewportWidth
  height : t.gViewportHeight = s.gViewportHeight
  light : t.light0Position = s.light0Position
  normalDepth : t.gCurrentNormalDepthTextureSRV = s.gCurrentNormalDepthTextureSRV
  focusedObject : t.gCurrentFocusedObjectTextureSRV = s.gCurrentFocusedObjectTextureSRV
  copyAlpha : t.gPostProcessingConstants.copyAlpha = s.gPostProcessingConstants.copyAlpha

/-- The log of `t` is the log of `s` followed by draws that all satisfy
`Q`. -/
def Issues (Q : DrawCall → Prop) (s t : Scene) : Prop :=
  ∃ ds : List DrawCall, t.draws = s.draws ++ ds ∧ ∀ d ∈ ds, Q d

/-- A draw of the bloom sub-pipeline started from `srv`: four vertices, into
temp 2 from `srv` or from temp 1, or into temp 1 from temp 2. -/
def ScratchDraw (srv : Texture) (d : DrawCall) : Prop :=
  d.vertexCount = 4 ∧
    ((d.renderTarget = gTempTexture2 ∧ (d.srv = srv ∨ d.srv = gTempTexture)) ∨
      (d.renderTarget = gTempTexture ∧ d.srv = gTempTexture2))

/-- A four-vertex draw from `srv` into `rt`. -/
def DirectDraw (srv rt : Texture) (d : DrawCall) : Prop :=
  d.vertexCount = 4 ∧ d.srv = srv ∧ d.renderTarget = rt

/-- A full-screen pass of effect `t` from `srv` into `rt` with blend state `b`
and `copyAlpha = alpha`: four vertices, the quad vertex shader and the
full-screen scope. -/
def FullScreenDraw (t : PostProcessType) (srv rt : Texture) (b : BlendState) (alpha : ℚ)
    (d : DrawCall) : Prop :=
  DirectDraw srv rt d ∧ d.blendState = b ∧ d.vertexShader = g2DQuadVertexShader ∧
    (t ≠ None → d.pixelShader = t) ∧ d.constants.copyAlpha = alpha ∧
    d.constants.area2DTopLeft = { x := 0, y := 0 } ∧
    d.constants.area2DSize = { x := 1, y := 1 } ∧ d.constants.area2DDepth = 0

/-- The two buffers of the colour pair, one read and the other written. -/
def ColourPair (read write : Texture) : Prop :=
  (read = gSceneTexture ∧ write = gSceneTexture2) ∨
    (read = gSceneTexture2 ∧ write = gSceneTexture)

/-- The two buffers of the normal/depth pair, one read and the other
written. -/
def NormalDepthPair (read write : Texture) : Prop :=
  (read = gNormalDepthTexture ∧ write = gNormalDepthTexture2) ∨
    (read = gNormalDepthTexture2 ∧ write = gNormalDepthTexture)

/-- The two buffers of the focused-object pair, one read and the other
written. -/
def FocusedObjectPair (read write : Texture) : Prop :=
  (read = gFocusedObjectTexture ∧ write = gFocusedObjectTexture2) ∨
    (read = gFocusedObjectTexture2 ∧ write = gFocusedObjectTexture)

/-- A draw of the colour part of a loop pass: within the colour pair, or a
draw of the bloom sub-pipeline reading a colour buffer. -/
def ColourDraw (d : DrawCall) : Prop :=
  d.vertexCount = 4 ∧
    (ColourPair d.srv d.renderTarget ∨ ScratchDraw gSceneTexture d ∨ ScratchDraw gSceneTexture2 d)

/-- A draw of the auxiliary part of a loop pass: within the normal/depth pair
or within the focused-object pair. -/
def AuxiliaryDraw (d : DrawCall) : Prop :=
  d.vertexCount = 4 ∧
    (NormalDepthPair d.srv d.renderTarget ∨ FocusedObjectPair d.srv d.renderTarget)

/-- A draw of the effect chain before the final composite. -/
def RingDraw (d : DrawCall) : Prop :=
  ColourDraw d ∨ AuxiliaryDraw d

/-- The state of the three pairs that the loop maintains: the colour pair
follows the parity of `i`, the normal/depth pair the parity of `j`, and the
focused-object pair the parity of `j` when an object is focused (otherwise it
stays as initialised). -/
structure ChainInv (c : Chain) : Prop where
  colour : (c.srv, c.renderTarget)
    = if c.i % 2 = 0 then (gSceneTexture, gSceneTexture2) else (gSceneTexture2, gSceneTexture)
  normalDepth : (c.scene.gCurrentNormalDepthTextureSRV, c.ndRenderTarget)
    = if c.j % 2 = 0 then (gNormalDepthTexture, gNormalDepthTexture2)
      else (gNormalDepthTexture2, gNormalDepthTexture)
  focusedObject : (c.scene.gCurrentFocusedObjectTextureSRV, c.foRenderTarget)
    = if c.scene.gFocusedObject ≠ 0 ∧ c.j % 2 = 1
      then (gFocusedObjectTexture2, gFocusedObjectTexture)
      else (gFocusedObjectTexture, gFocusedObjectTexture2)

/-- The globals that a loop pass leaves unchanged. -/
structure Globals (s t : Scene) : Prop where
  polygon : t.gPolygonPostProcesses = s.gPolygonPostProcesses
  fullScreen : t.gFullScreenPostProcesses = s.gFullScreenPostProcesses
  focused : t.gFocusedObject = s.gFocusedObject
  blurs : t.gTempDiagonalBlurs = s.gTempDiagonalBlurs
  alpha : t.gCopyAlpha = s.gCopyAlpha
  copyAlpha : t.gPostProcessingConstants.copyAlpha = s.gPostProcessingConstants.copyAlpha

/-- The step of `UpdateScene` that holds the motion blur statements. -/
def motionBlurStage (frameTime : ℚ) (keys : Input) (u : UpdateState) : UpdateState :=
  { u with scene := updateMotionBlur frameTime keys u.scene }

/-- The step of `UpdateScene` that holds the statements on `Key_X` and
`Key_C`. -/
def diagonalBlursStage (keys : Input) (u : UpdateState) : UpdateState :=
  { u with scene := updateDiagonalBlurs keys u.scene }

/-- The groups of variables written by the steps of `UpdateScene`, one group
for each step. -/
inductive Group
  | effects
  | alpha
  | hues
  | retro
  | timer
  | blurs
  | focus
  deriving DecidableEq, Repr

/-- The variables of a group have the same values in `u` and `v`. -/
def Group.Same : Group → UpdateState → UpdateState → Prop
  | Group.effects, u, v => SameEffects u v
  | Group.alpha, u, v => v.scene.gCopyAlpha = u.scene.gCopyAlpha
  | Group.hues, u, v =>
      v.hue = u.hue ∧ v.hue2 = u.hue2 ∧ v.hue1ChangeSpeedMult = u.hue1ChangeSpeedMult ∧
        v.hue2ChangeSpeedMult = u.hue2ChangeSpeedMult
  | Group.retro, u, v =>
      v.pixelSize = u.pixelSize ∧
        v.scene.gPostProcessingConstants.pixelNumber
          = u.scene.gPostProcessingConstants.pixelNumber
  | Group.timer, u, v =>
      v.scene.gTempTimer = u.scene.gTempTimer ∧ v.bloomTimerChange = u.bloomTimerChange
  | Group.blurs, u, v => v.scene.gTempDiagonalBlurs = u.scene.gTempDiagonalBlurs
  | Group.focus, u, v =>
      v.scene.gFocusedObject = u.scene.gFocusedObject ∧ v.focalPlane = u.focalPlane ∧
        v.planeDist = u.planeDist

/-- From `u` to `v` only variables of the groups in `written` (and published
constants) have changed: the objects, the camera, the viewport, `EPSILON` and
every other group are the same. -/
structure Writes (written : List Group) (u v : UpdateState) : Prop where
  objects : v.gObjects = u.gObjects
  camera : v.scene.gCamera = u.scene.gCamera
  width : v.scene.gViewportWidth = u.scene.gViewportWidth
  height : v.scene.gViewportHeight = u.scene.gViewportHeight
  epsilon : v.EPSILON = u.EPSILON
  rest : ∀ g : Group, g ∉ written → g.Same u v

/-! ## Lemmas -/

theorem Frame.same (s : Scene) : Frame s s :=
  ⟨rfl, rfl, rfl, rfl, rfl, rfl, rfl, rfl, rfl, rfl, rfl, rfl, rfl⟩

theorem Frame.comp {s t u : Scene} (h₁ : Frame s t) (h₂ : Frame t u) : Frame s u :=
  ⟨h₂.polygon.trans h₁.polygon, h₂.fullScreen.trans h₁.fullScreen,
    h₂.focused.trans h₁.focused, h₂.timer.trans h₁.timer, h₂.blurs.trans h₁.blurs,
    h₂.alpha.trans h₁.alpha, h₂.camera.trans h₁.camera, h₂.width.trans h₁.width,
    h₂.height.trans h₁.height, h₂.light.trans h₁.light, h₂.normalDepth.trans h₁.normalDepth,
    h₂.focusedObject.trans h₁.focusedObject, h₂.copyAlpha.trans h₁.copyAlpha⟩

theorem Issues.nothing (Q : DrawCall → Prop) (s : Scene) : Issues Q s s :=
  ⟨[], by simp, by simp⟩

theorem Issues.append {Q : DrawCall → Prop} {s t u : Scene} (h₁ : Issues Q s t)
    (h₂ : Issues Q t u) : Issues Q s u := by
  obtain ⟨ds, hds, hQ⟩ := h₁
  obtain ⟨es, hes, hQ'⟩ := h₂
  refine ⟨ds ++ es, by rw [hes, hds, List.append_assoc], ?_⟩
  intro d hd
  rcases List.mem_append.mp hd with h | h
  · exact hQ d h
  · exact hQ' d h

theorem Issues.mono {Q R : DrawCall → Prop} {s t : Scene} (h : Issues Q s t)
    (hQR : ∀ d, Q d → R d) : Issues R s t := by
  obtain ⟨ds, hds, hQ⟩ := h
  exact ⟨ds, hds, fun d hd => hQR d (hQ d hd)⟩

theorem Issues.of_draws_eq {Q : DrawCall → Prop} {s t : Scene} (h : t.draws = s.draws) :
    Issues Q s t :=
  ⟨[], by simp [h], by simp⟩

theorem frame_Select (t : PostProcessType) (s : Scene) :
    Frame s (SelectPostProcessShaderAndTextures t s) := by
  unfold SelectPostProcessShaderAndTextures
  split
  · exact Frame.same s
  · exact ⟨rfl, rfl, rfl, rfl, rfl, rfl, rfl, rfl, rfl, rfl, rfl, rfl, rfl⟩

theorem draws_Select (t : PostProcessType) (s : Scene) :
    (SelectPostProcessShaderAndTextures t s).draws = s.draws := by
  unfold SelectPostProcessShaderAndTextures
  split <;> rfl

theorem constants_Select (t : PostProcessType) (s : Scene) :
    (SelectPostProcessShaderAndTextures t s).gPostProcessingConstants
      = s.gPostProcessingConstants := by
  unfold SelectPostProcessShaderAndTextures
  split <;> rfl

theorem frame_FullScreenSetup (t : PostProcessType) (srv rt : Texture) (b : BlendState)
    (s : Scene) : Frame s (FullScreenSetup t srv rt b s) := by
  have h := frame_Select t (PostProcessSetup srv rt b s)
  exact ⟨h.polygon, h.fullScreen, h.focused, h.timer, h.blurs, h.alpha, h.camera, h.width,
    h.height, h.light, h.normalDepth, h.focusedObject, h.copyAlpha⟩

theorem draws_FullScreenSetup (t : PostProcessType) (srv rt : Texture) (b : BlendState)
    (s : Scene) : (FullScreenSetup t srv rt b s).draws = s.draws :=
  draws_Select t (PostProcessSetup srv rt b s)

theorem context_Select (t : PostProcessType) (s : Scene) :
    (SelectPostProcessShaderAndTextures t s).context.renderTarget = s.context.renderTarget ∧
    (SelectPostProcessShaderAndTextures t s).context.srv = s.context.srv ∧
    (SelectPostProcessShaderAndTextures t s).context.blendState = s.context.blendState ∧
    (SelectPostProcessShaderAndTextures t s).context.vertexShader = s.context.vertexShader := by
  unfold SelectPostProcessShaderAndTextures
  split <;> exact ⟨rfl, rfl, rfl, rfl⟩

theorem pixelShader_Select (t : PostProcessType) (s : Scene) (ht : t ≠ None) :
    (SelectPostProcessShaderAndTextures t s).context.pixelShader = t := by
  unfold SelectPostProcessShaderAndTextures
  rw [if_neg ht]

/-- The draw of a full-screen pass: source, target, blend state, the quad
vertex shader, the full-screen scope and the untouched `copyAlpha`. -/
theorem currentDraw_FullScreenSetup (t : PostProcessType) (srv rt : Texture) (b : BlendState)
    (s : Scene) :
    (currentDraw (FullScreenSetup t srv rt b s)).vertexCount = 4 ∧
    (currentDraw (FullScreenSetup t srv rt b s)).renderTarget = rt ∧
    (currentDraw (FullScreenSetup t srv rt b s)).srv = srv ∧
    (currentDraw (FullScreenSetup t srv rt b s)).blendState = b ∧
    (currentDraw (FullScreenSetup t srv rt b s)).vertexShader = g2DQuadVertexShader ∧
    (currentDraw (FullScreenSetup t srv rt b s)).constants.copyAlpha
      = s.gPostProcessingConstants.copyAlpha ∧
    (currentDraw (FullScreenSetup t srv rt b s)).constants.area2DTopLeft = { x := 0, y := 0 } ∧
    (currentDraw (FullScreenSetup t srv rt b s)).constants.area2DSize = { x := 1, y := 1 } ∧
    (currentDraw (FullScreenSetup t srv rt b s)).constants.area2DDepth = 0 := by
  have h := context_Select t (PostProcessSetup srv rt b s)
  have hc := constants_Select t (PostProcessSetup srv rt b s)
  refine ⟨rfl, h.1, h.2.1, h.2.2.1, h.2.2.2, ?_, rfl, rfl, rfl⟩
  exact (congrArg PostProcessingConstants.copyAlpha hc : _)

theorem pixelShader_FullScreenSetup (t : PostProcessType) (srv rt : Texture) (b : BlendState)
    (s : Scene) (ht : t ≠ None) :
    (currentDraw (FullScreenSetup t srv rt b s)).pixelShader = t :=
  pixelShader_Select t (PostProcessSetup srv rt b s) ht

theorem draws_FullScreenPostProcess (t : PostProcessType) (srv rt : Texture) (b : BlendState)
    (s : Scene) :
    (FullScreenPostProcess t srv rt b s).draws
      = s.draws ++ [currentDraw (FullScreenSetup t srv rt b s)] := by
  show (FullScreenSetup t srv rt b s).draws ++ _ = _
  rw [draws_FullScreenSetup]

theorem frame_FullScreenPostProcess (t : PostProcessType) (srv rt : Texture) (b : BlendState)
    (s : Scene) : Frame s (FullScreenPostProcess t srv rt b s) := by
  have h := frame_FullScreenSetup t srv rt b s
  exact ⟨h.polygon, h.fullScreen, h.focused, h.timer, h.blurs, h.alpha, h.camera, h.width,
    h.height, h.light, h.normalDepth, h.focusedObject, h.copyAlpha⟩

theorem frame_AreaSetup (t : PostProcessType) (srv rt : Texture) (b : BlendState)
    (w : CVector3) (a : CVector2) (s : Scene) : Frame s (AreaSetup t srv rt b w a s) := by
  have h := frame_Select t (PostProcessSetup srv rt b s)
  exact ⟨h.polygon, h.fullScreen, h.focused, h.timer, h.blurs, h.alpha, h.camera, h.width,
    h.height, h.light, h.normalDepth, h.focusedObject, h.copyAlpha⟩

theorem draws_AreaSetup (t : PostProcessType) (srv rt : Texture) (b : BlendState)
    (w : CVector3) (a : CVector2) (s : Scene) : (AreaSetup t srv rt b w a s).draws = s.draws :=
  draws_Select t (PostProcessSetup srv rt b s)

theorem currentDraw_AreaSetup (t : PostProcessType) (srv rt : Texture) (b : BlendState)
    (w : CVector3) (a : CVector2) (s : Scene) :
    (currentDraw (AreaSetup t srv rt b w a s)).vertexCount = 4 ∧
    (currentDraw (AreaSetup t srv rt b w a s)).renderTarget = rt ∧
    (currentDraw (AreaSetup t srv rt b w a s)).srv = srv ∧
    (currentDraw (AreaSetup t srv rt b w a s)).blendState = b ∧
    (currentDraw (AreaSetup t srv rt b w a s)).vertexShader = g2DQuadVertexShader ∧
    (currentDraw (AreaSetup t srv rt b w a s)).constants.copyAlpha
      = s.gPostProcessingConstants.copyAlpha := by
  have h := context_Select t (PostProcessSetup srv rt b s)
  have hc := constants_Select t (PostProcessSetup srv rt b s)
  refine ⟨rfl, h.1, h.2.1, h.2.2.1, h.2.2.2, ?_⟩
  exact (congrArg PostProcessingConstants.copyAlpha hc : _)

theorem frame_AreaPostProcess (t : PostProcessType) (srv rt : Texture) (b : BlendState)
    (w : CVector3) (a : CVector2) (s : Scene) : Frame s (AreaPostProcess t srv rt b w a s) := by
  unfold AreaPostProcess
  split
  · have h := frame_Select t (PostProcessSetup srv rt b s)
    exact ⟨h.polygon, h.fullScreen, h.focused, h.timer, h.blurs, h.alpha, h.camera, h.width,
      h.height, h.light, h.normalDepth, h.focusedObject, h.copyAlpha⟩
  · have h := frame_AreaSetup t srv rt b w a s
    exact ⟨h.polygon, h.fullScreen, h.focused, h.timer, h.blurs, h.alpha, h.camera, h.width,
      h.height, h.light, h.normalDepth, h.focusedObject, h.copyAlpha⟩

theorem frame_PolygonSetup (t : PostProcessType) (srv rt : Texture) (b : BlendState)
    (pts : Fin 4 → CVector3) (m : CMatrix4x4) (s : Scene) :
    Frame s (PolygonSetup t srv rt b pts m s) := by
  have h := frame_Select t (PostProcessSetup srv rt b s)
  exact ⟨h.polygon, h.fullScreen, h.focused, h.timer, h.blurs, h.alpha, h.camera, h.width,
    h.height, h.light, h.normalDepth, h.focusedObject, h.copyAlpha⟩

theorem draws_PolygonSetup (t : PostProcessType) (srv rt : Texture) (b : BlendState)
    (pts : Fin 4 → CVector3) (m : CMatrix4x4) (s : Scene) :
    (PolygonSetup t srv rt b pts m s).draws = s.draws :=
  draws_Select t (PostProcessSetup srv rt b s)

theorem currentDraw_PolygonSetup (t : PostProcessType) (srv rt : Texture) (b : BlendState)
    (pts : Fin 4 → CVector3) (m : CMatrix4x4) (s : Scene) :
    (currentDraw (PolygonSetup t srv rt b pts m s)).vertexCount = 4 ∧
    (currentDraw (PolygonSetup t srv rt b pts m s)).renderTarget = rt ∧
    (currentDraw (PolygonSetup t srv rt b pts m s)).srv = srv ∧
    (currentDraw (PolygonSetup t srv rt b pts m s)).blendState = b ∧
    (currentDraw (PolygonSetup t srv rt b pts m s)).vertexShader = g2DPolygonVertexShader ∧
    (currentDraw (PolygonSetup t srv rt b pts m s)).constants.copyAlpha
      = s.gPostProcessingConstants.copyAlpha := by
  have h := context_Select t (PostProcessSetup srv rt b s)
  have hc := constants_Select t (PostProcessSetup srv rt b s)
  refine ⟨rfl, h.1, h.2.1, h.2.2.1, rfl, ?_⟩
  exact (congrArg PostProcessingConstants.copyAlpha hc : _)

theorem frame_PolygonPostProcess (t : PostProcessType) (srv rt : Texture) (b : BlendState)
    (pts : Fin 4 → CVector3) (m : CMatrix4x4) (s : Scene) :
    Frame s (PolygonPostProcess t srv rt b pts m s) := by
  have h := frame_PolygonSetup t srv rt b pts m s
  exact ⟨h.polygon, h.fullScreen, h.focused, h.timer, h.blurs, h.alpha, h.camera, h.width,
    h.height, h.light, h.normalDepth, h.focusedObject, h.copyAlpha⟩

theorem issues_Draw {Q : DrawCall → Prop} {s t : Scene} (h : t.draws = s.draws)
    (hQ : Q (currentDraw t)) : Issues Q s (Draw t) :=
  ⟨[currentDraw t], by show t.draws ++ _ = _; rw [h], by simpa using hQ⟩

theorem issues_FullScreenPostProcess (t : PostProcessType) (srv rt : Texture) (b : BlendState)
    (s : Scene) : Issues (DirectDraw srv rt) s (FullScreenPostProcess t srv rt b s) := by
  have h := currentDraw_FullScreenSetup t srv rt b s
  exact issues_Draw (draws_FullScreenSetup t srv rt b s) ⟨h.1, h.2.2.1, h.2.1⟩

theorem frame_UpdateBloomEffectDirection (j : Nat) (s : Scene) :
    Frame s (UpdateBloomEffectDirection j s) :=
  ⟨rfl, rfl, rfl, rfl, rfl, rfl, rfl, rfl, rfl, rfl, rfl, rfl, rfl⟩

theorem bloom_directional (l : List Nat) (s : Scene) :
    Frame s (l.foldl (fun s j => FullScreenPostProcess DirectionalBlur gTempTexture gTempTexture2
      gAdditiveBlendingState (UpdateBloomEffectDirection j s)) s) ∧
    Issues (DirectDraw gTempTexture gTempTexture2) s
      (l.foldl (fun s j => FullScreenPostProcess DirectionalBlur gTempTexture gTempTexture2
        gAdditiveBlendingState (UpdateBloomEffectDirection j s)) s) := by
  induction l generalizing s with
  | nil => exact ⟨Frame.same s, Issues.nothing _ s⟩
  | cons j l ih =>
    rw [List.foldl_cons]
    have hf := (frame_UpdateBloomEffectDirection j s).comp
      (frame_FullScreenPostProcess DirectionalBlur gTempTexture gTempTexture2
        gAdditiveBlendingState (UpdateBloomEffectDirection j s))
    have hi : Issues (DirectDraw gTempTexture gTempTexture2) s
        (FullScreenPostProcess DirectionalBlur gTempTexture gTempTexture2
          gAdditiveBlendingState (UpdateBloomEffectDirection j s)) := by
      obtain ⟨ds, hds, hQ⟩ := issues_FullScreenPostProcess DirectionalBlur gTempTexture
        gTempTexture2 gAdditiveBlendingState (UpdateBloomEffectDirection j s)
      exact ⟨ds, hds, hQ⟩
    obtain ⟨ihf, ihi⟩ := ih (FullScreenPostProcess DirectionalBlur gTempTexture gTempTexture2
      gAdditiveBlendingState (UpdateBloomEffectDirection j s))
    exact ⟨hf.comp ihf, hi.append ihi⟩

theorem frame_RenderBloomTexture (srv : Texture) (s : Scene) :
    Frame s (RenderBloomTexture srv s) := by
  have h1 := frame_FullScreenPostProcess Brightness srv gTempTexture2 gNoBlendingState s
  have h2 := frame_FullScreenPostProcess BlurY gTempTexture2 gTempTexture gNoBlendingState
    (FullScreenPostProcess Brightness srv gTempTexture2 gNoBlendingState s)
  have h3 := frame_FullScreenPostProcess BlurX gTempTexture gTempTexture2 gNoBlendingState
    (FullScreenPostProcess BlurY gTempTexture2 gTempTexture gNoBlendingState
      (FullScreenPostProcess Brightness srv gTempTexture2 gNoBlendingState s))
  have h4 := (bloom_directional
    (List.range (FullScreenPostProcess BlurX gTempTexture gTempTexture2 gNoBlendingState
      (FullScreenPostProcess BlurY gTempTexture2 gTempTexture gNoBlendingState
        (FullScreenPostProcess Brightness srv gTempTexture2 gNoBlendingState
          s))).gTempDiagonalBlurs.toNat)
    (FullScreenPostProcess BlurX gTempTexture gTempTexture2 gNoBlendingState
      (FullScreenPostProcess BlurY gTempTexture2 gTempTexture gNoBlendingState
        (FullScreenPostProcess Brightness srv gTempTexture2 gNoBlendingState s)))).1
  have h := ((h1.comp h2).comp h3).comp h4
  exact ⟨h.polygon, h.fullScreen, h.focused, h.timer, h.blurs, h.alpha, h.camera, h.width,
    h.height, h.light, h.normalDepth, h.focusedObject, h.copyAlpha⟩

theorem issues_RenderBloomTexture (srv : Texture) (s : Scene) :
    Issues (ScratchDraw srv) s (RenderBloomTexture srv s) := by
  have h1 := (issues_FullScreenPostProcess Brightness srv gTempTexture2 gNoBlendingState s).mono
    (R := ScratchDraw srv) (fun d h => ⟨h.1, Or.inl ⟨h.2.2, Or.inl h.2.1⟩⟩)
  have h2 := (issues_FullScreenPostProcess BlurY gTempTexture2 gTempTexture gNoBlendingState
    (FullScreenPostProcess Brightness srv gTempTexture2 gNoBlendingState s)).mono
    (R := ScratchDraw srv) (fun d h => ⟨h.1, Or.inr ⟨h.2.2, h.2.1⟩⟩)
  have h3 := (issues_FullScreenPostProcess BlurX gTempTexture gTempTexture2 gNoBlendingState
    (FullScreenPostProcess BlurY gTempTexture2 gTempTexture gNoBlendingState
      (FullScreenPostProcess Brightness srv gTempTexture2 gNoBlendingState s))).mono
    (R := ScratchDraw srv) (fun d h => ⟨h.1, Or.inl ⟨h.2.2, Or.inr h.2.1⟩⟩)
  have h4 := ((bloom_directional
    (List.range (FullScreenPostProcess BlurX gTempTexture gTempTexture2 gNoBlendingState
      (FullScreenPostProcess BlurY gTempTexture2 gTempTexture gNoBlendingState
        (FullScreenPostProcess Brightness srv gTempTexture2 gNoBlendingState
          s))).gTempDiagonalBlurs.toNat)
    (FullScreenPostProcess BlurX gTempTexture gTempTexture2 gNoBlendingState
      (FullScreenPostProcess BlurY gTempTexture2 gTempTexture gNoBlendingState
        (FullScreenPostProcess Brightness srv gTempTexture2 gNoBlendingState s)))).2).mono
    (R := ScratchDraw srv) (fun d h => ⟨h.1, Or.inl ⟨h.2.2, Or.inr h.2.1⟩⟩)
  obtain ⟨ds, hds, hQ⟩ := ((h1.append h2).append h3).append h4
  exact ⟨ds, hds, hQ⟩

theorem frame_applyByMode (pp : PostProcess) (srv rt : Texture) (s : Scene) :
    Frame s (applyByMode pp srv rt s) := by
  unfold applyByMode
  split
  · exact frame_FullScreenPostProcess _ _ _ _ _
  · exact frame_AreaPostProcess _ _ _ _ _ _ _
  · split
    · exact frame_PolygonPostProcess _ _ _ _ _ _ _
    · exact Frame.same s

theorem frame_ApplyPostProcess (pp : PostProcess) (srv rt : Texture) (s : Scene) :
    Frame s (ApplyPostProcess pp srv rt s) := by
  unfold ApplyPostProcess
  split
  · exact Frame.same s
  · split
    · exact (frame_RenderBloomTexture srv s).comp (frame_applyByMode _ _ _ _)
    · exact frame_applyByMode _ _ _ _

/-- The scope dispatch issues exactly the draw of `modeDrawState`, if any. -/
theorem draws_applyByMode (pp : PostProcess) (srv rt : Texture) (s : Scene) :
    (applyByMode pp srv rt s).draws
      = s.draws ++ (match modeDrawState pp srv rt s with
                    | some t => [currentDraw t]
                    | none => []) ∧
    ∀ t, modeDrawState pp srv rt s = some t → t.draws = s.draws := by
  unfold applyByMode modeDrawState
  cases pp.Mode with
  | Fullscreen =>
    refine ⟨draws_FullScreenPostProcess _ _ _ _ _, ?_⟩
    intro t ht
    simp only [Option.some.injEq] at ht
    rw [← ht]; exact draws_FullScreenSetup _ _ _ _ _
  | Area =>
    simp only [AreaPostProcess]
    by_cases h : areaDistance s s.light0Position < s.gCamera.NearClip
    · simp only [h, if_true]
      refine ⟨?_, by intro t ht; cases ht⟩
      rw [draws_Select]; simp [PostProcessSetup]
    · simp only [h, if_false]
      refine ⟨?_, ?_⟩
      · show (AreaSetup _ _ _ _ _ _ s).draws ++ _ = _
        rw [draws_AreaSetup]
      · intro t ht
        simp only [Option.some.injEq] at ht
        rw [← ht]; exact draws_AreaSetup _ _ _ _ _ _ _
  | Polygon =>
    cases pp.PolyData with
    | none => exact ⟨by simp, by intro t ht; cases ht⟩
    | some pd =>
      refine ⟨?_, ?_⟩
      · show (PolygonSetup _ _ _ _ _ _ s).draws ++ _ = _
        rw [draws_PolygonSetup]
      · intro t ht
        simp only [Option.some.injEq] at ht
        rw [← ht]; exact draws_PolygonSetup _ _ _ _ _ _ _

/-- The draws of `ApplyPostProcess`: those of the bloom sub-pipeline (only
for a Bloom effect) followed by the draw of the effect itself, if any. -/
theorem draws_ApplyPostProcess (pp : PostProcess) (srv rt : Texture) (s : Scene) :
    ∃ ds : List DrawCall,
      (ApplyPostProcess pp srv rt s).draws = s.draws ++ ds ++ effectDraws pp srv rt s ∧
      (∀ d ∈ ds, ScratchDraw srv d ∧ pp.Type_ = Bloom) ∧
      (∀ t, effectDrawState pp srv rt s = some t → t.draws = s.draws ++ ds) := by
  unfold ApplyPostProcess effectDraws effectDrawState
  by_cases hsel : pp.Type_ = Selection ∧ s.gFocusedObject ≤ 0
  · refine ⟨[], ?_, by simp, ?_⟩
    · simp [hsel]
    · intro t ht; simp [hsel] at ht
  · simp only [hsel, if_false]
    by_cases hb : pp.Type_ = Bloom
    · simp only [hb, if_true]
      obtain ⟨ds, hds, hQ⟩ := issues_RenderBloomTexture srv s
      obtain ⟨h1, h2⟩ := draws_applyByMode pp srv rt (RenderBloomTexture srv s)
      refine ⟨ds, ?_, fun d hd => ⟨hQ d hd, trivial⟩, ?_⟩
      · rw [h1, hds]
      · intro t ht; rw [h2 t ht, hds]
    · simp only [hb, if_false]
      obtain ⟨h1, h2⟩ := draws_applyByMode pp srv rt s
      refine ⟨[], ?_, by simp, ?_⟩
      · rw [h1]; simp
      · intro t ht; rw [h2 t ht]; simp

/-- The draw of the effect itself goes from `srv` into `rt`. -/
theorem effectDraws_direct (pp : PostProcess) (srv rt : Texture) (s : Scene) :
    ∀ d ∈ effectDraws pp srv rt s, DirectDraw srv rt d := by
  intro d hd
  unfold effectDraws effectDrawState at hd
  by_cases hsel : pp.Type_ = Selection ∧ s.gFocusedObject ≤ 0
  · simp [hsel] at hd
  · simp only [hsel, if_false] at hd
    generalize (if pp.Type_ = Bloom then RenderBloomTexture srv s else s) = u at hd
    unfold modeDrawState at hd
    cases hm : pp.Mode with
    | Fullscreen =>
      simp only [hm, List.mem_singleton] at hd
      have h := currentDraw_FullScreenSetup pp.Type_ srv rt gNoBlendingState u
      rw [hd]; exact ⟨h.1, h.2.2.1, h.2.1⟩
    | Area =>
      simp only [hm] at hd
      by_cases hnear : areaDistance u u.light0Position < u.gCamera.NearClip
      · simp [hnear] at hd
      · simp only [hnear, if_false, List.mem_singleton] at hd
        have h := currentDraw_AreaSetup pp.Type_ srv rt gAlphaBlendingState u.light0Position
          { x := 10, y := 10 } u
        rw [hd]; exact ⟨h.1, h.2.2.1, h.2.1⟩
    | Polygon =>
      simp only [hm] at hd
      cases hpd : pp.PolyData with
      | none => simp [hpd] at hd
      | some pd =>
        simp only [hpd, List.mem_singleton] at hd
        have h := currentDraw_PolygonSetup pp.Type_ srv rt gNoBlendingState pd.Points
          pd.Matrix u
        rw [hd]; exact ⟨h.1, h.2.2.1, h.2.1⟩

theorem issues_ApplyPostProcess (pp : PostProcess) (srv rt : Texture) (s : Scene) :
    Issues (fun d => (ScratchDraw srv d ∧ pp.Type_ = Bloom) ∨ DirectDraw srv rt d) s
      (ApplyPostProcess pp srv rt s) := by
  obtain ⟨ds, hds, hQ, -⟩ := draws_ApplyPostProcess pp srv rt s
  refine ⟨ds ++ effectDraws pp srv rt s, by rw [hds, List.append_assoc], ?_⟩
  intro d hd
  rcases List.mem_append.mp hd with h | h
  · exact Or.inl (hQ d h)
  · exact Or.inr (effectDraws_direct pp srv rt s d h)

theorem Frame.globals {s t : Scene} (h : Frame s t) : Globals s t :=
  ⟨h.polygon, h.fullScreen, h.focused, h.blurs, h.alpha, h.copyAlpha⟩

theorem Globals.self (s : Scene) : Globals s s :=
  ⟨rfl, rfl, rfl, rfl, rfl, rfl⟩

theorem Globals.step {s t u : Scene} (h₁ : Globals s t) (h₂ : Globals t u) : Globals s u :=
  ⟨h₂.polygon.trans h₁.polygon, h₂.fullScreen.trans h₁.fullScreen,
    h₂.focused.trans h₁.focused, h₂.blurs.trans h₁.blurs, h₂.alpha.trans h₁.alpha,
    h₂.copyAlpha.trans h₁.copyAlpha⟩

theorem chainColour_fields (pp : PostProcess) (c : Chain) :
    (chainColour pp c).itA = c.itA ∧ (chainColour pp c).itB = c.itB ∧
    (chainColour pp c).i = c.i ∧ (chainColour pp c).j = c.j ∧
    (chainColour pp c).ndRenderTarget = c.ndRenderTarget ∧
    (chainColour pp c).foRenderTarget = c.foRenderTarget ∧
    (chainColour pp c).srv = (if c.i % 2 = 0 then gSceneTexture2 else gSceneTexture) ∧
    (chainColour pp c).renderTarget = (if c.i % 2 = 0 then gSceneTexture else gSceneTexture2) := by
  unfold chainColour
  by_cases hi : c.i % 2 = 0 <;>
    by_cases hm : pp.Mode = Polygon ∨ pp.Mode = Area <;>
    simp only [hi, hm, if_true, if_false, and_self]

/-- The scene after the colour part of a pass: the effect applied from `srv`
to `renderTarget` and, for a polygon or area effect, the copy from the new
`srv` to the new `renderTarget`. -/
theorem chainColour_scene (pp : PostProcess) (c : Chain) :
    (chainColour pp c).scene
      = if pp.Mode = Polygon ∨ pp.Mode = Area then
          FullScreenPostProcess Copy (chainColour pp c).srv (chainColour pp c).renderTarget
            gNoBlendingState (ApplyPostProcess pp c.srv c.renderTarget c.scene)
        else ApplyPostProcess pp c.srv c.renderTarget c.scene := by
  unfold chainColour
  by_cases hi : c.i % 2 = 0 <;>
    by_cases hm : pp.Mode = Polygon ∨ pp.Mode = Area <;>
    simp only [hi, hm, if_true, if_false]

theorem frame_chainColour (pp : PostProcess) (c : Chain) :
    Frame c.scene (chainColour pp c).scene := by
  rw [chainColour_scene]
  split
  · exact (frame_ApplyPostProcess _ _ _ _).comp (frame_FullScreenPostProcess _ _ _ _ _)
  · exact frame_ApplyPostProcess _ _ _ _

theorem issues_chainColour (pp : PostProcess) (c : Chain)
    (h : ColourPair c.srv c.renderTarget) :
    Issues ColourDraw c.scene (chainColour pp c).scene ∧
      ColourPair (chainColour pp c).srv (chainColour pp c).renderTarget := by
  have hf := chainColour_fields pp c
  have hpair : ColourPair (chainColour pp c).srv (chainColour pp c).renderTarget := by
    rw [hf.2.2.2.2.2.2.1, hf.2.2.2.2.2.2.2]
    by_cases hi : c.i % 2 = 0
    · simp only [hi, if_true]; exact Or.inr ⟨rfl, rfl⟩
    · simp only [hi, if_false]; exact Or.inl ⟨rfl, rfl⟩
  refine ⟨?_, hpair⟩
  have happly : Issues ColourDraw c.scene (ApplyPostProcess pp c.srv c.renderTarget c.scene) := by
    refine (issues_ApplyPostProcess pp c.srv c.renderTarget c.scene).mono ?_
    intro d hd
    rcases hd with ⟨hs, -⟩ | hd
    · refine ⟨hs.1, ?_⟩
      rcases h with ⟨h1, -⟩ | ⟨h1, -⟩
      · rw [h1] at hs; exact Or.inr (Or.inl hs)
      · rw [h1] at hs; exact Or.inr (Or.inr hs)
    · refine ⟨hd.1, Or.inl ?_⟩
      rw [hd.2.1, hd.2.2]; exact h
  rw [chainColour_scene]
  split
  · refine happly.append ((issues_FullScreenPostProcess _ _ _ _ _).mono ?_)
    intro d hd
    refine ⟨hd.1, Or.inl ?_⟩
    rw [hd.2.1, hd.2.2]; exact hpair
  · exact happly


theorem distorts_ne {t : PostProcessType} (h : distorts t = true) :
    t ≠ Bloom ∧ t ≠ Selection ∧ t ≠ None ∧ t ≠ Copy := by
  cases t <;> simp_all [distorts]

theorem auxiliarySwitch_fields (c : Chain) :
    (auxiliarySwitch c).srv = c.srv ∧ (auxiliarySwitch c).renderTarget = c.renderTarget ∧
    (auxiliarySwitch c).itA = c.itA ∧ (auxiliarySwitch c).itB = c.itB ∧
    (auxiliarySwitch c).i = c.i ∧ (auxiliarySwitch c).j = c.j ∧
    (auxiliarySwitch c).scene.draws = c.scene.draws ∧
    Globals c.scene (auxiliarySwitch c).scene := by
  unfold auxiliarySwitch
  by_cases hj : c.j % 2 = 0 <;> by_cases hf : c.scene.gFocusedObject = 0 <;>
    simp only [hj, hf, ne_eq, if_true, if_false, not_true_eq_false, not_false_eq_true] <;>
    refine ⟨?_, ?_, ?_, ?_, ?_, ?_, ?_, ⟨?_, ?_, ?_, ?_, ?_, ?_⟩⟩ <;> first | rfl | trivial | exact hf.symm

theorem auxiliarySwitch_pairs (c : Chain) :
    ((auxiliarySwitch c).scene.gCurrentNormalDepthTextureSRV, (auxiliarySwitch c).ndRenderTarget)
      = (if c.j % 2 = 0 then (gNormalDepthTexture2, gNormalDepthTexture)
         else (gNormalDepthTexture, gNormalDepthTexture2)) ∧
    ((auxiliarySwitch c).scene.gCurrentFocusedObjectTextureSRV, (auxiliarySwitch c).foRenderTarget)
      = (if c.scene.gFocusedObject ≠ 0 then
           (if c.j % 2 = 0 then (gFocusedObjectTexture2, gFocusedObjectTexture)
            else (gFocusedObjectTexture, gFocusedObjectTexture2))
         else (c.scene.gCurrentFocusedObjectTextureSRV, c.foRenderTarget)) := by
  unfold auxiliarySwitch
  by_cases hj : c.j % 2 = 0 <;> by_cases hf : c.scene.gFocusedObject = 0 <;>
    simp only [hj, hf, ne_eq, if_true, if_false, not_true_eq_false, not_false_eq_true] <;>
    refine ⟨?_, ?_⟩ <;> first | rfl | trivial

theorem frame_auxiliaryApply (pp : PostProcess) (c : Chain) :
    Frame c.scene (auxiliaryApply pp c) := by
  unfold auxiliaryApply
  dsimp only
  split
  · exact (frame_ApplyPostProcess _ _ _ _).comp (frame_ApplyPostProcess _ _ _ _)
  · exact frame_ApplyPostProcess _ _ _ _

theorem issues_auxiliaryApply (pp : PostProcess) (c : Chain) (hd : distorts pp.Type_ = true)
    (hn : NormalDepthPair c.scene.gCurrentNormalDepthTextureSRV c.ndRenderTarget)
    (hf : FocusedObjectPair c.scene.gCurrentFocusedObjectTextureSRV c.foRenderTarget) :
    Issues AuxiliaryDraw c.scene (auxiliaryApply pp c) := by
  have hb := (distorts_ne hd).1
  have h1 : Issues AuxiliaryDraw c.scene
      (ApplyPostProcess pp c.scene.gCurrentNormalDepthTextureSRV c.ndRenderTarget c.scene) := by
    refine (issues_ApplyPostProcess _ _ _ _).mono ?_
    intro d h
    rcases h with ⟨-, h⟩ | h
    · exact absurd h hb
    · refine ⟨h.1, Or.inl ?_⟩
      rw [h.2.1, h.2.2]; exact hn
  unfold auxiliaryApply
  dsimp only
  split
  · refine h1.append ((issues_ApplyPostProcess _ _ _ _).mono ?_)
    intro d h
    rcases h with ⟨-, h⟩ | h
    · exact absurd h hb
    · refine ⟨h.1, Or.inr ?_⟩
      rw [h.2.1, h.2.2, (frame_ApplyPostProcess _ _ _ _).focusedObject]; exact hf
  · exact h1

theorem frame_auxiliaryCopy (pp : PostProcess) (c : Chain) :
    Frame c.scene (auxiliaryCopy pp c) := by
  unfold auxiliaryCopy
  split
  · dsimp only
    split
    · exact (frame_FullScreenPostProcess _ _ _ _ _).comp (frame_FullScreenPostProcess _ _ _ _ _)
    · exact frame_FullScreenPostProcess _ _ _ _ _
  · exact Frame.same _

theorem issues_auxiliaryCopy (pp : PostProcess) (c : Chain)
    (hn : NormalDepthPair c.scene.gCurrentNormalDepthTextureSRV c.ndRenderTarget)
    (hf : FocusedObjectPair c.scene.gCurrentFocusedObjectTextureSRV c.foRenderTarget) :
    Issues AuxiliaryDraw c.scene (auxiliaryCopy pp c) := by
  have h1 : Issues AuxiliaryDraw c.scene
      (FullScreenPostProcess Copy c.scene.gCurrentNormalDepthTextureSRV c.ndRenderTarget
        gNoBlendingState c.scene) := by
    refine (issues_FullScreenPostProcess _ _ _ _ _).mono ?_
    intro d h
    refine ⟨h.1, Or.inl ?_⟩
    rw [h.2.1, h.2.2]; exact hn
  unfold auxiliaryCopy
  split
  · dsimp only
    split
    · refine h1.append ((issues_FullScreenPostProcess _ _ _ _ _).mono ?_)
      intro d h
      refine ⟨h.1, Or.inr ?_⟩
      rw [h.2.1, h.2.2, (frame_FullScreenPostProcess _ _ _ _ _).focusedObject]; exact hf
    · exact h1
  · exact Issues.nothing _ _

theorem ChainInv.colourPair {c : Chain} (h : ChainInv c) : ColourPair c.srv c.renderTarget := by
  have hc := h.colour
  by_cases hi : c.i % 2 = 0
  · simp only [hi, if_true, Prod.mk.injEq] at hc; exact Or.inl hc
  · simp only [hi, if_false, Prod.mk.injEq] at hc; exact Or.inr hc

theorem ChainInv.normalDepthPair {c : Chain} (h : ChainInv c) :
    NormalDepthPair c.scene.gCurrentNormalDepthTextureSRV c.ndRenderTarget := by
  have hc := h.normalDepth
  by_cases hj : c.j % 2 = 0
  · simp only [hj, if_true, Prod.mk.injEq] at hc; exact Or.inl hc
  · simp only [hj, if_false, Prod.mk.injEq] at hc; exact Or.inr hc

theorem ChainInv.focusedObjectPair {c : Chain} (h : ChainInv c) :
    FocusedObjectPair c.scene.gCurrentFocusedObjectTextureSRV c.foRenderTarget := by
  have hc := h.focusedObject
  by_cases hj : c.scene.gFocusedObject ≠ 0 ∧ c.j % 2 = 1
  · rw [if_pos hj, Prod.mk.injEq] at hc; exact Or.inr hc
  · rw [if_neg hj, Prod.mk.injEq] at hc; exact Or.inl hc

theorem chainAuxiliary_fields (pp : PostProcess) (c : Chain) :
    (chainAuxiliary pp c).srv = c.srv ∧ (chainAuxiliary pp c).renderTarget = c.renderTarget ∧
    (chainAuxiliary pp c).itA = c.itA ∧ (chainAuxiliary pp c).itB = c.itB ∧
    (chainAuxiliary pp c).i = c.i ∧ (chainAuxiliary pp c).j = c.j + 1 := by
  have h := auxiliarySwitch_fields { c with scene := auxiliaryApply pp c }
  exact ⟨h.1, h.2.1, h.2.2.1, h.2.2.2.1, h.2.2.2.2.1, congrArg (· + 1) h.2.2.2.2.2.1⟩

theorem globals_chainAuxiliary (pp : PostProcess) (c : Chain) :
    Globals c.scene (chainAuxiliary pp c).scene := by
  have h1 := (frame_auxiliaryApply pp c).globals
  have h2 := (auxiliarySwitch_fields { c with scene := auxiliaryApply pp c }).2.2.2.2.2.2.2
  have h3 := (frame_auxiliaryCopy pp (auxiliarySwitch { c with scene := auxiliaryApply pp c })).globals
  exact (h1.step h2).step h3

/-- The pairs after the auxiliary part of a pass: the normal/depth pair is set
by the parity of `j`, and so is the focused-object pair when an object is
focused. -/
theorem chainAuxiliary_pairs (pp : PostProcess) (c : Chain) :
    ((chainAuxiliary pp c).scene.gCurrentNormalDepthTextureSRV, (chainAuxiliary pp c).ndRenderTarget)
      = (if c.j % 2 = 0 then (gNormalDepthTexture2, gNormalDepthTexture)
         else (gNormalDepthTexture, gNormalDepthTexture2)) ∧
    ((chainAuxiliary pp c).scene.gCurrentFocusedObjectTextureSRV, (chainAuxiliary pp c).foRenderTarget)
      = (if c.scene.gFocusedObject ≠ 0 then
           (if c.j % 2 = 0 then (gFocusedObjectTexture2, gFocusedObjectTexture)
            else (gFocusedObjectTexture, gFocusedObjectTexture2))
         else (c.scene.gCurrentFocusedObjectTextureSRV, c.foRenderTarget)) := by
  have h := auxiliarySwitch_pairs { c with scene := auxiliaryApply pp c }
  have hfr := frame_auxiliaryCopy pp (auxiliarySwitch { c with scene := auxiliaryApply pp c })
  have hap := frame_auxiliaryApply pp c
  constructor
  · rw [← h.1]
    exact Prod.ext hfr.normalDepth rfl
  · have h2 := h.2
    simp only [hap.focused, hap.focusedObject] at h2
    rw [← h2]
    exact Prod.ext hfr.focusedObject rfl

theorem issues_chainAuxiliary (pp : PostProcess) (c : Chain) (hd : distorts pp.Type_ = true)
    (hn : NormalDepthPair c.scene.gCurrentNormalDepthTextureSRV c.ndRenderTarget)
    (hf : FocusedObjectPair c.scene.gCurrentFocusedObjectTextureSRV c.foRenderTarget) :
    Issues AuxiliaryDraw c.scene (chainAuxiliary pp c).scene := by
  have h1 := issues_auxiliaryApply pp c hd hn hf
  have hsw := auxiliarySwitch_fields { c with scene := auxiliaryApply pp c }
  have hp := auxiliarySwitch_pairs { c with scene := auxiliaryApply pp c }
  have h2 : Issues AuxiliaryDraw (auxiliaryApply pp c)
      (auxiliarySwitch { c with scene := auxiliaryApply pp c }).scene :=
    Issues.of_draws_eq hsw.2.2.2.2.2.2.1
  have hn' : NormalDepthPair
      (auxiliarySwitch { c with scene := auxiliaryApply pp c }).scene.gCurrentNormalDepthTextureSRV
      (auxiliarySwitch { c with scene := auxiliaryApply pp c }).ndRenderTarget := by
    have := hp.1
    by_cases hj : c.j % 2 = 0
    · simp only [hj, if_true, Prod.mk.injEq] at this; exact Or.inr this
    · simp only [hj, if_false, Prod.mk.injEq] at this; exact Or.inl this
  have hf' : FocusedObjectPair
      (auxiliarySwitch { c with scene := auxiliaryApply pp c }).scene.gCurrentFocusedObjectTextureSRV
      (auxiliarySwitch { c with scene := auxiliaryApply pp c }).foRenderTarget := by
    have := hp.2
    have hap := frame_auxiliaryApply pp c
    simp only [hap.focused, hap.focusedObject] at this
    by_cases hz : c.scene.gFocusedObject = 0
    · simp only [hz, ne_eq, not_true_eq_false, if_false, Prod.mk.injEq] at this
      rw [this.1, this.2]; exact hf
    · by_cases hj : c.j % 2 = 0
      · simp only [hz, hj, ne_eq, not_false_eq_true, if_true, Prod.mk.injEq] at this
        exact Or.inr this
      · simp only [hz, hj, ne_eq, not_false_eq_true, if_true, if_false, Prod.mk.injEq] at this
        exact Or.inl this
  have h3 := issues_auxiliaryCopy pp
    (auxiliarySwitch { c with scene := auxiliaryApply pp c }) hn' hf'
  exact (h1.append h2).append h3

theorem chainAdvance_fields (c : Chain) :
    (chainAdvance c).scene = c.scene ∧ (chainAdvance c).srv = c.srv ∧
    (chainAdvance c).renderTarget = c.renderTarget ∧
    (chainAdvance c).ndRenderTarget = c.ndRenderTarget ∧
    (chainAdvance c).foRenderTarget = c.foRenderTarget ∧
    (chainAdvance c).i = c.i + 1 ∧ (chainAdvance c).j = c.j := by
  unfold chainAdvance
  by_cases hA : c.itA ≠ c.scene.gPolygonPostProcesses.length
  · simp only [if_pos hA, and_self]
  · by_cases hB : c.itB ≠ c.scene.gFullScreenPostProcesses.length
    · simp only [if_neg hA, if_pos hB, and_self]
    · simp only [if_neg hA, if_neg hB, and_self]

theorem chainAdvance_iterators (c : Chain) :
    (chainAdvance c).itA
      = (if c.itA ≠ c.scene.gPolygonPostProcesses.length then c.itA + 1 else c.itA) ∧
    (chainAdvance c).itB
      = (if c.itA ≠ c.scene.gPolygonPostProcesses.length then c.itB
         else if c.itB ≠ c.scene.gFullScreenPostProcesses.length then c.itB + 1 else c.itB) := by
  unfold chainAdvance
  by_cases hA : c.itA ≠ c.scene.gPolygonPostProcesses.length
  · simp only [if_pos hA, and_self]
  · by_cases hB : c.itB ≠ c.scene.gFullScreenPostProcesses.length
    · simp only [if_neg hA, if_pos hB, and_self]
    · simp only [if_neg hA, if_neg hB, and_self]

/-- The draws of one pass: the colour part, then the auxiliary part for a
distorting effect. -/
theorem chainBody_eq (pp : PostProcess) (c : Chain) :
    chainBody pp c
      = chainAdvance (if distorts pp.Type_ then chainAuxiliary pp (chainColour pp c)
                      else chainColour pp c) := rfl

theorem globals_chainBody (pp : PostProcess) (c : Chain) :
    Globals c.scene (chainBody pp c).scene := by
  rw [chainBody_eq, (chainAdvance_fields _).1]
  have h1 := (frame_chainColour pp c).globals
  split
  · exact h1.step (globals_chainAuxiliary pp (chainColour pp c))
  · exact h1

theorem chainBody_counters (pp : PostProcess) (c : Chain) :
    (chainBody pp c).i = c.i + 1 ∧
    (chainBody pp c).j = (if distorts pp.Type_ then c.j + 1 else c.j) ∧
    (chainBody pp c).srv = (if c.i % 2 = 0 then gSceneTexture2 else gSceneTexture) ∧
    (chainBody pp c).renderTarget = (if c.i % 2 = 0 then gSceneTexture else gSceneTexture2) := by
  rw [chainBody_eq]
  have ha := chainAdvance_fields (if distorts pp.Type_ then chainAuxiliary pp (chainColour pp c)
    else chainColour pp c)
  have hc := chainColour_fields pp c
  rw [ha.2.2.2.2.2.1, ha.2.2.2.2.2.2, ha.2.1, ha.2.2.1]
  by_cases hd : distorts pp.Type_ = true
  · have hx := chainAuxiliary_fields pp (chainColour pp c)
    simp only [if_pos hd]
    rw [hx.2.2.2.2.1, hx.2.2.2.2.2, hx.1, hx.2.1, hc.2.2.1, hc.2.2.2.1, hc.2.2.2.2.2.2.1,
      hc.2.2.2.2.2.2.2]
    exact ⟨rfl, rfl, rfl, rfl⟩
  · simp only [if_neg hd]
    rw [hc.2.2.1, hc.2.2.2.1, hc.2.2.2.2.2.2.1, hc.2.2.2.2.2.2.2]
    exact ⟨rfl, rfl, rfl, rfl⟩

theorem chainBody_iterators (pp : PostProcess) (c : Chain) :
    (chainBody pp c).itA
      = (if c.itA ≠ c.scene.gPolygonPostProcesses.length then c.itA + 1 else c.itA) ∧
    (chainBody pp c).itB
      = (if c.itA ≠ c.scene.gPolygonPostProcesses.length then c.itB
         else if c.itB ≠ c.scene.gFullScreenPostProcesses.length then c.itB + 1 else c.itB) := by
  rw [chainBody_eq]
  have ha := chainAdvance_iterators (if distorts pp.Type_ then chainAuxiliary pp (chainColour pp c)
    else chainColour pp c)
  have hc := chainColour_fields pp c
  have hg := (frame_chainColour pp c).globals
  rw [ha.1, ha.2]
  by_cases hd : distorts pp.Type_ = true
  · have hx := chainAuxiliary_fields pp (chainColour pp c)
    have hg2 := hg.step (globals_chainAuxiliary pp (chainColour pp c))
    simp only [if_pos hd]
    rw [hx.2.2.1, hx.2.2.2.1, hc.1, hc.2.1, hg2.polygon, hg2.fullScreen]
    exact ⟨rfl, rfl⟩
  · simp only [if_neg hd]
    rw [hc.1, hc.2.1, hg.polygon, hg.fullScreen]
    exact ⟨rfl, rfl⟩

/-- The auxiliary pairs after one pass: switched by the parity of `j` for a
distorting effect (the focused-object pair only when an object is focused),
unchanged otherwise. -/
theorem chainBody_pairs (pp : PostProcess) (c : Chain) :
    ((chainBody pp c).scene.gCurrentNormalDepthTextureSRV, (chainBody pp c).ndRenderTarget)
      = (if distorts pp.Type_ then
           (if c.j % 2 = 0 then (gNormalDepthTexture2, gNormalDepthTexture)
            else (gNormalDepthTexture, gNormalDepthTexture2))
         else (c.scene.gCurrentNormalDepthTextureSRV, c.ndRenderTarget)) ∧
    ((chainBody pp c).scene.gCurrentFocusedObjectTextureSRV, (chainBody pp c).foRenderTarget)
      = (if distorts pp.Type_ = true ∧ c.scene.gFocusedObject ≠ 0 then
           (if c.j % 2 = 0 then (gFocusedObjectTexture2, gFocusedObjectTexture)
            else (gFocusedObjectTexture, gFocusedObjectTexture2))
         else (c.scene.gCurrentFocusedObjectTextureSRV, c.foRenderTarget)) := by
  rw [chainBody_eq]
  have ha := chainAdvance_fields (if distorts pp.Type_ then chainAuxiliary pp (chainColour pp c)
    else chainColour pp c)
  have hc := chainColour_fields pp c
  have hfr := frame_chainColour pp c
  rw [ha.1, ha.2.2.2.1, ha.2.2.2.2.1]
  by_cases hd : distorts pp.Type_ = true
  · have hp := chainAuxiliary_pairs pp (chainColour pp c)
    rw [hc.2.2.2.1, hfr.focused, hfr.focusedObject, hc.2.2.2.2.2.1] at hp
    simp only [if_pos hd, hd, true_and]
    exact hp
  · simp only [if_neg hd, hd, false_and, if_false, Bool.false_eq_true]
    rw [hfr.normalDepth, hfr.focusedObject, hc.2.2.2.2.1, hc.2.2.2.2.2.1]
    exact ⟨rfl, rfl⟩

theorem chainInv_chainBody (pp : PostProcess) (c : Chain) (h : ChainInv c) :
    ChainInv (chainBody pp c) := by
  have hk := chainBody_counters pp c
  have hp := chainBody_pairs pp c
  have hg := globals_chainBody pp c
  refine ⟨?_, ?_, ?_⟩
  · rw [hk.1, hk.2.2.1, hk.2.2.2]
    by_cases hi : c.i % 2 = 0
    · have : (c.i + 1) % 2 ≠ 0 := by omega
      simp only [hi, this, if_true, if_false]
    · have : (c.i + 1) % 2 = 0 := by omega
      simp only [hi, this, if_true, if_false]
  · rw [hp.1, hk.2.1]
    by_cases hd : distorts pp.Type_ = true
    · simp only [if_pos hd]
      by_cases hj : c.j % 2 = 0
      · have : (c.j + 1) % 2 ≠ 0 := by omega
        simp only [hj, this, if_true, if_false]
      · have : (c.j + 1) % 2 = 0 := by omega
        simp only [hj, this, if_true, if_false]
    · simp only [if_neg hd]
      exact h.normalDepth
  · rw [hp.2, hk.2.1, hg.focused]
    by_cases hd : distorts pp.Type_ = true
    · by_cases hz : c.scene.gFocusedObject = 0
      · have hfo := h.focusedObject
        simp only [hz, ne_eq, not_true_eq_false, false_and, and_false, if_false] at hfo ⊢
        exact hfo
      · simp only [if_pos hd, hd, hz, ne_eq, not_false_eq_true, true_and, and_self, if_true]
        by_cases hj : c.j % 2 = 0
        · have : (c.j + 1) % 2 = 1 := by omega
          simp only [hj, this, if_true]
        · have : (c.j + 1) % 2 ≠ 1 := by omega
          simp only [hj, this, if_false]
    · simp only [if_neg hd, hd, false_and, if_false, Bool.false_eq_true]
      exact h.focusedObject

theorem chainInit_fields (s : Scene) :
    (chainInit s).srv = gSceneTexture ∧ (chainInit s).renderTarget = gSceneTexture2 ∧
    (chainInit s).ndRenderTarget = gNormalDepthTexture2 ∧
    (chainInit s).foRenderTarget = gFocusedObjectTexture2 ∧
    (chainInit s).itA = 0 ∧ (chainInit s).itB = 0 ∧ (chainInit s).i = 0 ∧ (chainInit s).j = 0 :=
  ⟨rfl, rfl, rfl, rfl, rfl, rfl, rfl, rfl⟩

theorem chainBody_remaining (pp : PostProcess) (c : Chain)
    (hA : c.itA ≤ c.scene.gPolygonPostProcesses.length)
    (hB : c.itB ≤ c.scene.gFullScreenPostProcesses.length)
    (hcur : chainCurrent c = some pp)
    (hcond : c.itA ≠ c.scene.gPolygonPostProcesses.length ∨
      c.itB ≠ c.scene.gFullScreenPostProcesses.length) :
    c.remaining = pp :: (chainBody pp c).remaining ∧
    (chainBody pp c).itA ≤ (chainBody pp c).scene.gPolygonPostProcesses.length ∧
    (chainBody pp c).itB ≤ (chainBody pp c).scene.gFullScreenPostProcesses.length := by
  have hit := chainBody_iterators pp c
  have hg := globals_chainBody pp c
  unfold Chain.remaining
  rw [hg.polygon, hg.fullScreen, hit.1, hit.2]
  unfold chainCurrent at hcur
  by_cases h1 : c.itA ≠ c.scene.gPolygonPostProcesses.length
  · rw [if_pos h1] at hcur
    simp only [if_pos h1]
    have hlt : c.itA < c.scene.gPolygonPostProcesses.length := by omega
    rw [List.get?_eq_getElem?, List.getElem?_eq_getElem hlt] at hcur
    simp only [Option.some.injEq] at hcur
    refine ⟨?_, by omega, hB⟩
    rw [List.drop_eq_getElem_cons hlt, hcur, List.cons_append]
  · rw [if_neg h1] at hcur
    have h2 : c.itB ≠ c.scene.gFullScreenPostProcesses.length := by
      rcases hcond with h | h
      · exact absurd h h1
      · exact h
    simp only [if_neg h1, if_pos h2]
    have hlt : c.itB < c.scene.gFullScreenPostProcesses.length := by omega
    rw [List.get?_eq_getElem?, List.getElem?_eq_getElem hlt] at hcur
    simp only [Option.some.injEq] at hcur
    have hA' : c.itA = c.scene.gPolygonPostProcesses.length := by
      by_contra hne; exact h1 hne
    refine ⟨?_, hA, by omega⟩
    rw [List.drop_eq_getElem_cons hlt, hcur, hA', List.drop_length, List.nil_append,
      List.nil_append]

theorem chainCurrent_isSome (c : Chain)
    (hA : c.itA ≤ c.scene.gPolygonPostProcesses.length)
    (hB : c.itB ≤ c.scene.gFullScreenPostProcesses.length)
    (hcond : c.itA ≠ c.scene.gPolygonPostProcesses.length ∨
      c.itB ≠ c.scene.gFullScreenPostProcesses.length) :
    ∃ pp, chainCurrent c = some pp := by
  unfold chainCurrent
  by_cases h1 : c.itA ≠ c.scene.gPolygonPostProcesses.length
  · rw [if_pos h1]
    have hlt : c.itA < c.scene.gPolygonPostProcesses.length := by omega
    exact ⟨_, by rw [List.get?_eq_getElem?, List.getElem?_eq_getElem hlt]⟩
  · rw [if_neg h1]
    have h2 : c.itB ≠ c.scene.gFullScreenPostProcesses.length := by
      rcases hcond with h | h
      · exact absurd h h1
      · exact h
    have hlt : c.itB < c.scene.gFullScreenPostProcesses.length := by omega
    exact ⟨_, by rw [List.get?_eq_getElem?, List.getElem?_eq_getElem hlt]⟩

/-- The loop applies exactly the remaining entries, in order, and needs as
many passes as there are remaining entries. -/
theorem chainLoop_spec (fuel : Nat) (c : Chain)
    (hA : c.itA ≤ c.scene.gPolygonPostProcesses.length)
    (hB : c.itB ≤ c.scene.gFullScreenPostProcesses.length) :
    (c.remaining.length ≤ fuel →
      chainLoop fuel c = some (chainPasses c.remaining c, c.remaining)) ∧
    (fuel < c.remaining.length → chainLoop fuel c = none) := by
  induction fuel generalizing c with
  | zero =>
    by_cases hcond : c.itA ≠ c.scene.gPolygonPostProcesses.length ∨
        c.itB ≠ c.scene.gFullScreenPostProcesses.length
    · obtain ⟨pp, hpp⟩ := chainCurrent_isSome c hA hB hcond
      have hrem := (chainBody_remaining pp c hA hB hpp hcond).1
      refine ⟨?_, ?_⟩
      · intro h; rw [hrem] at h; simp at h
      · intro _; simp only [chainLoop, if_pos hcond]
    · have hA' : c.itA = c.scene.gPolygonPostProcesses.length := by
        by_contra h; exact hcond (Or.inl h)
      have hB' : c.itB = c.scene.gFullScreenPostProcesses.length := by
        by_contra h; exact hcond (Or.inr h)
      have hrem : c.remaining = [] := by
        unfold Chain.remaining; rw [hA', hB']; simp
      refine ⟨?_, ?_⟩
      · intro _; simp only [chainLoop, if_neg hcond, hrem, chainPasses, List.foldl_nil]
      · intro h; rw [hrem] at h; simp at h
  | succ fuel ih =>
    by_cases hcond : c.itA ≠ c.scene.gPolygonPostProcesses.length ∨
        c.itB ≠ c.scene.gFullScreenPostProcesses.length
    · obtain ⟨pp, hpp⟩ := chainCurrent_isSome c hA hB hcond
      obtain ⟨hrem, hA2, hB2⟩ := chainBody_remaining pp c hA hB hpp hcond
      obtain ⟨ih1, ih2⟩ := ih (chainBody pp c) hA2 hB2
      refine ⟨?_, ?_⟩
      · intro h
        rw [hrem, List.length_cons] at h
        simp only [chainLoop, if_pos hcond, hpp, ih1 (by omega)]
        rw [hrem]; rfl
      · intro h
        rw [hrem, List.length_cons] at h
        simp only [chainLoop, if_pos hcond, hpp, ih2 (by omega)]
    · have hA' : c.itA = c.scene.gPolygonPostProcesses.length := by
        by_contra h; exact hcond (Or.inl h)
      have hB' : c.itB = c.scene.gFullScreenPostProcesses.length := by
        by_contra h; exact hcond (Or.inr h)
      have hrem : c.remaining = [] := by
        unfold Chain.remaining; rw [hA', hB']; simp
      refine ⟨?_, ?_⟩
      · intro _; simp only [chainLoop, if_neg hcond, hrem, chainPasses, List.foldl_nil]
      · intro h; rw [hrem] at h; simp at h

/-- The scene at the start of the loop: the three initial copies drawn from
the state of the initial assignments. -/
theorem chainInit_scene (s : Scene) :
    (chainInit s).scene
      = (if (FullScreenPostProcess Copy
              (FullScreenPostProcess Copy gSceneTexture gSceneTexture2 gNoBlendingState
                (chainStart s)).gCurrentNormalDepthTextureSRV
              gNormalDepthTexture2 gNoBlendingState
              (FullScreenPostProcess Copy gSceneTexture gSceneTexture2 gNoBlendingState
                (chainStart s))).gFocusedObject > 0 then
           FullScreenPostProcess Copy
             (FullScreenPostProcess Copy
               (FullScreenPostProcess Copy gSceneTexture gSceneTexture2 gNoBlendingState
                 (chainStart s)).gCurrentNormalDepthTextureSRV
               gNormalDepthTexture2 gNoBlendingState
               (FullScreenPostProcess Copy gSceneTexture gSceneTexture2 gNoBlendingState
                 (chainStart s))).gCurrentFocusedObjectTextureSRV
             gFocusedObjectTexture2 gNoBlendingState
             (FullScreenPostProcess Copy
               (FullScreenPostProcess Copy gSceneTexture gSceneTexture2 gNoBlendingState
                 (chainStart s)).gCurrentNormalDepthTextureSRV
               gNormalDepthTexture2 gNoBlendingState
               (FullScreenPostProcess Copy gSceneTexture gSceneTexture2 gNoBlendingState
                 (chainStart s)))
         else
           FullScreenPostProcess Copy
             (FullScreenPostProcess Copy gSceneTexture gSceneTexture2 gNoBlendingState
               (chainStart s)).gCurrentNormalDepthTextureSRV
             gNormalDepthTexture2 gNoBlendingState
             (FullScreenPostProcess Copy gSceneTexture gSceneTexture2 gNoBlendingState
               (chainStart s))) := rfl

theorem frame_chainInit (s : Scene) : Frame (chainStart s) (chainInit s).scene := by
  rw [chainInit_scene]
  split
  · exact ((frame_FullScreenPostProcess _ _ _ _ _).comp
      (frame_FullScreenPostProcess _ _ _ _ _)).comp (frame_FullScreenPostProcess _ _ _ _ _)
  · exact (frame_FullScreenPostProcess _ _ _ _ _).comp (frame_FullScreenPostProcess _ _ _ _ _)

theorem chainInit_globals (s : Scene) :
    (chainInit s).scene.gPolygonPostProcesses = s.gPolygonPostProcesses ∧
    (chainInit s).scene.gFullScreenPostProcesses = s.gFullScreenPostProcesses ∧
    (chainInit s).scene.gFocusedObject = s.gFocusedObject ∧
    (chainInit s).scene.gCopyAlpha = s.gCopyAlpha ∧
    (chainInit s).scene.gTempDiagonalBlurs = s.gTempDiagonalBlurs ∧
    (chainInit s).scene.gPostProcessingConstants.copyAlpha = 1 ∧
    (chainInit s).scene.gCurrentNormalDepthTextureSRV = gNormalDepthTexture ∧
    (chainInit s).scene.gCurrentFocusedObjectTextureSRV = gFocusedObjectTexture := by
  have h := frame_chainInit s
  exact ⟨h.polygon, h.fullScreen, h.focused, h.alpha, h.blurs, h.copyAlpha, h.normalDepth,
    h.focusedObject⟩

theorem chainInv_chainInit (s : Scene) : ChainInv (chainInit s) := by
  have h := chainInit_globals s
  refine ⟨rfl, ?_, ?_⟩
  · rw [h.2.2.2.2.2.2.1]; rfl
  · rw [h.2.2.2.2.2.2.2]
    have hj : ¬ ((chainInit s).scene.gFocusedObject ≠ 0 ∧ (chainInit s).j % 2 = 1) := by
      intro hc
      have h0 : (chainInit s).j = 0 := rfl
      rw [h0] at hc
      exact absurd hc.2 (by decide)
    rw [if_neg hj]; rfl

theorem chainInit_remaining (s : Scene) :
    (chainInit s).remaining = s.gPolygonPostProcesses ++ s.gFullScreenPostProcesses := by
  have h := chainInit_globals s
  unfold Chain.remaining
  rw [h.1, h.2.1]
  rfl

theorem chainPasses_append (l₁ l₂ : List PostProcess) (c : Chain) :
    chainPasses (l₁ ++ l₂) c = chainPasses l₂ (chainPasses l₁ c) := by
  unfold chainPasses; rw [List.foldl_append]

theorem chainPasses_cons (pp : PostProcess) (l : List PostProcess) (c : Chain) :
    chainPasses (pp :: l) c = chainPasses l (chainBody pp c) := rfl

theorem chainPasses_i (l : List PostProcess) (c : Chain) :
    (chainPasses l c).i = c.i + l.length := by
  induction l generalizing c with
  | nil => rfl
  | cons pp l ih =>
    rw [chainPasses_cons, ih, (chainBody_counters pp c).1, List.length_cons]; omega

theorem chainInv_chainPasses (l : List PostProcess) (c : Chain) (h : ChainInv c) :
    ChainInv (chainPasses l c) := by
  induction l generalizing c with
  | nil => exact h
  | cons pp l ih => rw [chainPasses_cons]; exact ih _ (chainInv_chainBody pp c h)

theorem globals_chainPasses (l : List PostProcess) (c : Chain) :
    Globals c.scene (chainPasses l c).scene := by
  induction l generalizing c with
  | nil => exact Globals.self _
  | cons pp l ih => rw [chainPasses_cons]; exact (globals_chainBody pp c).step (ih _)

/-- The loop started by `chainInit` with enough fuel ends in the state reached
by the passes for the polygon list followed by the full-screen list. -/
theorem chainLoop_chainInit (s : Scene) (k : Nat) :
    chainLoop (s.gPolygonPostProcesses.length + s.gFullScreenPostProcesses.length + k)
        (chainInit s)
      = some (chainPasses (s.gPolygonPostProcesses ++ s.gFullScreenPostProcesses) (chainInit s),
          s.gPolygonPostProcesses ++ s.gFullScreenPostProcesses) := by
  have h := (chainLoop_spec
    (s.gPolygonPostProcesses.length + s.gFullScreenPostProcesses.length + k) (chainInit s)
    (Nat.zero_le _) (Nat.zero_le _)).1
  rw [chainInit_remaining] at h
  exact h (by rw [List.length_append]; omega)

theorem ColourPair.colour_ne {a b : Texture} (h : ColourPair a b) : a ≠ b := by
  rcases h with ⟨h1, h2⟩ | ⟨h1, h2⟩ <;> rw [h1, h2] <;> decide

theorem NormalDepthPair.normalDepth_ne {a b : Texture} (h : NormalDepthPair a b) : a ≠ b := by
  rcases h with ⟨h1, h2⟩ | ⟨h1, h2⟩ <;> rw [h1, h2] <;> decide

theorem FocusedObjectPair.focusedObject_ne {a b : Texture} (h : FocusedObjectPair a b) : a ≠ b := by
  rcases h with ⟨h1, h2⟩ | ⟨h1, h2⟩ <;> rw [h1, h2] <;> decide

theorem ScratchDraw.scratch_ne {srv : Texture} {d : DrawCall} (h : ScratchDraw srv d)
    (hs : srv ≠ gTempTexture2) : d.srv ≠ d.renderTarget := by
  rcases h.2 with ⟨h1, h2 | h2⟩ | ⟨h1, h2⟩
  · rw [h1, h2]; exact hs
  · rw [h1, h2]; decide
  · rw [h1, h2]; decide

theorem ScratchDraw.scratch_target {srv : Texture} {d : DrawCall} (h : ScratchDraw srv d) :
    d.renderTarget = gTempTexture ∨ d.renderTarget = gTempTexture2 := by
  rcases h.2 with ⟨h1, -⟩ | ⟨h1, -⟩
  · exact Or.inr h1
  · exact Or.inl h1

theorem ColourDraw.colour_target {d : DrawCall} (h : ColourDraw d) :
    d.renderTarget = gSceneTexture ∨ d.renderTarget = gSceneTexture2 ∨
      d.renderTarget = gTempTexture ∨ d.renderTarget = gTempTexture2 := by
  rcases h.2 with h | h | h
  · rcases h with ⟨-, h⟩ | ⟨-, h⟩
    · exact Or.inr (Or.inl h)
    · exact Or.inl h
  · exact Or.inr (Or.inr h.scratch_target)
  · exact Or.inr (Or.inr h.scratch_target)

theorem AuxiliaryDraw.auxiliary_target {d : DrawCall} (h : AuxiliaryDraw d) :
    d.renderTarget = gNormalDepthTexture ∨ d.renderTarget = gNormalDepthTexture2 ∨
      d.renderTarget = gFocusedObjectTexture ∨ d.renderTarget = gFocusedObjectTexture2 := by
  rcases h.2 with h | h
  · rcases h with ⟨-, h⟩ | ⟨-, h⟩
    · exact Or.inr (Or.inl h)
    · exact Or.inl h
  · rcases h with ⟨-, h⟩ | ⟨-, h⟩
    · exact Or.inr (Or.inr (Or.inr h))
    · exact Or.inr (Or.inr (Or.inl h))

theorem RingDraw.ring_ne {d : DrawCall} (h : RingDraw d) : d.srv ≠ d.renderTarget := by
  rcases h with h | h
  · rcases h.2 with h | h | h
    · exact h.colour_ne
    · exact h.scratch_ne (by decide)
    · exact h.scratch_ne (by decide)
  · rcases h.2 with h | h
    · exact h.normalDepth_ne
    · exact h.focusedObject_ne

theorem RingDraw.not_backBuffer {d : DrawCall} (h : RingDraw d) :
    d.renderTarget ≠ gBackBuffer := by
  rcases h with h | h
  · rcases h.colour_target with h | h | h | h <;> rw [h] <;> decide
  · rcases h.auxiliary_target with h | h | h | h <;> rw [h] <;> decide

theorem RingDraw.vertexCount {d : DrawCall} (h : RingDraw d) : d.vertexCount = 4 := by
  rcases h with h | h
  · exact h.1
  · exact h.1

theorem issues_chainBody (pp : PostProcess) (c : Chain) (h : ChainInv c) :
    Issues RingDraw c.scene (chainBody pp c).scene := by
  rw [chainBody_eq, (chainAdvance_fields _).1]
  obtain ⟨h1, -⟩ := issues_chainColour pp c h.colourPair
  have h1' : Issues RingDraw c.scene (chainColour pp c).scene := h1.mono (fun d hd => Or.inl hd)
  by_cases hd : distorts pp.Type_ = true
  · simp only [if_pos hd]
    have hc := chainColour_fields pp c
    have hfr := frame_chainColour pp c
    have hn : NormalDepthPair (chainColour pp c).scene.gCurrentNormalDepthTextureSRV
        (chainColour pp c).ndRenderTarget := by
      rw [hfr.normalDepth, hc.2.2.2.2.1]; exact h.normalDepthPair
    have hf : FocusedObjectPair (chainColour pp c).scene.gCurrentFocusedObjectTextureSRV
        (chainColour pp c).foRenderTarget := by
      rw [hfr.focusedObject, hc.2.2.2.2.2.1]; exact h.focusedObjectPair
    exact h1'.append ((issues_chainAuxiliary pp (chainColour pp c) hd hn hf).mono
      (fun d hd => Or.inr hd))
  · simp only [if_neg hd]
    exact h1'

theorem issues_chainPasses (l : List PostProcess) (c : Chain) (h : ChainInv c) :
    Issues RingDraw c.scene (chainPasses l c).scene := by
  induction l generalizing c with
  | nil => exact Issues.nothing _ _
  | cons pp l ih =>
    rw [chainPasses_cons]
    exact (issues_chainBody pp c h).append (ih _ (chainInv_chainBody pp c h))

theorem issues_chainInit (s : Scene) : Issues RingDraw s (chainInit s).scene := by
  have hnd : NormalDepthPair gNormalDepthTexture gNormalDepthTexture2 := Or.inl ⟨rfl, rfl⟩
  have hfo : FocusedObjectPair gFocusedObjectTexture gFocusedObjectTexture2 := Or.inl ⟨rfl, rfl⟩
  have h1 : Issues RingDraw s
      (FullScreenPostProcess Copy gSceneTexture gSceneTexture2 gNoBlendingState (chainStart s)) := by
    obtain ⟨ds, hds, hQ⟩ := issues_FullScreenPostProcess Copy gSceneTexture gSceneTexture2
      gNoBlendingState (chainStart s)
    refine ⟨ds, hds, fun d hd => Or.inl ⟨(hQ d hd).1, Or.inl (Or.inl ?_)⟩⟩
    exact ⟨(hQ d hd).2.1, (hQ d hd).2.2⟩
  have h2 : Issues RingDraw
      (FullScreenPostProcess Copy gSceneTexture gSceneTexture2 gNoBlendingState (chainStart s))
      (FullScreenPostProcess Copy
        (FullScreenPostProcess Copy gSceneTexture gSceneTexture2 gNoBlendingState
          (chainStart s)).gCurrentNormalDepthTextureSRV
        gNormalDepthTexture2 gNoBlendingState
        (FullScreenPostProcess Copy gSceneTexture gSceneTexture2 gNoBlendingState
          (chainStart s))) := by
    refine (issues_FullScreenPostProcess _ _ _ _ _).mono ?_
    intro d hd
    refine Or.inr ⟨hd.1, Or.inl ?_⟩
    rw [hd.2.1, hd.2.2, (frame_FullScreenPostProcess _ _ _ _ _).normalDepth]
    exact hnd
  rw [chainInit_scene]
  split
  · refine (h1.append h2).append ((issues_FullScreenPostProcess _ _ _ _ _).mono ?_)
    intro d hd
    refine Or.inr ⟨hd.1, Or.inr ?_⟩
    rw [hd.2.1, hd.2.2, (frame_FullScreenPostProcess _ _ _ _ _).focusedObject,
      (frame_FullScreenPostProcess _ _ _ _ _).focusedObject]
    exact hfo
  · exact h1.append h2

/-- The draws of the final composite: one draw from `srv` into the back
buffer. -/
theorem draws_finalComposite (c : Chain) :
    (finalComposite c).draws
      = c.scene.draws ++ [currentDraw (FullScreenSetup Copy c.srv gBackBuffer
          (if c.scene.gCopyAlpha < 1 then gAlphaBlendingState else gNoBlendingState)
          (if c.scene.gCopyAlpha < 1 then
             { c.scene with gPostProcessingConstants :=
                 { c.scene.gPostProcessingConstants with copyAlpha := c.scene.gCopyAlpha } }
           else c.scene))] := by
  unfold finalComposite
  by_cases h : c.scene.gCopyAlpha < 1
  · simp only [if_pos h]
    exact draws_FullScreenPostProcess _ _ _ _ _
  · simp only [if_neg h]
    exact draws_FullScreenPostProcess _ _ _ _ _

/-- With enough fuel `RenderScene` returns the final composite of the state
reached by the passes for the two lists. -/
theorem RenderScene_eq (s : Scene) (k : Nat) :
    RenderScene (s.gPolygonPostProcesses.length + s.gFullScreenPostProcesses.length + k) s
      = some (finalComposite
          (chainPasses (s.gPolygonPostProcesses ++ s.gFullScreenPostProcesses) (chainInit s))) := by
  unfold RenderScene
  rw [chainLoop_chainInit]

theorem fullScreenDraw_currentDraw (t : PostProcessType) (srv rt : Texture) (b : BlendState)
    (s : Scene) :
    FullScreenDraw t srv rt b s.gPostProcessingConstants.copyAlpha
      (currentDraw (FullScreenSetup t srv rt b s)) := by
  have h := currentDraw_FullScreenSetup t srv rt b s
  exact ⟨⟨h.1, h.2.2.1, h.2.1⟩, h.2.2.2.1, h.2.2.2.2.1,
    fun ht => pixelShader_FullScreenSetup t srv rt b s ht, h.2.2.2.2.2.1, h.2.2.2.2.2.2.1,
    h.2.2.2.2.2.2.2.1, h.2.2.2.2.2.2.2.2⟩

theorem issues_FullScreenPostProcess_full (t : PostProcessType) (srv rt : Texture)
    (b : BlendState) (s : Scene) :
    Issues (FullScreenDraw t srv rt b s.gPostProcessingConstants.copyAlpha) s
      (FullScreenPostProcess t srv rt b s) :=
  issues_Draw (draws_FullScreenSetup t srv rt b s) (fullScreenDraw_currentDraw t srv rt b s)

/-- The initial copies: opaque Copy passes with `copyAlpha = 1`. -/
theorem issues_chainInit_copies (s : Scene) :
    Issues (fun d => d.pixelShader = Copy ∧ d.blendState = gNoBlendingState ∧
      d.constants.copyAlpha = 1) s (chainInit s).scene := by
  have hne : Copy ≠ None := by decide
  have h1 : Issues (fun d => d.pixelShader = Copy ∧ d.blendState = gNoBlendingState ∧
      d.constants.copyAlpha = 1) s
      (FullScreenPostProcess Copy gSceneTexture gSceneTexture2 gNoBlendingState (chainStart s)) := by
    obtain ⟨ds, hds, hQ⟩ := issues_FullScreenPostProcess_full Copy gSceneTexture gSceneTexture2
      gNoBlendingState (chainStart s)
    exact ⟨ds, hds, fun d hd => ⟨(hQ d hd).2.2.2.1 hne, (hQ d hd).2.1, (hQ d hd).2.2.2.2.1⟩⟩
  have h2 : Issues (fun d => d.pixelShader = Copy ∧ d.blendState = gNoBlendingState ∧
      d.constants.copyAlpha = 1)
      (FullScreenPostProcess Copy gSceneTexture gSceneTexture2 gNoBlendingState (chainStart s))
      (FullScreenPostProcess Copy
        (FullScreenPostProcess Copy gSceneTexture gSceneTexture2 gNoBlendingState
          (chainStart s)).gCurrentNormalDepthTextureSRV
        gNormalDepthTexture2 gNoBlendingState
        (FullScreenPostProcess Copy gSceneTexture gSceneTexture2 gNoBlendingState
          (chainStart s))) := by
    refine (issues_FullScreenPostProcess_full _ _ _ _ _).mono ?_
    intro d hd
    refine ⟨hd.2.2.2.1 hne, hd.2.1, ?_⟩
    rw [hd.2.2.2.2.1, (frame_FullScreenPostProcess _ _ _ _ _).copyAlpha]; rfl
  rw [chainInit_scene]
  split
  · refine (h1.append h2).append ((issues_FullScreenPostProcess_full _ _ _ _ _).mono ?_)
    intro d hd
    refine ⟨hd.2.2.2.1 hne, hd.2.1, ?_⟩
    rw [hd.2.2.2.2.1, (frame_FullScreenPostProcess _ _ _ _ _).copyAlpha,
      (frame_FullScreenPostProcess _ _ _ _ _).copyAlpha]; rfl
  · exact h1.append h2

theorem Issues.and {Q R : DrawCall → Prop} {s t : Scene} (h₁ : Issues Q s t)
    (h₂ : Issues R s t) : Issues (fun d => Q d ∧ R d) s t := by
  obtain ⟨ds, hds, hQ⟩ := h₁
  obtain ⟨es, hes, hR⟩ := h₂
  have : ds = es := List.append_cancel_left (hds.symm.trans hes)
  subst this
  exact ⟨ds, hds, fun d hd => ⟨hQ d hd, hR d hd⟩⟩

/-- The final composite draw: a full-screen Copy from `srv` into the back
buffer, alpha blended with `copyAlpha = gCopyAlpha` when `gCopyAlpha < 1`. -/
theorem finalComposite_draw (c : Chain) :
    ∃ d : DrawCall, (finalComposite c).draws = c.scene.draws ++ [d] ∧
      FullScreenDraw Copy c.srv gBackBuffer
        (if c.scene.gCopyAlpha < 1 then gAlphaBlendingState else gNoBlendingState)
        (if c.scene.gCopyAlpha < 1 then c.scene.gCopyAlpha
         else c.scene.gPostProcessingConstants.copyAlpha) d := by
  refine ⟨_, draws_finalComposite c, ?_⟩
  by_cases h : c.scene.gCopyAlpha < 1
  · simp only [if_pos h]
    exact fullScreenDraw_currentDraw Copy c.srv gBackBuffer gAlphaBlendingState
      { c.scene with gPostProcessingConstants :=
          { c.scene.gPostProcessingConstants with copyAlpha := c.scene.gCopyAlpha } }
  · simp only [if_neg h]
    exact fullScreenDraw_currentDraw Copy c.srv gBackBuffer gNoBlendingState c.scene

/-- C5: in every draw of a frame's effect chain, the final composite included,
the source texture in slot 0 and the render target are different textures;
and in the state after any number of loop passes the current read view and
write target of the colour pair, of the normal/depth pair and of the
focused-object pair are the two distinct buffers of their pair, also after
the colour part of a pass. -/
theorem C5_source_and_target_differ (s : Scene) (k : Nat) :
    (∃ (t : Scene) (ds : List DrawCall),
      RenderScene (s.gPolygonPostProcesses.length + s.gFullScreenPostProcesses.length + k) s
        = some t ∧
      t.draws = s.draws ++ ds ∧ ∀ d ∈ ds, d.srv ≠ d.renderTarget) ∧
    (∀ (l : List PostProcess),
      ColourPair (chainPasses l (chainInit s)).srv (chainPasses l (chainInit s)).renderTarget ∧
      (chainPasses l (chainInit s)).srv ≠ (chainPasses l (chainInit s)).renderTarget ∧
      NormalDepthPair (chainPasses l (chainInit s)).scene.gCurrentNormalDepthTextureSRV
        (chainPasses l (chainInit s)).ndRenderTarget ∧
      (chainPasses l (chainInit s)).scene.gCurrentNormalDepthTextureSRV
        ≠ (chainPasses l (chainInit s)).ndRenderTarget ∧
      FocusedObjectPair (chainPasses l (chainInit s)).scene.gCurrentFocusedObjectTextureSRV
        (chainPasses l (chainInit s)).foRenderTarget ∧
      (chainPasses l (chainInit s)).scene.gCurrentFocusedObjectTextureSRV
        ≠ (chainPasses l (chainInit s)).foRenderTarget) ∧
    (∀ (l : List PostProcess) (pp : PostProcess),
      ColourPair (chainColour pp (chainPasses l (chainInit s))).srv
        (chainColour pp (chainPasses l (chainInit s))).renderTarget) := by
  refine ⟨?_, ?_, ?_⟩
  · have hinv := chainInv_chainPasses (s.gPolygonPostProcesses ++ s.gFullScreenPostProcesses)
      (chainInit s) (chainInv_chainInit s)
    obtain ⟨ds, hds, hQ⟩ := (issues_chainInit s).append
      (issues_chainPasses (s.gPolygonPostProcesses ++ s.gFullScreenPostProcesses)
        (chainInit s) (chainInv_chainInit s))
    obtain ⟨d, hd, hfd⟩ := finalComposite_draw
      (chainPasses (s.gPolygonPostProcesses ++ s.gFullScreenPostProcesses) (chainInit s))
    refine ⟨_, ds ++ [d], RenderScene_eq s k, by rw [hd, hds, List.append_assoc], ?_⟩
    intro e he
    rcases List.mem_append.mp he with h | h
    · exact (hQ e h).ring_ne
    · rw [List.mem_singleton] at h
      rw [h, hfd.1.2.1, hfd.1.2.2]
      rcases hinv.colourPair with ⟨h1, -⟩ | ⟨h1, -⟩ <;> rw [h1] <;> decide
  · intro l
    have hinv := chainInv_chainPasses l (chainInit s) (chainInv_chainInit s)
    exact ⟨hinv.colourPair, hinv.colourPair.colour_ne, hinv.normalDepthPair, hinv.normalDepthPair.normalDepth_ne,
      hinv.focusedObjectPair, hinv.focusedObjectPair.focusedObject_ne⟩
  · intro l pp
    have hinv := chainInv_chainPasses l (chainInit s) (chainInv_chainInit s)
    exact (issues_chainColour pp _ hinv.colourPair).2

theorem chainPasses_parity (l : List PostProcess) (c : Chain) (h : ChainInv c) :
    (chainPasses l c).srv
      = (if (c.i + l.length) % 2 = 0 then gSceneTexture else gSceneTexture2) := by
  have hinv := (chainInv_chainPasses l c h).colour
  rw [chainPasses_i] at hinv
  by_cases hp : (c.i + l.length) % 2 = 0
  · simp only [hp, if_true, Prod.mk.injEq] at hinv ⊢; exact hinv.1
  · simp only [hp, if_false, Prod.mk.injEq] at hinv ⊢; exact hinv.1

/-- The destination given to a pass is the source after it. -/
theorem chainBody_srv (pp : PostProcess) (c : Chain) (h : ChainInv c) :
    (chainBody pp c).srv = c.renderTarget := by
  have hk := chainBody_counters pp c
  have hc := h.colour
  rw [hk.2.2.1]
  by_cases hi : c.i % 2 = 0
  · simp only [hi, if_true, Prod.mk.injEq] at hc ⊢; exact hc.2.symm
  · simp only [hi, if_false, Prod.mk.injEq] at hc ⊢; exact hc.2.symm

/-- C8: when both effect lists are empty the chain is an identity copy.  Every
draw of the frame uses the Copy shader; the draws before the last one do not
target the back buffer; the last draw is a four-vertex full-screen Copy into
the back buffer whose source is `gSceneTexture`, the texture the main scene
was rendered into; and with `gCopyAlpha = 1` it is drawn without blending and
with `copyAlpha = 1`. -/
theorem C8_empty_lists_identity_copy (s : Scene) (k : Nat)
    (hA : s.gPolygonPostProcesses = []) (hB : s.gFullScreenPostProcesses = []) :
    ∃ (t : Scene) (ds : List DrawCall) (d : DrawCall),
      RenderScene k s = some t ∧ t.draws = s.draws ++ ds ++ [d] ∧
      (∀ e ∈ ds, e.renderTarget ≠ gBackBuffer ∧ e.pixelShader = Copy) ∧
      d.renderTarget = gBackBuffer ∧ d.pixelShader = Copy ∧ d.srv = gSceneTexture ∧
      d.vertexCount = 4 ∧ d.vertexShader = g2DQuadVertexShader ∧
      d.constants.area2DTopLeft = { x := 0, y := 0 } ∧
      d.constants.area2DSize = { x := 1, y := 1 } ∧ d.constants.area2DDepth = 0 ∧
      (s.gCopyAlpha = 1 → d.blendState = gNoBlendingState ∧ d.constants.copyAlpha = 1) := by
  have hrun := RenderScene_eq s k
  rw [hA, hB] at hrun
  simp only [List.length_nil, Nat.zero_add, List.append_nil] at hrun
  have hpass : chainPasses [] (chainInit s) = chainInit s := rfl
  rw [hpass] at hrun
  obtain ⟨ds, hds, hQ⟩ := (issues_chainInit s).and (issues_chainInit_copies s)
  obtain ⟨d, hd, hfd⟩ := finalComposite_draw (chainInit s)
  have hg := chainInit_globals s
  refine ⟨_, ds, d, hrun, by rw [hd, hds], ?_, hfd.1.2.2, hfd.2.2.2.1 (by decide), hfd.1.2.1,
    hfd.1.1, hfd.2.2.1, hfd.2.2.2.2.2.1, hfd.2.2.2.2.2.2.1, hfd.2.2.2.2.2.2.2, ?_⟩
  · intro e he
    exact ⟨(hQ e he).1.not_backBuffer, (hQ e he).2.1⟩
  · intro h1
    have hlt : ¬ (chainInit s).scene.gCopyAlpha < 1 := by
      rw [hg.2.2.2.1, h1]; exact lt_irrefl 1
    have hb := hfd.2.1
    have ha := hfd.2.2.2.2.1
    rw [if_neg hlt] at hb ha
    exact ⟨hb, ha.trans hg.2.2.2.2.2.1⟩

/-- The statement about empty effect lists holds at `sampleScene`, whose lists
are empty. -/
theorem C8_empty_lists_identity_copy_witness :
    ∃ (t : Scene) (ds : List DrawCall) (d : DrawCall),
      RenderScene 0 sampleScene = some t ∧ t.draws = sampleScene.draws ++ ds ++ [d] ∧
      (∀ e ∈ ds, e.renderTarget ≠ gBackBuffer ∧ e.pixelShader = Copy) ∧
      d.renderTarget = gBackBuffer ∧ d.pixelShader = Copy ∧ d.srv = gSceneTexture ∧
      d.vertexCount = 4 ∧ d.vertexShader = g2DQuadVertexShader ∧
      d.constants.area2DTopLeft = { x := 0, y := 0 } ∧
      d.constants.area2DSize = { x := 1, y := 1 } ∧ d.constants.area2DDepth = 0 ∧
      (sampleScene.gCopyAlpha = 1 → d.blendState = gNoBlendingState ∧ d.constants.copyAlpha = 1) :=
  C8_empty_lists_identity_copy sampleScene 0 rfl rfl

/-- C9: the final composite is the one draw of the frame into the back
buffer: a four-vertex full-screen Copy whose source is the `srv` left by the
loop, which is `gSceneTexture` when the number of passes is even and
`gSceneTexture2` when it is odd, and is the buffer that the last pass was
given as destination; it is drawn with alpha blending and
`copyAlpha = gCopyAlpha` when `gCopyAlpha < 1`, and with no blending (and the
`copyAlpha = 1` set at the start of the chain) otherwise. -/
theorem C9_final_composite (s : Scene) (k : Nat) :
    ∃ (t : Scene) (ds : List DrawCall) (d : DrawCall),
      RenderScene (s.gPolygonPostProcesses.length + s.gFullScreenPostProcesses.length + k) s
        = some t ∧
      t.draws = s.draws ++ ds ++ [d] ∧
      (∀ e ∈ ds, e.renderTarget ≠ gBackBuffer) ∧
      d.renderTarget = gBackBuffer ∧ d.pixelShader = Copy ∧ d.vertexCount = 4 ∧
      d.vertexShader = g2DQuadVertexShader ∧
      d.constants.area2DTopLeft = { x := 0, y := 0 } ∧
      d.constants.area2DSize = { x := 1, y := 1 } ∧ d.constants.area2DDepth = 0 ∧
      d.srv = (if (s.gPolygonPostProcesses.length + s.gFullScreenPostProcesses.length) % 2 = 0
               then gSceneTexture else gSceneTexture2) ∧
      (∀ (l : List PostProcess) (pp : PostProcess),
        s.gPolygonPostProcesses ++ s.gFullScreenPostProcesses = l ++ [pp] →
          d.srv = (chainPasses l (chainInit s)).renderTarget) ∧
      (s.gCopyAlpha < 1 →
        d.blendState = gAlphaBlendingState ∧ d.constants.copyAlpha = s.gCopyAlpha) ∧
      (¬ s.gCopyAlpha < 1 → d.blendState = gNoBlendingState ∧ d.constants.copyAlpha = 1) := by
  have hinit := chainInv_chainInit s
  obtain ⟨ds, hds, hQ⟩ := (issues_chainInit s).append
    (issues_chainPasses (s.gPolygonPostProcesses ++ s.gFullScreenPostProcesses)
      (chainInit s) hinit)
  obtain ⟨d, hd, hfd⟩ := finalComposite_draw
    (chainPasses (s.gPolygonPostProcesses ++ s.gFullScreenPostProcesses) (chainInit s))
  have hg := chainInit_globals s
  have hgp := globals_chainPasses (s.gPolygonPostProcesses ++ s.gFullScreenPostProcesses)
    (chainInit s)
  have halpha : (chainPasses (s.gPolygonPostProcesses ++ s.gFullScreenPostProcesses)
      (chainInit s)).scene.gCopyAlpha = s.gCopyAlpha := hgp.alpha.trans hg.2.2.2.1
  have hconst : (chainPasses (s.gPolygonPostProcesses ++ s.gFullScreenPostProcesses)
      (chainInit s)).scene.gPostProcessingConstants.copyAlpha = 1 :=
    hgp.copyAlpha.trans hg.2.2.2.2.2.1
  refine ⟨_, ds, d, RenderScene_eq s k, by rw [hd, hds], fun e he => (hQ e he).not_backBuffer,
    hfd.1.2.2, hfd.2.2.2.1 (by decide), hfd.1.1, hfd.2.2.1, hfd.2.2.2.2.2.1,
    hfd.2.2.2.2.2.2.1, hfd.2.2.2.2.2.2.2, ?_, ?_, ?_, ?_⟩
  · rw [hfd.1.2.1, chainPasses_parity _ _ hinit, List.length_append]
    show (if (0 + _) % 2 = 0 then _ else _) = _
    simp only [Nat.zero_add]
  · intro l pp hl
    rw [hfd.1.2.1, hl, chainPasses_append]
    exact chainBody_srv pp _ (chainInv_chainPasses l (chainInit s) hinit)
  · intro hlt
    have hb := hfd.2.1
    have ha := hfd.2.2.2.2.1
    rw [halpha, if_pos hlt] at hb ha
    exact ⟨hb, ha⟩
  · intro hlt
    have hb := hfd.2.1
    have ha := hfd.2.2.2.2.1
    rw [halpha, if_neg hlt] at hb ha
    exact ⟨hb, ha.trans hconst⟩

theorem distorts_iff (t : PostProcessType) :
    distorts t = true ↔
      t ∈ [Retro, Spiral, Underwater, BlurX, BlurY, PostProcessType.Dilation, FrostedGlass] := by
  cases t <;> simp [distorts]

/-- The auxiliary re-application of a distorting effect, written out: the
effect is applied from the current normal/depth view to its write target and
then, when an object is focused, from the current focused-object view to its
write target. -/
theorem auxiliaryApply_chainColour (pp : PostProcess) (c : Chain) :
    auxiliaryApply pp (chainColour pp c)
      = (if c.scene.gFocusedObject ≠ 0 then
           ApplyPostProcess pp c.scene.gCurrentFocusedObjectTextureSRV c.foRenderTarget
             (ApplyPostProcess pp c.scene.gCurrentNormalDepthTextureSRV c.ndRenderTarget
               (chainColour pp c).scene)
         else
           ApplyPostProcess pp c.scene.gCurrentNormalDepthTextureSRV c.ndRenderTarget
             (chainColour pp c).scene) := by
  have hc := chainColour_fields pp c
  have hfr := frame_chainColour pp c
  have hfa := frame_ApplyPostProcess pp (chainColour pp c).scene.gCurrentNormalDepthTextureSRV
    (chainColour pp c).ndRenderTarget (chainColour pp c).scene
  unfold auxiliaryApply
  dsimp only
  rw [hfa.focused, hfa.focusedObject, hfr.focused, hfr.focusedObject, hfr.normalDepth,
    hc.2.2.2.2.1, hc.2.2.2.2.2.1]

/-- The log after a pass for a distorting effect: the log after the
re-application, followed by the draws of the copy for `j = 0`. -/
theorem draws_chainBody_distorting (pp : PostProcess) (c : Chain)
    (hd : distorts pp.Type_ = true) :
    ∃ rest : List DrawCall,
      (chainBody pp c).scene.draws = (auxiliaryApply pp (chainColour pp c)).draws ++ rest := by
  rw [chainBody_eq, (chainAdvance_fields _).1, if_pos hd]
  have hsw := auxiliarySwitch_fields
    { chainColour pp c with scene := auxiliaryApply pp (chainColour pp c) }
  have hcopy := frame_auxiliaryCopy pp
    (auxiliarySwitch { chainColour pp c with scene := auxiliaryApply pp (chainColour pp c) })
  have hi : Issues (fun _ => True)
      (auxiliarySwitch
        { chainColour pp c with scene := auxiliaryApply pp (chainColour pp c) }).scene
      (auxiliaryCopy pp (auxiliarySwitch
        { chainColour pp c with scene := auxiliaryApply pp (chainColour pp c) })) := by
    unfold auxiliaryCopy
    split
    · dsimp only
      split
      · exact ((issues_FullScreenPostProcess _ _ _ _ _).mono (fun _ _ => trivial)).append
          ((issues_FullScreenPostProcess _ _ _ _ _).mono (fun _ _ => trivial))
      · exact (issues_FullScreenPostProcess _ _ _ _ _).mono (fun _ _ => trivial)
    · exact Issues.nothing _ _
  obtain ⟨rest, hrest, -⟩ := hi
  refine ⟨rest, ?_⟩
  rw [← hsw.2.2.2.2.2.2.1]
  exact hrest

/-- C6: in one loop pass from any state that the chain reaches, the
normal/depth pair is switched (read view and write target exchanged) if and
only if the effect's type is one of Retro, Spiral, Underwater, BlurX, BlurY,
Dilation, FrostedGlass.  For such a type the pass re-applies the effect from
the current normal/depth view to its write target and, when an object is
focused, from the current focused-object view to its write target (the log of
the pass goes through the log of these two applications), and the
focused-object pair is switched exactly when an object is focused.  For every
other type no draw of the pass targets a normal/depth or focused-object
texture, and the read views and write targets of both pairs are unchanged. -/
theorem C6_auxiliary_pairs_follow_distortion (s : Scene) (l : List PostProcess)
    (pp : PostProcess) :
    ((((chainBody pp (chainPasses l (chainInit s))).scene.gCurrentNormalDepthTextureSRV,
        (chainBody pp (chainPasses l (chainInit s))).ndRenderTarget)
        = ((chainPasses l (chainInit s)).ndRenderTarget,
            (chainPasses l (chainInit s)).scene.gCurrentNormalDepthTextureSRV)) ↔
      pp.Type_ ∈ [Retro, Spiral, Underwater, BlurX, BlurY, PostProcessType.Dilation,
        FrostedGlass]) ∧
    (pp.Type_ ∈ [Retro, Spiral, Underwater, BlurX, BlurY, PostProcessType.Dilation,
        FrostedGlass] →
      (∃ rest : List DrawCall,
        (chainBody pp (chainPasses l (chainInit s))).scene.draws
          = (if (chainPasses l (chainInit s)).scene.gFocusedObject ≠ 0 then
               ApplyPostProcess pp
                 (chainPasses l (chainInit s)).scene.gCurrentFocusedObjectTextureSRV
                 (chainPasses l (chainInit s)).foRenderTarget
                 (ApplyPostProcess pp
                   (chainPasses l (chainInit s)).scene.gCurrentNormalDepthTextureSRV
                   (chainPasses l (chainInit s)).ndRenderTarget
                   (chainColour pp (chainPasses l (chainInit s))).scene)
             else
               ApplyPostProcess pp
                 (chainPasses l (chainInit s)).scene.gCurrentNormalDepthTextureSRV
                 (chainPasses l (chainInit s)).ndRenderTarget
                 (chainColour pp (chainPasses l (chainInit s))).scene).draws ++ rest) ∧
      (((chainBody pp (chainPasses l (chainInit s))).scene.gCurrentFocusedObjectTextureSRV,
          (chainBody pp (chainPasses l (chainInit s))).foRenderTarget)
        = (if (chainPasses l (chainInit s)).scene.gFocusedObject ≠ 0 then
             ((chainPasses l (chainInit s)).foRenderTarget,
               (chainPasses l (chainInit s)).scene.gCurrentFocusedObjectTextureSRV)
           else
             ((chainPasses l (chainInit s)).scene.gCurrentFocusedObjectTextureSRV,
               (chainPasses l (chainInit s)).foRenderTarget)))) ∧
    (pp.Type_ ∉ [Retro, Spiral, Underwater, BlurX, BlurY, PostProcessType.Dilation,
        FrostedGlass] →
      (∃ ds : List DrawCall,
        (chainBody pp (chainPasses l (chainInit s))).scene.draws
          = (chainPasses l (chainInit s)).scene.draws ++ ds ∧
        ∀ d ∈ ds, d.renderTarget ≠ gNormalDepthTexture ∧ d.renderTarget ≠ gNormalDepthTexture2 ∧
          d.renderTarget ≠ gFocusedObjectTexture ∧ d.renderTarget ≠ gFocusedObjectTexture2) ∧
      (chainBody pp (chainPasses l (chainInit s))).scene.gCurrentNormalDepthTextureSRV
        = (chainPasses l (chainInit s)).scene.gCurrentNormalDepthTextureSRV ∧
      (chainBody pp (chainPasses l (chainInit s))).ndRenderTarget
        = (chainPasses l (chainInit s)).ndRenderTarget ∧
      (chainBody pp (chainPasses l (chainInit s))).scene.gCurrentFocusedObjectTextureSRV
        = (chainPasses l (chainInit s)).scene.gCurrentFocusedObjectTextureSRV ∧
      (chainBody pp (chainPasses l (chainInit s))).foRenderTarget
        = (chainPasses l (chainInit s)).foRenderTarget) := by
  have hinv := chainInv_chainPasses l (chainInit s) (chainInv_chainInit s)
  generalize chainPasses l (chainInit s) = c at hinv ⊢
  have hp := chainBody_pairs pp c
  have hnd := hinv.normalDepth
  have hfo := hinv.focusedObject
  refine ⟨?_, ?_, ?_⟩
  · rw [← distorts_iff, hp.1]
    by_cases hd : distorts pp.Type_ = true
    · rw [if_pos hd]
      refine iff_of_true ?_ hd
      by_cases hj : c.j % 2 = 0
      · rw [if_pos hj] at hnd ⊢
        obtain ⟨h1, h2⟩ := Prod.mk.inj hnd
        rw [h1, h2]
      · rw [if_neg hj] at hnd ⊢
        obtain ⟨h1, h2⟩ := Prod.mk.inj hnd
        rw [h1, h2]
    · rw [if_neg hd]
      refine iff_of_false ?_ hd
      intro hc
      exact hinv.normalDepthPair.normalDepth_ne (Prod.mk.inj hc).1
  · intro hmem
    have hd := (distorts_iff pp.Type_).mpr hmem
    refine ⟨?_, ?_⟩
    · obtain ⟨rest, hrest⟩ := draws_chainBody_distorting pp c hd
      rw [auxiliaryApply_chainColour] at hrest
      exact ⟨rest, hrest⟩
    · rw [hp.2]
      by_cases hz : c.scene.gFocusedObject ≠ 0
      · rw [if_pos ⟨hd, hz⟩, if_pos hz]
        by_cases hj : c.j % 2 = 0
        · have hj1 : ¬ (c.scene.gFocusedObject ≠ 0 ∧ c.j % 2 = 1) := by
            intro h; omega
          rw [if_neg hj1] at hfo
          rw [if_pos hj]
          obtain ⟨h1, h2⟩ := Prod.mk.inj hfo
          rw [h1, h2]
        · have hj1 : c.scene.gFocusedObject ≠ 0 ∧ c.j % 2 = 1 := ⟨hz, by omega⟩
          rw [if_pos hj1] at hfo
          rw [if_neg hj]
          obtain ⟨h1, h2⟩ := Prod.mk.inj hfo
          rw [h1, h2]
      · rw [if_neg (fun h => hz h.2), if_neg hz]
  · intro hmem
    have hd : ¬ distorts pp.Type_ = true := fun h => hmem ((distorts_iff pp.Type_).mp h)
    have h1 := hp.1
    have h2 := hp.2
    rw [if_neg hd] at h1
    rw [if_neg (fun h => hd h.1)] at h2
    refine ⟨?_, (Prod.mk.inj h1).1, (Prod.mk.inj h1).2, (Prod.mk.inj h2).1, (Prod.mk.inj h2).2⟩
    have hscene : (chainBody pp c).scene = (chainColour pp c).scene := by
      rw [chainBody_eq, (chainAdvance_fields _).1, if_neg hd]
    obtain ⟨ds, hds, hQ⟩ := (issues_chainColour pp c hinv.colourPair).1
    refine ⟨ds, by rw [hscene, hds], ?_⟩
    intro d hdd
    rcases (hQ d hdd).colour_target with h | h | h | h <;> rw [h] <;> decide

theorem modeDrawState_eq_none_iff (pp : PostProcess) (srv rt : Texture) (u : Scene) :
    modeDrawState pp srv rt u = none ↔
      (pp.Mode = Polygon ∧ pp.PolyData = none) ∨
        (pp.Mode = Area ∧ areaDistance u u.light0Position < u.gCamera.NearClip) := by
  unfold modeDrawState
  cases hm : pp.Mode with
  | Fullscreen => simp
  | Area =>
    by_cases h : areaDistance u u.light0Position < u.gCamera.NearClip
    · simp [h]
    · simp [h]
  | Polygon =>
    cases hp : pp.PolyData with
    | none => simp
    | some pd => simp

theorem areaDistance_frame {s t : Scene} (h : Frame s t) (w : CVector3) :
    areaDistance t w = areaDistance s w := by
  unfold areaDistance
  rw [h.camera, h.width, h.height]

/-- The effect itself is not drawn exactly when it is skipped. -/
theorem effectDrawState_eq_none_iff (pp : PostProcess) (srv rt : Texture) (s : Scene) :
    effectDrawState pp srv rt s = none ↔ Skipped pp s := by
  unfold effectDrawState Skipped
  by_cases hsel : pp.Type_ = Selection ∧ s.gFocusedObject ≤ 0
  · rw [if_pos hsel]
    exact iff_of_true rfl (Or.inl hsel)
  · rw [if_neg hsel, modeDrawState_eq_none_iff]
    have hfr : Frame s (if pp.Type_ = Bloom then RenderBloomTexture srv s else s) := by
      split
      · exact frame_RenderBloomTexture srv s
      · exact Frame.same s
    rw [hfr.light, areaDistance_frame hfr, hfr.camera]
    constructor
    · intro h; exact Or.inr h
    · intro h
      rcases h with h | h
      · exact absurd h hsel
      · exact h

/-- C10: `ApplyPostProcess` is a total function on the scene state (it cannot
fail), and for a destination that is not one of the two bloom scratch
textures (the callers pass a buffer of the colour, normal/depth or
focused-object pair) it draws nothing into the destination exactly when the
type is Selection and no object is focused, or the mode is Polygon and the
polygon data is absent, or the mode is Area and the projected depth of the
anchor is below the near clip distance; in every other case exactly one draw
goes into the destination, with four vertices and reading `srv`. -/
theorem C10_apply_draws_once_or_skips (pp : PostProcess) (srv rt : Texture) (s : Scene)
    (h1 : rt ≠ gTempTexture) (h2 : rt ≠ gTempTexture2) :
    ∃ ds : List DrawCall,
      (ApplyPostProcess pp srv rt s).draws = s.draws ++ ds ∧
      (ds.filter (fun d => decide (d.renderTarget = rt)) = [] ↔ Skipped pp s) ∧
      (¬ Skipped pp s →
        ∃ d : DrawCall, ds.filter (fun d => decide (d.renderTarget = rt)) = [d] ∧
          d.vertexCount = 4 ∧ d.srv = srv) := by
  obtain ⟨ds, hds, hQ, -⟩ := draws_ApplyPostProcess pp srv rt s
  have hscratch : ds.filter (fun d => decide (d.renderTarget = rt)) = [] := by
    rw [List.filter_eq_nil_iff]
    intro d hd
    have ht := (hQ d hd).1.scratch_target
    simp only [decide_eq_true_eq]
    rcases ht with ht | ht
    · rw [ht]; exact fun h => h1 h.symm
    · rw [ht]; exact fun h => h2 h.symm
  have hdirect := effectDraws_direct pp srv rt s
  have hnone := effectDrawState_eq_none_iff pp srv rt s
  refine ⟨ds ++ effectDraws pp srv rt s, by rw [hds, List.append_assoc], ?_, ?_⟩
  · rw [List.filter_append, hscratch, List.nil_append, ← hnone]
    unfold effectDraws at hdirect ⊢
    cases hst : effectDrawState pp srv rt s with
    | none => simp
    | some t =>
      rw [hst] at hdirect
      have := (hdirect (currentDraw t) (List.mem_singleton.mpr rfl)).2.2
      simp [this]
  · intro hskip
    rw [← hnone] at hskip
    rw [List.filter_append, hscratch, List.nil_append]
    unfold effectDraws at hdirect ⊢
    cases hst : effectDrawState pp srv rt s with
    | none => exact absurd hst hskip
    | some t =>
      rw [hst] at hdirect
      have hd := hdirect (currentDraw t) (List.mem_singleton.mpr rfl)
      refine ⟨currentDraw t, ?_, hd.1, hd.2.1⟩
      simp [hd.2.2]

/-- The statement about the draws of `ApplyPostProcess` at a Bloom effect
applied from `gSceneTexture` to `gSceneTexture2` in `sampleScene`. -/
theorem C10_apply_draws_once_or_skips_witness :
    ∃ ds : List DrawCall,
      (ApplyPostProcess sampleBloom gSceneTexture gSceneTexture2 sampleScene).draws
        = sampleScene.draws ++ ds ∧
      (ds.filter (fun d => decide (d.renderTarget = gSceneTexture2)) = []
        ↔ Skipped sampleBloom sampleScene) ∧
      (¬ Skipped sampleBloom sampleScene →
        ∃ d : DrawCall, ds.filter (fun d => decide (d.renderTarget = gSceneTexture2)) = [d] ∧
          d.vertexCount = 4 ∧ d.srv = gSceneTexture) :=
  C10_apply_draws_once_or_skips sampleBloom gSceneTexture gSceneTexture2 sampleScene
    (by decide) (by decide)

section MemoryLemmas

variable {Pixel Colour : Type}

theorem execDraws_append (G : Gpu Pixel Colour) (ds es : List DrawCall)
    (m : Memory Pixel Colour) :
    G.execDraws (ds ++ es) m = G.execDraws es (G.execDraws ds m) := by
  unfold Gpu.execDraws; rw [List.foldl_append]

theorem memory_of_draws (G : Gpu Pixel Colour) (m0 : Memory Pixel Colour) {s t : Scene}
    {ds : List DrawCall} (h : t.draws = s.draws ++ ds) :
    t.memory G m0 = G.execDraws ds (s.memory G m0) := by
  unfold Scene.memory; rw [h, execDraws_append]

theorem memory_of_draws_eq (G : Gpu Pixel Colour) (m0 : Memory Pixel Colour) {s t : Scene}
    (h : t.draws = s.draws) : t.memory G m0 = s.memory G m0 := by
  unfold Scene.memory; rw [h]

theorem execDraws_unchanged (G : Gpu Pixel Colour) (x : Texture) (ds : List DrawCall)
    (m : Memory Pixel Colour) (h : ∀ d ∈ ds, d.renderTarget ≠ x) :
    G.execDraws ds m x = m x := by
  induction ds generalizing m with
  | nil => rfl
  | cons d ds ih =>
    have hd : d.renderTarget ≠ x := h d (List.mem_cons_self d ds)
    show G.execDraws ds (G.execDraw d m) x = m x
    rw [ih _ (fun e he => h e (List.mem_cons_of_mem d he))]
    unfold Gpu.execDraw
    exact Function.update_noteq (Ne.symm hd) _ _

/-- Draws that do not target a texture leave its contents. -/
theorem memory_unchanged (G : Gpu Pixel Colour) (m0 : Memory Pixel Colour) {Q : DrawCall → Prop}
    {s t : Scene} (h : Issues Q s t) (x : Texture) (hx : ∀ d, Q d → d.renderTarget ≠ x) :
    t.memory G m0 x = s.memory G m0 x := by
  obtain ⟨ds, hds, hQ⟩ := h
  rw [memory_of_draws G m0 hds]
  exact execDraws_unchanged G x ds _ (fun d hd => hx d (hQ d hd))

theorem memory_Draw (G : Gpu Pixel Colour) (m0 : Memory Pixel Colour) (t : Scene) :
    (Draw t).memory G m0 = G.execDraw (currentDraw t) (t.memory G m0) := by
  have h : (Draw t).draws = t.draws ++ [currentDraw t] := rfl
  rw [memory_of_draws G m0 h]
  rfl

/-- The contents of the target after the draw issued in state `t`. -/
theorem memory_Draw_target (G : Gpu Pixel Colour) (m0 : Memory Pixel Colour) (t : Scene) :
    (Draw t).memory G m0 t.context.renderTarget
      = G.paint (currentDraw t) (t.memory G m0) (t.memory G m0 t.context.srv)
          (t.memory G m0 t.context.renderTarget) := by
  rw [memory_Draw]
  unfold Gpu.execDraw
  exact Function.update_same _ _ _

theorem memory_Draw_other (G : Gpu Pixel Colour) (m0 : Memory Pixel Colour) (t : Scene)
    (x : Texture) (hx : x ≠ t.context.renderTarget) :
    (Draw t).memory G m0 x = t.memory G m0 x := by
  rw [memory_Draw]
  unfold Gpu.execDraw
  exact Function.update_noteq hx _ _

/-- An unblended draw with the quad vertex shader and the full-screen scope
replaces the whole target by the shader output. -/
theorem paint_fullScreen (G : Gpu Pixel Colour) (hfull : G.FullScreenCovers) (d : DrawCall)
    (m : Memory Pixel Colour) (src dst : Image Pixel Colour)
    (hv : d.vertexShader = g2DQuadVertexShader) (hb : d.blendState = gNoBlendingState)
    (h1 : d.constants.area2DTopLeft = { x := 0, y := 0 })
    (h2 : d.constants.area2DSize = { x := 1, y := 1 }) (h3 : d.constants.area2DDepth = 0) :
    G.paint d m src dst = G.shaded d m src := by
  funext p
  unfold Gpu.paint Gpu.covers
  rw [hv, hb]
  simp only [hfull d.constants p h1 h2 h3, if_true, Gpu.blend]

/-- The contents of the target after an unblended full-screen pass. -/
theorem memory_FullScreenPostProcess (G : Gpu Pixel Colour) (hfull : G.FullScreenCovers)
    (m0 : Memory Pixel Colour) (t : PostProcessType) (srv rt : Texture) (s : Scene) :
    (FullScreenPostProcess t srv rt gNoBlendingState s).memory G m0 rt
      = effectOutput G m0 (FullScreenSetup t srv rt gNoBlendingState s) (s.memory G m0 srv) := by
  have hd := currentDraw_FullScreenSetup t srv rt gNoBlendingState s
  have hm : (FullScreenSetup t srv rt gNoBlendingState s).memory G m0 = s.memory G m0 :=
    memory_of_draws_eq G m0 (draws_FullScreenSetup t srv rt gNoBlendingState s)
  have hrt : (FullScreenSetup t srv rt gNoBlendingState s).context.renderTarget = rt := hd.2.1
  have hsrv : (FullScreenSetup t srv rt gNoBlendingState s).context.srv = srv := hd.2.2.1
  have h := memory_Draw_target G m0 (FullScreenSetup t srv rt gNoBlendingState s)
  rw [hrt, hsrv, paint_fullScreen G hfull _ _ _ _ hd.2.2.2.2.1 hd.2.2.2.1 hd.2.2.2.2.2.2.1
    hd.2.2.2.2.2.2.2.1 hd.2.2.2.2.2.2.2.2, hm] at h
  rw [show FullScreenPostProcess t srv rt gNoBlendingState s
    = Draw (FullScreenSetup t srv rt gNoBlendingState s) from rfl, h]
  unfold effectOutput Gpu.shaded
  rw [hm]
  rfl

theorem memory_FullScreenPostProcess_other (G : Gpu Pixel Colour) (m0 : Memory Pixel Colour)
    (t : PostProcessType) (srv rt : Texture) (b : BlendState) (s : Scene) (x : Texture)
    (hx : x ≠ rt) :
    (FullScreenPostProcess t srv rt b s).memory G m0 x = s.memory G m0 x :=
  memory_unchanged G m0 (issues_FullScreenPostProcess t srv rt b s) x
    (fun d hd => by rw [hd.2.2]; exact Ne.symm hx)

/-- An opaque full-screen Copy with `copyAlpha = 1` leaves a copy of the
source in the target. -/
theorem memory_copy (G : Gpu Pixel Colour) (hcopy : G.CopyExact) (hfull : G.FullScreenCovers)
    (m0 : Memory Pixel Colour) (srv rt : Texture) (s : Scene)
    (ha : s.gPostProcessingConstants.copyAlpha = 1) :
    (FullScreenPostProcess Copy srv rt gNoBlendingState s).memory G m0 rt = s.memory G m0 srv := by
  rw [memory_FullScreenPostProcess G hfull]
  unfold effectOutput
  have hps : (FullScreenSetup Copy srv rt gNoBlendingState s).context.pixelShader = Copy :=
    pixelShader_FullScreenSetup Copy srv rt gNoBlendingState s (by decide)
  have hal : (FullScreenSetup Copy srv rt gNoBlendingState s).gPostProcessingConstants.copyAlpha
      = 1 := (frame_FullScreenSetup Copy srv rt gNoBlendingState s).copyAlpha.trans ha
  rw [hps]
  exact hcopy _ _ _ hal

end MemoryLemmas

section ApplyMemory

variable {Pixel Colour : Type}

/-- The textures other than the destination and the two bloom scratch
textures keep their contents through `ApplyPostProcess`. -/
theorem memory_ApplyPostProcess_other (G : Gpu Pixel Colour) (m0 : Memory Pixel Colour)
    (pp : PostProcess) (srv rt : Texture) (s : Scene) (x : Texture)
    (h1 : x ≠ rt) (h2 : x ≠ gTempTexture) (h3 : x ≠ gTempTexture2) :
    (ApplyPostProcess pp srv rt s).memory G m0 x = s.memory G m0 x := by
  refine memory_unchanged G m0 (issues_ApplyPostProcess pp srv rt s) x ?_
  intro d hd
  rcases hd with ⟨hd, -⟩ | hd
  · rcases hd.scratch_target with h | h
    · rw [h]; exact Ne.symm h2
    · rw [h]; exact Ne.symm h3
  · rw [hd.2.2]; exact Ne.symm h1

/-- The draw state of the effect sees the memory of `s` outside the bloom
scratch textures. -/
theorem memory_effectDrawState (G : Gpu Pixel Colour) (m0 : Memory Pixel Colour)
    (pp : PostProcess) (srv rt : Texture) (s t : Scene)
    (ht : effectDrawState pp srv rt s = some t) (x : Texture)
    (h2 : x ≠ gTempTexture) (h3 : x ≠ gTempTexture2) :
    t.memory G m0 x = s.memory G m0 x := by
  obtain ⟨ds, -, hQ, hst⟩ := draws_ApplyPostProcess pp srv rt s
  rw [memory_of_draws G m0 (hst t ht)]
  refine execDraws_unchanged G x ds _ ?_
  intro d hd
  rcases (hQ d hd).1.scratch_target with h | h
  · rw [h]; exact Ne.symm h2
  · rw [h]; exact Ne.symm h3

/-- The destination after `ApplyPostProcess` when the effect is drawn in
state `t`: the draw of `t` painted over the old destination. -/
theorem memory_ApplyPostProcess_target (G : Gpu Pixel Colour) (m0 : Memory Pixel Colour)
    (pp : PostProcess) (srv rt : Texture) (s t : Scene)
    (ht : effectDrawState pp srv rt s = some t)
    (hs1 : srv ≠ gTempTexture) (hs2 : srv ≠ gTempTexture2)
    (hr1 : rt ≠ gTempTexture) (hr2 : rt ≠ gTempTexture2) :
    (ApplyPostProcess pp srv rt s).memory G m0 rt
      = G.paint (currentDraw t) (t.memory G m0) (s.memory G m0 srv) (s.memory G m0 rt) := by
  obtain ⟨ds, hds, -, hst⟩ := draws_ApplyPostProcess pp srv rt s
  have hdir := effectDraws_direct pp srv rt s
  unfold effectDraws at hds hdir
  rw [ht] at hds hdir
  have hd := hdir (currentDraw t) (List.mem_singleton.mpr rfl)
  have hdraws : (ApplyPostProcess pp srv rt s).draws = t.draws ++ [currentDraw t] := by
    rw [hds, hst t ht]
  rw [memory_of_draws G m0 hdraws]
  show G.execDraw (currentDraw t) (t.memory G m0) rt = _
  unfold Gpu.execDraw
  rw [hd.2.1, hd.2.2, Function.update_same,
    memory_effectDrawState G m0 pp srv rt s t ht srv hs1 hs2,
    memory_effectDrawState G m0 pp srv rt s t ht rt hr1 hr2]

/-- The destination is left alone when the effect is skipped. -/
theorem memory_ApplyPostProcess_skipped (G : Gpu Pixel Colour) (m0 : Memory Pixel Colour)
    (pp : PostProcess) (srv rt : Texture) (s : Scene)
    (ht : effectDrawState pp srv rt s = none)
    (hr1 : rt ≠ gTempTexture) (hr2 : rt ≠ gTempTexture2) :
    (ApplyPostProcess pp srv rt s).memory G m0 rt = s.memory G m0 rt := by
  obtain ⟨ds, hds, hQ, -⟩ := draws_ApplyPostProcess pp srv rt s
  unfold effectDraws at hds
  rw [ht, List.append_nil] at hds
  rw [memory_of_draws G m0 hds]
  refine execDraws_unchanged G rt ds _ ?_
  intro d hd
  rcases (hQ d hd).1.scratch_target with h | h
  · rw [h]; exact Ne.symm hr1
  · rw [h]; exact Ne.symm hr2

/-- The draw state of the scope dispatch, by mode. -/
theorem modeDrawState_cases (pp : PostProcess) (srv rt : Texture) (u t : Scene)
    (ht : modeDrawState pp srv rt u = some t) :
    (pp.Mode = Fullscreen ∧ t = FullScreenSetup pp.Type_ srv rt gNoBlendingState u) ∨
    (pp.Mode = Area ∧ t = AreaSetup pp.Type_ srv rt gAlphaBlendingState u.light0Position
      { x := 10, y := 10 } u) ∨
    (pp.Mode = Polygon ∧ ∃ pd, pp.PolyData = some pd ∧
      t = PolygonSetup pp.Type_ srv rt gNoBlendingState pd.Points pd.Matrix u) := by
  unfold modeDrawState at ht
  cases hm : pp.Mode with
  | Fullscreen =>
    simp only [hm, Option.some.injEq] at ht
    exact Or.inl ⟨rfl, ht.symm⟩
  | Area =>
    simp only [hm] at ht
    by_cases hnear : areaDistance u u.light0Position < u.gCamera.NearClip
    · simp [hnear] at ht
    · simp only [hnear, if_false, Option.some.injEq] at ht
      exact Or.inr (Or.inl ⟨rfl, ht.symm⟩)
  | Polygon =>
    simp only [hm] at ht
    cases hp : pp.PolyData with
    | none => simp [hp] at ht
    | some pd =>
      simp only [hp, Option.some.injEq] at ht
      exact Or.inr (Or.inr ⟨rfl, pd, rfl, ht.symm⟩)

theorem effectDrawState_mode (pp : PostProcess) (srv rt : Texture) (s t : Scene)
    (ht : effectDrawState pp srv rt s = some t) :
    ∃ u : Scene, modeDrawState pp srv rt u = some t := by
  unfold effectDrawState at ht
  by_cases hsel : pp.Type_ = Selection ∧ s.gFocusedObject ≤ 0
  · rw [if_pos hsel] at ht; cases ht
  · rw [if_neg hsel] at ht; exact ⟨_, ht⟩

/-- The draw of an effect painted over `previous` from the source `previous`
is the effect applied to `previous` and confined to its scope. -/
theorem paint_eq_applyEffect (G : Gpu Pixel Colour) (hfull : G.FullScreenCovers)
    (m0 : Memory Pixel Colour) (pp : PostProcess) (srv rt : Texture) (s t : Scene)
    (ht : effectDrawState pp srv rt s = some t) (previous : Image Pixel Colour) :
    G.paint (currentDraw t) (t.memory G m0) previous previous
      = applyEffect G m0 pp srv rt s previous := by
  obtain ⟨u, hu⟩ := effectDrawState_mode pp srv rt s t ht
  unfold applyEffect
  rw [ht]
  rcases modeDrawState_cases pp srv rt u t hu with ⟨hm, hte⟩ | ⟨hm, hte⟩ | ⟨hm, pd, -, hte⟩
  · have hd := currentDraw_FullScreenSetup pp.Type_ srv rt gNoBlendingState u
    rw [← hte] at hd
    rw [paint_fullScreen G hfull _ _ _ _ hd.2.2.2.2.1 hd.2.2.2.1 hd.2.2.2.2.2.2.1
      hd.2.2.2.2.2.2.2.1 hd.2.2.2.2.2.2.2.2]
    simp only [hm]
    rfl
  · have hd := currentDraw_AreaSetup pp.Type_ srv rt gAlphaBlendingState u.light0Position
      { x := 10, y := 10 } u
    rw [← hte] at hd
    simp only [hm]
    funext p
    unfold Gpu.paint Gpu.covers
    rw [hd.2.2.2.2.1, hd.2.2.2.1]
    rfl
  · have hd := currentDraw_PolygonSetup pp.Type_ srv rt gNoBlendingState pd.Points pd.Matrix u
    rw [← hte] at hd
    simp only [hm]
    funext p
    unfold Gpu.paint Gpu.covers
    rw [hd.2.2.2.2.1, hd.2.2.2.1]
    rfl

/-- A full-screen effect that is drawn overwrites the destination whatever
it held. -/
theorem paint_fullScreen_mode (G : Gpu Pixel Colour) (hfull : G.FullScreenCovers)
    (m0 : Memory Pixel Colour) (pp : PostProcess) (srv rt : Texture) (s t : Scene)
    (ht : effectDrawState pp srv rt s = some t) (hm : pp.Mode = Fullscreen)
    (src dst : Image Pixel Colour) :
    G.paint (currentDraw t) (t.memory G m0) src dst
      = G.paint (currentDraw t) (t.memory G m0) src src := by
  obtain ⟨u, hu⟩ := effectDrawState_mode pp srv rt s t ht
  rcases modeDrawState_cases pp srv rt u t hu with ⟨-, hte⟩ | ⟨hm', -⟩ | ⟨hm', -⟩
  · have hd := currentDraw_FullScreenSetup pp.Type_ srv rt gNoBlendingState u
    rw [← hte] at hd
    rw [paint_fullScreen G hfull _ _ _ _ hd.2.2.2.2.1 hd.2.2.2.1 hd.2.2.2.2.2.2.1
      hd.2.2.2.2.2.2.2.1 hd.2.2.2.2.2.2.2.2,
      paint_fullScreen G hfull _ _ _ _ hd.2.2.2.2.1 hd.2.2.2.1 hd.2.2.2.2.2.2.1
      hd.2.2.2.2.2.2.2.1 hd.2.2.2.2.2.2.2.2]
  · rw [hm] at hm'; cases hm'
  · rw [hm] at hm'; cases hm'

/-- The destination after `ApplyPostProcess` when it held the same image as
the source: the effect applied to that image, confined to its scope. -/
theorem memory_ApplyPostProcess_same (G : Gpu Pixel Colour) (hfull : G.FullScreenCovers)
    (m0 : Memory Pixel Colour) (pp : PostProcess) (srv rt : Texture) (s : Scene)
    (hs1 : srv ≠ gTempTexture) (hs2 : srv ≠ gTempTexture2)
    (hr1 : rt ≠ gTempTexture) (hr2 : rt ≠ gTempTexture2)
    (hsame : s.memory G m0 rt = s.memory G m0 srv) :
    (ApplyPostProcess pp srv rt s).memory G m0 rt
      = applyEffect G m0 pp srv rt s (s.memory G m0 srv) := by
  cases ht : effectDrawState pp srv rt s with
  | none =>
    rw [memory_ApplyPostProcess_skipped G m0 pp srv rt s ht hr1 hr2, hsame]
    unfold applyEffect
    rw [ht]
  | some t =>
    rw [memory_ApplyPostProcess_target G m0 pp srv rt s t ht hs1 hs2 hr1 hr2, hsame,
      paint_eq_applyEffect G hfull m0 pp srv rt s t ht]

/-- The destination after `ApplyPostProcess` for a full-screen effect that is
drawn: the effect applied to the source image. -/
theorem memory_ApplyPostProcess_fullScreen (G : Gpu Pixel Colour) (hfull : G.FullScreenCovers)
    (m0 : Memory Pixel Colour) (pp : PostProcess) (srv rt : Texture) (s : Scene)
    (hs1 : srv ≠ gTempTexture) (hs2 : srv ≠ gTempTexture2)
    (hr1 : rt ≠ gTempTexture) (hr2 : rt ≠ gTempTexture2)
    (hm : pp.Mode = Fullscreen) (hdrawn : ¬ Skipped pp s) :
    (ApplyPostProcess pp srv rt s).memory G m0 rt
      = applyEffect G m0 pp srv rt s (s.memory G m0 srv) := by
  cases ht : effectDrawState pp srv rt s with
  | none => exact absurd ((effectDrawState_eq_none_iff pp srv rt s).mp ht) hdrawn
  | some t =>
    rw [memory_ApplyPostProcess_target G m0 pp srv rt s t ht hs1 hs2 hr1 hr2,
      paint_fullScreen_mode G hfull m0 pp srv rt s t ht hm,
      paint_eq_applyEffect G hfull m0 pp srv rt s t ht]

end ApplyMemory

theorem ColourPair.not_scratch {a b : Texture} (h : ColourPair a b) :
    a ≠ gTempTexture ∧ a ≠ gTempTexture2 ∧ b ≠ gTempTexture ∧ b ≠ gTempTexture2 := by
  rcases h with ⟨h1, h2⟩ | ⟨h1, h2⟩ <;> rw [h1, h2] <;> decide

theorem ColourPair.cases_left {a b : Texture} (h : ColourPair a b) :
    a = gSceneTexture ∨ a = gSceneTexture2 := by
  rcases h with ⟨h1, -⟩ | ⟨h1, -⟩
  · exact Or.inl h1
  · exact Or.inr h1

theorem ColourPair.cases_right {a b : Texture} (h : ColourPair a b) :
    b = gSceneTexture ∨ b = gSceneTexture2 := by
  rcases h with ⟨-, h2⟩ | ⟨-, h2⟩
  · exact Or.inr h2
  · exact Or.inl h2

theorem chainColour_swap (pp : PostProcess) (c : Chain) (h : ChainInv c) :
    (chainColour pp c).srv = c.renderTarget ∧ (chainColour pp c).renderTarget = c.srv := by
  have hf := chainColour_fields pp c
  have hc := h.colour
  rw [hf.2.2.2.2.2.2.1, hf.2.2.2.2.2.2.2]
  by_cases hi : c.i % 2 = 0
  · rw [if_pos hi] at hc ⊢
    rw [if_pos hi]
    exact ⟨(Prod.mk.inj hc).2.symm, (Prod.mk.inj hc).1.symm⟩
  · rw [if_neg hi] at hc ⊢
    rw [if_neg hi]
    exact ⟨(Prod.mk.inj hc).2.symm, (Prod.mk.inj hc).1.symm⟩

theorem chainBody_swap (pp : PostProcess) (c : Chain) (h : ChainInv c) :
    (chainBody pp c).srv = c.renderTarget ∧ (chainBody pp c).renderTarget = c.srv := by
  have hk := chainBody_counters pp c
  have hf := chainColour_fields pp c
  have hs := chainColour_swap pp c h
  rw [hk.2.2.1, hk.2.2.2, ← hf.2.2.2.2.2.2.1, ← hf.2.2.2.2.2.2.2]
  exact hs

section ColourPass

variable {Pixel Colour : Type}

/-- The auxiliary part of a pass leaves the colour textures. -/
theorem memory_chainBody_colour (G : Gpu Pixel Colour) (m0 : Memory Pixel Colour)
    (pp : PostProcess) (c : Chain) (hinv : ChainInv c) (x : Texture)
    (hx : x = gSceneTexture ∨ x = gSceneTexture2) :
    (chainBody pp c).scene.memory G m0 x = (chainColour pp c).scene.memory G m0 x := by
  rw [chainBody_eq, (chainAdvance_fields _).1]
  by_cases hd : distorts pp.Type_ = true
  · rw [if_pos hd]
    have hc := chainColour_fields pp c
    have hfr := frame_chainColour pp c
    have hn : NormalDepthPair (chainColour pp c).scene.gCurrentNormalDepthTextureSRV
        (chainColour pp c).ndRenderTarget := by
      rw [hfr.normalDepth, hc.2.2.2.2.1]; exact hinv.normalDepthPair
    have hf : FocusedObjectPair (chainColour pp c).scene.gCurrentFocusedObjectTextureSRV
        (chainColour pp c).foRenderTarget := by
      rw [hfr.focusedObject, hc.2.2.2.2.2.1]; exact hinv.focusedObjectPair
    refine memory_unchanged G m0 (issues_chainAuxiliary pp (chainColour pp c) hd hn hf) x ?_
    intro d hdd
    rcases hdd.auxiliary_target with h | h | h | h <;> rcases hx with hx | hx <;>
      rw [h, hx] <;> decide
  · rw [if_neg hd]

/-- A polygon or area pass whose destination holds the same image as its
source: afterwards the new source holds the effect applied to that image,
confined to its scope, and the new destination holds a copy of it. -/
theorem colour_pass_same (G : Gpu Pixel Colour) (hcopy : G.CopyExact)
    (hfull : G.FullScreenCovers) (m0 : Memory Pixel Colour) (pp : PostProcess) (c : Chain)
    (hinv : ChainInv c) (hal : c.scene.gPostProcessingConstants.copyAlpha = 1)
    (hmode : pp.Mode = Polygon ∨ pp.Mode = Area)
    (hsame : c.scene.memory G m0 c.renderTarget = c.scene.memory G m0 c.srv) :
    (chainBody pp c).scene.memory G m0 (chainBody pp c).srv
      = applyEffect G m0 pp c.srv c.renderTarget c.scene (c.scene.memory G m0 c.srv) ∧
    (chainBody pp c).scene.memory G m0 (chainBody pp c).renderTarget
      = (chainBody pp c).scene.memory G m0 (chainBody pp c).srv := by
  have hpair := hinv.colourPair
  obtain ⟨hs1, hs2, hr1, hr2⟩ := hpair.not_scratch
  have hsw := chainBody_swap pp c hinv
  have hcs := chainColour_swap pp c hinv
  have hscene := chainColour_scene pp c
  rw [if_pos hmode, hcs.1, hcs.2] at hscene
  have happly := memory_ApplyPostProcess_same G hfull m0 pp c.srv c.renderTarget c.scene
    hs1 hs2 hr1 hr2 hsame
  have hal' : (ApplyPostProcess pp c.srv c.renderTarget c.scene).gPostProcessingConstants.copyAlpha
      = 1 := (frame_ApplyPostProcess pp c.srv c.renderTarget c.scene).copyAlpha.trans hal
  have hnew : (chainBody pp c).scene.memory G m0 c.renderTarget
      = applyEffect G m0 pp c.srv c.renderTarget c.scene (c.scene.memory G m0 c.srv) := by
    rw [memory_chainBody_colour G m0 pp c hinv _ hpair.cases_right, hscene,
      memory_FullScreenPostProcess_other G m0 _ _ _ _ _ _ (Ne.symm hpair.colour_ne), happly]
  have hold : (chainBody pp c).scene.memory G m0 c.srv
      = applyEffect G m0 pp c.srv c.renderTarget c.scene (c.scene.memory G m0 c.srv) := by
    rw [memory_chainBody_colour G m0 pp c hinv _ hpair.cases_left, hscene,
      memory_copy G hcopy hfull m0 _ _ _ hal', happly]
  rw [hsw.1, hsw.2]
  exact ⟨hnew, hold.trans hnew.symm⟩

/-- A full-screen pass that is drawn: afterwards the new source holds the
effect applied to the old source image. -/
theorem colour_pass_fullScreen (G : Gpu Pixel Colour) (hfull : G.FullScreenCovers)
    (m0 : Memory Pixel Colour) (pp : PostProcess) (c : Chain) (hinv : ChainInv c)
    (hm : pp.Mode = Fullscreen) (hdrawn : ¬ Skipped pp c.scene) :
    (chainBody pp c).scene.memory G m0 (chainBody pp c).srv
      = applyEffect G m0 pp c.srv c.renderTarget c.scene (c.scene.memory G m0 c.srv) := by
  have hpair := hinv.colourPair
  obtain ⟨hs1, hs2, hr1, hr2⟩ := hpair.not_scratch
  have hsw := chainBody_swap pp c hinv
  have hscene := chainColour_scene pp c
  have hnot : ¬ (pp.Mode = Polygon ∨ pp.Mode = Area) := by
    rw [hm]; intro h; rcases h with h | h <;> cases h
  rw [if_neg hnot] at hscene
  rw [hsw.1, memory_chainBody_colour G m0 pp c hinv _ hpair.cases_right, hscene]
  exact memory_ApplyPostProcess_fullScreen G hfull m0 pp c.srv c.renderTarget c.scene
    hs1 hs2 hr1 hr2 hm hdrawn

theorem colourSpec_append (G : Gpu Pixel Colour) (m0 : Memory Pixel Colour)
    (l₁ l₂ : List PostProcess) (c : Chain) (image : Image Pixel Colour) :
    colourSpec G m0 (l₁ ++ l₂) c image
      = colourSpec G m0 l₂ (chainPasses l₁ c) (colourSpec G m0 l₁ c image) := by
  induction l₁ generalizing c image with
  | nil => rfl
  | cons pp l ih => exact ih _ _

/-- The polygon phase: while every destination holds a copy of its source,
the source image is the specified one and the copy is kept. -/
theorem colour_polygon_phase (G : Gpu Pixel Colour) (hcopy : G.CopyExact)
    (hfull : G.FullScreenCovers) (m0 : Memory Pixel Colour) (ps : List PostProcess) (c : Chain)
    (hinv : ChainInv c) (hal : c.scene.gPostProcessingConstants.copyAlpha = 1)
    (hps : ∀ p ∈ ps, p.Mode = Polygon)
    (hsame : c.scene.memory G m0 c.renderTarget = c.scene.memory G m0 c.srv) :
    (chainPasses ps c).scene.memory G m0 (chainPasses ps c).srv
      = colourSpec G m0 ps c (c.scene.memory G m0 c.srv) ∧
    (chainPasses ps c).scene.memory G m0 (chainPasses ps c).renderTarget
      = (chainPasses ps c).scene.memory G m0 (chainPasses ps c).srv := by
  induction ps generalizing c with
  | nil => exact ⟨rfl, hsame⟩
  | cons pp l ih =>
    have hstep := colour_pass_same G hcopy hfull m0 pp c hinv hal
      (Or.inl (hps pp (List.mem_cons_self pp l))) hsame
    have hal' : (chainBody pp c).scene.gPostProcessingConstants.copyAlpha = 1 :=
      (globals_chainBody pp c).copyAlpha.trans hal
    have h := ih (chainBody pp c) (chainInv_chainBody pp c hinv) hal'
      (fun p hp => hps p (List.mem_cons_of_mem pp hp)) hstep.2
    rw [chainPasses_cons]
    refine ⟨?_, h.2⟩
    rw [h.1, hstep.1]
    rfl

/-- The full-screen phase: every effect reads the output of the previous
one. -/
theorem colour_fullScreen_phase (G : Gpu Pixel Colour) (hfull : G.FullScreenCovers)
    (m0 : Memory Pixel Colour) (fs : List PostProcess) (c : Chain) (hinv : ChainInv c)
    (hfs : ∀ f ∈ fs, f.Mode = Fullscreen)
    (hsel : 0 < c.scene.gFocusedObject ∨ ∀ f ∈ fs, f.Type_ ≠ Selection) :
    (chainPasses fs c).scene.memory G m0 (chainPasses fs c).srv
      = colourSpec G m0 fs c (c.scene.memory G m0 c.srv) := by
  induction fs generalizing c with
  | nil => rfl
  | cons pp l ih =>
    have hm := hfs pp (List.mem_cons_self pp l)
    have hdrawn : ¬ Skipped pp c.scene := by
      intro hsk
      rcases hsk with ⟨h1, h2⟩ | ⟨h1, -⟩ | ⟨h1, -⟩
      · rcases hsel with h | h
        · omega
        · exact h pp (List.mem_cons_self pp l) h1
      · rw [hm] at h1; cases h1
      · rw [hm] at h1; cases h1
    have hstep := colour_pass_fullScreen G hfull m0 pp c hinv hm hdrawn
    have hsel' : 0 < (chainBody pp c).scene.gFocusedObject ∨ ∀ f ∈ l, f.Type_ ≠ Selection := by
      rcases hsel with h | h
      · exact Or.inl (by rw [(globals_chainBody pp c).focused]; exact h)
      · exact Or.inr (fun f hf => h f (List.mem_cons_of_mem pp hf))
    have h := ih (chainBody pp c) (chainInv_chainBody pp c hinv)
      (fun f hf => hfs f (List.mem_cons_of_mem pp hf)) hsel'
    rw [chainPasses_cons, h, hstep]
    rfl

end ColourPass

theorem historyGpu_copyExact : historyGpu.CopyExact := by
  intro c src aux _
  funext p
  simp [historyGpu]

theorem historyGpu_fullScreenCovers : historyGpu.FullScreenCovers := by
  intro c p _ _ _
  rfl

section InitialMemory

variable {Pixel Colour : Type}

theorem memory_chainStart (G : Gpu Pixel Colour) (m0 : Memory Pixel Colour) (s : Scene) :
    (chainStart s).memory G m0 = s.memory G m0 := rfl

/-- The textures after the initial copies: the second buffer of the colour
pair and of the normal/depth pair hold a copy of the first, and so does the
second focused-object buffer when an object is focused. -/
theorem memory_chainInit (G : Gpu Pixel Colour) (hcopy : G.CopyExact)
    (hfull : G.FullScreenCovers) (m0 : Memory Pixel Colour) (s : Scene) :
    (chainInit s).scene.memory G m0 gSceneTexture = s.memory G m0 gSceneTexture ∧
    (chainInit s).scene.memory G m0 gSceneTexture2 = s.memory G m0 gSceneTexture ∧
    (chainInit s).scene.memory G m0 gNormalDepthTexture = s.memory G m0 gNormalDepthTexture ∧
    (chainInit s).scene.memory G m0 gNormalDepthTexture2 = s.memory G m0 gNormalDepthTexture ∧
    (chainInit s).scene.memory G m0 gFocusedObjectTexture
      = s.memory G m0 gFocusedObjectTexture ∧
    (0 < s.gFocusedObject →
      (chainInit s).scene.memory G m0 gFocusedObjectTexture2
        = s.memory G m0 gFocusedObjectTexture) := by
  have hal0 : (chainStart s).gPostProcessingConstants.copyAlpha = 1 := rfl
  have hf1 := frame_FullScreenPostProcess Copy gSceneTexture gSceneTexture2 gNoBlendingState
    (chainStart s)
  have hnd : (FullScreenPostProcess Copy gSceneTexture gSceneTexture2 gNoBlendingState
      (chainStart s)).gCurrentNormalDepthTextureSRV = gNormalDepthTexture := hf1.normalDepth
  have hscene := chainInit_scene s
  rw [hnd] at hscene
  have hf2 := frame_FullScreenPostProcess Copy gNormalDepthTexture gNormalDepthTexture2
    gNoBlendingState
    (FullScreenPostProcess Copy gSceneTexture gSceneTexture2 gNoBlendingState (chainStart s))
  have hfo : (FullScreenPostProcess Copy gNormalDepthTexture gNormalDepthTexture2
      gNoBlendingState (FullScreenPostProcess Copy gSceneTexture gSceneTexture2 gNoBlendingState
        (chainStart s))).gCurrentFocusedObjectTextureSRV = gFocusedObjectTexture :=
    hf2.focusedObject.trans hf1.focusedObject
  have hfocus : (FullScreenPostProcess Copy gNormalDepthTexture gNormalDepthTexture2
      gNoBlendingState (FullScreenPostProcess Copy gSceneTexture gSceneTexture2 gNoBlendingState
        (chainStart s))).gFocusedObject = s.gFocusedObject :=
    hf2.focused.trans hf1.focused
  rw [hfo, hfocus] at hscene
  have hal1 := hf1.copyAlpha.trans hal0
  have hal2 := hf2.copyAlpha.trans hal1
  have m1a : (FullScreenPostProcess Copy gSceneTexture gSceneTexture2 gNoBlendingState
      (chainStart s)).memory G m0 gSceneTexture2 = s.memory G m0 gSceneTexture :=
    memory_copy G hcopy hfull m0 _ _ _ hal0
  have m2a : (FullScreenPostProcess Copy gNormalDepthTexture gNormalDepthTexture2
      gNoBlendingState (FullScreenPostProcess Copy gSceneTexture gSceneTexture2 gNoBlendingState
        (chainStart s))).memory G m0 gNormalDepthTexture2 = s.memory G m0 gNormalDepthTexture := by
    rw [memory_copy G hcopy hfull m0 _ _ _ hal1,
      memory_FullScreenPostProcess_other G m0 _ _ _ _ _ _ (by decide)]
    rfl
  have other2 : ∀ x, x ≠ gSceneTexture2 → x ≠ gNormalDepthTexture2 →
      (FullScreenPostProcess Copy gNormalDepthTexture gNormalDepthTexture2
        gNoBlendingState (FullScreenPostProcess Copy gSceneTexture gSceneTexture2 gNoBlendingState
          (chainStart s))).memory G m0 x = s.memory G m0 x := by
    intro x hx1 hx2
    rw [memory_FullScreenPostProcess_other G m0 _ _ _ _ _ _ hx2,
      memory_FullScreenPostProcess_other G m0 _ _ _ _ _ _ hx1]
    rfl
  have m2b : (FullScreenPostProcess Copy gNormalDepthTexture gNormalDepthTexture2
      gNoBlendingState (FullScreenPostProcess Copy gSceneTexture gSceneTexture2 gNoBlendingState
        (chainStart s))).memory G m0 gSceneTexture2 = s.memory G m0 gSceneTexture := by
    rw [memory_FullScreenPostProcess_other G m0 _ _ _ _ _ _ (by decide), m1a]
  by_cases hz : s.gFocusedObject > 0
  · rw [if_pos hz] at hscene
    rw [hscene]
    refine ⟨?_, ?_, ?_, ?_, ?_, ?_⟩
    · rw [memory_FullScreenPostProcess_other G m0 _ _ _ _ _ _ (by decide)]
      exact other2 _ (by decide) (by decide)
    · rw [memory_FullScreenPostProcess_other G m0 _ _ _ _ _ _ (by decide)]
      exact m2b
    · rw [memory_FullScreenPostProcess_other G m0 _ _ _ _ _ _ (by decide)]
      exact other2 _ (by decide) (by decide)
    · rw [memory_FullScreenPostProcess_other G m0 _ _ _ _ _ _ (by decide)]
      exact m2a
    · rw [memory_FullScreenPostProcess_other G m0 _ _ _ _ _ _ (by decide)]
      exact other2 _ (by decide) (by decide)
    · intro _
      rw [memory_copy G hcopy hfull m0 _ _ _ hal2]
      exact other2 _ (by decide) (by decide)
  · rw [if_neg hz] at hscene
    rw [hscene]
    exact ⟨other2 _ (by decide) (by decide), m2b, other2 _ (by decide) (by decide), m2a,
      other2 _ (by decide) (by decide), fun h => absurd h hz⟩

/-- C2: if no effect is skipped (an object is focused or the lists hold no
Selection entry, and every polygon-scope entry has polygon data) and every
polygon-scope entry precedes every full-screen entry (the applied sequence is
a list `ps` of polygon-scope entries followed by a list `fs` of full-screen
entries), then the image read by the final composite is the rendered scene
image with all effects of `gPolygonPostProcesses ++ gFullScreenPostProcesses`
applied in order, a full-screen effect replacing the whole image by
effect(previous) and a polygon-scope effect replacing only the pixels inside
its quad by effect(previous).  The Copy shader is taken to reproduce its
source at `copyAlpha = 1` and the full-screen quad to cover every pixel. -/
theorem C2_composite_reads_effects_in_order {Pixel Colour : Type} (G : Gpu Pixel Colour)
    (hcopy : G.CopyExact) (hfull : G.FullScreenCovers) (m0 : Memory Pixel Colour) (s : Scene)
    (k : Nat) (ps fs : List PostProcess)
    (hsplit : s.gPolygonPostProcesses ++ s.gFullScreenPostProcesses = ps ++ fs)
    (hps : ∀ p ∈ ps, p.Mode = Polygon ∧ p.PolyData ≠ none)
    (hfs : ∀ f ∈ fs, f.Mode = Fullscreen)
    (hsel : 0 < s.gFocusedObject ∨
      ∀ e ∈ s.gPolygonPostProcesses ++ s.gFullScreenPostProcesses, e.Type_ ≠ Selection) :
    compositeSource G m0
        (s.gPolygonPostProcesses.length + s.gFullScreenPostProcesses.length + k) s
      = some (colourSpec G m0 (s.gPolygonPostProcesses ++ s.gFullScreenPostProcesses)
          (chainInit s) (s.memory G m0 gSceneTexture)) := by
  unfold compositeSource
  rw [chainLoop_chainInit, Option.map_some', hsplit, chainPasses_append, colourSpec_append]
  have hinit := chainInv_chainInit s
  have hg := chainInit_globals s
  have hmem := memory_chainInit G hcopy hfull m0 s
  have hsame : (chainInit s).scene.memory G m0 (chainInit s).renderTarget
      = (chainInit s).scene.memory G m0 (chainInit s).srv := by
    show (chainInit s).scene.memory G m0 gSceneTexture2
      = (chainInit s).scene.memory G m0 gSceneTexture
    rw [hmem.1, hmem.2.1]
  have hpoly := colour_polygon_phase G hcopy hfull m0 ps (chainInit s) hinit hg.2.2.2.2.2.1
    (fun p hp => (hps p hp).1) hsame
  have hsel' : 0 < (chainPasses ps (chainInit s)).scene.gFocusedObject ∨
      ∀ f ∈ fs, f.Type_ ≠ Selection := by
    rcases hsel with h | h
    · left
      rw [(globals_chainPasses ps (chainInit s)).focused, hg.2.2.1]
      exact h
    · right
      intro f hf
      exact h f (by rw [hsplit]; exact List.mem_append_right ps hf)
  have hfsp := colour_fullScreen_phase G hfull m0 fs (chainPasses ps (chainInit s))
    (chainInv_chainPasses ps (chainInit s) hinit) hfs hsel'
  rw [hfsp, hpoly.1]
  have hsrc : (chainInit s).scene.memory G m0 (chainInit s).srv = s.memory G m0 gSceneTexture :=
    hmem.1
  rw [hsrc]

/-- The statement about the image read by the final composite holds for the
history GPU and a polygon-scope Underwater effect followed by a full-screen
Gradient. -/
theorem C2_composite_reads_effects_in_order_witness :
    compositeSource historyGpu blankMemory
        (samplePolygonThenGradient.gPolygonPostProcesses.length
          + samplePolygonThenGradient.gFullScreenPostProcesses.length + 0)
        samplePolygonThenGradient
      = some (colourSpec historyGpu blankMemory
          (samplePolygonThenGradient.gPolygonPostProcesses
            ++ samplePolygonThenGradient.gFullScreenPostProcesses)
          (chainInit samplePolygonThenGradient)
          (samplePolygonThenGradient.memory historyGpu blankMemory gSceneTexture)) :=
  C2_composite_reads_effects_in_order historyGpu historyGpu_copyExact
    historyGpu_fullScreenCovers blankMemory samplePolygonThenGradient 0
    [polygonAt Underwater 1] [{ Type_ := Gradient }] rfl
    (by
      intro p hp
      rw [List.mem_singleton] at hp
      rw [hp]
      exact ⟨rfl, by simp [polygonAt]⟩)
    (by
      intro f hf
      rw [List.mem_singleton] at hf
      rw [hf])
    (Or.inr (by
      intro e he
      have he' : e ∈ [polygonAt Underwater 1, ({ Type_ := Gradient } : PostProcess)] := he
      simp only [List.mem_cons, List.mem_singleton, List.not_mem_nil, or_false] at he'
      rcases he' with h | h <;> rw [h] <;> simp [polygonAt]))

end InitialMemory

theorem NormalDepthPair.nd_not_scratch {a b : Texture} (h : NormalDepthPair a b) :
    a ≠ gTempTexture ∧ a ≠ gTempTexture2 ∧ b ≠ gTempTexture ∧ b ≠ gTempTexture2 := by
  rcases h with ⟨h1, h2⟩ | ⟨h1, h2⟩ <;> rw [h1, h2] <;> decide

theorem FocusedObjectPair.fo_not_scratch {a b : Texture} (h : FocusedObjectPair a b) :
    a ≠ gTempTexture ∧ a ≠ gTempTexture2 ∧ b ≠ gTempTexture ∧ b ≠ gTempTexture2 := by
  rcases h with ⟨h1, h2⟩ | ⟨h1, h2⟩ <;> rw [h1, h2] <;> decide

theorem pairs_disjoint {a b x y : Texture} (h : NormalDepthPair a b)
    (h' : FocusedObjectPair x y) : a ≠ x ∧ a ≠ y ∧ b ≠ x ∧ b ≠ y := by
  rcases h with ⟨h1, h2⟩ | ⟨h1, h2⟩ <;> rcases h' with ⟨h3, h4⟩ | ⟨h3, h4⟩ <;>
    rw [h1, h2, h3, h4] <;> decide

section AuxiliaryPass

variable {Pixel Colour : Type}

/-- The colour part of a pass leaves the normal/depth and focused-object
textures. -/
theorem memory_chainColour_auxiliary (G : Gpu Pixel Colour) (m0 : Memory Pixel Colour)
    (pp : PostProcess) (c : Chain) (hinv : ChainInv c) (x : Texture)
    (hx : x = gNormalDepthTexture ∨ x = gNormalDepthTexture2 ∨ x = gFocusedObjectTexture ∨
      x = gFocusedObjectTexture2) :
    (chainColour pp c).scene.memory G m0 x = c.scene.memory G m0 x := by
  refine memory_unchanged G m0 (issues_chainColour pp c hinv.colourPair).1 x ?_
  intro d hd
  rcases hd.colour_target with h | h | h | h <;> rcases hx with hx | hx | hx | hx <;>
    rw [h, hx] <;> decide

theorem NormalDepthPair.cases_both {a b : Texture} (h : NormalDepthPair a b) :
    (a = gNormalDepthTexture ∨ a = gNormalDepthTexture2) ∧
    (b = gNormalDepthTexture ∨ b = gNormalDepthTexture2) := by
  rcases h with ⟨h1, h2⟩ | ⟨h1, h2⟩
  · exact ⟨Or.inl h1, Or.inr h2⟩
  · exact ⟨Or.inr h1, Or.inl h2⟩

theorem FocusedObjectPair.fo_cases_both {a b : Texture} (h : FocusedObjectPair a b) :
    (a = gFocusedObjectTexture ∨ a = gFocusedObjectTexture2) ∧
    (b = gFocusedObjectTexture ∨ b = gFocusedObjectTexture2) := by
  rcases h with ⟨h1, h2⟩ | ⟨h1, h2⟩
  · exact ⟨Or.inl h1, Or.inr h2⟩
  · exact ⟨Or.inr h1, Or.inl h2⟩

/-- A pass for an effect that does not distort leaves the auxiliary images in
their read views. -/
theorem auxiliary_pass_plain (G : Gpu Pixel Colour) (m0 : Memory Pixel Colour)
    (pp : PostProcess) (c : Chain) (hinv : ChainInv c) (hd : ¬ distorts pp.Type_ = true) :
    (chainBody pp c).scene.memory G m0 (chainBody pp c).scene.gCurrentNormalDepthTextureSRV
      = c.scene.memory G m0 c.scene.gCurrentNormalDepthTextureSRV ∧
    (chainBody pp c).scene.memory G m0 (chainBody pp c).scene.gCurrentFocusedObjectTextureSRV
      = c.scene.memory G m0 c.scene.gCurrentFocusedObjectTextureSRV := by
  have hp := chainBody_pairs pp c
  have h1 := hp.1
  have h2 := hp.2
  rw [if_neg hd] at h1
  rw [if_neg (fun h => hd h.1)] at h2
  have hscene : (chainBody pp c).scene = (chainColour pp c).scene := by
    rw [chainBody_eq, (chainAdvance_fields _).1, if_neg hd]
  rw [(Prod.mk.inj h1).1, (Prod.mk.inj h2).1, hscene]
  have hn := hinv.normalDepthPair.cases_both.1
  have hf := hinv.focusedObjectPair.fo_cases_both.1
  refine ⟨memory_chainColour_auxiliary G m0 pp c hinv _ ?_,
    memory_chainColour_auxiliary G m0 pp c hinv _ ?_⟩
  · rcases hn with h | h
    · exact Or.inl h
    · exact Or.inr (Or.inl h)
  · rcases hf with h | h
    · exact Or.inr (Or.inr (Or.inl h))
    · exact Or.inr (Or.inr (Or.inr h))

/-- The scene after a pass for a distorting full-screen effect has the log of
the re-application: there is no copy after a full-screen effect. -/
theorem memory_chainBody_distorting_fullScreen (G : Gpu Pixel Colour) (m0 : Memory Pixel Colour)
    (pp : PostProcess) (c : Chain) (hd : distorts pp.Type_ = true) (hm : pp.Mode = Fullscreen) :
    (chainBody pp c).scene.memory G m0
      = (auxiliaryApply pp (chainColour pp c)).memory G m0 := by
  rw [chainBody_eq, (chainAdvance_fields _).1, if_pos hd]
  have hsw := auxiliarySwitch_fields
    { chainColour pp c with scene := auxiliaryApply pp (chainColour pp c) }
  have hnot : ¬ ((auxiliarySwitch
      { chainColour pp c with scene := auxiliaryApply pp (chainColour pp c) }).j = 0 ∧
      (pp.Mode = Polygon ∨ pp.Mode = Area)) := by
    rw [hm]; intro h; rcases h.2 with h | h <;> cases h
  have hcopy : auxiliaryCopy pp (auxiliarySwitch
      { chainColour pp c with scene := auxiliaryApply pp (chainColour pp c) })
      = (auxiliarySwitch
          { chainColour pp c with scene := auxiliaryApply pp (chainColour pp c) }).scene := by
    unfold auxiliaryCopy
    rw [if_neg hnot]
  show (auxiliaryCopy pp (auxiliarySwitch
      { chainColour pp c with scene := auxiliaryApply pp (chainColour pp c) })).memory G m0 = _
  rw [hcopy]
  exact memory_of_draws_eq G m0 hsw.2.2.2.2.2.2.1

/-- A pass for a distorting full-screen effect: afterwards the normal/depth
read view holds the effect applied to the image it held before. -/
theorem normalDepth_pass_fullScreen (G : Gpu Pixel Colour) (hfull : G.FullScreenCovers)
    (m0 : Memory Pixel Colour) (pp : PostProcess) (c : Chain) (hinv : ChainInv c)
    (hd : distorts pp.Type_ = true) (hm : pp.Mode = Fullscreen) :
    (chainBody pp c).scene.memory G m0 (chainBody pp c).scene.gCurrentNormalDepthTextureSRV
      = applyEffect G m0 pp c.scene.gCurrentNormalDepthTextureSRV c.ndRenderTarget
          (chainColour pp c).scene (c.scene.memory G m0 c.scene.gCurrentNormalDepthTextureSRV) := by
  have hnp := hinv.normalDepthPair
  have hfp := hinv.focusedObjectPair
  obtain ⟨hs1, hs2, hr1, hr2⟩ := hnp.nd_not_scratch
  have hdis := pairs_disjoint hnp hfp
  -- the new read view is the old write target
  have hp := (chainBody_pairs pp c).1
  rw [if_pos hd] at hp
  have hnew : (chainBody pp c).scene.gCurrentNormalDepthTextureSRV = c.ndRenderTarget := by
    have hnd := hinv.normalDepth
    by_cases hj : c.j % 2 = 0
    · rw [if_pos hj] at hp hnd
      rw [(Prod.mk.inj hp).1, (Prod.mk.inj hnd).2]
    · rw [if_neg hj] at hp hnd
      rw [(Prod.mk.inj hp).1, (Prod.mk.inj hnd).2]
  rw [hnew, memory_chainBody_distorting_fullScreen G m0 pp c hd hm, auxiliaryApply_chainColour]
  have hskip : ¬ Skipped pp (chainColour pp c).scene := by
    intro hsk
    rcases hsk with ⟨h1, -⟩ | ⟨h1, -⟩ | ⟨h1, -⟩
    · exact (distorts_ne hd).2.1 h1
    · rw [hm] at h1; cases h1
    · rw [hm] at h1; cases h1
  have hnd := memory_ApplyPostProcess_fullScreen G hfull m0 pp
    c.scene.gCurrentNormalDepthTextureSRV c.ndRenderTarget (chainColour pp c).scene
    hs1 hs2 hr1 hr2 hm hskip
  rw [memory_chainColour_auxiliary G m0 pp c hinv _ (by
    rcases hnp.cases_both.1 with h | h
    · exact Or.inl h
    · exact Or.inr (Or.inl h))] at hnd
  by_cases hz : c.scene.gFocusedObject ≠ 0
  · rw [if_pos hz, memory_ApplyPostProcess_other G m0 pp _ _ _ _ hdis.2.2.2 hr1 hr2]
    exact hnd
  · rw [if_neg hz]
    exact hnd

/-- A pass for a distorting full-screen effect with an object focused:
afterwards the focused-object read view holds the effect applied to the mask
it held before. -/
theorem focusedObject_pass_fullScreen (G : Gpu Pixel Colour) (hfull : G.FullScreenCovers)
    (m0 : Memory Pixel Colour) (pp : PostProcess) (c : Chain) (hinv : ChainInv c)
    (hd : distorts pp.Type_ = true) (hm : pp.Mode = Fullscreen)
    (hz : c.scene.gFocusedObject ≠ 0) :
    (chainBody pp c).scene.memory G m0 (chainBody pp c).scene.gCurrentFocusedObjectTextureSRV
      = applyEffect G m0 pp c.scene.gCurrentFocusedObjectTextureSRV c.foRenderTarget
          (ApplyPostProcess pp c.scene.gCurrentNormalDepthTextureSRV c.ndRenderTarget
            (chainColour pp c).scene)
          (c.scene.memory G m0 c.scene.gCurrentFocusedObjectTextureSRV) := by
  have hnp := hinv.normalDepthPair
  have hfp := hinv.focusedObjectPair
  obtain ⟨hs1, hs2, hr1, hr2⟩ := hfp.fo_not_scratch
  have hdis := pairs_disjoint hnp hfp
  have hp := (chainBody_pairs pp c).2
  rw [if_pos ⟨hd, hz⟩] at hp
  have hnew : (chainBody pp c).scene.gCurrentFocusedObjectTextureSRV = c.foRenderTarget := by
    have hfo := hinv.focusedObject
    by_cases hj : c.j % 2 = 0
    · have hj1 : ¬ (c.scene.gFocusedObject ≠ 0 ∧ c.j % 2 = 1) := by
        intro h; omega
      rw [if_pos hj] at hp
      rw [if_neg hj1] at hfo
      rw [(Prod.mk.inj hp).1, (Prod.mk.inj hfo).2]
    · have hj1 : c.scene.gFocusedObject ≠ 0 ∧ c.j % 2 = 1 := ⟨hz, by omega⟩
      rw [if_neg hj] at hp
      rw [if_pos hj1] at hfo
      rw [(Prod.mk.inj hp).1, (Prod.mk.inj hfo).2]
  rw [hnew, memory_chainBody_distorting_fullScreen G m0 pp c hd hm, auxiliaryApply_chainColour,
    if_pos hz]
  have hskip : ¬ Skipped pp (ApplyPostProcess pp c.scene.gCurrentNormalDepthTextureSRV
      c.ndRenderTarget (chainColour pp c).scene) := by
    intro hsk
    rcases hsk with ⟨h1, -⟩ | ⟨h1, -⟩ | ⟨h1, -⟩
    · exact (distorts_ne hd).2.1 h1
    · rw [hm] at h1; cases h1
    · rw [hm] at h1; cases h1
  rw [memory_ApplyPostProcess_fullScreen G hfull m0 pp
    c.scene.gCurrentFocusedObjectTextureSRV c.foRenderTarget _ hs1 hs2 hr1 hr2 hm hskip,
    memory_ApplyPostProcess_other G m0 pp _ _ _ _ (Ne.symm hdis.2.2.1) hs1 hs2,
    memory_chainColour_auxiliary G m0 pp c hinv _ (by
      rcases hfp.fo_cases_both.1 with h | h
      · exact Or.inr (Or.inr (Or.inl h))
      · exact Or.inr (Or.inr (Or.inr h)))]

/-- Full-screen lists: the normal/depth read view holds the specified
image. -/
theorem normalDepth_fullScreen_chain (G : Gpu Pixel Colour) (hfull : G.FullScreenCovers)
    (m0 : Memory Pixel Colour) (fs : List PostProcess) (c : Chain) (hinv : ChainInv c)
    (hfs : ∀ f ∈ fs, f.Mode = Fullscreen) :
    (chainPasses fs c).scene.memory G m0 (chainPasses fs c).scene.gCurrentNormalDepthTextureSRV
      = normalDepthSpec G m0 fs c
          (c.scene.memory G m0 c.scene.gCurrentNormalDepthTextureSRV) := by
  induction fs generalizing c with
  | nil => rfl
  | cons pp l ih =>
    have h := ih (chainBody pp c) (chainInv_chainBody pp c hinv)
      (fun f hf => hfs f (List.mem_cons_of_mem pp hf))
    rw [chainPasses_cons, h]
    show _ = normalDepthSpec G m0 l (chainBody pp c)
      (if distorts pp.Type_ then
         applyEffect G m0 pp c.scene.gCurrentNormalDepthTextureSRV c.ndRenderTarget
           (chainColour pp c).scene (c.scene.memory G m0 c.scene.gCurrentNormalDepthTextureSRV)
       else c.scene.memory G m0 c.scene.gCurrentNormalDepthTextureSRV)
    by_cases hd : distorts pp.Type_ = true
    · rw [if_pos hd, ← normalDepth_pass_fullScreen G hfull m0 pp c hinv hd
        (hfs pp (List.mem_cons_self pp l))]
    · rw [if_neg hd, ← (auxiliary_pass_plain G m0 pp c hinv hd).1]

/-- Full-screen lists with an object focused: the focused-object read view
holds the specified mask. -/
theorem focusedObject_fullScreen_chain (G : Gpu Pixel Colour) (hfull : G.FullScreenCovers)
    (m0 : Memory Pixel Colour) (fs : List PostProcess) (c : Chain) (hinv : ChainInv c)
    (hfs : ∀ f ∈ fs, f.Mode = Fullscreen) (hz : c.scene.gFocusedObject ≠ 0) :
    (chainPasses fs c).scene.memory G m0 (chainPasses fs c).scene.gCurrentFocusedObjectTextureSRV
      = focusedObjectSpec G m0 fs c
          (c.scene.memory G m0 c.scene.gCurrentFocusedObjectTextureSRV) := by
  induction fs generalizing c with
  | nil => rfl
  | cons pp l ih =>
    have hz' : (chainBody pp c).scene.gFocusedObject ≠ 0 := by
      rw [(globals_chainBody pp c).focused]; exact hz
    have h := ih (chainBody pp c) (chainInv_chainBody pp c hinv)
      (fun f hf => hfs f (List.mem_cons_of_mem pp hf)) hz'
    rw [chainPasses_cons, h]
    show _ = focusedObjectSpec G m0 l (chainBody pp c)
      (if distorts pp.Type_ then
         applyEffect G m0 pp c.scene.gCurrentFocusedObjectTextureSRV c.foRenderTarget
           (ApplyPostProcess pp c.scene.gCurrentNormalDepthTextureSRV c.ndRenderTarget
             (chainColour pp c).scene)
           (c.scene.memory G m0 c.scene.gCurrentFocusedObjectTextureSRV)
       else c.scene.memory G m0 c.scene.gCurrentFocusedObjectTextureSRV)
    by_cases hd : distorts pp.Type_ = true
    · rw [if_pos hd, ← focusedObject_pass_fullScreen G hfull m0 pp c hinv hd
        (hfs pp (List.mem_cons_self pp l)) hz]
    · rw [if_neg hd, ← (auxiliary_pass_plain G m0 pp c hinv hd).2]

end AuxiliaryPass

theorem constants_FullScreenSetup (t : PostProcessType) (srv rt : Texture) (b : BlendState)
    (u : Scene) :
    (FullScreenSetup t srv rt b u).gPostProcessingConstants
      = fullScreenConstants u.gPostProcessingConstants := by
  have h := constants_Select t (PostProcessSetup srv rt b u)
  show fullScreenConstants
    (SelectPostProcessShaderAndTextures t (PostProcessSetup srv rt b u)).gPostProcessingConstants
      = _
  rw [h]
  rfl

theorem constants_FullScreenPostProcess (t : PostProcessType) (srv rt : Texture)
    (b : BlendState) (u : Scene) :
    (FullScreenPostProcess t srv rt b u).gPostProcessingConstants
      = fullScreenConstants u.gPostProcessingConstants :=
  constants_FullScreenSetup t srv rt b u

theorem psTextures_FullScreenSetup (t : PostProcessType) (srv rt : Texture) (b : BlendState)
    (u : Scene) (ht : t ≠ None) :
    (FullScreenSetup t srv rt b u).context.psTextures
      = selectTextures (PostProcessSetup srv rt b u) t := by
  show (SelectPostProcessShaderAndTextures t (PostProcessSetup srv rt b u)).context.psTextures = _
  unfold SelectPostProcessShaderAndTextures
  rw [if_neg ht]

/-- A distorting full-screen effect is always drawn, by one full-screen
pass. -/
theorem ApplyPostProcess_distorting_fullScreen (pp : PostProcess) (srv rt : Texture) (u : Scene)
    (hd : distorts pp.Type_ = true) (hm : pp.Mode = Fullscreen) :
    ApplyPostProcess pp srv rt u = FullScreenPostProcess pp.Type_ srv rt gNoBlendingState u ∧
    effectDrawState pp srv rt u = some (FullScreenSetup pp.Type_ srv rt gNoBlendingState u) := by
  have hne := distorts_ne hd
  have hsel : ¬ (pp.Type_ = Selection ∧ u.gFocusedObject ≤ 0) := fun h => hne.2.1 h.1
  unfold ApplyPostProcess effectDrawState
  rw [if_neg hsel, if_neg hsel]
  dsimp only
  rw [if_neg hne.1]
  unfold applyByMode modeDrawState
  rw [hm]
  exact ⟨rfl, rfl⟩

/-- The output of a full-screen BlurX or BlurY effect: its shader with the
constants of the draw and no further texture. -/
theorem applyEffect_blur {Pixel Colour : Type} (G : Gpu Pixel Colour) (m0 : Memory Pixel Colour)
    (pp : PostProcess) (srv rt : Texture) (u : Scene) (previous : Image Pixel Colour)
    (ht : pp.Type_ = BlurX ∨ pp.Type_ = BlurY) (hm : pp.Mode = Fullscreen) :
    applyEffect G m0 pp srv rt u previous
      = G.shader pp.Type_ (fullScreenConstants u.gPostProcessingConstants) previous [] := by
  have hd : distorts pp.Type_ = true := by
    rcases ht with h | h <;> rw [h] <;> rfl
  have hne := (distorts_ne hd).2.2.1
  unfold applyEffect
  rw [(ApplyPostProcess_distorting_fullScreen pp srv rt u hd hm).2]
  simp only [hm]
  unfold effectOutput
  rw [constants_FullScreenSetup, psTextures_FullScreenSetup _ _ _ _ _ hne,
    show (FullScreenSetup pp.Type_ srv rt gNoBlendingState u).context.pixelShader = pp.Type_ from
      pixelShader_Select pp.Type_ (PostProcessSetup srv rt gNoBlendingState u) hne]
  rcases ht with h | h <;> rw [h] <;> rfl

theorem fullScreenConstants_idem (c : PostProcessingConstants) :
    fullScreenConstants (fullScreenConstants c) = fullScreenConstants c := rfl

theorem constants_auxiliarySwitch (c : Chain) :
    (auxiliarySwitch c).scene.gPostProcessingConstants = c.scene.gPostProcessingConstants := by
  unfold auxiliarySwitch
  by_cases hj : c.j % 2 = 0 <;> by_cases hf : c.scene.gFocusedObject = 0 <;>
    simp only [hj, hf, ne_eq, if_true, if_false, not_true_eq_false, not_false_eq_true]

/-- The constants after the colour part of a pass for a distorting
full-screen effect. -/
theorem constants_chainColour_fullScreen (pp : PostProcess) (c : Chain)
    (hd : distorts pp.Type_ = true) (hm : pp.Mode = Fullscreen) :
    (chainColour pp c).scene.gPostProcessingConstants
      = fullScreenConstants c.scene.gPostProcessingConstants := by
  have hnot : ¬ (pp.Mode = Polygon ∨ pp.Mode = Area) := by
    rw [hm]; intro h; rcases h with h | h <;> cases h
  rw [chainColour_scene, if_neg hnot,
    (ApplyPostProcess_distorting_fullScreen pp c.srv c.renderTarget c.scene hd hm).1,
    constants_FullScreenPostProcess]

/-- The constants after a pass for a distorting full-screen effect. -/
theorem constants_chainBody_fullScreen (pp : PostProcess) (c : Chain)
    (hd : distorts pp.Type_ = true) (hm : pp.Mode = Fullscreen) :
    (chainBody pp c).scene.gPostProcessingConstants
      = fullScreenConstants c.scene.gPostProcessingConstants := by
  rw [chainBody_eq, (chainAdvance_fields _).1, if_pos hd]
  have hnot : ¬ ((auxiliarySwitch
      { chainColour pp c with scene := auxiliaryApply pp (chainColour pp c) }).j = 0 ∧
      (pp.Mode = Polygon ∨ pp.Mode = Area)) := by
    rw [hm]; intro h; rcases h.2 with h | h <;> cases h
  have hcopy : auxiliaryCopy pp (auxiliarySwitch
      { chainColour pp c with scene := auxiliaryApply pp (chainColour pp c) })
      = (auxiliarySwitch
          { chainColour pp c with scene := auxiliaryApply pp (chainColour pp c) }).scene := by
    unfold auxiliaryCopy
    rw [if_neg hnot]
  show (auxiliaryCopy pp (auxiliarySwitch
      { chainColour pp c with scene := auxiliaryApply pp (chainColour pp c) })
      ).gPostProcessingConstants = _
  rw [hcopy, constants_auxiliarySwitch]
  show (auxiliaryApply pp (chainColour pp c)).gPostProcessingConstants = _
  have hcol := constants_chainColour_fullScreen pp c hd hm
  unfold auxiliaryApply
  dsimp only
  split
  · rw [(ApplyPostProcess_distorting_fullScreen pp _ _ _ hd hm).1,
      constants_FullScreenPostProcess,
      (ApplyPostProcess_distorting_fullScreen pp _ _ _ hd hm).1,
      constants_FullScreenPostProcess, hcol]
    rfl
  · rw [(ApplyPostProcess_distorting_fullScreen pp _ _ _ hd hm).1,
      constants_FullScreenPostProcess, hcol]
    rfl

/-- The constants after the initial copies. -/
theorem constants_chainInit (s : Scene) :
    (chainInit s).scene.gPostProcessingConstants = frameConstants s := by
  rw [chainInit_scene]
  split
  · rw [constants_FullScreenPostProcess, constants_FullScreenPostProcess,
      constants_FullScreenPostProcess]
    rfl
  · rw [constants_FullScreenPostProcess, constants_FullScreenPostProcess]
    rfl

theorem frameConstants_idem (s : Scene) :
    fullScreenConstants (frameConstants s) = frameConstants s := rfl

/-- The initial copies leave the textures they read. -/
theorem memory_chainInit_sources {Pixel Colour : Type} (G : Gpu Pixel Colour)
    (m0 : Memory Pixel Colour) (s : Scene) (x : Texture)
    (h1 : x ≠ gSceneTexture2) (h2 : x ≠ gNormalDepthTexture2) (h3 : x ≠ gFocusedObjectTexture2) :
    (chainInit s).scene.memory G m0 x = s.memory G m0 x := by
  rw [chainInit_scene]
  split
  · rw [memory_FullScreenPostProcess_other G m0 _ _ _ _ _ _ h3,
      memory_FullScreenPostProcess_other G m0 _ _ _ _ _ _ h2,
      memory_FullScreenPostProcess_other G m0 _ _ _ _ _ _ h1]
    rfl
  · rw [memory_FullScreenPostProcess_other G m0 _ _ _ _ _ _ h2,
      memory_FullScreenPostProcess_other G m0 _ _ _ _ _ _ h1]
    rfl

section Blur

variable {Pixel Colour : Type}

/-- One pass for a full-screen BlurX or BlurY effect in a state whose
constants `K` already have the full-screen scope: the constants stay `K`, and
the effect on the colour image, on the normal/depth image and on the
focused-object mask is the same function, the shader at `K`. -/
theorem blur_pass (G : Gpu Pixel Colour) (m0 : Memory Pixel Colour) (pp : PostProcess)
    (c : Chain) (K : PostProcessingConstants) (image : Image Pixel Colour)
    (ht : pp.Type_ = BlurX ∨ pp.Type_ = BlurY) (hm : pp.Mode = Fullscreen)
    (hK : c.scene.gPostProcessingConstants = K) (hid : fullScreenConstants K = K) :
    (chainBody pp c).scene.gPostProcessingConstants = K ∧
    applyEffect G m0 pp c.srv c.renderTarget c.scene image = G.shader pp.Type_ K image [] ∧
    applyEffect G m0 pp c.scene.gCurrentNormalDepthTextureSRV c.ndRenderTarget
      (chainColour pp c).scene image = G.shader pp.Type_ K image [] ∧
    applyEffect G m0 pp c.scene.gCurrentFocusedObjectTextureSRV c.foRenderTarget
      (ApplyPostProcess pp c.scene.gCurrentNormalDepthTextureSRV c.ndRenderTarget
        (chainColour pp c).scene) image = G.shader pp.Type_ K image [] := by
  have hd : distorts pp.Type_ = true := by
    rcases ht with h | h <;> rw [h] <;> rfl
  have hcol := constants_chainColour_fullScreen pp c hd hm
  rw [hK, hid] at hcol
  refine ⟨?_, ?_, ?_, ?_⟩
  · rw [constants_chainBody_fullScreen pp c hd hm, hK, hid]
  · rw [applyEffect_blur G m0 pp _ _ _ _ ht hm, hK, hid]
  · rw [applyEffect_blur G m0 pp _ _ _ _ ht hm, hcol, hid]
  · rw [applyEffect_blur G m0 pp _ _ _ _ ht hm,
      (ApplyPostProcess_distorting_fullScreen pp _ _ _ hd hm).1,
      constants_FullScreenPostProcess, hcol, hid, hid]

/-- C7: for an empty polygon list and a transient list of full-screen
effects, when the chain ends the current normal/depth read view holds the
rendered normal/depth image with exactly the list's distorting effects
applied in list order, and when an object is focused the current
focused-object read view holds the rendered mask with the same effects in the
same order.  In particular for `[BlurX, BlurY]` the image read by the final
composite, the normal/depth image and the focused-object mask are each
`BlurY (BlurX initial)`, the two shaders taken at the constants of the frame
(`copyAlpha = 1`, full-screen scope) and reading no further texture.  The
full-screen quad is taken to cover every pixel. -/
theorem C7_fullscreen_auxiliary_images {Pixel Colour : Type} (G : Gpu Pixel Colour)
    (hfull : G.FullScreenCovers) (m0 : Memory Pixel Colour) (s : Scene) (k : Nat)
    (hA : s.gPolygonPostProcesses = [])
    (hmode : ∀ f ∈ s.gFullScreenPostProcesses, f.Mode = Fullscreen) :
    normalDepthResult G m0
        (s.gPolygonPostProcesses.length + s.gFullScreenPostProcesses.length + k) s
      = some (normalDepthSpec G m0 s.gFullScreenPostProcesses (chainInit s)
          (s.memory G m0 gNormalDepthTexture)) ∧
    (0 < s.gFocusedObject →
      focusedObjectResult G m0
          (s.gPolygonPostProcesses.length + s.gFullScreenPostProcesses.length + k) s
        = some (focusedObjectSpec G m0 s.gFullScreenPostProcesses (chainInit s)
            (s.memory G m0 gFocusedObjectTexture))) ∧
    (s.gFullScreenPostProcesses = [{ Type_ := BlurX }, { Type_ := BlurY }] →
      compositeSource G m0
          (s.gPolygonPostProcesses.length + s.gFullScreenPostProcesses.length + k) s
        = some (G.shader BlurY (frameConstants s)
            (G.shader BlurX (frameConstants s) (s.memory G m0 gSceneTexture) []) []) ∧
      normalDepthResult G m0
          (s.gPolygonPostProcesses.length + s.gFullScreenPostProcesses.length + k) s
        = some (G.shader BlurY (frameConstants s)
            (G.shader BlurX (frameConstants s) (s.memory G m0 gNormalDepthTexture) []) []) ∧
      (0 < s.gFocusedObject →
        focusedObjectResult G m0
            (s.gPolygonPostProcesses.length + s.gFullScreenPostProcesses.length + k) s
          = some (G.shader BlurY (frameConstants s)
              (G.shader BlurX (frameConstants s) (s.memory G m0 gFocusedObjectTexture) [])
              []))) := by
  have hinit := chainInv_chainInit s
  have hg := chainInit_globals s
  have hlist : s.gPolygonPostProcesses ++ s.gFullScreenPostProcesses
      = s.gFullScreenPostProcesses := by rw [hA, List.nil_append]
  have hnd0 : (chainInit s).scene.memory G m0 (chainInit s).scene.gCurrentNormalDepthTextureSRV
      = s.memory G m0 gNormalDepthTexture := by
    rw [hg.2.2.2.2.2.2.1]
    exact memory_chainInit_sources G m0 s _ (by decide) (by decide) (by decide)
  have hfo0 : (chainInit s).scene.memory G m0 (chainInit s).scene.gCurrentFocusedObjectTextureSRV
      = s.memory G m0 gFocusedObjectTexture := by
    rw [hg.2.2.2.2.2.2.2]
    exact memory_chainInit_sources G m0 s _ (by decide) (by decide) (by decide)
  have hcol0 : (chainInit s).scene.memory G m0 (chainInit s).srv
      = s.memory G m0 gSceneTexture := by
    show (chainInit s).scene.memory G m0 gSceneTexture = _
    exact memory_chainInit_sources G m0 s _ (by decide) (by decide) (by decide)
  have hnd : normalDepthResult G m0
      (s.gPolygonPostProcesses.length + s.gFullScreenPostProcesses.length + k) s
      = some (normalDepthSpec G m0 s.gFullScreenPostProcesses (chainInit s)
          (s.memory G m0 gNormalDepthTexture)) := by
    unfold normalDepthResult
    rw [chainLoop_chainInit, Option.map_some', hlist,
      normalDepth_fullScreen_chain G hfull m0 _ _ hinit hmode, hnd0]
  have hfo : 0 < s.gFocusedObject →
      focusedObjectResult G m0
          (s.gPolygonPostProcesses.length + s.gFullScreenPostProcesses.length + k) s
        = some (focusedObjectSpec G m0 s.gFullScreenPostProcesses (chainInit s)
            (s.memory G m0 gFocusedObjectTexture)) := by
    intro hz
    have hz' : (chainInit s).scene.gFocusedObject ≠ 0 := by rw [hg.2.2.1]; omega
    unfold focusedObjectResult
    rw [chainLoop_chainInit, Option.map_some', hlist,
      focusedObject_fullScreen_chain G hfull m0 _ _ hinit hmode hz', hfo0]
  refine ⟨hnd, hfo, ?_⟩
  intro hB
  have hK0 := constants_chainInit s
  have hid := frameConstants_idem s
  have hX := fun image => blur_pass G m0 { Type_ := BlurX } (chainInit s) (frameConstants s)
    image (Or.inl rfl) rfl hK0 hid
  have hY := fun image => blur_pass G m0 { Type_ := BlurY }
    (chainBody { Type_ := BlurX } (chainInit s)) (frameConstants s) image (Or.inr rfl) rfl
    (hX (s.memory G m0 gSceneTexture)).1 hid
  have hmodeB : ∀ f ∈ [({ Type_ := BlurX } : PostProcess), { Type_ := BlurY }],
      f.Mode = Fullscreen := by
    intro f hf
    simp only [List.mem_cons, List.mem_singleton, List.not_mem_nil, or_false] at hf
    rcases hf with h | h <;> rw [h]
  have hnoSel : ∀ f ∈ [({ Type_ := BlurX } : PostProcess), { Type_ := BlurY }],
      f.Type_ ≠ Selection := by
    intro f hf
    simp only [List.mem_cons, List.mem_singleton, List.not_mem_nil, or_false] at hf
    rcases hf with h | h <;> rw [h] <;> decide
  refine ⟨?_, ?_, ?_⟩
  · unfold compositeSource
    rw [chainLoop_chainInit, Option.map_some', hlist, hB,
      colour_fullScreen_phase G hfull m0 _ _ hinit hmodeB (Or.inr hnoSel), hcol0]
    show some (applyEffect G m0 { Type_ := BlurY } _ _ _
      (applyEffect G m0 { Type_ := BlurX } _ _ _ _)) = _
    rw [(hX _).2.1, (hY _).2.1]
  · rw [hnd, hB]
    show some (applyEffect G m0 { Type_ := BlurY } _ _ _
      (applyEffect G m0 { Type_ := BlurX } _ _ _ _)) = _
    rw [(hX _).2.2.1, (hY _).2.2.1]
  · intro hz
    rw [hfo hz, hB]
    show some (applyEffect G m0 { Type_ := BlurY } _ _ _
      (applyEffect G m0 { Type_ := BlurX } _ _ _ _)) = _
    rw [(hX _).2.2.2, (hY _).2.2.2]


/-- The statement about the auxiliary images holds for the history GPU and
the sample scene with an object focused and the list `[BlurX, BlurY]`. -/
theorem C7_fullscreen_auxiliary_images_witness :
    normalDepthResult historyGpu blankMemory
        (sampleBlurs.gPolygonPostProcesses.length + sampleBlurs.gFullScreenPostProcesses.length
          + 0) sampleBlurs
      = some (normalDepthSpec historyGpu blankMemory sampleBlurs.gFullScreenPostProcesses
          (chainInit sampleBlurs) (sampleBlurs.memory historyGpu blankMemory gNormalDepthTexture)) ∧
    (0 < sampleBlurs.gFocusedObject →
      focusedObjectResult historyGpu blankMemory
          (sampleBlurs.gPolygonPostProcesses.length
            + sampleBlurs.gFullScreenPostProcesses.length + 0) sampleBlurs
        = some (focusedObjectSpec historyGpu blankMemory sampleBlurs.gFullScreenPostProcesses
            (chainInit sampleBlurs)
            (sampleBlurs.memory historyGpu blankMemory gFocusedObjectTexture))) ∧
    (sampleBlurs.gFullScreenPostProcesses = [{ Type_ := BlurX }, { Type_ := BlurY }] →
      compositeSource historyGpu blankMemory
          (sampleBlurs.gPolygonPostProcesses.length
            + sampleBlurs.gFullScreenPostProcesses.length + 0) sampleBlurs
        = some (historyGpu.shader BlurY (frameConstants sampleBlurs)
            (historyGpu.shader BlurX (frameConstants sampleBlurs)
              (sampleBlurs.memory historyGpu blankMemory gSceneTexture) []) []) ∧
      normalDepthResult historyGpu blankMemory
          (sampleBlurs.gPolygonPostProcesses.length
            + sampleBlurs.gFullScreenPostProcesses.length + 0) sampleBlurs
        = some (historyGpu.shader BlurY (frameConstants sampleBlurs)
            (historyGpu.shader BlurX (frameConstants sampleBlurs)
              (sampleBlurs.memory historyGpu blankMemory gNormalDepthTexture) []) []) ∧
      (0 < sampleBlurs.gFocusedObject →
        focusedObjectResult historyGpu blankMemory
            (sampleBlurs.gPolygonPostProcesses.length
              + sampleBlurs.gFullScreenPostProcesses.length + 0) sampleBlurs
          = some (historyGpu.shader BlurY (frameConstants sampleBlurs)
              (historyGpu.shader BlurX (frameConstants sampleBlurs)
                (sampleBlurs.memory historyGpu blankMemory gFocusedObjectTexture) [])
              []))) :=
  C7_fullscreen_auxiliary_images historyGpu historyGpu_fullScreenCovers blankMemory sampleBlurs 0
    rfl
    (by
      intro f hf
      have hf' : f ∈ [({ Type_ := BlurX } : PostProcess), { Type_ := BlurY }] := hf
      simp only [List.mem_cons, List.mem_singleton, List.not_mem_nil, or_false] at hf'
      rcases hf' with h | h <;> rw [h])

end Blur

/-- C3 (defect of the code): with no focused object a Selection entry should
simply be omitted, the image read by the final composite being the one
obtained without the Selection entries; the code does not do that.  For the
transient list `[Gradient, Selection]` the skipped Selection still switches
the colour pair, so the final composite reads the buffer that the Gradient
pass read from: on the history GPU no effect has been applied to the image
read (pixel `0`), while for `[Gradient]` alone the Gradient has been applied.
The same happens after the polygon list of `InitScene` (pixel `7`, outside
every quad). -/
theorem C3_skipped_selection_presents_stale_buffer :
    ((compositeSource historyGpu blankMemory 2 sampleGradientSelection).map (fun image => image 0)
        = some [] ∧
      (compositeSource historyGpu blankMemory 1 sampleGradient).map (fun image => image 0)
        = some [Gradient]) ∧
    ((compositeSource historyGpu blankMemory 13 sampleInitGradientSelection).map
        (fun image => image 7) = some [] ∧
      (compositeSource historyGpu blankMemory 12 sampleInitGradient).map (fun image => image 7)
        = some [Gradient]) := by
  refine ⟨⟨?_, ?_⟩, ⟨?_, ?_⟩⟩ <;> decide!

/-- C4 (defect of the code): at the end of the chain the current normal/depth
read view should hold the rendered normal/depth image with exactly the
distorting effects applied in order, each confined to its scope, also for
three or more polygon-scope distorting effects; for the polygon list that
`InitScene` builds it does not.  On the history GPU the pixel of the second
quad (pixel `20`, covered by HueShift and Retro) should carry the distorting
Retro, as the colour image does, but the normal/depth image carries no effect
there: after the first distorting effect (`j = 0`) no copy brings the write
target up to date, so the third distorting effect (FrostedGlass) is painted
over a buffer that lacks the second. -/
theorem C4_normal_depth_loses_polygon_effect :
    (normalDepthResult historyGpu blankMemory 11 sampleInitScene).map (fun image => image 20)
      = some [] ∧
    normalDepthSpec historyGpu blankMemory sampleInitScene.gPolygonPostProcesses
        (chainInit sampleInitScene)
        (sampleInitScene.memory historyGpu blankMemory gNormalDepthTexture) 20 = [Retro] ∧
    (compositeSource historyGpu blankMemory 11 sampleInitScene).map (fun image => image 20)
      = some [Retro, HueShift] := by
  refine ⟨?_, ?_, ?_⟩ <;> decide!

/-- Every destination that the chain passes to `ApplyPostProcess` is a buffer
of one of the three pairs, never a bloom scratch texture. -/
theorem chain_targets_not_scratch (s : Scene) (l : List PostProcess) :
    ((chainPasses l (chainInit s)).renderTarget ≠ gTempTexture ∧
      (chainPasses l (chainInit s)).renderTarget ≠ gTempTexture2) ∧
    ((chainPasses l (chainInit s)).ndRenderTarget ≠ gTempTexture ∧
      (chainPasses l (chainInit s)).ndRenderTarget ≠ gTempTexture2) ∧
    ((chainPasses l (chainInit s)).foRenderTarget ≠ gTempTexture ∧
      (chainPasses l (chainInit s)).foRenderTarget ≠ gTempTexture2) := by
  have hinv := chainInv_chainPasses l (chainInit s) (chainInv_chainInit s)
  have h1 := hinv.colourPair.not_scratch
  have h2 := hinv.normalDepthPair.nd_not_scratch
  have h3 := hinv.focusedObjectPair.fo_not_scratch
  exact ⟨⟨h1.2.2.1, h1.2.2.2⟩, ⟨h2.2.2.1, h2.2.2.2⟩, ⟨h3.2.2.1, h3.2.2.2⟩⟩

/-! ## The area scope behind the camera and the bloom sub-pipeline -/

/-- C11: when the anchor of an Area-scope call projects to a view depth
strictly less than the near clip distance, `AreaPostProcess` issues no draw;
the contents of every texture, the destination included, are those before the
call; and `area2DTopLeft`, `area2DSize` and `area2DDepth` keep their values
(as do all the other constants). -/
theorem C11_area_behind_near_clip_is_noop {Pixel Colour : Type} (G : Gpu Pixel Colour)
    (m0 : Memory Pixel Colour) (postProcess : PostProcessType) (srv renderTarget : Texture)
    (blendState : BlendState) (worldPoint : CVector3) (areaSize : CVector2) (s : Scene)
    (h : areaDistance s worldPoint < s.gCamera.NearClip) :
    (AreaPostProcess postProcess srv renderTarget blendState worldPoint areaSize s).draws
      = s.draws ∧
    (AreaPostProcess postProcess srv renderTarget blendState worldPoint areaSize s).memory G m0
        renderTarget = s.memory G m0 renderTarget ∧
    (AreaPostProcess postProcess srv renderTarget blendState worldPoint areaSize
        s).gPostProcessingConstants.area2DTopLeft = s.gPostProcessingConstants.area2DTopLeft ∧
    (AreaPostProcess postProcess srv renderTarget blendState worldPoint areaSize
        s).gPostProcessingConstants.area2DSize = s.gPostProcessingConstants.area2DSize ∧
    (AreaPostProcess postProcess srv renderTarget blendState worldPoint areaSize
        s).gPostProcessingConstants.area2DDepth = s.gPostProcessingConstants.area2DDepth ∧
    (AreaPostProcess postProcess srv renderTarget blendState worldPoint areaSize
        s).gPostProcessingConstants = s.gPostProcessingConstants := by
  have hA : AreaPostProcess postProcess srv renderTarget blendState worldPoint areaSize s
      = SelectPostProcessShaderAndTextures postProcess
          (PostProcessSetup srv renderTarget blendState s) := by
    unfold AreaPostProcess
    rw [if_pos h]
  have hd : (AreaPostProcess postProcess srv renderTarget blendState worldPoint areaSize s).draws
      = s.draws := by
    rw [hA, draws_Select]; rfl
  have hc : (AreaPostProcess postProcess srv renderTarget blendState worldPoint areaSize
      s).gPostProcessingConstants = s.gPostProcessingConstants := by
    rw [hA, constants_Select]; rfl
  refine ⟨hd, ?_, ?_, ?_, ?_, hc⟩
  · unfold Scene.memory
    rw [hd]
  · rw [hc]
  · rw [hc]
  · rw [hc]

/-- The sample scene with an anchor at the origin: its view depth `0` is less
than the near clip distance `1`, and the call draws nothing. -/
theorem C11_area_behind_near_clip_is_noop_witness :
    areaDistance sampleScene { x := 0, y := 0, z := 0 } < sampleScene.gCamera.NearClip ∧
    (AreaPostProcess Tint gSceneTexture gSceneTexture2 gAlphaBlendingState
        { x := 0, y := 0, z := 0 } { x := 10, y := 10 } sampleScene).draws = [] ∧
    (AreaPostProcess Tint gSceneTexture gSceneTexture2 gAlphaBlendingState
        { x := 0, y := 0, z := 0 } { x := 10, y := 10 } sampleScene).memory historyGpu
        blankMemory gSceneTexture2 = sampleScene.memory historyGpu blankMemory gSceneTexture2 ∧
    (AreaPostProcess Tint gSceneTexture gSceneTexture2 gAlphaBlendingState
        { x := 0, y := 0, z := 0 } { x := 10, y := 10 }
        sampleScene).gPostProcessingConstants.area2DSize = { x := 1, y := 1 } :=
  have h := C11_area_behind_near_clip_is_noop historyGpu blankMemory Tint gSceneTexture
    gSceneTexture2 gAlphaBlendingState { x := 0, y := 0, z := 0 } { x := 10, y := 10 }
    sampleScene (by decide!)
  ⟨by decide!, h.1, h.2.1, h.2.2.2.1⟩

/-- The directional passes of the bloom sub-pipeline: one draw for each entry
of the list, each an additive DirectionalBlur pass from temp 1 into temp 2,
the `k`-th with the direction of the `k`-th entry. -/
theorem bloom_directional_draws (l : List Nat) (s : Scene) :
    ∃ ds : List DrawCall,
      (l.foldl (fun s j => FullScreenPostProcess DirectionalBlur gTempTexture gTempTexture2
        gAdditiveBlendingState (UpdateBloomEffectDirection j s)) s).draws = s.draws ++ ds ∧
      ds.length = l.length ∧
      (∀ d ∈ ds, FullScreenDraw DirectionalBlur gTempTexture gTempTexture2
        gAdditiveBlendingState s.gPostProcessingConstants.copyAlpha d) ∧
      ds.map (fun d => d.constants.directionalBlur.j) = l := by
  induction l generalizing s with
  | nil => exact ⟨[], by simp, rfl, by simp, rfl⟩
  | cons j l ih =>
    rw [List.foldl_cons]
    obtain ⟨ds, hds, hl, hQ, hj⟩ := ih (FullScreenPostProcess DirectionalBlur gTempTexture
      gTempTexture2 gAdditiveBlendingState (UpdateBloomEffectDirection j s))
    have hc := (frame_FullScreenPostProcess DirectionalBlur gTempTexture gTempTexture2
      gAdditiveBlendingState (UpdateBloomEffectDirection j s)).copyAlpha
    have hd := draws_FullScreenPostProcess DirectionalBlur gTempTexture gTempTexture2
      gAdditiveBlendingState (UpdateBloomEffectDirection j s)
    have h0 := fullScreenDraw_currentDraw DirectionalBlur gTempTexture gTempTexture2
      gAdditiveBlendingState (UpdateBloomEffectDirection j s)
    have hk : (currentDraw (FullScreenSetup DirectionalBlur gTempTexture gTempTexture2
        gAdditiveBlendingState (UpdateBloomEffectDirection j s))).constants.directionalBlur.j
        = j := by
      show (FullScreenSetup DirectionalBlur gTempTexture gTempTexture2
        gAdditiveBlendingState (UpdateBloomEffectDirection j s)).gPostProcessingConstants.directionalBlur.j = _
      rw [constants_FullScreenSetup]
      rfl
    refine ⟨currentDraw (FullScreenSetup DirectionalBlur gTempTexture gTempTexture2
      gAdditiveBlendingState (UpdateBloomEffectDirection j s)) :: ds, ?_, ?_, ?_, ?_⟩
    · rw [hds, hd, List.append_assoc]
      rfl
    · simp only [List.length_cons, hl]
    · intro d hd'
      rcases List.mem_cons.mp hd' with h | h
      · rw [h]; exact h0
      · have := hQ d h
        rw [hc] at this
        exact this
    · simp only [List.map_cons, hj, hk]

theorem passDraw_of_fullScreenDraw {t : PostProcessType} {srv rt : Texture} {b : BlendState}
    {alpha : ℚ} {d : DrawCall} (ht : t ≠ None) (h : FullScreenDraw t srv rt b alpha d) :
    PassDraw t srv rt b d :=
  ⟨h.1.1, h.2.2.2.1 ht, h.1.2.1, h.1.2.2, h.2.1⟩

theorem bloomTexture_Select (t : PostProcessType) (s : Scene) :
    (SelectPostProcessShaderAndTextures t s).gCurrentBloomTextureSRV
      = s.gCurrentBloomTextureSRV := by
  unfold SelectPostProcessShaderAndTextures
  split <;> rfl

theorem bloomTexture_applyByMode (pp : PostProcess) (srv rt : Texture) (s : Scene) :
    (applyByMode pp srv rt s).gCurrentBloomTextureSRV = s.gCurrentBloomTextureSRV := by
  unfold applyByMode
  split
  · exact bloomTexture_Select _ _
  · unfold AreaPostProcess
    split
    · exact bloomTexture_Select _ _
    · exact bloomTexture_Select _ _
  · split
    · exact bloomTexture_Select _ _
    · rfl

/-- The draw of a Bloom effect binds the current bloom texture, whatever its
scope. -/
theorem bloom_modeDrawState (pp : PostProcess) (srv rt : Texture) (s t : Scene)
    (hb : pp.Type_ = Bloom) (h : modeDrawState pp srv rt s = some t) :
    (currentDraw t).pixelShader = Bloom ∧
    (currentDraw t).psTextures = [s.gCurrentBloomTextureSRV] := by
  have hne : Bloom ≠ None := by decide
  have hsel : ∀ u : Scene,
      (SelectPostProcessShaderAndTextures Bloom u).context.pixelShader = Bloom ∧
      (SelectPostProcessShaderAndTextures Bloom u).context.psTextures
        = [u.gCurrentBloomTextureSRV] := by
    intro u
    unfold SelectPostProcessShaderAndTextures
    rw [if_neg hne]
    exact ⟨rfl, rfl⟩
  unfold modeDrawState at h
  rw [hb] at h
  split at h
  · cases h
    exact hsel (PostProcessSetup srv rt gNoBlendingState s)
  · split at h
    · cases h
    · cases h
      exact hsel (PostProcessSetup srv rt gAlphaBlendingState s)
  · split at h
    · cases h
      exact hsel (PostProcessSetup srv rt gNoBlendingState s)
    · cases h

/-- The draws of `RenderBloomTexture`, in order. -/
theorem draws_RenderBloomTexture (srv : Texture) (s : Scene) :
    ∃ (brightness blurY blurX : DrawCall) (directional : List DrawCall),
      (RenderBloomTexture srv s).draws
        = s.draws ++ brightness :: blurY :: blurX :: directional ∧
      PassDraw Brightness srv gTempTexture2 gNoBlendingState brightness ∧
      PassDraw BlurY gTempTexture2 gTempTexture gNoBlendingState blurY ∧
      PassDraw BlurX gTempTexture gTempTexture2 gNoBlendingState blurX ∧
      directional.length = s.gTempDiagonalBlurs.toNat ∧
      (∀ d ∈ directional,
        PassDraw DirectionalBlur gTempTexture gTempTexture2 gAdditiveBlendingState d) ∧
      directional.map (fun d => d.constants.directionalBlur.j)
        = List.range s.gTempDiagonalBlurs.toNat := by
  have f1 := frame_FullScreenPostProcess Brightness srv gTempTexture2 gNoBlendingState s
  have f2 := frame_FullScreenPostProcess BlurY gTempTexture2 gTempTexture gNoBlendingState
    (FullScreenPostProcess Brightness srv gTempTexture2 gNoBlendingState s)
  have f3 := frame_FullScreenPostProcess BlurX gTempTexture gTempTexture2 gNoBlendingState
    (FullScreenPostProcess BlurY gTempTexture2 gTempTexture gNoBlendingState
      (FullScreenPostProcess Brightness srv gTempTexture2 gNoBlendingState s))
  have hn : (FullScreenPostProcess BlurX gTempTexture gTempTexture2 gNoBlendingState
      (FullScreenPostProcess BlurY gTempTexture2 gTempTexture gNoBlendingState
        (FullScreenPostProcess Brightness srv gTempTexture2 gNoBlendingState
          s))).gTempDiagonalBlurs = s.gTempDiagonalBlurs :=
    ((f1.comp f2).comp f3).blurs
  have d1 := draws_FullScreenPostProcess Brightness srv gTempTexture2 gNoBlendingState s
  have d2 := draws_FullScreenPostProcess BlurY gTempTexture2 gTempTexture gNoBlendingState
    (FullScreenPostProcess Brightness srv gTempTexture2 gNoBlendingState s)
  have d3 := draws_FullScreenPostProcess BlurX gTempTexture gTempTexture2 gNoBlendingState
    (FullScreenPostProcess BlurY gTempTexture2 gTempTexture gNoBlendingState
      (FullScreenPostProcess Brightness srv gTempTexture2 gNoBlendingState s))
  obtain ⟨ds, hds, hl, hQ, hj⟩ := bloom_directional_draws
    (List.range (FullScreenPostProcess BlurX gTempTexture gTempTexture2 gNoBlendingState
      (FullScreenPostProcess BlurY gTempTexture2 gTempTexture gNoBlendingState
        (FullScreenPostProcess Brightness srv gTempTexture2 gNoBlendingState
          s))).gTempDiagonalBlurs.toNat)
    (FullScreenPostProcess BlurX gTempTexture gTempTexture2 gNoBlendingState
      (FullScreenPostProcess BlurY gTempTexture2 gTempTexture gNoBlendingState
        (FullScreenPostProcess Brightness srv gTempTexture2 gNoBlendingState s)))
  refine ⟨currentDraw (FullScreenSetup Brightness srv gTempTexture2 gNoBlendingState s),
    currentDraw (FullScreenSetup BlurY gTempTexture2 gTempTexture gNoBlendingState
      (FullScreenPostProcess Brightness srv gTempTexture2 gNoBlendingState s)),
    currentDraw (FullScreenSetup BlurX gTempTexture gTempTexture2 gNoBlendingState
      (FullScreenPostProcess BlurY gTempTexture2 gTempTexture gNoBlendingState
        (FullScreenPostProcess Brightness srv gTempTexture2 gNoBlendingState s))),
    ds, ?_, ?_, ?_, ?_, ?_, ?_, ?_⟩
  · have h0 : (RenderBloomTexture srv s).draws
        = ((List.range (FullScreenPostProcess BlurX gTempTexture gTempTexture2 gNoBlendingState
            (FullScreenPostProcess BlurY gTempTexture2 gTempTexture gNoBlendingState
              (FullScreenPostProcess Brightness srv gTempTexture2 gNoBlendingState
                s))).gTempDiagonalBlurs.toNat).foldl
            (fun s j => FullScreenPostProcess DirectionalBlur gTempTexture gTempTexture2
              gAdditiveBlendingState (UpdateBloomEffectDirection j s))
            (FullScreenPostProcess BlurX gTempTexture gTempTexture2 gNoBlendingState
              (FullScreenPostProcess BlurY gTempTexture2 gTempTexture gNoBlendingState
                (FullScreenPostProcess Brightness srv gTempTexture2 gNoBlendingState
                  s)))).draws := rfl
    rw [h0, hds, d3, d2, d1]
    simp only [List.append_assoc, List.cons_append, List.nil_append]
  · exact passDraw_of_fullScreenDraw (by decide) (fullScreenDraw_currentDraw _ _ _ _ _)
  · exact passDraw_of_fullScreenDraw (by decide) (fullScreenDraw_currentDraw _ _ _ _ _)
  · exact passDraw_of_fullScreenDraw (by decide) (fullScreenDraw_currentDraw _ _ _ _ _)
  · rw [hl, List.length_range, hn]
  · intro d hd
    exact passDraw_of_fullScreenDraw (by decide) (hQ d hd)
  · rw [hj, hn]

/-- C15: for a Bloom effect of any scope `ApplyPostProcess` first issues the
draws of the bloom sub-pipeline, in this order: a Brightness pass from the
effect source into temp 2 (the spec's temp B), a BlurY pass from temp 2 into
temp 1, a BlurX pass from temp 1 into temp 2, then `gTempDiagonalBlurs`
DirectionalBlur passes with additive blending from temp 1 into temp 2, the
`j`-th with direction index `j`; that is `3 + gTempDiagonalBlurs` draws (none
of the directional ones when the count is not positive).  After them comes
the draw of the effect itself, if any, with the Bloom shader and temp 2 bound
as its bloom texture, and temp 2 is the current bloom texture at the end. -/
theorem C15_bloom_sub_pipeline (mode : PostProcessMode) (polyData : Option PolygonData)
    (srv renderTarget : Texture) (s : Scene) :
    ∃ (brightness blurY blurX : DrawCall) (directional : List DrawCall),
      (ApplyPostProcess { Type_ := Bloom, Mode := mode, PolyData := polyData } srv renderTarget
          s).draws
        = s.draws ++ (brightness :: blurY :: blurX :: directional)
            ++ effectDraws { Type_ := Bloom, Mode := mode, PolyData := polyData } srv
                renderTarget s ∧
      PassDraw Brightness srv gTempTexture2 gNoBlendingState brightness ∧
      PassDraw BlurY gTempTexture2 gTempTexture gNoBlendingState blurY ∧
      PassDraw BlurX gTempTexture gTempTexture2 gNoBlendingState blurX ∧
      directional.length = s.gTempDiagonalBlurs.toNat ∧
      (0 ≤ s.gTempDiagonalBlurs →
        ((brightness :: blurY :: blurX :: directional).length : Int)
          = 3 + s.gTempDiagonalBlurs) ∧
      (∀ d ∈ directional,
        PassDraw DirectionalBlur gTempTexture gTempTexture2 gAdditiveBlendingState d) ∧
      directional.map (fun d => d.constants.directionalBlur.j)
        = List.range s.gTempDiagonalBlurs.toNat ∧
      (∀ d ∈ effectDraws { Type_ := Bloom, Mode := mode, PolyData := polyData } srv
          renderTarget s, d.pixelShader = Bloom ∧ d.psTextures = [gTempTexture2]) ∧
      (ApplyPostProcess { Type_ := Bloom, Mode := mode, PolyData := polyData } srv renderTarget
          s).gCurrentBloomTextureSRV = gTempTexture2 := by
  obtain ⟨b1, b2, b3, ds, hds, h1, h2, h3, hl, hQ, hj⟩ := draws_RenderBloomTexture srv s
  have hsel : ¬ (Bloom = Selection) := by decide
  have hA : ApplyPostProcess { Type_ := Bloom, Mode := mode, PolyData := polyData } srv
      renderTarget s
      = applyByMode { Type_ := Bloom, Mode := mode, PolyData := polyData } srv renderTarget
          (RenderBloomTexture srv s) := by
    unfold ApplyPostProcess
    rw [if_neg (fun h => absurd h.1 hsel)]
    simp only [if_true]
  have hE : effectDrawState { Type_ := Bloom, Mode := mode, PolyData := polyData } srv
      renderTarget s
      = modeDrawState { Type_ := Bloom, Mode := mode, PolyData := polyData } srv renderTarget
          (RenderBloomTexture srv s) := by
    unfold effectDrawState
    rw [if_neg (fun h => absurd h.1 hsel)]
    simp only [if_true]
  have hm := (draws_applyByMode { Type_ := Bloom, Mode := mode, PolyData := polyData } srv
    renderTarget (RenderBloomTexture srv s)).1
  refine ⟨b1, b2, b3, ds, ?_, h1, h2, h3, hl, ?_, hQ, hj, ?_, ?_⟩
  · rw [hA, hm, hds]
    unfold effectDraws
    rw [hE]
  · intro h0
    simp only [List.length_cons, hl]
    push_cast
    rw [Int.toNat_of_nonneg h0]
    ring
  · intro d hd
    unfold effectDraws at hd
    rw [hE] at hd
    cases hst : modeDrawState { Type_ := Bloom, Mode := mode, PolyData := polyData } srv
        renderTarget (RenderBloomTexture srv s) with
    | none => rw [hst] at hd; cases hd
    | some t =>
      rw [hst] at hd
      have hd' : d = currentDraw t := by simpa using hd
      rw [hd']
      exact bloom_modeDrawState _ srv renderTarget (RenderBloomTexture srv s) t rfl hst
  · rw [hA, bloomTexture_applyByMode]
    rfl



/-! ## `UpdateScene`: what each group of statements leaves unchanged -/

theorem SameEffects.unchanged (u : UpdateState) : SameEffects u u :=
  ⟨rfl, rfl, rfl, rfl, rfl, rfl⟩

theorem SameEffects.chain {u v w : UpdateState} (h₁ : SameEffects u v) (h₂ : SameEffects v w) :
    SameEffects u w :=
  ⟨h₂.fullScreen.trans h₁.fullScreen, h₂.polygon.trans h₁.polygon,
    h₂.fullScreenAddresses.trans h₁.fullScreenAddresses,
    h₂.polygonAddresses.trans h₁.polygonAddresses, h₂.live.trans h₁.live,
    h₂.nextAddress.trans h₁.nextAddress⟩

theorem SameFocus.itself (u : UpdateState) : SameFocus u u :=
  ⟨rfl, rfl, rfl, rfl, rfl⟩

theorem SameFocus.link {u v w : UpdateState} (h₁ : SameFocus u v) (h₂ : SameFocus v w) :
    SameFocus u w :=
  ⟨h₂.objects.trans h₁.objects, h₂.camera.trans h₁.camera, h₂.focused.trans h₁.focused,
    h₂.focalPlane.trans h₁.focalPlane, h₂.planeDist.trans h₁.planeDist⟩

theorem updateMotionBlur_eq (frameTime : ℚ) (keys : Input) (s : Scene) :
    ∃ alpha : ℚ, updateMotionBlur frameTime keys s = { s with gCopyAlpha := alpha } := by
  unfold updateMotionBlur
  dsimp only
  split
  · exact ⟨_, rfl⟩
  · split <;> exact ⟨_, rfl⟩

theorem updateDiagonalBlurs_eq (keys : Input) (s : Scene) :
    ∃ n : Int, updateDiagonalBlurs keys s = { s with gTempDiagonalBlurs := n } := by
  unfold updateDiagonalBlurs
  dsimp only
  split <;> split <;> exact ⟨_, rfl⟩

theorem rel_ite {R : UpdateState → Prop} {c : Prop} [Decidable c] {a b : UpdateState}
    (ha : R a) (hb : R b) : R (if c then a else b) := by
  split
  · exact ha
  · exact hb

/-- What holds of `u` and is kept by a push, and holds after the clear and
after the pop, holds after the statements on the effect keys. -/
theorem updateEffectLists_rel (R : UpdateState → Prop) (keys : Input) (u : UpdateState)
    (hu : R u) (hpush : ∀ t v, R v → R (pushFullScreen t v)) (hclear : R (clearFullScreen u))
    (hpop : R (popFullScreen u)) : R (updateEffectLists keys u) := by
  unfold updateEffectLists
  exact rel_ite (hpush _ _ hu) (rel_ite (hpush _ _ (hpush _ _ hu)) (rel_ite (hpush _ _ hu)
    (rel_ite (hpush _ _ hu) (rel_ite (hpush _ _ hu) (rel_ite (hpush _ _ hu)
    (rel_ite (hpush _ _ hu) (rel_ite (hpush _ _ hu) (rel_ite (hpush _ _ hu)
    (rel_ite (hpush _ _ hu) (rel_ite (hpush _ _ hu) (rel_ite (hpush _ _ hu)
    (rel_ite hclear (rel_ite hpop hu)))))))))))))

theorem sameFocus_updateEffectLists (keys : Input) (u : UpdateState) :
    SameFocus u (updateEffectLists keys u) ∧
    (updateEffectLists keys u).scene.gTempDiagonalBlurs = u.scene.gTempDiagonalBlurs ∧
    (updateEffectLists keys u).scene.gPolygonPostProcesses = u.scene.gPolygonPostProcesses ∧
    (updateEffectLists keys u).polygonAddresses = u.polygonAddresses := by
  refine updateEffectLists_rel
    (fun v => SameFocus u v ∧ v.scene.gTempDiagonalBlurs = u.scene.gTempDiagonalBlurs ∧
      v.scene.gPolygonPostProcesses = u.scene.gPolygonPostProcesses ∧
      v.polygonAddresses = u.polygonAddresses) keys u ?_ ?_ ?_ ?_
  · exact ⟨SameFocus.itself u, rfl, rfl, rfl⟩
  · intro t v hv
    exact ⟨⟨hv.1.objects, hv.1.camera, hv.1.focused, hv.1.focalPlane, hv.1.planeDist⟩,
      hv.2.1, hv.2.2.1, hv.2.2.2⟩
  · exact ⟨⟨rfl, rfl, rfl, rfl, rfl⟩, rfl, rfl, rfl⟩
  · unfold popFullScreen
    split <;> exact ⟨⟨rfl, rfl, rfl, rfl, rfl⟩, rfl, rfl, rfl⟩

theorem sameEffects_updateManualFocus (frameTime : ℚ) (keys : Input) (u : UpdateState) :
    SameEffects u (updateManualFocus frameTime keys u) ∧
    (updateManualFocus frameTime keys u).scene.gTempDiagonalBlurs
      = u.scene.gTempDiagonalBlurs := by
  unfold updateManualFocus
  dsimp only
  split
  · exact ⟨⟨rfl, rfl, rfl, rfl, rfl, rfl⟩, rfl⟩
  · split <;> exact ⟨⟨rfl, rfl, rfl, rfl, rfl, rfl⟩, rfl⟩

theorem updatePlaneDist_eq (frameTime : ℚ) (keys : Input) (u : UpdateState) :
    ∃ d : ℚ, updatePlaneDist frameTime keys u = { u with planeDist := d } := by
  unfold updatePlaneDist
  dsimp only
  split
  · exact ⟨_, rfl⟩
  · split <;> exact ⟨_, rfl⟩

theorem updateFocusedObject_eq (keys : Input) (u : UpdateState) :
    ∃ focused : Int,
      updateFocusedObject keys u = { u with scene := { u.scene with gFocusedObject := focused } } := by
  unfold updateFocusedObject
  dsimp only
  split <;> split <;> exact ⟨_, rfl⟩

theorem sameEffects_publishDepthOfField (u : UpdateState) :
    SameEffects u (publishDepthOfField u) ∧
    (publishDepthOfField u).scene.gTempDiagonalBlurs = u.scene.gTempDiagonalBlurs ∧
    (publishDepthOfField u).scene.gFocusedObject = u.scene.gFocusedObject ∧
    (publishDepthOfField u).gObjects = u.gObjects ∧
    (publishDepthOfField u).scene.gCamera = u.scene.gCamera ∧
    (publishDepthOfField u).planeDist = u.planeDist := by
  unfold publishDepthOfField
  dsimp only
  split <;> exact ⟨⟨rfl, rfl, rfl, rfl, rfl, rfl⟩, rfl, rfl, rfl, rfl, rfl⟩

theorem sameEffects_updateDepthOfField (frameTime : ℚ) (keys : Input) (u : UpdateState) :
    SameEffects u (updateDepthOfField frameTime keys u) ∧
    (updateDepthOfField frameTime keys u).scene.gTempDiagonalBlurs
      = u.scene.gTempDiagonalBlurs := by
  unfold updateDepthOfField
  obtain ⟨h1, b1⟩ := sameEffects_updateManualFocus frameTime keys u
  obtain ⟨d, hd⟩ := updatePlaneDist_eq frameTime keys (updateManualFocus frameTime keys u)
  obtain ⟨f, hf⟩ := updateFocusedObject_eq keys
    (updatePlaneDist frameTime keys (updateManualFocus frameTime keys u))
  obtain ⟨h4, b4, -⟩ := sameEffects_publishDepthOfField
    (updateFocusedObject keys (updatePlaneDist frameTime keys (updateManualFocus frameTime keys u)))
  have h2 : SameEffects (updateManualFocus frameTime keys u)
      (updatePlaneDist frameTime keys (updateManualFocus frameTime keys u)) := by
    rw [hd]; exact ⟨rfl, rfl, rfl, rfl, rfl, rfl⟩
  have h3 : SameEffects (updatePlaneDist frameTime keys (updateManualFocus frameTime keys u))
      (updateFocusedObject keys
        (updatePlaneDist frameTime keys (updateManualFocus frameTime keys u))) := by
    rw [hf]; exact ⟨rfl, rfl, rfl, rfl, rfl, rfl⟩
  refine ⟨((h1.chain h2).chain h3).chain h4, ?_⟩
  rw [b4, hf]
  show (updatePlaneDist frameTime keys (updateManualFocus frameTime keys u)).scene.gTempDiagonalBlurs
    = _
  rw [hd]
  exact b1

theorem updateBloomTimer_eq (frameTime : ℚ) (u : UpdateState) :
    ∃ (timer change : ℚ) (direction : BlurAngle),
      updateBloomTimer frameTime u
        = { u with
            scene := { u.scene with
                       gTempTimer := timer
                       gPostProcessingConstants :=
                         { u.scene.gPostProcessingConstants with directionalBlur := direction } }
            bloomTimerChange := change } := by
  unfold updateBloomTimer
  dsimp only
  split <;> split <;> exact ⟨_, _, _, rfl⟩

theorem blurs_updateDiagonalBlurs (keys : Input) (s : Scene) :
    (updateDiagonalBlurs keys s).gTempDiagonalBlurs
      = if keys.KeyHit Key_C = true then
          Clamp ((if keys.KeyHit Key_X = true then Clamp (s.gTempDiagonalBlurs - 1) 0 20
                  else s.gTempDiagonalBlurs) + 1) 0 20
        else if keys.KeyHit Key_X = true then Clamp (s.gTempDiagonalBlurs - 1) 0 20
        else s.gTempDiagonalBlurs := by
  unfold updateDiagonalBlurs
  dsimp only
  by_cases hx : keys.KeyHit Key_X = true <;> by_cases hc : keys.KeyHit Key_C = true
  · rw [if_pos hx, if_pos hc, if_pos hc, if_pos hx]
  · rw [if_pos hx, if_neg hc, if_neg hc, if_pos hx]
  · rw [if_neg hx, if_pos hc, if_pos hc, if_neg hx]
  · rw [if_neg hx, if_neg hc, if_neg hc, if_neg hx]

theorem Group.same_self (g : Group) (u : UpdateState) : g.Same u u := by
  cases g
  · exact SameEffects.unchanged u
  · exact rfl
  · exact ⟨rfl, rfl, rfl, rfl⟩
  · exact ⟨rfl, rfl⟩
  · exact ⟨rfl, rfl⟩
  · exact rfl
  · exact ⟨rfl, rfl, rfl⟩

theorem Group.same_trans (g : Group) {u v w : UpdateState} (h₁ : g.Same u v)
    (h₂ : g.Same v w) : g.Same u w := by
  cases g
  · exact SameEffects.chain h₁ h₂
  · exact Eq.trans h₂ h₁
  · exact ⟨h₂.1.trans h₁.1, h₂.2.1.trans h₁.2.1, h₂.2.2.1.trans h₁.2.2.1,
      h₂.2.2.2.trans h₁.2.2.2⟩
  · exact ⟨h₂.1.trans h₁.1, h₂.2.trans h₁.2⟩
  · exact ⟨h₂.1.trans h₁.1, h₂.2.trans h₁.2⟩
  · exact Eq.trans h₂ h₁
  · exact ⟨h₂.1.trans h₁.1, h₂.2.1.trans h₁.2.1, h₂.2.2.trans h₁.2.2⟩

theorem Writes.untouched (a : List Group) (u : UpdateState) : Writes a u u :=
  ⟨rfl, rfl, rfl, rfl, rfl, fun g _ => g.same_self u⟩

theorem Writes.followed {a b : List Group} {u v w : UpdateState} (h₁ : Writes a u v)
    (h₂ : Writes b v w) : Writes (a ++ b) u w :=
  ⟨h₂.objects.trans h₁.objects, h₂.camera.trans h₁.camera, h₂.width.trans h₁.width,
    h₂.height.trans h₁.height, h₂.epsilon.trans h₁.epsilon,
    fun g hg => g.same_trans
      (h₁.rest g (fun h => hg (List.mem_append_left _ h)))
      (h₂.rest g (fun h => hg (List.mem_append_right _ h)))⟩

theorem Writes.sameFocus {a : List Group} {u v : UpdateState} (h : Writes a u v)
    (hf : Group.focus ∉ a) : SameFocus u v :=
  ⟨h.objects, h.camera, (h.rest _ hf).1, (h.rest _ hf).2.1, (h.rest _ hf).2.2⟩

theorem writes_updateEffectLists (keys : Input) (u : UpdateState) :
    Writes [Group.effects] u (updateEffectLists keys u) := by
  refine updateEffectLists_rel (fun v => Writes [Group.effects] u v) keys u
    (Writes.untouched _ u) ?_ ?_ ?_
  · intro t v hv
    refine ⟨hv.objects, hv.camera, hv.width, hv.height, hv.epsilon, ?_⟩
    intro g hg
    have h := hv.rest g hg
    cases g
    · exact absurd (List.mem_cons_self _ _) hg
    · exact h
    · exact h
    · exact h
    · exact h
    · exact h
    · exact h
  · refine ⟨rfl, rfl, rfl, rfl, rfl, ?_⟩
    intro g hg
    cases g
    · exact absurd (List.mem_cons_self _ _) hg
    · exact rfl
    · exact ⟨rfl, rfl, rfl, rfl⟩
    · exact ⟨rfl, rfl⟩
    · exact ⟨rfl, rfl⟩
    · exact rfl
    · exact ⟨rfl, rfl, rfl⟩
  · unfold popFullScreen
    split
    · refine ⟨rfl, rfl, rfl, rfl, rfl, ?_⟩
      intro g hg
      cases g
      · exact absurd (List.mem_cons_self _ _) hg
      · exact rfl
      · exact ⟨rfl, rfl, rfl, rfl⟩
      · exact ⟨rfl, rfl⟩
      · exact ⟨rfl, rfl⟩
      · exact rfl
      · exact ⟨rfl, rfl, rfl⟩
    · exact Writes.untouched _ u

theorem writes_motionBlurStage (frameTime : ℚ) (keys : Input) (u : UpdateState) :
    Writes [Group.alpha] u (motionBlurStage frameTime keys u) := by
  obtain ⟨a, ha⟩ := updateMotionBlur_eq frameTime keys u.scene
  unfold motionBlurStage
  rw [ha]
  refine ⟨rfl, rfl, rfl, rfl, rfl, ?_⟩
  intro g hg
  cases g
  · exact ⟨rfl, rfl, rfl, rfl, rfl, rfl⟩
  · exact absurd (List.mem_cons_self _ _) hg
  · exact ⟨rfl, rfl, rfl, rfl⟩
  · exact ⟨rfl, rfl⟩
  · exact ⟨rfl, rfl⟩
  · exact rfl
  · exact ⟨rfl, rfl, rfl⟩

theorem updateGradientHues_eq (frameTime : ℚ) (u : UpdateState) :
    ∃ (hue hue2 mult1 mult2 : ℚ),
      updateGradientHues frameTime u
        = { u with
            scene := { u.scene with
                       gPostProcessingConstants :=
                         { u.scene.gPostProcessingConstants with
                           gradientHue := { x := u.hue, y := u.hue2 } } }
            hue := hue
            hue2 := hue2
            hue1ChangeSpeedMult := mult1
            hue2ChangeSpeedMult := mult2 } := by
  unfold updateGradientHues
  dsimp only
  split <;> split <;> exact ⟨_, _, _, _, rfl⟩

theorem writes_updateGradientHues (frameTime : ℚ) (u : UpdateState) :
    Writes [Group.hues] u (updateGradientHues frameTime u) := by
  obtain ⟨h, h2, m1, m2, he⟩ := updateGradientHues_eq frameTime u
  rw [he]
  refine ⟨rfl, rfl, rfl, rfl, rfl, ?_⟩
  intro g hg
  cases g
  · exact ⟨rfl, rfl, rfl, rfl, rfl, rfl⟩
  · exact rfl
  · exact absurd (List.mem_cons_self _ _) hg
  · exact ⟨rfl, rfl⟩
  · exact ⟨rfl, rfl⟩
  · exact rfl
  · exact ⟨rfl, rfl, rfl⟩

theorem updateRetro_eq (frameTime : ℚ) (keys : Input) (u : UpdateState) :
    ∃ (pixelSize : ℚ) (pixelNumber : CVector2),
      updateRetro frameTime keys u
        = { u with
            scene := { u.scene with
                       gPostProcessingConstants :=
                         { u.scene.gPostProcessingConstants with pixelNumber := pixelNumber } }
            pixelSize := pixelSize } := by
  unfold updateRetro
  dsimp only
  split
  · split <;> exact ⟨_, _, rfl⟩
  · split <;> exact ⟨_, _, rfl⟩

theorem writes_updateRetro (frameTime : ℚ) (keys : Input) (u : UpdateState) :
    Writes [Group.retro] u (updateRetro frameTime keys u) := by
  obtain ⟨p, n, he⟩ := updateRetro_eq frameTime keys u
  rw [he]
  refine ⟨rfl, rfl, rfl, rfl, rfl, ?_⟩
  intro g hg
  cases g
  · exact ⟨rfl, rfl, rfl, rfl, rfl, rfl⟩
  · exact rfl
  · exact ⟨rfl, rfl, rfl, rfl⟩
  · exact absurd (List.mem_cons_self _ _) hg
  · exact ⟨rfl, rfl⟩
  · exact rfl
  · exact ⟨rfl, rfl, rfl⟩

theorem writes_updateBloomTimer (frameTime : ℚ) (u : UpdateState) :
    Writes [Group.timer] u (updateBloomTimer frameTime u) := by
  obtain ⟨timer, change, direction, he⟩ := updateBloomTimer_eq frameTime u
  rw [he]
  refine ⟨rfl, rfl, rfl, rfl, rfl, ?_⟩
  intro g hg
  cases g
  · exact ⟨rfl, rfl, rfl, rfl, rfl, rfl⟩
  · exact rfl
  · exact ⟨rfl, rfl, rfl, rfl⟩
  · exact ⟨rfl, rfl⟩
  · exact absurd (List.mem_cons_self _ _) hg
  · exact rfl
  · exact ⟨rfl, rfl, rfl⟩

theorem writes_diagonalBlursStage (keys : Input) (u : UpdateState) :
    Writes [Group.blurs] u (diagonalBlursStage keys u) := by
  obtain ⟨n, hn⟩ := updateDiagonalBlurs_eq keys u.scene
  unfold diagonalBlursStage
  rw [hn]
  refine ⟨rfl, rfl, rfl, rfl, rfl, ?_⟩
  intro g hg
  cases g
  · exact ⟨rfl, rfl, rfl, rfl, rfl, rfl⟩
  · exact rfl
  · exact ⟨rfl, rfl, rfl, rfl⟩
  · exact ⟨rfl, rfl⟩
  · exact ⟨rfl, rfl⟩
  · exact absurd (List.mem_cons_self _ _) hg
  · exact ⟨rfl, rfl, rfl⟩

theorem updateManualFocus_eq (frameTime : ℚ) (keys : Input) (u : UpdateState) :
    ∃ (focalPlane : ℚ) (focused : Int),
      updateManualFocus frameTime keys u
        = { u with focalPlane := focalPlane
                   scene := { u.scene with gFocusedObject := focused } } := by
  unfold updateManualFocus
  dsimp only
  split
  · exact ⟨_, _, rfl⟩
  · split <;> exact ⟨_, _, rfl⟩

theorem publishDepthOfField_eq (u : UpdateState) :
    ∃ (focalPlane near focal far : ℚ),
      publishDepthOfField u
        = { u with
            focalPlane := focalPlane
            scene := { u.scene with
                       gPostProcessingConstants :=
                         { u.scene.gPostProcessingConstants with
                           nearPlane := near
                           focalPlane := focal
                           farPlane := far } } } := by
  unfold publishDepthOfField
  dsimp only
  split <;> exact ⟨_, _, _, _, rfl⟩

theorem writes_updateDepthOfField (frameTime : ℚ) (keys : Input) (u : UpdateState) :
    Writes [Group.focus] u (updateDepthOfField frameTime keys u) := by
  obtain ⟨f1, g1, h1⟩ := updateManualFocus_eq frameTime keys u
  obtain ⟨d, h2⟩ := updatePlaneDist_eq frameTime keys (updateManualFocus frameTime keys u)
  obtain ⟨g3, h3⟩ := updateFocusedObject_eq keys
    (updatePlaneDist frameTime keys (updateManualFocus frameTime keys u))
  obtain ⟨f4, n4, c4, r4, h4⟩ := publishDepthOfField_eq
    (updateFocusedObject keys (updatePlaneDist frameTime keys (updateManualFocus frameTime keys u)))
  unfold updateDepthOfField
  rw [h4, h3, h2, h1]
  refine ⟨rfl, rfl, rfl, rfl, rfl, ?_⟩
  intro g hg
  cases g
  · exact ⟨rfl, rfl, rfl, rfl, rfl, rfl⟩
  · exact rfl
  · exact ⟨rfl, rfl, rfl, rfl⟩
  · exact ⟨rfl, rfl⟩
  · exact ⟨rfl, rfl⟩
  · exact rfl
  · exact absurd (List.mem_cons_self _ _) hg

/-- `UpdateScene` as the sequence of its steps. -/
theorem UpdateScene_stages (frameTime : ℚ) (keys : Input) (u : UpdateState) :
    UpdateScene frameTime keys u
      = updateDepthOfField frameTime keys
          (diagonalBlursStage keys
            (updateBloomTimer frameTime
              (updateRetro frameTime keys
                (updateGradientHues frameTime
                  (motionBlurStage frameTime keys (updateEffectLists keys u)))))) :=
  rfl

/-- `UpdateScene` ends with the depth-of-field statements, run in a state in
which the effect lists and the free store are those left by the statements on
the effect keys, in which the objects, the camera, the focused object and the
focal plane and plane distance are those of the start, and in which the number
of directional passes is the one left by the statements on `Key_X` and
`Key_C`. -/
theorem UpdateScene_split (frameTime : ℚ) (keys : Input) (u : UpdateState) :
    ∃ v : UpdateState,
      UpdateScene frameTime keys u = updateDepthOfField frameTime keys v ∧
      SameEffects (updateEffectLists keys u) v ∧ SameFocus u v ∧
      v.scene.gTempDiagonalBlurs
        = (if keys.KeyHit Key_C = true then
            Clamp ((if keys.KeyHit Key_X = true then Clamp (u.scene.gTempDiagonalBlurs - 1) 0 20
                    else u.scene.gTempDiagonalBlurs) + 1) 0 20
          else if keys.KeyHit Key_X = true then Clamp (u.scene.gTempDiagonalBlurs - 1) 0 20
          else u.scene.gTempDiagonalBlurs) := by
  have w1 := writes_updateEffectLists keys u
  have w2 := writes_motionBlurStage frameTime keys (updateEffectLists keys u)
  have w3 := writes_updateGradientHues frameTime
    (motionBlurStage frameTime keys (updateEffectLists keys u))
  have w4 := writes_updateRetro frameTime keys
    (updateGradientHues frameTime (motionBlurStage frameTime keys (updateEffectLists keys u)))
  have w5 := writes_updateBloomTimer frameTime
    (updateRetro frameTime keys
      (updateGradientHues frameTime (motionBlurStage frameTime keys (updateEffectLists keys u))))
  have w6 := writes_diagonalBlursStage keys
    (updateBloomTimer frameTime
      (updateRetro frameTime keys
        (updateGradientHues frameTime
          (motionBlurStage frameTime keys (updateEffectLists keys u)))))
  have hb := blurs_updateDiagonalBlurs keys
    (updateBloomTimer frameTime
      (updateRetro frameTime keys
        (updateGradientHues frameTime
          (motionBlurStage frameTime keys (updateEffectLists keys u))))).scene
  refine ⟨_, UpdateScene_stages frameTime keys u, ?_, ?_, ?_⟩
  · exact ((((w2.followed w3).followed w4).followed w5).followed w6).rest Group.effects
      (by decide)
  · exact (((((w1.followed w2).followed w3).followed w4).followed w5).followed w6).sameFocus
      (by decide)
  · have h15 : Group.blurs.Same u _ :=
      ((((w1.followed w2).followed w3).followed w4).followed w5).rest Group.blurs (by decide)
    show (updateDiagonalBlurs keys _).gTempDiagonalBlurs = _
    rw [hb]
    have h15' : (updateBloomTimer frameTime
        (updateRetro frameTime keys
          (updateGradientHues frameTime
            (motionBlurStage frameTime keys
              (updateEffectLists keys u))))).scene.gTempDiagonalBlurs
        = u.scene.gTempDiagonalBlurs := h15
    rw [h15']

/-- The effect lists and the free store after `UpdateScene` are those left by
the statements on the effect keys. -/
theorem sameEffects_UpdateScene (frameTime : ℚ) (keys : Input) (u : UpdateState) :
    SameEffects (updateEffectLists keys u) (UpdateScene frameTime keys u) := by
  obtain ⟨v, hv, he, -, -⟩ := UpdateScene_split frameTime keys u
  rw [hv]
  exact he.chain (sameEffects_updateDepthOfField frameTime keys v).1

/-! ## The commands on the transient list -/

theorem updateEffectLists_pop (keys : Input) (u : UpdateState) (h : Selects keys Key_Z) :
    updateEffectLists keys u = popFullScreen u := by
  simp [Selects, effectKeys, List.takeWhile] at h
  simp [updateEffectLists, h]

theorem updateEffectLists_clear (keys : Input) (u : UpdateState) (h : Selects keys Key_0) :
    updateEffectLists keys u = clearFullScreen u := by
  simp [Selects, effectKeys, List.takeWhile] at h
  simp [updateEffectLists, h]

theorem updateEffectLists_push (keys : Input) (key : KeyCode) (u : UpdateState)
    (h : Selects keys key) (hp : pushedEffects key ≠ []) :
    updateEffectLists keys u = (pushedEffects key).foldl (fun v t => pushFullScreen t v) u := by
  cases key <;> first
    | exact absurd rfl hp
    | (simp [Selects, effectKeys, List.takeWhile] at h
       simp [updateEffectLists, h, pushedEffects])

theorem fullScreen_pushes (l : List PostProcessType) (u : UpdateState) :
    (l.foldl (fun v t => pushFullScreen t v) u).scene.gFullScreenPostProcesses
      = u.scene.gFullScreenPostProcesses
          ++ l.map (fun t => { Type_ := t, Mode := Fullscreen, PolyData := none }) := by
  induction l generalizing u with
  | nil => simp
  | cons t l ih =>
    rw [List.foldl_cons, ih]
    simp [pushFullScreen]

theorem fullScreen_popFullScreen (u : UpdateState) :
    (popFullScreen u).scene.gFullScreenPostProcesses
      = u.scene.gFullScreenPostProcesses.dropLast := by
  unfold popFullScreen
  split
  · rfl
  · rename_i h
    have h0 : u.scene.gFullScreenPostProcesses = [] :=
      List.eq_nil_of_length_eq_zero (Nat.eq_zero_of_not_pos h)
    rw [h0]
    rfl

/-- C12: when the pop command is given (`Key_Z` hit, no effect key asked about
before it hit), `UpdateScene` leaves the polygon list as it is and the
transient list becomes the previous list without its last element: on an
empty list nothing changes, and a list `l ++ [x]` becomes `l`, the remaining
elements in their order.  The addresses held by the transient list follow the
same rule. -/
theorem C12_pop_removes_last_or_nothing (frameTime : ℚ) (keys : Input) (u : UpdateState)
    (h : Selects keys Key_Z) :
    (UpdateScene frameTime keys u).scene.gPolygonPostProcesses
      = u.scene.gPolygonPostProcesses ∧
    (UpdateScene frameTime keys u).scene.gFullScreenPostProcesses
      = u.scene.gFullScreenPostProcesses.dropLast ∧
    (u.scene.gFullScreenPostProcesses = [] →
      (UpdateScene frameTime keys u).scene.gFullScreenPostProcesses = []) ∧
    (∀ (l : List PostProcess) (x : PostProcess), u.scene.gFullScreenPostProcesses = l ++ [x] →
      (UpdateScene frameTime keys u).scene.gFullScreenPostProcesses = l) := by
  have hs := sameEffects_UpdateScene frameTime keys u
  have hk := sameFocus_updateEffectLists keys u
  have hf : (UpdateScene frameTime keys u).scene.gFullScreenPostProcesses
      = u.scene.gFullScreenPostProcesses.dropLast := by
    rw [hs.fullScreen, updateEffectLists_pop keys u h, fullScreen_popFullScreen]
  refine ⟨hs.polygon.trans hk.2.2.1, hf, ?_, ?_⟩
  · intro h0
    rw [hf, h0]
    rfl
  · intro l x hl
    rw [hf, hl, List.dropLast_concat]

/-- On the empty sample state and after `Key_1` has pushed one effect. -/
theorem C12_pop_removes_last_or_nothing_witness :
    Selects (hitKeys [Key_Z]) Key_Z ∧
    (UpdateScene (1 / 60) (hitKeys [Key_Z]) sampleUpdateState).scene.gFullScreenPostProcesses
      = sampleUpdateState.scene.gFullScreenPostProcesses.dropLast ∧
    (UpdateScene (1 / 60) (hitKeys [Key_Z])
        (UpdateScene (1 / 60) (hitKeys [Key_1]) sampleUpdateState)).scene.gFullScreenPostProcesses
      = (UpdateScene (1 / 60) (hitKeys [Key_1])
          sampleUpdateState).scene.gFullScreenPostProcesses.dropLast :=
  ⟨by decide,
    (C12_pop_removes_last_or_nothing (1 / 60) (hitKeys [Key_Z]) sampleUpdateState
      (by decide)).2.1,
    (C12_pop_removes_last_or_nothing (1 / 60) (hitKeys [Key_Z])
      (UpdateScene (1 / 60) (hitKeys [Key_1]) sampleUpdateState) (by decide)).2.1⟩

/-- C13: when the command of a push key is given, the transient list after
`UpdateScene` is the list before it followed by the effects of that key, each
with mode `Fullscreen` and no polygon data (`BlurX` then `BlurY` for
`Key_2`, one effect for every other push key), and the polygon list is
unchanged; a pop command in the next update after a push of one effect gives
back the earlier transient list. -/
theorem C13_push_appends_at_end (frameTime : ℚ) (keys : Input) (key : KeyCode)
    (u : UpdateState) (h : Selects keys key) (hp : pushedEffects key ≠ []) :
    (UpdateScene frameTime keys u).scene.gFullScreenPostProcesses
      = u.scene.gFullScreenPostProcesses
          ++ (pushedEffects key).map
              (fun t => { Type_ := t, Mode := Fullscreen, PolyData := none }) ∧
    (UpdateScene frameTime keys u).scene.gPolygonPostProcesses
      = u.scene.gPolygonPostProcesses ∧
    pushedEffects Key_2 = [BlurX, BlurY] ∧
    (key ≠ Key_2 → (pushedEffects key).length = 1) ∧
    (∀ (frameTime2 : ℚ) (keys2 : Input), Selects keys2 Key_Z →
      (pushedEffects key).length = 1 →
      (UpdateScene frameTime2 keys2 (UpdateScene frameTime keys u)).scene.gFullScreenPostProcesses
        = u.scene.gFullScreenPostProcesses) := by
  have hs := sameEffects_UpdateScene frameTime keys u
  have hk := sameFocus_updateEffectLists keys u
  have hf : (UpdateScene frameTime keys u).scene.gFullScreenPostProcesses
      = u.scene.gFullScreenPostProcesses
          ++ (pushedEffects key).map
              (fun t => { Type_ := t, Mode := Fullscreen, PolyData := none }) := by
    rw [hs.fullScreen, updateEffectLists_push keys key u h hp, fullScreen_pushes]
  refine ⟨hf, hs.polygon.trans hk.2.2.1, rfl, ?_, ?_⟩
  · intro hne
    cases key <;> first
      | rfl
      | exact absurd rfl hp
      | exact absurd rfl hne
  · intro frameTime2 keys2 h2 hlen
    have hs2 := sameEffects_UpdateScene frameTime2 keys2 (UpdateScene frameTime keys u)
    rw [hs2.fullScreen, updateEffectLists_pop keys2 _ h2, fullScreen_popFullScreen, hf]
    obtain ⟨t, ht⟩ := List.length_eq_one.mp hlen
    rw [ht]
    simp [List.dropLast_concat]

/-- `Key_1` on the sample state pushes one Gradient effect, and `Key_Z` in the
next update takes it off again. -/
theorem C13_push_appends_at_end_witness :
    Selects (hitKeys [Key_1]) Key_1 ∧ pushedEffects Key_1 ≠ [] ∧
    (UpdateScene (1 / 60) (hitKeys [Key_1]) sampleUpdateState).scene.gFullScreenPostProcesses
      = sampleUpdateState.scene.gFullScreenPostProcesses
          ++ (pushedEffects Key_1).map
              (fun t => { Type_ := t, Mode := Fullscreen, PolyData := none }) ∧
    (UpdateScene (1 / 60) (hitKeys [Key_Z])
        (UpdateScene (1 / 60) (hitKeys [Key_1]) sampleUpdateState)).scene.gFullScreenPostProcesses
      = sampleUpdateState.scene.gFullScreenPostProcesses :=
  ⟨by decide, by decide,
    (C13_push_appends_at_end (1 / 60) (hitKeys [Key_1]) Key_1 sampleUpdateState (by decide)
      (by decide)).1,
    (C13_push_appends_at_end (1 / 60) (hitKeys [Key_1]) Key_1 sampleUpdateState (by decide)
      (by decide)).2.2.2.2 (1 / 60) (hitKeys [Key_Z]) (by decide) rfl⟩

/-- C14: for every frame time, every answer of the keys and every state,
`UpdateScene` leaves the polygon list (and the addresses it holds) as it is:
the transient list alone is edited; and when the clear command is given
(`Key_0` hit, no effect key asked about before it hit) the transient list is
empty afterwards. -/
theorem C14_polygon_list_fixed_and_clear_empties (frameTime : ℚ) (keys : Input)
    (u : UpdateState) :
    (UpdateScene frameTime keys u).scene.gPolygonPostProcesses
      = u.scene.gPolygonPostProcesses ∧
    (UpdateScene frameTime keys u).polygonAddresses = u.polygonAddresses ∧
    (Selects keys Key_0 →
      (UpdateScene frameTime keys u).scene.gFullScreenPostProcesses = [] ∧
      (UpdateScene frameTime keys u).fullScreenAddresses = []) := by
  have hs := sameEffects_UpdateScene frameTime keys u
  have hk := sameFocus_updateEffectLists keys u
  refine ⟨hs.polygon.trans hk.2.2.1, hs.polygonAddresses.trans hk.2.2.2, ?_⟩
  intro h
  rw [hs.fullScreen, hs.fullScreenAddresses, updateEffectLists_clear keys u h]
  exact ⟨rfl, rfl⟩

/-! ## The number of directional bloom passes -/

/-- The count after `UpdateScene` is the count before it taken through the
statements on `Key_X` and `Key_C`. -/
theorem blurs_UpdateScene (frameTime : ℚ) (keys : Input) (u : UpdateState) :
    (UpdateScene frameTime keys u).scene.gTempDiagonalBlurs
      = if keys.KeyHit Key_C = true then
          Clamp ((if keys.KeyHit Key_X = true then Clamp (u.scene.gTempDiagonalBlurs - 1) 0 20
                  else u.scene.gTempDiagonalBlurs) + 1) 0 20
        else if keys.KeyHit Key_X = true then Clamp (u.scene.gTempDiagonalBlurs - 1) 0 20
        else u.scene.gTempDiagonalBlurs := by
  obtain ⟨v, hv, -, -, hb⟩ := UpdateScene_split frameTime keys u
  rw [hv, (sameEffects_updateDepthOfField frameTime keys v).2, hb]

theorem updates_cons (frame : ℚ × Input) (frames : List (ℚ × Input)) (u : UpdateState) :
    updates (frame :: frames) u = updates frames (UpdateScene frame.1 frame.2 u) :=
  rfl

theorem updates_concat (frames : List (ℚ × Input)) (frame : ℚ × Input) (u : UpdateState) :
    updates (frames ++ [frame]) u = UpdateScene frame.1 frame.2 (updates frames u) := by
  unfold updates
  rw [List.foldl_append]
  rfl

/-- One update keeps the count within `0..20` and moves it by at most one. -/
theorem blurs_step (frameTime : ℚ) (keys : Input) (u : UpdateState)
    (h0 : 0 ≤ u.scene.gTempDiagonalBlurs) (h20 : u.scene.gTempDiagonalBlurs ≤ 20) :
    0 ≤ (UpdateScene frameTime keys u).scene.gTempDiagonalBlurs ∧
    (UpdateScene frameTime keys u).scene.gTempDiagonalBlurs ≤ 20 ∧
    u.scene.gTempDiagonalBlurs - 1 ≤ (UpdateScene frameTime keys u).scene.gTempDiagonalBlurs ∧
    (UpdateScene frameTime keys u).scene.gTempDiagonalBlurs ≤ u.scene.gTempDiagonalBlurs + 1 := by
  rw [blurs_UpdateScene]
  unfold Clamp
  split_ifs <;> omega

theorem blurs_updates (frames : List (ℚ × Input)) (u : UpdateState)
    (h0 : 0 ≤ u.scene.gTempDiagonalBlurs) (h20 : u.scene.gTempDiagonalBlurs ≤ 20) :
    0 ≤ (updates frames u).scene.gTempDiagonalBlurs ∧
    (updates frames u).scene.gTempDiagonalBlurs ≤ 20 := by
  induction frames generalizing u with
  | nil => exact ⟨h0, h20⟩
  | cons frame frames ih =>
    rw [updates_cons]
    have h := blurs_step frame.1 frame.2 u h0 h20
    exact ih _ h.1 h.2.1

/-- C16: starting from the initial count `3`, after any sequence of updates,
whatever the frame times and the keys (`Key_X` and `Key_C` may be hit in the
same frame), `0 <= gTempDiagonalBlurs <= 20`; and one more update changes the
count by at most one: not at all when neither key is hit, to
`max 0 (count - 1)` for `Key_X` alone, to `min 20 (count + 1)` for `Key_C`
alone, and for both by the two steps one after the other. -/
theorem C16_diagonal_blurs_within_bounds (frames : List (ℚ × Input)) (u : UpdateState)
    (h3 : u.scene.gTempDiagonalBlurs = 3) :
    0 ≤ (updates frames u).scene.gTempDiagonalBlurs ∧
    (updates frames u).scene.gTempDiagonalBlurs ≤ 20 ∧
    ∀ (frameTime : ℚ) (keys : Input),
      (updates frames u).scene.gTempDiagonalBlurs - 1
        ≤ (UpdateScene frameTime keys (updates frames u)).scene.gTempDiagonalBlurs ∧
      (UpdateScene frameTime keys (updates frames u)).scene.gTempDiagonalBlurs
        ≤ (updates frames u).scene.gTempDiagonalBlurs + 1 ∧
      (keys.KeyHit Key_X = false → keys.KeyHit Key_C = false →
        (UpdateScene frameTime keys (updates frames u)).scene.gTempDiagonalBlurs
          = (updates frames u).scene.gTempDiagonalBlurs) ∧
      (keys.KeyHit Key_X = true → keys.KeyHit Key_C = false →
        (UpdateScene frameTime keys (updates frames u)).scene.gTempDiagonalBlurs
          = max 0 ((updates frames u).scene.gTempDiagonalBlurs - 1)) ∧
      (keys.KeyHit Key_X = false → keys.KeyHit Key_C = true →
        (UpdateScene frameTime keys (updates frames u)).scene.gTempDiagonalBlurs
          = min 20 ((updates frames u).scene.gTempDiagonalBlurs + 1)) ∧
      (keys.KeyHit Key_X = true → keys.KeyHit Key_C = true →
        (UpdateScene frameTime keys (updates frames u)).scene.gTempDiagonalBlurs
          = min 20 (max 0 ((updates frames u).scene.gTempDiagonalBlurs - 1) + 1)) := by
  have hb := blurs_updates frames u (by rw [h3]; decide) (by rw [h3]; decide)
  refine ⟨hb.1, hb.2, ?_⟩
  intro frameTime keys
  have hs := blurs_step frameTime keys (updates frames u) hb.1 hb.2
  refine ⟨hs.2.2.1, hs.2.2.2, ?_, ?_, ?_, ?_⟩
  · intro hx hc
    rw [blurs_UpdateScene]
    simp [hx, hc]
  · intro hx hc
    rw [blurs_UpdateScene]
    simp only [hx, hc, if_true, Bool.false_eq_true, if_false]
    unfold Clamp
    split_ifs <;> omega
  · intro hx hc
    rw [blurs_UpdateScene]
    simp only [hx, hc, if_true, Bool.false_eq_true, if_false]
    unfold Clamp
    split_ifs <;> omega
  · intro hx hc
    rw [blurs_UpdateScene]
    simp only [hx, hc, if_true, Bool.false_eq_true, if_false]
    unfold Clamp
    split_ifs <;> omega

/-- From the sample state: `Key_X` four times takes the count from `3` to `0`
and keeps it there, and a frame with both keys hit follows. -/
theorem C16_diagonal_blurs_within_bounds_witness :
    sampleUpdateState.scene.gTempDiagonalBlurs = 3 ∧
    0 ≤ (updates [(1 / 60, hitKeys [Key_X]), (1 / 60, hitKeys [Key_X]),
          (1 / 60, hitKeys [Key_X]), (1 / 60, hitKeys [Key_X]),
          (1 / 60, hitKeys [Key_X, Key_C])] sampleUpdateState).scene.gTempDiagonalBlurs ∧
    (updates [(1 / 60, hitKeys [Key_X]), (1 / 60, hitKeys [Key_X]),
          (1 / 60, hitKeys [Key_X]), (1 / 60, hitKeys [Key_X]),
          (1 / 60, hitKeys [Key_X, Key_C])] sampleUpdateState).scene.gTempDiagonalBlurs ≤ 20 ∧
    (updates [(1 / 60, hitKeys [Key_X]), (1 / 60, hitKeys [Key_X]),
          (1 / 60, hitKeys [Key_X]), (1 / 60, hitKeys [Key_X]),
          (1 / 60, hitKeys [Key_X, Key_C])] sampleUpdateState).scene.gTempDiagonalBlurs = 1 :=
  ⟨rfl,
    (C16_diagonal_blurs_within_bounds [(1 / 60, hitKeys [Key_X]), (1 / 60, hitKeys [Key_X]),
      (1 / 60, hitKeys [Key_X]), (1 / 60, hitKeys [Key_X]), (1 / 60, hitKeys [Key_X, Key_C])]
      sampleUpdateState rfl).1,
    (C16_diagonal_blurs_within_bounds [(1 / 60, hitKeys [Key_X]), (1 / 60, hitKeys [Key_X]),
      (1 / 60, hitKeys [Key_X]), (1 / 60, hitKeys [Key_X]), (1 / 60, hitKeys [Key_X, Key_C])]
      sampleUpdateState rfl).2.1,
    by decide!⟩

/-! ## The focal plane of the depth of field -/

theorem UpdateScene_depthOfField (frameTime : ℚ) (keys : Input) (u : UpdateState) :
    ∃ v : UpdateState,
      UpdateScene frameTime keys u = updateDepthOfField frameTime keys v ∧ SameFocus u v := by
  obtain ⟨v, hv, -, hs, -⟩ := UpdateScene_split frameTime keys u
  exact ⟨v, hv, hs⟩

theorem updateManualFocus_fields (frameTime : ℚ) (keys : Input) (u : UpdateState) :
    (updateManualFocus frameTime keys u).focalPlane
      = manualFocalPlane frameTime keys u.focalPlane ∧
    (updateManualFocus frameTime keys u).scene.gFocusedObject
      = (if keys.KeyHeld Key_T = true ∨ keys.KeyHeld Key_Y = true then 0
         else u.scene.gFocusedObject) ∧
    (updateManualFocus frameTime keys u).gObjects = u.gObjects ∧
    (updateManualFocus frameTime keys u).scene.gCamera = u.scene.gCamera ∧
    (updateManualFocus frameTime keys u).planeDist = u.planeDist := by
  unfold updateManualFocus manualFocalPlane
  dsimp only
  by_cases hT : keys.KeyHeld Key_T = true
  · rw [if_pos hT, if_pos hT, if_pos (Or.inl hT)]
    exact ⟨rfl, rfl, rfl, rfl, rfl⟩
  · by_cases hY : keys.KeyHeld Key_Y = true
    · rw [if_neg hT, if_neg hT, if_pos hY, if_pos hY, if_pos (Or.inr hY)]
      exact ⟨rfl, rfl, rfl, rfl, rfl⟩
    · rw [if_neg hT, if_neg hT, if_neg hY, if_neg hY, if_neg (not_or.mpr ⟨hT, hY⟩)]
      exact ⟨rfl, rfl, rfl, rfl, rfl⟩

/-- The focused object after the statements on `Key_F6` and `Key_F5` depends
on the keys, the focused object before and the objects only. -/
theorem updateFocusedObject_congr (keys : Input) (u v : UpdateState)
    (hf : v.scene.gFocusedObject = u.scene.gFocusedObject) (ho : v.gObjects = u.gObjects) :
    (updateFocusedObject keys v).scene.gFocusedObject
      = (updateFocusedObject keys u).scene.gFocusedObject := by
  unfold updateFocusedObject
  dsimp only
  by_cases h6 : keys.KeyHit Key_F6 = true <;> by_cases h5 : keys.KeyHit Key_F5 = true
  · rw [if_pos h6, if_pos h5, if_pos h6, if_pos h5]
    dsimp only
    rw [hf, ho]
  · rw [if_pos h6, if_neg h5, if_pos h6, if_neg h5]
    dsimp only
    rw [hf, ho]
  · rw [if_neg h6, if_pos h5, if_neg h6, if_pos h5]
    dsimp only
    rw [hf, ho]
  · rw [if_neg h6, if_neg h5, if_neg h6, if_neg h5]
    exact hf

theorem updateFocusedObject_idle (keys : Input) (u : UpdateState)
    (h5 : keys.KeyHit Key_F5 = false) (h6 : keys.KeyHit Key_F6 = false) :
    updateFocusedObject keys u = u := by
  unfold updateFocusedObject
  dsimp only
  rw [h5, h6]
  rfl

theorem publishDepthOfField_focalPlane (u : UpdateState) :
    (publishDepthOfField u).scene.gPostProcessingConstants.focalPlane
      = (if 0 < u.scene.gFocusedObject then focusedDepth u else u.focalPlane) ∧
    (publishDepthOfField u).scene.gPostProcessingConstants.focalPlane
      = (publishDepthOfField u).focalPlane := by
  unfold publishDepthOfField
  dsimp only
  by_cases h : 0 < u.scene.gFocusedObject
  · have h' : u.scene.gFocusedObject > 0 := h
    rw [if_pos h', if_pos h]
    exact ⟨rfl, rfl⟩
  · have h' : ¬ u.scene.gFocusedObject > 0 := h
    rw [if_neg h', if_neg h]
    exact ⟨rfl, rfl⟩

/-- The result of the depth-of-field statements: the focused object is the one
left by the focus keys, and the published focal plane is the projected depth
of that object when there is one and the manual focal plane otherwise. -/
theorem updateDepthOfField_result (frameTime : ℚ) (keys : Input) (u : UpdateState) :
    (updateDepthOfField frameTime keys u).scene.gFocusedObject
      = (updateFocusedObject keys (updateManualFocus frameTime keys u)).scene.gFocusedObject ∧
    (updateDepthOfField frameTime keys u).gObjects = u.gObjects ∧
    (updateDepthOfField frameTime keys u).scene.gCamera = u.scene.gCamera ∧
    (updateDepthOfField frameTime keys u).scene.gPostProcessingConstants.focalPlane
      = (if 0 < (updateDepthOfField frameTime keys u).scene.gFocusedObject then
           focusedDepth (updateDepthOfField frameTime keys u)
         else manualFocalPlane frameTime keys u.focalPlane) := by
  obtain ⟨hm1, hm2, hm3, hm4, hm5⟩ := updateManualFocus_fields frameTime keys u
  obtain ⟨d, hd⟩ := updatePlaneDist_eq frameTime keys (updateManualFocus frameTime keys u)
  obtain ⟨f, hf⟩ := updateFocusedObject_eq keys
    (updatePlaneDist frameTime keys (updateManualFocus frameTime keys u))
  obtain ⟨-, -, hp1, hp2, hp3, -⟩ := sameEffects_publishDepthOfField
    (updateFocusedObject keys (updatePlaneDist frameTime keys (updateManualFocus frameTime keys u)))
  have hpub := (publishDepthOfField_focalPlane
    (updateFocusedObject keys
      (updatePlaneDist frameTime keys (updateManualFocus frameTime keys u)))).1
  have hfoc : (updateFocusedObject keys
      (updatePlaneDist frameTime keys (updateManualFocus frameTime keys u))).scene.gFocusedObject
      = (updateFocusedObject keys (updateManualFocus frameTime keys u)).scene.gFocusedObject := by
    apply updateFocusedObject_congr
    · rw [hd]
    · rw [hd]
  have hobj : (updateFocusedObject keys
      (updatePlaneDist frameTime keys (updateManualFocus frameTime keys u))).gObjects
      = u.gObjects := by
    rw [hf]
    show (updatePlaneDist frameTime keys (updateManualFocus frameTime keys u)).gObjects = _
    rw [hd]
    exact hm3
  have hcam : (updateFocusedObject keys
      (updatePlaneDist frameTime keys (updateManualFocus frameTime keys u))).scene.gCamera
      = u.scene.gCamera := by
    rw [hf]
    show (updatePlaneDist frameTime keys (updateManualFocus frameTime keys u)).scene.gCamera = _
    rw [hd]
    exact hm4
  have hfp : (updateFocusedObject keys
      (updatePlaneDist frameTime keys (updateManualFocus frameTime keys u))).focalPlane
      = manualFocalPlane frameTime keys u.focalPlane := by
    rw [hf]
    show (updatePlaneDist frameTime keys (updateManualFocus frameTime keys u)).focalPlane = _
    rw [hd]
    exact hm1
  have hdepth : focusedDepth (updateDepthOfField frameTime keys u)
      = focusedDepth (updateFocusedObject keys
          (updatePlaneDist frameTime keys (updateManualFocus frameTime keys u))) := by
    unfold focusedDepth
    show ((CVector4.ofVector3 (objectPosition (publishDepthOfField _).gObjects
      (publishDepthOfField _).scene.gFocusedObject) 1).mulMatrix
        (publishDepthOfField _).scene.gCamera.ViewProjectionMatrix).z / 500 = _
    rw [hp1, hp2, hp3]
  refine ⟨?_, ?_, ?_, ?_⟩
  · show (publishDepthOfField _).scene.gFocusedObject = _
    rw [hp1, hfoc]
  · show (publishDepthOfField _).gObjects = _
    rw [hp2, hobj]
  · show (publishDepthOfField _).scene.gCamera = _
    rw [hp3, hcam]
  · rw [hdepth]
    have h1 : (updateDepthOfField frameTime keys u).scene.gFocusedObject
        = (updateFocusedObject keys (updatePlaneDist frameTime keys
            (updateManualFocus frameTime keys u))).scene.gFocusedObject := hp1
    rw [h1, ← hfp]
    exact hpub

/-- The focused object and the published focal plane after `UpdateScene`, in
terms of the state before it. -/
theorem UpdateScene_focus (frameTime : ℚ) (keys : Input) (u : UpdateState) :
    (UpdateScene frameTime keys u).scene.gFocusedObject
      = (updateFocusedObject keys (updateManualFocus frameTime keys u)).scene.gFocusedObject ∧
    (UpdateScene frameTime keys u).gObjects = u.gObjects ∧
    (UpdateScene frameTime keys u).scene.gCamera = u.scene.gCamera ∧
    (UpdateScene frameTime keys u).scene.gPostProcessingConstants.focalPlane
      = (if 0 < (UpdateScene frameTime keys u).scene.gFocusedObject then
           focusedDepth (UpdateScene frameTime keys u)
         else manualFocalPlane frameTime keys u.focalPlane) := by
  obtain ⟨v, hv, hs⟩ := UpdateScene_depthOfField frameTime keys u
  obtain ⟨r1, r2, r3, r4⟩ := updateDepthOfField_result frameTime keys v
  have mu := updateManualFocus_fields frameTime keys u
  have mv := updateManualFocus_fields frameTime keys v
  rw [hv]
  refine ⟨?_, r2.trans hs.objects, r3.trans hs.camera, ?_⟩
  · rw [r1]
    apply updateFocusedObject_congr
    · rw [mv.2.1, mu.2.1, hs.focused]
    · rw [mv.2.2.1, mu.2.2.1, hs.objects]
  · rw [r4, hs.focalPlane]

/-- C18: after `UpdateScene`, when an object is focused
(`gFocusedObject > 0`) the published `focalPlane` is the `z` of that object's
position in clip space divided by `500`, and neither it nor the focused object
depends on the stored focal plane and plane distance; when none is focused
(`gFocusedObject = 0`) the published `focalPlane` is the manually controlled
value: the stored focal plane, moved by the held key and kept within
`[-1, 1]`. -/
theorem C18_published_focal_plane (frameTime : ℚ) (keys : Input) (u : UpdateState) :
    (0 < (UpdateScene frameTime keys u).scene.gFocusedObject →
      (UpdateScene frameTime keys u).scene.gPostProcessingConstants.focalPlane
        = ((CVector4.ofVector3
            (objectPosition u.gObjects (UpdateScene frameTime keys u).scene.gFocusedObject)
            1).mulMatrix u.scene.gCamera.ViewProjectionMatrix).z / 500) ∧
    ((UpdateScene frameTime keys u).scene.gFocusedObject = 0 →
      (UpdateScene frameTime keys u).scene.gPostProcessingConstants.focalPlane
        = manualFocalPlane frameTime keys u.focalPlane) ∧
    (∀ focalPlane planeDist : ℚ,
      (UpdateScene frameTime keys
          { u with focalPlane := focalPlane, planeDist := planeDist }).scene.gFocusedObject
        = (UpdateScene frameTime keys u).scene.gFocusedObject ∧
      (0 < (UpdateScene frameTime keys u).scene.gFocusedObject →
        (UpdateScene frameTime keys
            { u with focalPlane := focalPlane
                     planeDist := planeDist }).scene.gPostProcessingConstants.focalPlane
          = (UpdateScene frameTime keys u).scene.gPostProcessingConstants.focalPlane)) := by
  obtain ⟨f1, f2, f3, f4⟩ := UpdateScene_focus frameTime keys u
  have hdepth : ∀ w : UpdateState,
      0 < (UpdateScene frameTime keys w).scene.gFocusedObject →
      (UpdateScene frameTime keys w).scene.gPostProcessingConstants.focalPlane
        = ((CVector4.ofVector3
            (objectPosition w.gObjects (UpdateScene frameTime keys w).scene.gFocusedObject)
            1).mulMatrix w.scene.gCamera.ViewProjectionMatrix).z / 500 := by
    intro w hw
    obtain ⟨-, g2, g3, g4⟩ := UpdateScene_focus frameTime keys w
    rw [g4, if_pos hw]
    unfold focusedDepth
    rw [g2, g3]
  refine ⟨hdepth u, ?_, ?_⟩
  · intro h0
    rw [f4, if_neg (by rw [h0]; decide)]
  · intro focalPlane planeDist
    have hfoc : (UpdateScene frameTime keys
        { u with focalPlane := focalPlane, planeDist := planeDist }).scene.gFocusedObject
        = (UpdateScene frameTime keys u).scene.gFocusedObject := by
      rw [(UpdateScene_focus frameTime keys
        { u with focalPlane := focalPlane, planeDist := planeDist }).1, f1]
      apply updateFocusedObject_congr
      · rw [(updateManualFocus_fields frameTime keys
          { u with focalPlane := focalPlane, planeDist := planeDist }).2.1,
          (updateManualFocus_fields frameTime keys u).2.1]
      · rw [(updateManualFocus_fields frameTime keys
          { u with focalPlane := focalPlane, planeDist := planeDist }).2.2.1,
          (updateManualFocus_fields frameTime keys u).2.2.1]
    refine ⟨hfoc, ?_⟩
    intro hpos
    rw [hdepth u hpos, hdepth _ (by rw [hfoc]; exact hpos), hfoc]

/-- C19, the manual keys are not ignored: on the sample state with the cube
focused, with no key the cube stays focused and with `Key_T` held the focus is
released, so two updates that differ only in a manual focal-plane key do not
give the same focused object. -/
theorem C19_manual_keys_not_ignored :
    ¬ (∀ keys1 keys2 : Input,
        (∀ k, keys1.KeyHit k = keys2.KeyHit k) →
        (∀ k, k ≠ Key_T → k ≠ Key_Y → keys1.KeyHeld k = keys2.KeyHeld k) →
        (UpdateScene (1 / 60) keys1 sampleFocusedState).scene.gFocusedObject
          = (UpdateScene (1 / 60) keys2 sampleFocusedState).scene.gFocusedObject ∧
        (UpdateScene (1 / 60) keys1 sampleFocusedState).scene.gPostProcessingConstants.focalPlane
          = (UpdateScene (1 / 60) keys2
              sampleFocusedState).scene.gPostProcessingConstants.focalPlane) := by
  intro h
  have h1 := (h noKeys (heldKeys [Key_T]) (fun _ => rfl)
    (by intro k hT hY; cases k <;> first | rfl | exact absurd rfl hT)).1
  have h2 : (UpdateScene (1 / 60) noKeys sampleFocusedState).scene.gFocusedObject = 1 := by
    decide!
  have h3 : (UpdateScene (1 / 60) (heldKeys [Key_T]) sampleFocusedState).scene.gFocusedObject
      = 0 := by decide!
  rw [h2, h3] at h1
  exact absurd h1 (by decide)

/-- C19: with an object focused and neither `Key_F5` nor `Key_F6`
hit, an update in which `Key_T` or `Key_Y` is held releases the focus
(`gFocusedObject = 0` afterwards) and publishes the stored focal plane moved
by the key and kept within `[-1, 1]`; an update in which neither is held
keeps the focused object and publishes its projected depth. -/
theorem C19_manual_keys_release_focus (frameTime : ℚ) (keys : Input) (u : UpdateState)
    (hfocus : 0 < u.scene.gFocusedObject) (h5 : keys.KeyHit Key_F5 = false)
    (h6 : keys.KeyHit Key_F6 = false) :
    (keys.KeyHeld Key_T = true ∨ keys.KeyHeld Key_Y = true →
      (UpdateScene frameTime keys u).scene.gFocusedObject = 0 ∧
      (UpdateScene frameTime keys u).scene.gPostProcessingConstants.focalPlane
        = manualFocalPlane frameTime keys u.focalPlane) ∧
    (keys.KeyHeld Key_T = false → keys.KeyHeld Key_Y = false →
      (UpdateScene frameTime keys u).scene.gFocusedObject = u.scene.gFocusedObject ∧
      (UpdateScene frameTime keys u).scene.gPostProcessingConstants.focalPlane
        = focusedDepth u) := by
  obtain ⟨f1, f2, f3, f4⟩ := UpdateScene_focus frameTime keys u
  have hm := (updateManualFocus_fields frameTime keys u).2.1
  rw [updateFocusedObject_idle keys _ h5 h6, hm] at f1
  refine ⟨?_, ?_⟩
  · intro hheld
    rw [if_pos hheld] at f1
    refine ⟨f1, ?_⟩
    rw [f4, if_neg (by rw [f1]; decide)]
  · intro hT hY
    rw [if_neg (by rw [hT, hY]; decide)] at f1
    refine ⟨f1, ?_⟩
    rw [f4, if_pos (by rw [f1]; exact hfocus)]
    unfold focusedDepth
    rw [f1, f2, f3]

/-- The sample state with the cube focused and `Key_T` held: the focus is
released and the focal plane `0.2` moves down by `0.1 / 60`. -/
theorem C19_manual_keys_release_focus_witness :
    0 < sampleFocusedState.scene.gFocusedObject ∧
    (heldKeys [Key_T]).KeyHit Key_F5 = false ∧ (heldKeys [Key_T]).KeyHit Key_F6 = false ∧
    ((heldKeys [Key_T]).KeyHeld Key_T = true ∨ (heldKeys [Key_T]).KeyHeld Key_Y = true) ∧
    (UpdateScene (1 / 60) (heldKeys [Key_T]) sampleFocusedState).scene.gFocusedObject = 0 ∧
    (UpdateScene (1 / 60) (heldKeys [Key_T])
        sampleFocusedState).scene.gPostProcessingConstants.focalPlane
      = manualFocalPlane (1 / 60) (heldKeys [Key_T]) sampleFocusedState.focalPlane ∧
    manualFocalPlane (1 / 60) (heldKeys [Key_T]) sampleFocusedState.focalPlane = 119 / 600 :=
  ⟨by decide, rfl, rfl, Or.inl rfl,
    ((C19_manual_keys_release_focus (1 / 60) (heldKeys [Key_T]) sampleFocusedState (by decide)
      rfl rfl).1 (Or.inl rfl)).1,
    ((C19_manual_keys_release_focus (1 / 60) (heldKeys [Key_T]) sampleFocusedState (by decide)
      rfl rfl).1 (Or.inl rfl)).2,
    by decide!⟩

/-! ## The live effects and the passes of a frame -/

/-- C20 (defect of the code): on the sample state `Key_1` creates a Gradient
effect at address `0`; the pop command (`Key_Z`) in the next update takes it
off the transient list but does not destroy it, so it stays live while no list
holds it; the clear command (`Key_0`) in its place destroys it. -/
theorem C20_popped_effect_stays_live :
    (UpdateScene (1 / 60) (hitKeys [Key_1]) sampleUpdateState).fullScreenAddresses = [0] ∧
    (UpdateScene (1 / 60) (hitKeys [Key_1]) sampleUpdateState).live = [0] ∧
    (UpdateScene (1 / 60) (hitKeys [Key_Z])
      (UpdateScene (1 / 60) (hitKeys [Key_1]) sampleUpdateState)).fullScreenAddresses = [] ∧
    (UpdateScene (1 / 60) (hitKeys [Key_Z])
      (UpdateScene (1 / 60) (hitKeys [Key_1]) sampleUpdateState)).polygonAddresses = [] ∧
    (UpdateScene (1 / 60) (hitKeys [Key_Z])
      (UpdateScene (1 / 60) (hitKeys [Key_1]) sampleUpdateState)).live = [0] ∧
    (UpdateScene (1 / 60) (hitKeys [Key_0])
      (UpdateScene (1 / 60) (hitKeys [Key_1]) sampleUpdateState)).fullScreenAddresses = [] ∧
    (UpdateScene (1 / 60) (hitKeys [Key_0])
      (UpdateScene (1 / 60) (hitKeys [Key_1]) sampleUpdateState)).live = [] := by
  refine ⟨?_, ?_, ?_, ?_, ?_, ?_, ?_⟩ <;> decide!

theorem exists_draw_FullScreenPostProcess (t : PostProcessType) (srv rt : Texture)
    (b : BlendState) (s : Scene) :
    ∃ d : DrawCall, (FullScreenPostProcess t srv rt b s).draws = s.draws ++ [d] :=
  ⟨_, draws_FullScreenPostProcess t srv rt b s⟩

theorem chainInit_draws (s : Scene) :
    ∃ (first : DrawCall) (rest : List DrawCall),
      (chainInit s).scene.draws = s.draws ++ first :: rest ∧
      PassDraw Copy gSceneTexture gSceneTexture2 gNoBlendingState first := by
  have h0 : (chainStart s).draws = s.draws := rfl
  have hp := passDraw_of_fullScreenDraw (by decide)
    (fullScreenDraw_currentDraw Copy gSceneTexture gSceneTexture2 gNoBlendingState (chainStart s))
  have h1 := draws_FullScreenPostProcess Copy gSceneTexture gSceneTexture2 gNoBlendingState
    (chainStart s)
  rw [chainInit_scene]
  split
  · obtain ⟨d3, h3⟩ := exists_draw_FullScreenPostProcess Copy
      (FullScreenPostProcess Copy
        (FullScreenPostProcess Copy gSceneTexture gSceneTexture2 gNoBlendingState
          (chainStart s)).gCurrentNormalDepthTextureSRV
        gNormalDepthTexture2 gNoBlendingState
        (FullScreenPostProcess Copy gSceneTexture gSceneTexture2 gNoBlendingState
          (chainStart s))).gCurrentFocusedObjectTextureSRV
      gFocusedObjectTexture2 gNoBlendingState
      (FullScreenPostProcess Copy
        (FullScreenPostProcess Copy gSceneTexture gSceneTexture2 gNoBlendingState
          (chainStart s)).gCurrentNormalDepthTextureSRV
        gNormalDepthTexture2 gNoBlendingState
        (FullScreenPostProcess Copy gSceneTexture gSceneTexture2 gNoBlendingState
          (chainStart s)))
    obtain ⟨d2, h2⟩ := exists_draw_FullScreenPostProcess Copy
      (FullScreenPostProcess Copy gSceneTexture gSceneTexture2 gNoBlendingState
        (chainStart s)).gCurrentNormalDepthTextureSRV
      gNormalDepthTexture2 gNoBlendingState
      (FullScreenPostProcess Copy gSceneTexture gSceneTexture2 gNoBlendingState (chainStart s))
    refine ⟨_, [d2, d3], ?_, hp⟩
    rw [h3, h2, h1, h0, List.append_assoc, List.append_assoc]
    rfl
  · obtain ⟨d2, h2⟩ := exists_draw_FullScreenPostProcess Copy
      (FullScreenPostProcess Copy gSceneTexture gSceneTexture2 gNoBlendingState
        (chainStart s)).gCurrentNormalDepthTextureSRV
      gNormalDepthTexture2 gNoBlendingState
      (FullScreenPostProcess Copy gSceneTexture gSceneTexture2 gNoBlendingState (chainStart s))
    refine ⟨_, [d2], ?_, hp⟩
    rw [h2, h1, h0, List.append_assoc]
    rfl

/-- The draws that `RenderScene` adds to the log: those of the effect chain,
which begin with the copy of the scene texture and none of which goes to the
back buffer, then the final composite into the back buffer. -/
theorem RenderScene_draws (s : Scene) (k : Nat) :
    ∃ (t : Scene) (first : DrawCall) (chain : List DrawCall) (composite : DrawCall),
      RenderScene (s.gPolygonPostProcesses.length + s.gFullScreenPostProcesses.length + k) s
        = some t ∧
      t.draws.drop s.draws.length = first :: chain ++ [composite] ∧
      PassDraw Copy gSceneTexture gSceneTexture2 gNoBlendingState first ∧
      (∀ e ∈ first :: chain, e.renderTarget ≠ gBackBuffer) ∧
      composite.renderTarget = gBackBuffer ∧ composite.pixelShader = Copy := by
  obtain ⟨first, rest, hfirst, hp⟩ := chainInit_draws s
  obtain ⟨ds0, hds0, hQ0⟩ := issues_chainInit s
  obtain ⟨ds, hds, hQ⟩ := issues_chainPasses
    (s.gPolygonPostProcesses ++ s.gFullScreenPostProcesses) (chainInit s) (chainInv_chainInit s)
  obtain ⟨d, hd, hfd⟩ := finalComposite_draw
    (chainPasses (s.gPolygonPostProcesses ++ s.gFullScreenPostProcesses) (chainInit s))
  have hrest : ds0 = first :: rest := List.append_cancel_left (hds0.symm.trans hfirst)
  refine ⟨_, first, rest ++ ds, d, RenderScene_eq s k, ?_, hp, ?_, hfd.1.2.2,
    hfd.2.2.2.1 (by decide)⟩
  · rw [hd, hds, hfirst]
    simp
  · intro e he
    rw [← List.cons_append, ← hrest] at he
    rcases List.mem_append.mp he with h | h
    · exact (hQ0 e h).not_backBuffer
    · exact (hQ e h).not_backBuffer

theorem passOrder_run (p q : FramePass) (l rest : List FramePass) (hl : ∀ x ∈ l, x = p)
    (hpq : p ≠ q) : passOrder (p :: l ++ q :: rest) = p :: passOrder (q :: rest) := by
  induction l with
  | nil =>
    show passOrder (p :: q :: rest) = _
    rw [passOrder, if_neg hpq]
  | cons x l ih =>
    have hx : x = p := hl x (List.mem_cons_self _ _)
    subst hx
    show passOrder (x :: x :: (l ++ q :: rest)) = _
    rw [passOrder, if_pos rfl]
    exact ih (fun y hy => hl y (List.mem_cons_of_mem _ hy))

/-- C17, the order of the spec's state list does not hold: on the sample scene
with the cube focused the frame goes through the focused-object pass before
the normal/depth pass. -/
theorem C17_spec_pass_order_fails :
    framePasses 1 sampleFocusedState.scene
      = some [FramePass.MainRender, FramePass.FocusedObjectPass, FramePass.NormalDepthPass,
          FramePass.EffectChain, FramePass.FinalComposite, FramePass.Present] ∧
    framePasses 1 sampleFocusedState.scene
      ≠ some [FramePass.MainRender, FramePass.NormalDepthPass, FramePass.FocusedObjectPass,
          FramePass.EffectChain, FramePass.FinalComposite, FramePass.Present] := by
  have h : framePasses 1 sampleFocusedState.scene
      = some [FramePass.MainRender, FramePass.FocusedObjectPass, FramePass.NormalDepthPass,
          FramePass.EffectChain, FramePass.FinalComposite, FramePass.Present] := by decide!
  refine ⟨h, ?_⟩
  rw [h]
  decide

/-- C17: with enough fuel for the loop, the events of a frame are,
in this order: the main render into the scene texture; the render of the
focused object into the focused-object texture, present only when
`gFocusedObject` is not `0`; the render of normals and depth into the
normal/depth texture; the draws of the effect chain, which begin with the copy
of the scene texture and never go to the back buffer; the final composite,
a Copy into the back buffer; and `Present`.  So the states of the frame are
MainRender, FocusedObjectPass (when an object is focused), NormalDepthPass,
EffectChain, FinalComposite, Present. -/
theorem C17_frame_pass_order (s : Scene) (k : Nat) :
    ∃ (first : DrawCall) (chain : List DrawCall) (composite : DrawCall),
      RenderSceneEvents (s.gPolygonPostProcesses.length + s.gFullScreenPostProcesses.length + k) s
        = some ([FrameEvent.render GeometryPass.RenderSceneFromCamera gSceneTexture]
            ++ (if s.gFocusedObject = 0 then []
                else [FrameEvent.render GeometryPass.RenderFocusedObject gFocusedObjectTexture])
            ++ [FrameEvent.render GeometryPass.RenderSceneNormalsAndDepth gNormalDepthTexture]
            ++ (first :: chain).map FrameEvent.draw
            ++ [FrameEvent.draw composite, FrameEvent.Present]) ∧
      PassDraw Copy gSceneTexture gSceneTexture2 gNoBlendingState first ∧
      (∀ e ∈ first :: chain, e.renderTarget ≠ gBackBuffer) ∧
      composite.renderTarget = gBackBuffer ∧ composite.pixelShader = Copy ∧
      framePasses (s.gPolygonPostProcesses.length + s.gFullScreenPostProcesses.length + k) s
        = some (FramePass.MainRender
            :: (if s.gFocusedObject = 0 then [] else [FramePass.FocusedObjectPass])
            ++ [FramePass.NormalDepthPass, FramePass.EffectChain, FramePass.FinalComposite,
                FramePass.Present]) := by
  obtain ⟨t, first, chain, composite, ht, hdrop, hp, hnot, hc, hcopy⟩ := RenderScene_draws s k
  have hev : RenderSceneEvents
      (s.gPolygonPostProcesses.length + s.gFullScreenPostProcesses.length + k) s
      = some ([FrameEvent.render GeometryPass.RenderSceneFromCamera gSceneTexture]
          ++ (if s.gFocusedObject = 0 then []
              else [FrameEvent.render GeometryPass.RenderFocusedObject gFocusedObjectTexture])
          ++ [FrameEvent.render GeometryPass.RenderSceneNormalsAndDepth gNormalDepthTexture]
          ++ (first :: chain).map FrameEvent.draw
          ++ [FrameEvent.draw composite, FrameEvent.Present]) := by
    unfold RenderSceneEvents
    rw [ht]
    dsimp only
    rw [hdrop]
    unfold RenderSceneFromCamera RenderFocusedObject RenderSceneNormalsAndDepth
    simp
  refine ⟨first, chain, composite, hev, hp, hnot, hc, hcopy, ?_⟩
  unfold framePasses
  rw [hev]
  have hchain : ∀ x ∈ chain.map (fun e => (FrameEvent.draw e).pass), x = FramePass.EffectChain := by
    intro x hx
    obtain ⟨e, he, hxe⟩ := List.mem_map.mp hx
    rw [← hxe]
    show (if e.renderTarget = gBackBuffer then _ else _) = _
    rw [if_neg (hnot e (List.mem_cons_of_mem _ he))]
  have hfirst : (FrameEvent.draw first).pass = FramePass.EffectChain := by
    show (if first.renderTarget = gBackBuffer then _ else _) = _
    rw [if_neg (hnot first (List.mem_cons_self _ _))]
  have hcomp : (FrameEvent.draw composite).pass = FramePass.FinalComposite := by
    show (if composite.renderTarget = gBackBuffer then _ else _) = _
    rw [if_pos hc]
  have hrun : passOrder (FramePass.EffectChain
      :: (chain.map (fun e => (FrameEvent.draw e).pass)
          ++ [FramePass.FinalComposite, FramePass.Present]))
      = FramePass.EffectChain :: passOrder [FramePass.FinalComposite, FramePass.Present] :=
    passOrder_run FramePass.EffectChain FramePass.FinalComposite
      (chain.map (fun e => (FrameEvent.draw e).pass)) [FramePass.Present] hchain (by decide)
  have hm1 : (FrameEvent.render GeometryPass.RenderSceneFromCamera gSceneTexture).pass
      = FramePass.MainRender := rfl
  have hm2 : (FrameEvent.render GeometryPass.RenderFocusedObject gFocusedObjectTexture).pass
      = FramePass.FocusedObjectPass := rfl
  have hm3 : (FrameEvent.render GeometryPass.RenderSceneNormalsAndDepth gNormalDepthTexture).pass
      = FramePass.NormalDepthPass := rfl
  have hm4 : FrameEvent.Present.pass = FramePass.Present := rfl
  by_cases hf : s.gFocusedObject = 0
  · simp only [if_pos hf, Option.map_some', List.map_append, List.map_cons, List.map_nil,
      List.map_map, List.nil_append, List.append_nil, List.cons_append, List.append_assoc,
      hfirst, hcomp, hm1, hm2, hm3, hm4, Function.comp_def]
    rw [passOrder, if_neg (by decide), passOrder, if_neg (by decide), hrun]
    rfl
  · simp only [if_neg hf, Option.map_some', List.map_append, List.map_cons, List.map_nil,
      List.map_map, List.nil_append, List.append_nil, List.cons_append, List.append_assoc,
      hfirst, hcomp, hm1, hm2, hm3, hm4, Function.comp_def]
    rw [passOrder, if_neg (by decide), passOrder, if_neg (by decide), passOrder,
      if_neg (by decide), hrun]
    rfl

/-! ## The scope fields of the area and polygon primitives -/

theorem areaDepthSpec_eq (near far d : ℚ) (hfn : far - near ≠ 0) (hd : d ≠ 0) :
    areaDepthSpec near far d = far / (far - near) - far * near / (far - near) / d := by
  unfold areaDepthSpec
  field_simp
  ring

theorem areaDepthSpec_lt (near far d₁ d₂ : ℚ) (hnear : 0 < near) (hfar : near < far)
    (h₁ : near ≤ d₁) (h₁₂ : d₁ < d₂) : areaDepthSpec near far d₁ < areaDepthSpec near far d₂ := by
  have hfn : 0 < far - near := sub_pos.mpr hfar
  have hd₁ : 0 < d₁ := lt_of_lt_of_le hnear h₁
  have hd₂ : 0 < d₂ := lt_trans hd₁ h₁₂
  have hc : 0 < far * near / (far - near) :=
    div_pos (mul_pos (lt_trans hnear hfar) hnear) hfn
  rw [areaDepthSpec_eq near far d₁ (ne_of_gt hfn) (ne_of_gt hd₁),
    areaDepthSpec_eq near far d₂ (ne_of_gt hfn) (ne_of_gt hd₂)]
  have h : far * near / (far - near) / d₂ < far * near / (far - near) / d₁ :=
    div_lt_div_of_pos_left hc hd₁ h₁₂
  linarith

theorem areaDepthSpec_near (near far : ℚ) : areaDepthSpec near far near = 0 := by
  unfold areaDepthSpec
  rw [sub_self, mul_zero, zero_div]

theorem areaDepthSpec_far (near far : ℚ) (hnear : 0 < near) (hfar : near < far) :
    areaDepthSpec near far far = 1 := by
  unfold areaDepthSpec
  have hfn : far - near ≠ 0 := ne_of_gt (sub_pos.mpr hfar)
  have hf : far ≠ 0 := ne_of_gt (lt_trans hnear hfar)
  field_simp
  ring

theorem areaDepthSpec_range (near far d : ℚ) (hnear : 0 < near) (hfar : near < far)
    (h₁ : near ≤ d) (h₂ : d ≤ far) :
    0 ≤ areaDepthSpec near far d ∧ areaDepthSpec near far d ≤ 1 := by
  constructor
  · rcases eq_or_lt_of_le h₁ with h | h
    · rw [← h, areaDepthSpec_near near far]
    · rw [← areaDepthSpec_near near far]
      exact le_of_lt (areaDepthSpec_lt near far near d hnear hfar le_rfl h)
  · rcases eq_or_lt_of_le h₂ with h | h
    · rw [h, areaDepthSpec_far near far hnear hfar]
    · rw [← areaDepthSpec_far near far hnear hfar]
      exact le_of_lt (areaDepthSpec_lt near far d far hnear hfar h₁ h)

/-- Taking a vector through two matrices one after the other is taking it
through their product. -/
theorem mulMatrix_mul (v : CVector4) (a b : CMatrix4x4) :
    (v.mulMatrix a).mulMatrix b = v.mulMatrix (a.mul b) := by
  unfold CVector4.mulMatrix CMatrix4x4.mul
  simp only [CVector4.mk.injEq]
  refine ⟨?_, ?_, ?_, ?_⟩ <;> ring

theorem constants_PolygonSetup (t : PostProcessType) (srv rt : Texture) (b : BlendState)
    (pts : Fin 4 → CVector3) (m : CMatrix4x4) (s : Scene) :
    (PolygonSetup t srv rt b pts m s).gPostProcessingConstants
      = { s.gPostProcessingConstants with
          polygon2DPoints := fun i =>
            ((CVector4.ofVector3 (pts i) 1).mulMatrix m).mulMatrix
              s.gCamera.ViewProjectionMatrix } := by
  have hf := frame_Select t (PostProcessSetup srv rt b s)
  have hc := constants_Select t (PostProcessSetup srv rt b s)
  unfold PolygonSetup
  dsimp only
  rw [hc, hf.camera]
  rfl

/-- C25: `PolygonPostProcess` stores, for each `i` in `0..3`,
`polygon2DPoints[i] = (points[i], 1) * worldMatrix * ViewProjectionMatrix`,
which is the point times the product of the two matrices; every other field
of the constants keeps its value; and the log grows by exactly one draw, of
four vertices, with the polygon vertex shader and these constants. -/
theorem C25_polygon_points_one_draw (postProcess : PostProcessType) (srv renderTarget : Texture)
    (blendState : BlendState) (points : Fin 4 → CVector3) (worldMatrix : CMatrix4x4)
    (s : Scene) :
    (∀ i : Fin 4,
      (PolygonPostProcess postProcess srv renderTarget blendState points worldMatrix
          s).gPostProcessingConstants.polygon2DPoints i
        = ((CVector4.ofVector3 (points i) 1).mulMatrix worldMatrix).mulMatrix
            s.gCamera.ViewProjectionMatrix ∧
      (PolygonPostProcess postProcess srv renderTarget blendState points worldMatrix
          s).gPostProcessingConstants.polygon2DPoints i
        = (CVector4.ofVector3 (points i) 1).mulMatrix
            (worldMatrix.mul s.gCamera.ViewProjectionMatrix)) ∧
    (PolygonPostProcess postProcess srv renderTarget blendState points worldMatrix
        s).gPostProcessingConstants
      = { s.gPostProcessingConstants with
          polygon2DPoints :=
            (PolygonPostProcess postProcess srv renderTarget blendState points worldMatrix
              s).gPostProcessingConstants.polygon2DPoints } ∧
    ∃ d : DrawCall,
      (PolygonPostProcess postProcess srv renderTarget blendState points worldMatrix s).draws
        = s.draws ++ [d] ∧
      d.vertexCount = 4 ∧ d.vertexShader = g2DPolygonVertexShader ∧
      d.srv = srv ∧ d.renderTarget = renderTarget ∧ d.blendState = blendState ∧
      d.constants
        = (PolygonPostProcess postProcess srv renderTarget blendState points worldMatrix
            s).gPostProcessingConstants := by
  have hc : (PolygonPostProcess postProcess srv renderTarget blendState points worldMatrix
      s).gPostProcessingConstants
      = { s.gPostProcessingConstants with
          polygon2DPoints := fun i =>
            ((CVector4.ofVector3 (points i) 1).mulMatrix worldMatrix).mulMatrix
              s.gCamera.ViewProjectionMatrix } :=
    constants_PolygonSetup postProcess srv renderTarget blendState points worldMatrix s
  have hd := currentDraw_PolygonSetup postProcess srv renderTarget blendState points
    worldMatrix s
  refine ⟨?_, ?_, currentDraw (PolygonSetup postProcess srv renderTarget blendState points
    worldMatrix s), ?_, hd.1, hd.2.2.2.2.1, hd.2.2.1, hd.2.1, hd.2.2.2.1, rfl⟩
  · intro i
    rw [hc]
    exact ⟨rfl, mulMatrix_mul _ _ _⟩
  · rw [hc]
  · show (PolygonSetup postProcess srv renderTarget blendState points worldMatrix s).draws
      ++ _ = _
    rw [draws_PolygonSetup]

/-! ## The oscillating parameters of `UpdateScene` -/

theorem updateGradientHues_fields (frameTime : ℚ) (u : UpdateState) :
    (updateGradientHues frameTime u).hue
      = (if u.hue + 1 / 5 * u.hue1ChangeSpeedMult * frameTime < -u.EPSILON ∨
            u.hue + 1 / 5 * u.hue1ChangeSpeedMult * frameTime > 1 + u.EPSILON
         then Clamp01 (u.hue + 1 / 5 * u.hue1ChangeSpeedMult * frameTime)
         else u.hue + 1 / 5 * u.hue1ChangeSpeedMult * frameTime) ∧
    (updateGradientHues frameTime u).hue1ChangeSpeedMult = u.hue1ChangeSpeedMult ∧
    (updateGradientHues frameTime u).hue2
      = (if u.hue2 + 1 / 5 * u.hue2ChangeSpeedMult * frameTime < -u.EPSILON ∨
            u.hue2 + 1 / 5 * u.hue2ChangeSpeedMult * frameTime > 1 + u.EPSILON
         then Clamp01 (u.hue2 + 1 / 5 * u.hue2ChangeSpeedMult * frameTime)
         else u.hue2 + 1 / 5 * u.hue2ChangeSpeedMult * frameTime) ∧
    (updateGradientHues frameTime u).hue2ChangeSpeedMult
      = (if u.hue2 + 1 / 5 * u.hue2ChangeSpeedMult * frameTime < -u.EPSILON ∨
            u.hue2 + 1 / 5 * u.hue2ChangeSpeedMult * frameTime > 1 + u.EPSILON
         then -u.hue2ChangeSpeedMult else u.hue2ChangeSpeedMult) := by
  unfold updateGradientHues
  dsimp only
  by_cases h1 : u.hue + 1 / 5 * u.hue1ChangeSpeedMult * frameTime < -u.EPSILON ∨
      u.hue + 1 / 5 * u.hue1ChangeSpeedMult * frameTime > 1 + u.EPSILON <;>
  by_cases h2 : u.hue2 + 1 / 5 * u.hue2ChangeSpeedMult * frameTime < -u.EPSILON ∨
      u.hue2 + 1 / 5 * u.hue2ChangeSpeedMult * frameTime > 1 + u.EPSILON
  · simp only [if_pos h1, if_pos h2]
    exact ⟨trivial, trivial, trivial, trivial⟩
  · simp only [if_pos h1, if_neg h2]
    exact ⟨trivial, trivial, trivial, trivial⟩
  · simp only [if_neg h1, if_pos h2]
    exact ⟨trivial, trivial, trivial, trivial⟩
  · simp only [if_neg h1, if_neg h2]
    exact ⟨trivial, trivial, trivial, trivial⟩

/-- The steps of `UpdateScene` before and after each group of statements: what
they leave unchanged. -/
theorem UpdateScene_around (frameTime : ℚ) (keys : Input) (u : UpdateState) :
    (∃ x : UpdateState, Writes [Group.effects] u x ∧
      Writes [Group.hues, Group.retro, Group.timer, Group.blurs, Group.focus]
        (motionBlurStage frameTime keys x) (UpdateScene frameTime keys u)) ∧
    (∃ x : UpdateState, Writes [Group.effects, Group.alpha] u x ∧
      Writes [Group.retro, Group.timer, Group.blurs, Group.focus]
        (updateGradientHues frameTime x) (UpdateScene frameTime keys u)) ∧
    (∃ x : UpdateState, Writes [Group.effects, Group.alpha, Group.hues] u x ∧
      Writes [Group.timer, Group.blurs, Group.focus]
        (updateRetro frameTime keys x) (UpdateScene frameTime keys u)) ∧
    (∃ x : UpdateState, Writes [Group.effects, Group.alpha, Group.hues, Group.retro] u x ∧
      Writes [Group.blurs, Group.focus]
        (updateBloomTimer frameTime x) (UpdateScene frameTime keys u)) ∧
    (∃ x : UpdateState,
      Writes [Group.effects, Group.alpha, Group.hues, Group.retro, Group.timer, Group.blurs]
        u x ∧
      UpdateScene frameTime keys u = updateDepthOfField frameTime keys x) := by
  have w1 := writes_updateEffectLists keys u
  have w2 := writes_motionBlurStage frameTime keys (updateEffectLists keys u)
  have w3 := writes_updateGradientHues frameTime
    (motionBlurStage frameTime keys (updateEffectLists keys u))
  have w4 := writes_updateRetro frameTime keys
    (updateGradientHues frameTime (motionBlurStage frameTime keys (updateEffectLists keys u)))
  have w5 := writes_updateBloomTimer frameTime
    (updateRetro frameTime keys
      (updateGradientHues frameTime (motionBlurStage frameTime keys (updateEffectLists keys u))))
  have w6 := writes_diagonalBlursStage keys
    (updateBloomTimer frameTime
      (updateRetro frameTime keys
        (updateGradientHues frameTime
          (motionBlurStage frameTime keys (updateEffectLists keys u)))))
  have w7 := writes_updateDepthOfField frameTime keys
    (diagonalBlursStage keys
      (updateBloomTimer frameTime
        (updateRetro frameTime keys
          (updateGradientHues frameTime
            (motionBlurStage frameTime keys (updateEffectLists keys u))))))
  rw [← UpdateScene_stages] at w7
  refine ⟨⟨_, w1, ?_⟩, ⟨_, w1.followed w2, ?_⟩, ⟨_, (w1.followed w2).followed w3, ?_⟩,
    ⟨_, ((w1.followed w2).followed w3).followed w4, ?_⟩,
    ⟨_, ((((w1.followed w2).followed w3).followed w4).followed w5).followed w6,
      UpdateScene_stages frameTime keys u⟩⟩
  · exact (((w3.followed w4).followed w5).followed w6).followed w7
  · exact ((w4.followed w5).followed w6).followed w7
  · exact (w5.followed w6).followed w7
  · exact w6.followed w7

/-- The hues and their multipliers after `UpdateScene`, in terms of the state
before it. -/
theorem UpdateScene_hues (frameTime : ℚ) (keys : Input) (u : UpdateState) :
    (UpdateScene frameTime keys u).hue
      = (if u.hue + 1 / 5 * u.hue1ChangeSpeedMult * frameTime < -u.EPSILON ∨
            u.hue + 1 / 5 * u.hue1ChangeSpeedMult * frameTime > 1 + u.EPSILON
         then Clamp01 (u.hue + 1 / 5 * u.hue1ChangeSpeedMult * frameTime)
         else u.hue + 1 / 5 * u.hue1ChangeSpeedMult * frameTime) ∧
    (UpdateScene frameTime keys u).hue1ChangeSpeedMult = u.hue1ChangeSpeedMult ∧
    (UpdateScene frameTime keys u).hue2
      = (if u.hue2 + 1 / 5 * u.hue2ChangeSpeedMult * frameTime < -u.EPSILON ∨
            u.hue2 + 1 / 5 * u.hue2ChangeSpeedMult * frameTime > 1 + u.EPSILON
         then Clamp01 (u.hue2 + 1 / 5 * u.hue2ChangeSpeedMult * frameTime)
         else u.hue2 + 1 / 5 * u.hue2ChangeSpeedMult * frameTime) ∧
    (UpdateScene frameTime keys u).hue2ChangeSpeedMult
      = (if u.hue2 + 1 / 5 * u.hue2ChangeSpeedMult * frameTime < -u.EPSILON ∨
            u.hue2 + 1 / 5 * u.hue2ChangeSpeedMult * frameTime > 1 + u.EPSILON
         then -u.hue2ChangeSpeedMult else u.hue2ChangeSpeedMult) ∧
    (UpdateScene frameTime keys u).EPSILON = u.EPSILON := by
  obtain ⟨x, hx, hy⟩ := (UpdateScene_around frameTime keys u).2.1
  have hin : Group.hues.Same u x := hx.rest Group.hues (by decide)
  have hout : Group.hues.Same (updateGradientHues frameTime x) (UpdateScene frameTime keys u) :=
    hy.rest Group.hues (by decide)
  obtain ⟨f1, f2, f3, f4⟩ := updateGradientHues_fields frameTime x
  obtain ⟨i1, i2, i3, i4⟩ := hin
  obtain ⟨o1, o2, o3, o4⟩ := hout
  rw [i1, i3, hx.epsilon] at f1
  rw [i3] at f2
  rw [i2, i4, hx.epsilon] at f3
  rw [i2, i4, hx.epsilon] at f4
  exact ⟨o1.trans f1, o3.trans f2, o2.trans f3, o4.trans f4,
    hy.epsilon.trans ((writes_updateGradientHues frameTime x).epsilon.trans hx.epsilon)⟩

theorem Clamp01_le (x : ℚ) (h : x ≤ 0) : Clamp01 x = 0 := by
  unfold Clamp01 Clamp
  split_ifs <;> linarith

theorem Clamp01_ge (x : ℚ) (h : 1 ≤ x) : Clamp01 x = 1 := by
  unfold Clamp01 Clamp
  split_ifs <;> linarith

theorem Clamp01_range (x : ℚ) : 0 ≤ Clamp01 x ∧ Clamp01 x ≤ 1 := by
  unfold Clamp01 Clamp
  split_ifs <;> constructor <;> linarith

theorem Clamp01_mono {x y : ℚ} (h : x ≤ y) : Clamp01 x ≤ Clamp01 y := by
  unfold Clamp01 Clamp
  split_ifs <;> linarith

/-- C21: when the step of the second hue takes it outside
`[-EPSILON, 1 + EPSILON]`, `UpdateScene` leaves it at the one-argument `Clamp`
of the stepped value, which for `EPSILON >= 0` is the bound it passed (`1`
above, `0` below) and lies in the range, and negates its multiplier; so in the
next update the hue starts from there with the step of the opposite sign.
When the step stays inside the range the hue is the stepped value and the
multiplier is unchanged. -/
theorem C21_second_hue_ping_pongs (frameTime : ℚ) (keys : Input) (u : UpdateState) :
    ((u.hue2 + 1 / 5 * u.hue2ChangeSpeedMult * frameTime < -u.EPSILON ∨
        u.hue2 + 1 / 5 * u.hue2ChangeSpeedMult * frameTime > 1 + u.EPSILON) →
      (UpdateScene frameTime keys u).hue2
        = Clamp01 (u.hue2 + 1 / 5 * u.hue2ChangeSpeedMult * frameTime) ∧
      (UpdateScene frameTime keys u).hue2ChangeSpeedMult = -u.hue2ChangeSpeedMult ∧
      (0 ≤ u.EPSILON →
        -u.EPSILON ≤ (UpdateScene frameTime keys u).hue2 ∧
        (UpdateScene frameTime keys u).hue2 ≤ 1 + u.EPSILON ∧
        (u.hue2 + 1 / 5 * u.hue2ChangeSpeedMult * frameTime > 1 + u.EPSILON →
          (UpdateScene frameTime keys u).hue2 = 1) ∧
        (u.hue2 + 1 / 5 * u.hue2ChangeSpeedMult * frameTime < -u.EPSILON →
          (UpdateScene frameTime keys u).hue2 = 0)) ∧
      (∀ (frameTime2 : ℚ) (keys2 : Input),
        ¬ ((UpdateScene frameTime keys u).hue2 - 1 / 5 * u.hue2ChangeSpeedMult * frameTime2
              < -u.EPSILON ∨
            (UpdateScene frameTime keys u).hue2 - 1 / 5 * u.hue2ChangeSpeedMult * frameTime2
              > 1 + u.EPSILON) →
        (UpdateScene frameTime2 keys2 (UpdateScene frameTime keys u)).hue2
          = (UpdateScene frameTime keys u).hue2
              - 1 / 5 * u.hue2ChangeSpeedMult * frameTime2)) ∧
    (¬ (u.hue2 + 1 / 5 * u.hue2ChangeSpeedMult * frameTime < -u.EPSILON ∨
        u.hue2 + 1 / 5 * u.hue2ChangeSpeedMult * frameTime > 1 + u.EPSILON) →
      (UpdateScene frameTime keys u).hue2
        = u.hue2 + 1 / 5 * u.hue2ChangeSpeedMult * frameTime ∧
      (UpdateScene frameTime keys u).hue2ChangeSpeedMult = u.hue2ChangeSpeedMult) := by
  obtain ⟨-, -, h3, h4, he⟩ := UpdateScene_hues frameTime keys u
  constructor
  · intro hout
    rw [if_pos hout] at h3 h4
    refine ⟨h3, h4, ?_, ?_⟩
    · intro h0
      have hr := Clamp01_range (u.hue2 + 1 / 5 * u.hue2ChangeSpeedMult * frameTime)
      refine ⟨?_, ?_, ?_, ?_⟩
      · rw [h3]; linarith [hr.1]
      · rw [h3]; linarith [hr.2]
      · intro hgt
        rw [h3]
        exact Clamp01_ge _ (by linarith)
      · intro hlt
        rw [h3]
        exact Clamp01_le _ (by linarith)
    · intro frameTime2 keys2 hin
      obtain ⟨-, -, n3, -, -⟩ := UpdateScene_hues frameTime2 keys2 (UpdateScene frameTime keys u)
      rw [h4, he] at n3
      have e : (UpdateScene frameTime keys u).hue2 + 1 / 5 * -u.hue2ChangeSpeedMult * frameTime2
          = (UpdateScene frameTime keys u).hue2 - 1 / 5 * u.hue2ChangeSpeedMult * frameTime2 := by
        ring
      rw [e] at n3
      rw [n3, if_neg hin]
  · intro hin
    rw [if_neg hin] at h3 h4
    exact ⟨h3, h4⟩

/-- From the initial state with the second hue at `1`, a frame of half a
second steps it to `1.1`: it is left at `1` with the multiplier `-1`. -/
theorem C21_second_hue_ping_pongs_witness :
    ({ sampleUpdateState with hue2 := 1 } : UpdateState).hue2
        + 1 / 5 * ({ sampleUpdateState with hue2 := 1 } : UpdateState).hue2ChangeSpeedMult
          * (1 / 2)
      > 1 + ({ sampleUpdateState with hue2 := 1 } : UpdateState).EPSILON ∧
    (UpdateScene (1 / 2) noKeys { sampleUpdateState with hue2 := 1 }).hue2 = 1 ∧
    (UpdateScene (1 / 2) noKeys { sampleUpdateState with hue2 := 1 }).hue2ChangeSpeedMult
      = -1 :=
  ⟨by decide!,
    (((C21_second_hue_ping_pongs (1 / 2) noKeys { sampleUpdateState with hue2 := 1 }).1
      (Or.inr (by decide!))).2.2.1 (by decide!)).2.2.1 (by decide!),
    ((C21_second_hue_ping_pongs (1 / 2) noKeys { sampleUpdateState with hue2 := 1 }).1
      (Or.inr (by decide!))).2.1⟩

/-- C22 (defect of the code): the multiplier of the first hue is never
changed by `UpdateScene`, so the hue does not turn round.  From the initial
state, with frames of half a second and no key, the hue reaches `1` after five
frames, is stepped to `1.1` and clamped to `1` in the sixth with its
multiplier still `1`, and is pushed against the bound and clamped again in the
seventh; the second hue, stepped past the bound in the eleventh frame, has its
multiplier negated and is back at `0.9` after the twelfth. -/
theorem C22_first_hue_does_not_turn_round :
    (∀ (frameTime : ℚ) (keys : Input) (u : UpdateState),
      (UpdateScene frameTime keys u).hue1ChangeSpeedMult = u.hue1ChangeSpeedMult) ∧
    (updates (List.replicate 5 (1 / 2, noKeys)) sampleUpdateState).hue = 1 ∧
    (updates (List.replicate 6 (1 / 2, noKeys)) sampleUpdateState).hue = 1 ∧
    (updates (List.replicate 6 (1 / 2, noKeys)) sampleUpdateState).hue1ChangeSpeedMult = 1 ∧
    (updates (List.replicate 7 (1 / 2, noKeys)) sampleUpdateState).hue = 1 ∧
    (updates (List.replicate 11 (1 / 2, noKeys)) sampleUpdateState).hue2 = 1 ∧
    (updates (List.replicate 11 (1 / 2, noKeys)) sampleUpdateState).hue2ChangeSpeedMult = -1 ∧
    (updates (List.replicate 12 (1 / 2, noKeys)) sampleUpdateState).hue2 = 9 / 10 := by
  refine ⟨fun frameTime keys u => (UpdateScene_hues frameTime keys u).2.1, ?_, ?_, ?_, ?_, ?_,
    ?_, ?_⟩ <;> decide!

theorem updateBloomTimer_fields (frameTime : ℚ) (u : UpdateState) :
    (updateBloomTimer frameTime u).scene.gTempTimer
      = (if u.scene.gTempTimer + u.bloomTimerChange * frameTime > 1 then
           (if 1 - u.EPSILON < 0 then u.EPSILON else 1 - u.EPSILON)
         else if u.scene.gTempTimer + u.bloomTimerChange * frameTime < 0 then u.EPSILON
         else u.scene.gTempTimer + u.bloomTimerChange * frameTime) ∧
    (updateBloomTimer frameTime u).bloomTimerChange
      = (if u.scene.gTempTimer + u.bloomTimerChange * frameTime > 1 then
           (if 1 - u.EPSILON < 0 then 1 else -1)
         else if u.scene.gTempTimer + u.bloomTimerChange * frameTime < 0 then 1
         else u.bloomTimerChange) := by
  unfold updateBloomTimer
  dsimp only
  by_cases h1 : u.scene.gTempTimer + u.bloomTimerChange * frameTime > 1
  · rw [if_pos h1, if_pos h1, if_pos h1]
    dsimp only
    by_cases h2 : 1 - u.EPSILON < 0
    · rw [if_pos h2, if_pos h2, if_pos h2]
      exact ⟨rfl, rfl⟩
    · rw [if_neg h2, if_neg h2, if_neg h2]
      exact ⟨rfl, rfl⟩
  · rw [if_neg h1, if_neg h1, if_neg h1]
    dsimp only
    by_cases h2 : u.scene.gTempTimer + u.bloomTimerChange * frameTime < 0
    · rw [if_pos h2, if_pos h2, if_pos h2]
      exact ⟨rfl, rfl⟩
    · rw [if_neg h2, if_neg h2, if_neg h2]
      exact ⟨rfl, rfl⟩

/-- The bloom timer and its direction after `UpdateScene`, in terms of the
state before it. -/
theorem UpdateScene_timer (frameTime : ℚ) (keys : Input) (u : UpdateState) :
    (UpdateScene frameTime keys u).scene.gTempTimer
      = (if u.scene.gTempTimer + u.bloomTimerChange * frameTime > 1 then
           (if 1 - u.EPSILON < 0 then u.EPSILON else 1 - u.EPSILON)
         else if u.scene.gTempTimer + u.bloomTimerChange * frameTime < 0 then u.EPSILON
         else u.scene.gTempTimer + u.bloomTimerChange * frameTime) ∧
    (UpdateScene frameTime keys u).bloomTimerChange
      = (if u.scene.gTempTimer + u.bloomTimerChange * frameTime > 1 then
           (if 1 - u.EPSILON < 0 then 1 else -1)
         else if u.scene.gTempTimer + u.bloomTimerChange * frameTime < 0 then 1
         else u.bloomTimerChange) := by
  obtain ⟨x, hx, hy⟩ := (UpdateScene_around frameTime keys u).2.2.2.1
  have hin : Group.timer.Same u x := hx.rest Group.timer (by decide)
  have hout : Group.timer.Same (updateBloomTimer frameTime x) (UpdateScene frameTime keys u) :=
    hy.rest Group.timer (by decide)
  obtain ⟨f1, f2⟩ := updateBloomTimer_fields frameTime x
  rw [hin.1, hin.2, hx.epsilon] at f1 f2
  exact ⟨hout.1.trans f1, hout.2.trans f2⟩

theorem epsilon_UpdateScene (frameTime : ℚ) (keys : Input) (u : UpdateState) :
    (UpdateScene frameTime keys u).EPSILON = u.EPSILON :=
  (UpdateScene_hues frameTime keys u).2.2.2.2

theorem epsilon_updates (frames : List (ℚ × Input)) (u : UpdateState) :
    (updates frames u).EPSILON = u.EPSILON := by
  induction frames generalizing u with
  | nil => rfl
  | cons frame frames ih => rw [updates_cons, ih, epsilon_UpdateScene]

theorem direction_updates (frames : List (ℚ × Input)) (u : UpdateState)
    (he : ¬ 1 - u.EPSILON < 0) (hd : u.bloomTimerChange = 1 ∨ u.bloomTimerChange = -1) :
    (updates frames u).bloomTimerChange = 1 ∨ (updates frames u).bloomTimerChange = -1 := by
  induction frames generalizing u with
  | nil => exact hd
  | cons frame frames ih =>
    rw [updates_cons]
    apply ih
    · rw [epsilon_UpdateScene]; exact he
    · rw [(UpdateScene_timer frame.1 frame.2 u).2]
      split_ifs
      · exact Or.inr rfl
      · exact Or.inl rfl
      · exact hd

/-- C23: given `0 < EPSILON < 1` and the initial direction `1`, in every state
reached by updates the direction is `1` or `-1`, and one more `UpdateScene`,
whatever the frame time and the keys, leaves `gTempTimer` within `[0, 1]`:
when the step takes the timer above `1` it is set to `1 - EPSILON` and the
direction to `-1`, when the step takes it below `0` it is set to `EPSILON` and
the direction to `1`, and otherwise the timer is the stepped value and the
direction is kept. -/
theorem C23_bloom_timer_oscillates (frames : List (ℚ × Input)) (frameTime : ℚ) (keys : Input)
    (u : UpdateState) (h0 : 0 < u.EPSILON) (h1 : u.EPSILON < 1) (hd : u.bloomTimerChange = 1) :
    ((updates frames u).bloomTimerChange = 1 ∨ (updates frames u).bloomTimerChange = -1) ∧
    0 ≤ (UpdateScene frameTime keys (updates frames u)).scene.gTempTimer ∧
    (UpdateScene frameTime keys (updates frames u)).scene.gTempTimer ≤ 1 ∧
    ((updates frames u).scene.gTempTimer + (updates frames u).bloomTimerChange * frameTime > 1 →
      (UpdateScene frameTime keys (updates frames u)).scene.gTempTimer = 1 - u.EPSILON ∧
      (UpdateScene frameTime keys (updates frames u)).bloomTimerChange = -1) ∧
    ((updates frames u).scene.gTempTimer + (updates frames u).bloomTimerChange * frameTime < 0 →
      (UpdateScene frameTime keys (updates frames u)).scene.gTempTimer = u.EPSILON ∧
      (UpdateScene frameTime keys (updates frames u)).bloomTimerChange = 1) ∧
    (0 ≤ (updates frames u).scene.gTempTimer + (updates frames u).bloomTimerChange * frameTime →
      (updates frames u).scene.gTempTimer + (updates frames u).bloomTimerChange * frameTime ≤ 1 →
      (UpdateScene frameTime keys (updates frames u)).scene.gTempTimer
        = (updates frames u).scene.gTempTimer
            + (updates frames u).bloomTimerChange * frameTime ∧
      (UpdateScene frameTime keys (updates frames u)).bloomTimerChange
        = (updates frames u).bloomTimerChange) := by
  have he : ¬ 1 - u.EPSILON < 0 := by linarith
  have hdir := direction_updates frames u he (Or.inl hd)
  obtain ⟨t1, t2⟩ := UpdateScene_timer frameTime keys (updates frames u)
  rw [epsilon_updates] at t1 t2
  rw [if_neg he] at t1 t2
  refine ⟨hdir, ?_, ?_, ?_, ?_, ?_⟩
  · rw [t1]
    split_ifs <;> linarith
  · rw [t1]
    split_ifs <;> linarith
  · intro hgt
    rw [if_pos hgt] at t1 t2
    exact ⟨t1, t2⟩
  · intro hlt
    have hng : ¬ (updates frames u).scene.gTempTimer
        + (updates frames u).bloomTimerChange * frameTime > 1 := by linarith
    rw [if_neg hng, if_pos hlt] at t1 t2
    exact ⟨t1, t2⟩
  · intro hge hle
    rw [if_neg (not_lt.mpr hle), if_neg (not_lt.mpr hge)] at t1 t2
    exact ⟨t1, t2⟩

/-- From the sample state: after a frame of `0.9` seconds the timer is at
`0.9`, and a frame of `0.5` seconds takes the step above `1`. -/
theorem C23_bloom_timer_oscillates_witness :
    0 < sampleUpdateState.EPSILON ∧ sampleUpdateState.EPSILON < 1 ∧
    sampleUpdateState.bloomTimerChange = 1 ∧
    (updates [(9 / 10, noKeys)] sampleUpdateState).scene.gTempTimer
      + (updates [(9 / 10, noKeys)] sampleUpdateState).bloomTimerChange * (1 / 2) > 1 ∧
    (UpdateScene (1 / 2) noKeys
        (updates [(9 / 10, noKeys)] sampleUpdateState)).scene.gTempTimer
      = 1 - sampleUpdateState.EPSILON ∧
    (UpdateScene (1 / 2) noKeys
        (updates [(9 / 10, noKeys)] sampleUpdateState)).bloomTimerChange = -1 :=
  ⟨by decide!, by decide!, rfl, by decide!,
    ((C23_bloom_timer_oscillates [(9 / 10, noKeys)] (1 / 2) noKeys sampleUpdateState
      (by decide!) (by decide!) rfl).2.2.2.1 (by decide!)).1,
    ((C23_bloom_timer_oscillates [(9 / 10, noKeys)] (1 / 2) noKeys sampleUpdateState
      (by decide!) (by decide!) rfl).2.2.2.1 (by decide!)).2⟩

/-! ## Invariants of the runs of `UpdateScene` -/

theorem updateRetro_fields (frameTime : ℚ) (keys : Input) (u : UpdateState) :
    (updateRetro frameTime keys u).pixelSize
      = (if keys.KeyHeld Key_N = true then
           (if u.pixelSize - 10 * frameTime < 1 then 1 else u.pixelSize - 10 * frameTime)
         else if keys.KeyHeld Key_M = true then u.pixelSize + 10 * frameTime
         else u.pixelSize) ∧
    (updateRetro frameTime keys u).scene.gPostProcessingConstants.pixelNumber
      = { x := (u.scene.gViewportWidth : ℚ) / (⌊(updateRetro frameTime keys u).pixelSize⌋ : ℚ)
          y := (u.scene.gViewportHeight : ℚ)
                / (⌊(updateRetro frameTime keys u).pixelSize⌋ : ℚ) } := by
  unfold updateRetro
  dsimp only
  by_cases hN : keys.KeyHeld Key_N = true
  · rw [if_pos hN, if_pos hN]
    by_cases h1 : u.pixelSize - 10 * frameTime < 1
    · rw [if_pos h1, if_pos h1]
      exact ⟨rfl, rfl⟩
    · rw [if_neg h1, if_neg h1]
      exact ⟨rfl, rfl⟩
  · rw [if_neg hN, if_neg hN]
    by_cases hM : keys.KeyHeld Key_M = true
    · rw [if_pos hM, if_pos hM]
      exact ⟨rfl, rfl⟩
    · rw [if_neg hM, if_neg hM]
      exact ⟨rfl, rfl⟩

/-- The pixel size and the published numbers of pixels after `UpdateScene`, in
terms of the state before it. -/
theorem UpdateScene_retro (frameTime : ℚ) (keys : Input) (u : UpdateState) :
    (UpdateScene frameTime keys u).pixelSize
      = (if keys.KeyHeld Key_N = true then
           (if u.pixelSize - 10 * frameTime < 1 then 1 else u.pixelSize - 10 * frameTime)
         else if keys.KeyHeld Key_M = true then u.pixelSize + 10 * frameTime
         else u.pixelSize) ∧
    (UpdateScene frameTime keys u).scene.gPostProcessingConstants.pixelNumber
      = { x := (u.scene.gViewportWidth : ℚ) / (⌊(UpdateScene frameTime keys u).pixelSize⌋ : ℚ)
          y := (u.scene.gViewportHeight : ℚ)
                / (⌊(UpdateScene frameTime keys u).pixelSize⌋ : ℚ) } := by
  obtain ⟨x, hx, hy⟩ := (UpdateScene_around frameTime keys u).2.2.1
  have hin : Group.retro.Same u x := hx.rest Group.retro (by decide)
  have hout : Group.retro.Same (updateRetro frameTime keys x) (UpdateScene frameTime keys u) :=
    hy.rest Group.retro (by decide)
  obtain ⟨f1, f2⟩ := updateRetro_fields frameTime keys x
  rw [hin.1] at f1
  rw [hx.width, hx.height] at f2
  refine ⟨hout.1.trans f1, ?_⟩
  rw [hout.2, f2, hout.1]

theorem pixelSize_step (frameTime : ℚ) (keys : Input) (u : UpdateState) (hf : 0 ≤ frameTime)
    (h : 1 ≤ u.pixelSize) : 1 ≤ (UpdateScene frameTime keys u).pixelSize := by
  rw [(UpdateScene_retro frameTime keys u).1]
  split_ifs <;> linarith

theorem pixelSize_updates (frames : List (ℚ × Input)) (u : UpdateState)
    (hf : ∀ frame ∈ frames, 0 ≤ frame.1) (h : 1 ≤ u.pixelSize) :
    1 ≤ (updates frames u).pixelSize := by
  induction frames generalizing u with
  | nil => exact h
  | cons frame frames ih =>
    rw [updates_cons]
    exact ih _ (fun f hfm => hf f (List.mem_cons_of_mem _ hfm))
      (pixelSize_step frame.1 frame.2 u (hf frame (List.mem_cons_self _ _)) h)

/-- C28: starting from the pixel size `8`, after every run of updates whose
frame times are not negative, whatever the keys, `pixelSize >= 1`; hence
`floor(pixelSize) >= 1`, the divisor of the last update is not zero, and the
published `pixelNumber` is the viewport size divided by that divisor. -/
theorem C28_pixel_size_at_least_one (frames : List (ℚ × Input)) (frameTime : ℚ) (keys : Input)
    (u : UpdateState) (h8 : u.pixelSize = 8) (hf : ∀ frame ∈ frames, 0 ≤ frame.1)
    (hft : 0 ≤ frameTime) :
    1 ≤ (updates frames u).pixelSize ∧
    1 ≤ (UpdateScene frameTime keys (updates frames u)).pixelSize ∧
    1 ≤ ⌊(UpdateScene frameTime keys (updates frames u)).pixelSize⌋ ∧
    (⌊(UpdateScene frameTime keys (updates frames u)).pixelSize⌋ : ℚ) ≠ 0 ∧
    (UpdateScene frameTime keys (updates frames u)).scene.gPostProcessingConstants.pixelNumber
      = { x := ((updates frames u).scene.gViewportWidth : ℚ)
                / (⌊(UpdateScene frameTime keys (updates frames u)).pixelSize⌋ : ℚ)
          y := ((updates frames u).scene.gViewportHeight : ℚ)
                / (⌊(UpdateScene frameTime keys (updates frames u)).pixelSize⌋ : ℚ) } := by
  have h1 : 1 ≤ (updates frames u).pixelSize :=
    pixelSize_updates frames u hf (by rw [h8]; norm_num)
  have h2 := pixelSize_step frameTime keys (updates frames u) hft h1
  have h3 : 1 ≤ ⌊(UpdateScene frameTime keys (updates frames u)).pixelSize⌋ :=
    Int.le_floor.mpr (by exact_mod_cast h2)
  refine ⟨h1, h2, h3, ?_, (UpdateScene_retro frameTime keys (updates frames u)).2⟩
  have : (0 : ℚ) < (⌊(UpdateScene frameTime keys (updates frames u)).pixelSize⌋ : ℚ) := by
    exact_mod_cast lt_of_lt_of_le zero_lt_one h3
  exact ne_of_gt this

/-- From the sample state with `Key_N` held for two frames of half a second:
the pixel size goes from `8` to `3` and is then held at `1`. -/
theorem C28_pixel_size_at_least_one_witness :
    sampleUpdateState.pixelSize = 8 ∧
    (∀ frame ∈ [((1 : ℚ) / 2, heldKeys [Key_N])], 0 ≤ frame.1) ∧ (0 : ℚ) ≤ 1 / 2 ∧
    1 ≤ (UpdateScene (1 / 2) (heldKeys [Key_N])
          (updates [(1 / 2, heldKeys [Key_N])] sampleUpdateState)).pixelSize ∧
    (updates [(1 / 2, heldKeys [Key_N])] sampleUpdateState).pixelSize = 3 ∧
    (UpdateScene (1 / 2) (heldKeys [Key_N])
          (updates [(1 / 2, heldKeys [Key_N])] sampleUpdateState)).pixelSize = 1 :=
  ⟨rfl, by intro frame hframe; rw [List.mem_singleton.mp hframe]; decide!, by decide!,
    (C28_pixel_size_at_least_one [(1 / 2, heldKeys [Key_N])] (1 / 2) (heldKeys [Key_N])
      sampleUpdateState rfl
      (by intro frame hframe; rw [List.mem_singleton.mp hframe]; decide!) (by decide!)).2.1,
    by decide!, by decide!⟩

theorem toInt32_eq (x : Int) (h₁ : -2 ^ 31 ≤ x) (h₂ : x < 2 ^ 31) : toInt32 x = x := by
  unfold toInt32
  have h : (x + 2 ^ 31) % 2 ^ 32 = x + 2 ^ 31 :=
    Int.emod_eq_of_lt (by linarith) (by norm_num at h₂ ⊢; linarith)
  rw [h]
  ring

theorem toSizeT_eq (x : Int) (h₁ : 0 ≤ x) (h₂ : x < 2 ^ 64) : toSizeT x = x := by
  unfold toSizeT
  exact Int.emod_eq_of_lt h₁ h₂

theorem focused_updateManualFocus (frameTime : ℚ) (keys : Input) (u : UpdateState) :
    (updateManualFocus frameTime keys u).scene.gFocusedObject = 0 ∨
    (updateManualFocus frameTime keys u).scene.gFocusedObject = u.scene.gFocusedObject := by
  rw [(updateManualFocus_fields frameTime keys u).2.1]
  split
  · exact Or.inl rfl
  · exact Or.inr rfl

/-- The statements on `Key_F6` and `Key_F5` keep a valid index valid. -/
theorem focused_updateFocusedObject (keys : Input) (u : UpdateState)
    (h₀ : 0 ≤ u.scene.gFocusedObject)
    (h₁ : u.scene.gFocusedObject < (u.gObjects.length : Int))
    (hn : (u.gObjects.length : Int) < 2 ^ 31) :
    0 ≤ (updateFocusedObject keys u).scene.gFocusedObject ∧
    (updateFocusedObject keys u).scene.gFocusedObject < (u.gObjects.length : Int) := by
  have step6 : ∀ f : Int, 0 ≤ f → f < (u.gObjects.length : Int) →
      0 ≤ (if toSizeT (toInt32 (f + 1)) ≥ (u.gObjects.length : Int) then 0 else toInt32 (f + 1)) ∧
      (if toSizeT (toInt32 (f + 1)) ≥ (u.gObjects.length : Int) then 0 else toInt32 (f + 1))
        < (u.gObjects.length : Int) := by
    intro f hf0 hf1
    have e1 : toInt32 (f + 1) = f + 1 := toInt32_eq _ (by linarith) (by linarith)
    have e2 : toSizeT (f + 1) = f + 1 := toSizeT_eq _ (by linarith) (by norm_num at hn ⊢; linarith)
    rw [e1, e2]
    split_ifs with h
    · exact ⟨le_refl _, by linarith⟩
    · exact ⟨by linarith, by linarith⟩
  have step5 : ∀ f : Int, 0 ≤ f → f < (u.gObjects.length : Int) →
      0 ≤ (if toInt32 (f - 1) ≤ 0 then toInt32 (toSizeT ((u.gObjects.length : Int) - 1))
           else toInt32 (f - 1)) ∧
      (if toInt32 (f - 1) ≤ 0 then toInt32 (toSizeT ((u.gObjects.length : Int) - 1))
           else toInt32 (f - 1)) < (u.gObjects.length : Int) := by
    intro f hf0 hf1
    have e1 : toInt32 (f - 1) = f - 1 := toInt32_eq _ (by linarith) (by linarith)
    have e2 : toSizeT ((u.gObjects.length : Int) - 1) = (u.gObjects.length : Int) - 1 :=
      toSizeT_eq _ (by linarith) (by norm_num at hn ⊢; linarith)
    have e3 : toInt32 ((u.gObjects.length : Int) - 1) = (u.gObjects.length : Int) - 1 :=
      toInt32_eq _ (by linarith) (by linarith)
    rw [e1, e2, e3]
    split_ifs with h
    · exact ⟨by linarith, by linarith⟩
    · exact ⟨by linarith, by linarith⟩
  unfold updateFocusedObject
  dsimp only
  by_cases h6 : keys.KeyHit Key_F6 = true <;> by_cases h5 : keys.KeyHit Key_F5 = true
  · rw [if_pos h6, if_pos h5]
    dsimp only
    exact step5 _ (step6 _ h₀ h₁).1 (step6 _ h₀ h₁).2
  · rw [if_pos h6, if_neg h5]
    exact step6 _ h₀ h₁
  · rw [if_neg h6, if_pos h5]
    exact step5 _ h₀ h₁
  · rw [if_neg h6, if_neg h5]
    exact ⟨h₀, h₁⟩

theorem focused_step (frameTime : ℚ) (keys : Input) (u : UpdateState)
    (h₀ : 0 ≤ u.scene.gFocusedObject)
    (h₁ : u.scene.gFocusedObject < (u.gObjects.length : Int))
    (hn : (u.gObjects.length : Int) < 2 ^ 31) :
    0 ≤ (UpdateScene frameTime keys u).scene.gFocusedObject ∧
    (UpdateScene frameTime keys u).scene.gFocusedObject < (u.gObjects.length : Int) ∧
    (UpdateScene frameTime keys u).gObjects = u.gObjects := by
  obtain ⟨f1, f2, -, -⟩ := UpdateScene_focus frameTime keys u
  have hm := updateManualFocus_fields frameTime keys u
  have hobj : (updateManualFocus frameTime keys u).gObjects = u.gObjects := hm.2.2.1
  have hfoc := focused_updateManualFocus frameTime keys u
  have hlo : 0 ≤ (updateManualFocus frameTime keys u).scene.gFocusedObject := by
    rcases hfoc with h | h
    · rw [h]
    · rw [h]; exact h₀
  have hhi : (updateManualFocus frameTime keys u).scene.gFocusedObject
      < ((updateManualFocus frameTime keys u).gObjects.length : Int) := by
    rw [hobj]
    rcases hfoc with h | h
    · rw [h]; linarith
    · rw [h]; exact h₁
  have h := focused_updateFocusedObject keys (updateManualFocus frameTime keys u) hlo hhi
    (by rw [hobj]; exact hn)
  rw [hobj] at h
  rw [f1]
  exact ⟨h.1, h.2, f2⟩

theorem focused_updates (frames : List (ℚ × Input)) (u : UpdateState)
    (h₀ : 0 ≤ u.scene.gFocusedObject)
    (h₁ : u.scene.gFocusedObject < (u.gObjects.length : Int))
    (hn : (u.gObjects.length : Int) < 2 ^ 31) :
    0 ≤ (updates frames u).scene.gFocusedObject ∧
    (updates frames u).scene.gFocusedObject < (u.gObjects.length : Int) ∧
    (updates frames u).gObjects = u.gObjects := by
  induction frames generalizing u with
  | nil => exact ⟨h₀, h₁, rfl⟩
  | cons frame frames ih =>
    rw [updates_cons]
    obtain ⟨s0, s1, s2⟩ := focused_step frame.1 frame.2 u h₀ h₁ hn
    have h := ih (UpdateScene frame.1 frame.2 u) s0 (by rw [s2]; exact s1) (by rw [s2]; exact hn)
    rw [s2] at h
    exact h

/-- C26: with at least one object (and fewer than `2^31`, so that an `int` can
index them) and `gFocusedObject = 0` at the start, after every run of updates,
whatever the frame times and the keys, `0 <= gFocusedObject < gObjects.size()`
and the objects are the same; so `gObjects[gFocusedObject]` is an element of
the vector, and the guards `== 0` and `<= 0` agree, as do `> 0` and `!= 0`:
`RenderFocusedObject` renders exactly when `gFocusedObject > 0`. -/
theorem C26_focused_object_is_valid_index (frames : List (ℚ × Input)) (u : UpdateState)
    (h0 : u.scene.gFocusedObject = 0) (h1 : 1 ≤ u.gObjects.length)
    (hn : (u.gObjects.length : Int) < 2 ^ 31) :
    (updates frames u).gObjects = u.gObjects ∧
    0 ≤ (updates frames u).scene.gFocusedObject ∧
    (updates frames u).scene.gFocusedObject < ((updates frames u).gObjects.length : Int) ∧
    (∃ position : CVector3,
      (updates frames u).gObjects.get? (updates frames u).scene.gFocusedObject.toNat
        = some position ∧
      objectPosition (updates frames u).gObjects (updates frames u).scene.gFocusedObject
        = position) ∧
    ((updates frames u).scene.gFocusedObject = 0 ↔ (updates frames u).scene.gFocusedObject ≤ 0) ∧
    ((updates frames u).scene.gFocusedObject > 0 ↔ (updates frames u).scene.gFocusedObject ≠ 0) ∧
    (RenderFocusedObject (updates frames u).scene ≠ [] ↔
      (updates frames u).scene.gFocusedObject > 0) := by
  obtain ⟨f0, f1, f2⟩ := focused_updates frames u (by rw [h0])
    (by rw [h0]; exact_mod_cast h1) hn
  have hlt : (updates frames u).scene.gFocusedObject.toNat < (updates frames u).gObjects.length := by
    rw [f2]
    have := Int.toNat_of_nonneg f0
    omega
  refine ⟨f2, f0, by rw [f2]; exact f1, ?_, ?_, ?_, ?_⟩
  · refine ⟨(updates frames u).gObjects.get ⟨_, hlt⟩, List.get?_eq_get hlt, ?_⟩
    unfold objectPosition
    rw [List.getD_eq_getElem _ _ hlt]
    rfl
  · constructor
    · intro h; rw [h]
    · intro h; exact le_antisymm h f0
  · constructor
    · intro h; exact ne_of_gt h
    · intro h; exact lt_of_le_of_ne f0 (Ne.symm h)
  · unfold RenderFocusedObject
    constructor
    · intro h
      by_cases hz : (updates frames u).scene.gFocusedObject = 0
      · rw [if_pos hz] at h; exact absurd rfl h
      · exact lt_of_le_of_ne f0 (Ne.symm hz)
    · intro h
      rw [if_neg (ne_of_gt h)]
      exact List.cons_ne_nil _ _

/-- From the sample state with its seven objects: `Key_F5` selects the last
object `6`, and `Key_F6` then returns to `0`. -/
theorem C26_focused_object_is_valid_index_witness :
    sampleUpdateState.scene.gFocusedObject = 0 ∧ 1 ≤ sampleUpdateState.gObjects.length ∧
    (sampleUpdateState.gObjects.length : Int) < 2 ^ 31 ∧
    0 ≤ (updates [(1 / 60, hitKeys [Key_F5])] sampleUpdateState).scene.gFocusedObject ∧
    (updates [(1 / 60, hitKeys [Key_F5])] sampleUpdateState).scene.gFocusedObject
      < ((updates [(1 / 60, hitKeys [Key_F5])] sampleUpdateState).gObjects.length : Int) ∧
    (updates [(1 / 60, hitKeys [Key_F5])] sampleUpdateState).scene.gFocusedObject = 6 ∧
    (updates [(1 / 60, hitKeys [Key_F5]), (1 / 60, hitKeys [Key_F6])]
      sampleUpdateState).scene.gFocusedObject = 0 :=
  ⟨rfl, by decide, by decide,
    (C26_focused_object_is_valid_index [(1 / 60, hitKeys [Key_F5])] sampleUpdateState rfl
      (by decide) (by decide)).2.1,
    (C26_focused_object_is_valid_index [(1 / 60, hitKeys [Key_F5])] sampleUpdateState rfl
      (by decide) (by decide)).2.2.1,
    by decide!, by decide!⟩

theorem Clamp_range {α : Type} [LinearOrder α] (value lo hi : α) (h : lo ≤ hi) :
    lo ≤ Clamp value lo hi ∧ Clamp value lo hi ≤ hi := by
  unfold Clamp
  split_ifs with h1 h2
  · exact ⟨le_refl _, h⟩
  · exact ⟨h, le_refl _⟩
  · exact ⟨not_lt.mp h1, not_lt.mp h2⟩

theorem updatePlaneDist_fields (frameTime : ℚ) (keys : Input) (u : UpdateState) :
    (updatePlaneDist frameTime keys u).planeDist
      = (if keys.KeyHeld Key_U = true then Clamp (u.planeDist - 1 / 5 * frameTime) (1 / 50) (1 / 2)
         else if keys.KeyHeld Key_I = true then
           Clamp (u.planeDist + 1 / 5 * frameTime) (1 / 50) (1 / 2)
         else u.planeDist) := by
  unfold updatePlaneDist
  dsimp only
  by_cases hU : keys.KeyHeld Key_U = true
  · rw [if_pos hU, if_pos hU]
  · rw [if_neg hU, if_neg hU]
    by_cases hI : keys.KeyHeld Key_I = true
    · rw [if_pos hI, if_pos hI]
    · rw [if_neg hI, if_neg hI]

theorem publishDepthOfField_planes (u : UpdateState) :
    (publishDepthOfField u).planeDist = u.planeDist ∧
    (publishDepthOfField u).scene.gPostProcessingConstants.nearPlane
      = Clamp01 ((publishDepthOfField u).focalPlane - (publishDepthOfField u).planeDist) ∧
    (publishDepthOfField u).scene.gPostProcessingConstants.farPlane
      = Clamp01 ((publishDepthOfField u).focalPlane + (publishDepthOfField u).planeDist) := by
  unfold publishDepthOfField
  dsimp only
  split <;> exact ⟨rfl, rfl, rfl⟩

/-- The plane distance and the published planes after `UpdateScene`, in terms
of the state before it and of the focal plane it leaves. -/
theorem UpdateScene_planes (frameTime : ℚ) (keys : Input) (u : UpdateState) :
    (UpdateScene frameTime keys u).planeDist
      = (if keys.KeyHeld Key_U = true then Clamp (u.planeDist - 1 / 5 * frameTime) (1 / 50) (1 / 2)
         else if keys.KeyHeld Key_I = true then
           Clamp (u.planeDist + 1 / 5 * frameTime) (1 / 50) (1 / 2)
         else u.planeDist) ∧
    (UpdateScene frameTime keys u).scene.gPostProcessingConstants.nearPlane
      = Clamp01 ((UpdateScene frameTime keys u).focalPlane
          - (UpdateScene frameTime keys u).planeDist) ∧
    (UpdateScene frameTime keys u).scene.gPostProcessingConstants.farPlane
      = Clamp01 ((UpdateScene frameTime keys u).focalPlane
          + (UpdateScene frameTime keys u).planeDist) := by
  obtain ⟨x, hx, hy⟩ := (UpdateScene_around frameTime keys u).2.2.2.2
  have hin : Group.focus.Same u x := hx.rest Group.focus (by decide)
  obtain ⟨p1, p2, p3⟩ := publishDepthOfField_planes
    (updateFocusedObject keys (updatePlaneDist frameTime keys (updateManualFocus frameTime keys x)))
  obtain ⟨g, hg⟩ := updateFocusedObject_eq keys
    (updatePlaneDist frameTime keys (updateManualFocus frameTime keys x))
  have hd := updatePlaneDist_fields frameTime keys (updateManualFocus frameTime keys x)
  rw [(updateManualFocus_fields frameTime keys x).2.2.2.2, hin.2.2] at hd
  rw [hy]
  refine ⟨?_, p2, p3⟩
  show (publishDepthOfField _).planeDist = _
  rw [p1, hg]
  exact hd

theorem planeDist_updates (frames : List (ℚ × Input)) (u : UpdateState)
    (h₁ : 1 / 50 ≤ u.planeDist) (h₂ : u.planeDist ≤ 1 / 2) :
    1 / 50 ≤ (updates frames u).planeDist ∧ (updates frames u).planeDist ≤ 1 / 2 := by
  induction frames generalizing u with
  | nil => exact ⟨h₁, h₂⟩
  | cons frame frames ih =>
    rw [updates_cons]
    have hr₁ := Clamp_range (u.planeDist - 1 / 5 * frame.1) (1 / 50 : ℚ) (1 / 2) (by norm_num)
    have hr₂ := Clamp_range (u.planeDist + 1 / 5 * frame.1) (1 / 50 : ℚ) (1 / 2) (by norm_num)
    have hs := (UpdateScene_planes frame.1 frame.2 u).1
    apply ih
    · rw [hs]; split_ifs
      · exact hr₁.1
      · exact hr₂.1
      · exact h₁
    · rw [hs]; split_ifs
      · exact hr₁.2
      · exact hr₂.2
      · exact h₂

/-- C30: with the one-argument `Clamp` clamping to `[0, 1]` and the plane
distance starting at `0.15`, after every run of updates, `UpdateScene` not
yet called included, `0.02 <= planeDist <= 0.5`; and after every
`UpdateScene` of the run the published planes are the clamps of
`focalPlane - planeDist` and `focalPlane + planeDist`, with
`0 <= nearPlane <= farPlane <= 1`, whatever the focal plane is: the objects,
the camera and the stored focal plane are arbitrary. -/
theorem C30_depth_of_field_planes_ordered (frames : List (ℚ × Input)) (frameTime : ℚ)
    (keys : Input) (u : UpdateState) (hd : u.planeDist = 3 / 20) :
    1 / 50 ≤ (updates frames u).planeDist ∧ (updates frames u).planeDist ≤ 1 / 2 ∧
    1 / 50 ≤ (UpdateScene frameTime keys (updates frames u)).planeDist ∧
    (UpdateScene frameTime keys (updates frames u)).planeDist ≤ 1 / 2 ∧
    (UpdateScene frameTime keys (updates frames u)).scene.gPostProcessingConstants.nearPlane
      = Clamp01 ((UpdateScene frameTime keys (updates frames u)).focalPlane
          - (UpdateScene frameTime keys (updates frames u)).planeDist) ∧
    (UpdateScene frameTime keys (updates frames u)).scene.gPostProcessingConstants.farPlane
      = Clamp01 ((UpdateScene frameTime keys (updates frames u)).focalPlane
          + (UpdateScene frameTime keys (updates frames u)).planeDist) ∧
    0 ≤ (UpdateScene frameTime keys (updates frames u)).scene.gPostProcessingConstants.nearPlane ∧
    (UpdateScene frameTime keys (updates frames u)).scene.gPostProcessingConstants.nearPlane
      ≤ (UpdateScene frameTime keys
          (updates frames u)).scene.gPostProcessingConstants.farPlane ∧
    (UpdateScene frameTime keys (updates frames u)).scene.gPostProcessingConstants.farPlane
      ≤ 1 := by
  have h := planeDist_updates frames u (by rw [hd]; norm_num) (by rw [hd]; norm_num)
  have h' := planeDist_updates (frames ++ [(frameTime, keys)]) u (by rw [hd]; norm_num)
    (by rw [hd]; norm_num)
  rw [updates_concat] at h'
  obtain ⟨-, pn, pf⟩ := UpdateScene_planes frameTime keys (updates frames u)
  refine ⟨h.1, h.2, h'.1, h'.2, pn, pf, ?_, ?_, ?_⟩
  · rw [pn]; exact (Clamp01_range _).1
  · rw [pn, pf]
    apply Clamp01_mono
    have : (0 : ℚ) ≤ (UpdateScene frameTime keys (updates frames u)).planeDist := by
      linarith [h'.1]
    linarith
  · rw [pf]; exact (Clamp01_range _).2

/-- From the sample state with the cube focused: its projected depth `-0.02`
lies outside `[0, 1]`, the near plane is clamped to `0` and the far plane is
`0.13`. -/
theorem C30_depth_of_field_planes_ordered_witness :
    sampleFocusedState.planeDist = 3 / 20 ∧
    (UpdateScene (1 / 60) noKeys (updates [] sampleFocusedState)).focalPlane = -1 / 50 ∧
    (UpdateScene (1 / 60) noKeys
        (updates [] sampleFocusedState)).scene.gPostProcessingConstants.nearPlane
      ≤ (UpdateScene (1 / 60) noKeys
          (updates [] sampleFocusedState)).scene.gPostProcessingConstants.farPlane ∧
    (UpdateScene (1 / 60) noKeys
        (updates [] sampleFocusedState)).scene.gPostProcessingConstants.nearPlane = 0 ∧
    (UpdateScene (1 / 60) noKeys
        (updates [] sampleFocusedState)).scene.gPostProcessingConstants.farPlane = 13 / 100 :=
  ⟨rfl, by decide!,
    (C30_depth_of_field_planes_ordered [] (1 / 60) noKeys sampleFocusedState rfl).2.2.2.2.2.2.2.1,
    by decide!, by decide!⟩

/-! ## The scopes of the entries of the two lists -/

theorem initScene_polygon_entries (polyMatrix : CMatrix4x4) :
    ∀ pp ∈ initScenePolygonPostProcesses polyMatrix, pp.Mode = Polygon ∧ pp.PolyData ≠ none := by
  intro pp hpp
  simp only [initScenePolygonPostProcesses, List.mem_cons, List.mem_singleton,
    List.not_mem_nil, or_false] at hpp
  rcases hpp with h | h | h | h | h | h | h | h | h | h | h <;> rw [h] <;>
    exact ⟨rfl, by intro hc; cases hc⟩

theorem fullScreen_entries_updateEffectLists (keys : Input) (u : UpdateState)
    (h : ∀ pp ∈ u.scene.gFullScreenPostProcesses, pp.Mode = Fullscreen ∧ pp.PolyData = none) :
    ∀ pp ∈ (updateEffectLists keys u).scene.gFullScreenPostProcesses,
      pp.Mode = Fullscreen ∧ pp.PolyData = none := by
  refine updateEffectLists_rel
    (fun v => ∀ pp ∈ v.scene.gFullScreenPostProcesses, pp.Mode = Fullscreen ∧ pp.PolyData = none)
    keys u h ?_ ?_ ?_
  · intro t v hv pp hpp
    have hmem : pp ∈ v.scene.gFullScreenPostProcesses ++ [{ Type_ := t }] := hpp
    rcases List.mem_append.mp hmem with h1 | h1
    · exact hv pp h1
    · rw [List.mem_singleton.mp h1]
      exact ⟨rfl, rfl⟩
  · intro pp hpp
    exact absurd hpp (List.not_mem_nil _)
  · intro pp hpp
    rw [fullScreen_popFullScreen] at hpp
    exact h pp (List.dropLast_subset _ hpp)

theorem entries_updates (frames : List (ℚ × Input)) (u : UpdateState)
    (h : ∀ pp ∈ u.scene.gFullScreenPostProcesses, pp.Mode = Fullscreen ∧ pp.PolyData = none) :
    (updates frames u).scene.gPolygonPostProcesses = u.scene.gPolygonPostProcesses ∧
    ∀ pp ∈ (updates frames u).scene.gFullScreenPostProcesses,
      pp.Mode = Fullscreen ∧ pp.PolyData = none := by
  induction frames generalizing u with
  | nil => exact ⟨rfl, h⟩
  | cons frame frames ih =>
    rw [updates_cons]
    have hs := sameEffects_UpdateScene frame.1 frame.2 u
    have hk := sameFocus_updateEffectLists frame.2 u
    have h1 : ∀ pp ∈ (UpdateScene frame.1 frame.2 u).scene.gFullScreenPostProcesses,
        pp.Mode = Fullscreen ∧ pp.PolyData = none := by
      rw [hs.fullScreen]
      exact fullScreen_entries_updateEffectLists frame.2 u h
    obtain ⟨i1, i2⟩ := ih (UpdateScene frame.1 frame.2 u) h1
    exact ⟨i1.trans (hs.polygon.trans hk.2.2.1), i2⟩

/-- C27: in every state reached by updates from a state left by `InitScene`
(its polygon list, an empty transient list), every entry of the polygon list
has mode `Polygon` and polygon data, and every entry of the transient list has
mode `Fullscreen` and no polygon data.  So the entries that the loop of
`RenderScene` applies never have mode `Area`: the scope dispatch of
`ApplyPostProcess` takes the full-screen or the polygon branch, not the call
of `AreaPostProcess`; and in the applied sequence no entry of mode `Polygon`
comes after an entry of mode `Fullscreen`. -/
theorem C27_scope_invariant (polyMatrix : CMatrix4x4) (frames : List (ℚ × Input))
    (u : UpdateState) (k : Nat)
    (hp : u.scene.gPolygonPostProcesses = initScenePolygonPostProcesses polyMatrix)
    (hf : u.scene.gFullScreenPostProcesses = []) :
    (∀ pp ∈ (updates frames u).scene.gPolygonPostProcesses,
      pp.Mode = Polygon ∧ pp.PolyData ≠ none) ∧
    (∀ pp ∈ (updates frames u).scene.gFullScreenPostProcesses,
      pp.Mode = Fullscreen ∧ pp.PolyData = none) ∧
    ∃ (c : Chain) (applied : List PostProcess),
      chainLoop ((updates frames u).scene.gPolygonPostProcesses.length
          + (updates frames u).scene.gFullScreenPostProcesses.length + k)
          (chainInit (updates frames u).scene) = some (c, applied) ∧
      (∀ pp ∈ applied, pp.Mode ≠ Area) ∧
      (∀ pp ∈ applied, ∀ (srv renderTarget : Texture) (s : Scene),
        applyByMode pp srv renderTarget s
            = FullScreenPostProcess pp.Type_ srv renderTarget gNoBlendingState s ∨
          ∃ polyData : PolygonData, pp.PolyData = some polyData ∧
            applyByMode pp srv renderTarget s
              = PolygonPostProcess pp.Type_ srv renderTarget gNoBlendingState polyData.Points
                  polyData.Matrix s) ∧
      applied.Pairwise (fun a b => ¬ (a.Mode = Fullscreen ∧ b.Mode = Polygon)) := by
  obtain ⟨e1, e2⟩ := entries_updates frames u
    (by rw [hf]; intro pp hpp; exact absurd hpp (List.not_mem_nil _))
  have hpoly : ∀ pp ∈ (updates frames u).scene.gPolygonPostProcesses,
      pp.Mode = Polygon ∧ pp.PolyData ≠ none := by
    rw [e1, hp]
    exact initScene_polygon_entries polyMatrix
  refine ⟨hpoly, e2, _, _, chainLoop_chainInit (updates frames u).scene k, ?_, ?_, ?_⟩
  · intro pp hpp
    rcases List.mem_append.mp hpp with h | h
    · rw [(hpoly pp h).1]; decide
    · rw [(e2 pp h).1]; decide
  · intro pp hpp srv renderTarget s
    rcases List.mem_append.mp hpp with h | h
    · obtain ⟨hm, hd⟩ := hpoly pp h
      right
      cases hpd : pp.PolyData with
      | none => exact absurd hpd hd
      | some polyData =>
        refine ⟨polyData, rfl, ?_⟩
        unfold applyByMode
        rw [hm, hpd]
    · left
      unfold applyByMode
      rw [(e2 pp h).1]
  · rw [List.pairwise_append]
    refine ⟨?_, ?_, ?_⟩
    · refine List.Pairwise.imp_of_mem ?_ (List.pairwise_of_forall (fun _ _ => trivial))
      intro a b ha _ _ hc
      rw [(hpoly a ha).1] at hc
      exact absurd hc.1 (by decide)
    · refine List.Pairwise.imp_of_mem ?_ (List.pairwise_of_forall (fun _ _ => trivial))
      intro a b _ hb _ hc
      rw [(e2 b hb).1] at hc
      exact absurd hc.2 (by decide)
    · intro a ha b _ hc
      rw [(hpoly a ha).1] at hc
      exact absurd hc.1 (by decide)

/-- From the state left by `InitScene`, after `Key_2` (BlurX, BlurY) and
`Key_Z`: eleven polygon entries and one full-screen entry are applied. -/
theorem C27_scope_invariant_witness :
    sampleInitState.scene.gPolygonPostProcesses = initScenePolygonPostProcesses identityMatrix ∧
    sampleInitState.scene.gFullScreenPostProcesses = [] ∧
    (∀ pp ∈ (updates [(1 / 60, hitKeys [Key_2]), (1 / 60, hitKeys [Key_Z])]
        sampleInitState).scene.gFullScreenPostProcesses,
      pp.Mode = Fullscreen ∧ pp.PolyData = none) ∧
    ((updates [(1 / 60, hitKeys [Key_2]), (1 / 60, hitKeys [Key_Z])]
        sampleInitState).scene.gFullScreenPostProcesses.map (fun pp => pp.Type_)) = [BlurX] ∧
    (updates [(1 / 60, hitKeys [Key_2]), (1 / 60, hitKeys [Key_Z])]
        sampleInitState).scene.gPolygonPostProcesses.length = 11 :=
  ⟨rfl, rfl,
    (C27_scope_invariant identityMatrix [(1 / 60, hitKeys [Key_2]), (1 / 60, hitKeys [Key_Z])]
      sampleInitState 0 rfl rfl).2.1,
    by decide!, by decide!⟩

/-! ## The opacity of the copies -/

theorem updateMotionBlur_alpha (frameTime : ℚ) (keys : Input) (s : Scene) :
    1 / 20 ≤ (updateMotionBlur frameTime keys s).gCopyAlpha ∧
      (updateMotionBlur frameTime keys s).gCopyAlpha ≤ 1 := by
  unfold updateMotionBlur
  dsimp only
  exact Clamp_range _ _ _ (by norm_num)

theorem UpdateScene_alpha (frameTime : ℚ) (keys : Input) (u : UpdateState) :
    1 / 20 ≤ (UpdateScene frameTime keys u).scene.gCopyAlpha ∧
      (UpdateScene frameTime keys u).scene.gCopyAlpha ≤ 1 := by
  obtain ⟨x, -, hy⟩ := (UpdateScene_around frameTime keys u).1
  have hout : Group.alpha.Same (motionBlurStage frameTime keys x)
      (UpdateScene frameTime keys u) := hy.rest Group.alpha (by decide)
  have e : (UpdateScene frameTime keys u).scene.gCopyAlpha
      = (updateMotionBlur frameTime keys x.scene).gCopyAlpha := hout
  rw [e]
  exact updateMotionBlur_alpha frameTime keys x.scene

theorem CopyRule.weaken {a : ℚ} {P R : Prop} {d : DrawCall} (h : CopyRule a P d)
    (hPR : P → R) : CopyRule a R d :=
  ⟨h.1, fun hc => (h.2 hc).imp id hPR⟩

theorem copyRule_FullScreenPostProcess (t : PostProcessType) (srv rt : Texture)
    (b : BlendState) (s : Scene) (a : ℚ) (area : Prop)
    (ha : s.gPostProcessingConstants.copyAlpha = a)
    (hb : b = gNoBlendingState ∨ (t ≠ None ∧ t ≠ Copy)) :
    Issues (CopyRule a area) s (FullScreenPostProcess t srv rt b s) := by
  refine (issues_FullScreenPostProcess_full t srv rt b s).mono ?_
  intro d hd
  obtain ⟨-, hblend, -, hps, halpha, -⟩ := hd
  refine ⟨halpha.trans ha, fun hc => ?_⟩
  rcases hb with hb | ⟨h1, h2⟩
  · exact Or.inl (hblend.trans hb)
  · exact absurd ((hps h1).symm.trans hc) h2

theorem copyRule_directional (l : List Nat) (s : Scene) (a : ℚ) (area : Prop)
    (ha : s.gPostProcessingConstants.copyAlpha = a) :
    Issues (CopyRule a area) s
      (l.foldl (fun s j => FullScreenPostProcess DirectionalBlur gTempTexture gTempTexture2
        gAdditiveBlendingState (UpdateBloomEffectDirection j s)) s) := by
  induction l generalizing s with
  | nil => exact Issues.nothing _ s
  | cons j l ih =>
    rw [List.foldl_cons]
    have hf := (frame_UpdateBloomEffectDirection j s).comp
      (frame_FullScreenPostProcess DirectionalBlur gTempTexture gTempTexture2
        gAdditiveBlendingState (UpdateBloomEffectDirection j s))
    have hi : Issues (CopyRule a area) s
        (FullScreenPostProcess DirectionalBlur gTempTexture gTempTexture2
          gAdditiveBlendingState (UpdateBloomEffectDirection j s)) := by
      obtain ⟨ds, hds, hQ⟩ := copyRule_FullScreenPostProcess DirectionalBlur gTempTexture
        gTempTexture2 gAdditiveBlendingState (UpdateBloomEffectDirection j s) a area ha
        (Or.inr ⟨by decide, by decide⟩)
      exact ⟨ds, hds, hQ⟩
    exact hi.append (ih _ (hf.copyAlpha.trans ha))

theorem copyRule_RenderBloomTexture (srv : Texture) (s : Scene) (a : ℚ) (area : Prop)
    (ha : s.gPostProcessingConstants.copyAlpha = a) :
    Issues (CopyRule a area) s (RenderBloomTexture srv s) := by
  have f1 := frame_FullScreenPostProcess Brightness srv gTempTexture2 gNoBlendingState s
  have f2 := frame_FullScreenPostProcess BlurY gTempTexture2 gTempTexture gNoBlendingState
    (FullScreenPostProcess Brightness srv gTempTexture2 gNoBlendingState s)
  have f3 := frame_FullScreenPostProcess BlurX gTempTexture gTempTexture2 gNoBlendingState
    (FullScreenPostProcess BlurY gTempTexture2 gTempTexture gNoBlendingState
      (FullScreenPostProcess Brightness srv gTempTexture2 gNoBlendingState s))
  have h1 := copyRule_FullScreenPostProcess Brightness srv gTempTexture2 gNoBlendingState s
    a area ha (Or.inl rfl)
  have h2 := copyRule_FullScreenPostProcess BlurY gTempTexture2 gTempTexture gNoBlendingState
    (FullScreenPostProcess Brightness srv gTempTexture2 gNoBlendingState s) a area
    (f1.copyAlpha.trans ha) (Or.inl rfl)
  have h3 := copyRule_FullScreenPostProcess BlurX gTempTexture gTempTexture2 gNoBlendingState
    (FullScreenPostProcess BlurY gTempTexture2 gTempTexture gNoBlendingState
      (FullScreenPostProcess Brightness srv gTempTexture2 gNoBlendingState s)) a area
    (f2.copyAlpha.trans (f1.copyAlpha.trans ha)) (Or.inl rfl)
  have h4 := copyRule_directional
    (List.range (FullScreenPostProcess BlurX gTempTexture gTempTexture2 gNoBlendingState
      (FullScreenPostProcess BlurY gTempTexture2 gTempTexture gNoBlendingState
        (FullScreenPostProcess Brightness srv gTempTexture2 gNoBlendingState
          s))).gTempDiagonalBlurs.toNat)
    (FullScreenPostProcess BlurX gTempTexture gTempTexture2 gNoBlendingState
      (FullScreenPostProcess BlurY gTempTexture2 gTempTexture gNoBlendingState
        (FullScreenPostProcess Brightness srv gTempTexture2 gNoBlendingState s))) a area
    (f3.copyAlpha.trans (f2.copyAlpha.trans (f1.copyAlpha.trans ha)))
  obtain ⟨ds, hds, hQ⟩ := ((h1.append h2).append h3).append h4
  exact ⟨ds, hds, hQ⟩

theorem copyRule_applyByMode (pp : PostProcess) (srv rt : Texture) (s : Scene) (a : ℚ)
    (ha : s.gPostProcessingConstants.copyAlpha = a) :
    Issues (CopyRule a (pp.Mode = Area)) s (applyByMode pp srv rt s) := by
  obtain ⟨h1, -⟩ := draws_applyByMode pp srv rt s
  refine ⟨_, h1, ?_⟩
  intro d hd
  unfold modeDrawState at hd
  cases hm : pp.Mode with
  | Fullscreen =>
    simp only [hm, List.mem_singleton] at hd
    have h := currentDraw_FullScreenSetup pp.Type_ srv rt gNoBlendingState s
    rw [hd]
    exact ⟨h.2.2.2.2.2.1.trans ha, fun _ => Or.inl h.2.2.2.1⟩
  | Area =>
    simp only [hm] at hd
    by_cases hnear : areaDistance s s.light0Position < s.gCamera.NearClip
    · simp [hnear] at hd
    · simp only [hnear, if_false, List.mem_singleton] at hd
      have h := currentDraw_AreaSetup pp.Type_ srv rt gAlphaBlendingState s.light0Position
        { x := 10, y := 10 } s
      rw [hd]
      exact ⟨h.2.2.2.2.2.trans ha, fun _ => Or.inr rfl⟩
  | Polygon =>
    simp only [hm] at hd
    cases hpd : pp.PolyData with
    | none => simp [hpd] at hd
    | some pd =>
      simp only [hpd, List.mem_singleton] at hd
      have h := currentDraw_PolygonSetup pp.Type_ srv rt gNoBlendingState pd.Points
        pd.Matrix s
      rw [hd]
      exact ⟨h.2.2.2.2.2.trans ha, fun _ => Or.inl h.2.2.2.1⟩

theorem copyRule_ApplyPostProcess (pp : PostProcess) (srv rt : Texture) (s : Scene) (a : ℚ)
    (ha : s.gPostProcessingConstants.copyAlpha = a) :
    Issues (CopyRule a (pp.Mode = Area)) s (ApplyPostProcess pp srv rt s) := by
  unfold ApplyPostProcess
  split
  · exact Issues.nothing _ s
  · split
    · exact (copyRule_RenderBloomTexture srv s a _ ha).append
        (copyRule_applyByMode pp srv rt _ a ((frame_RenderBloomTexture srv s).copyAlpha.trans ha))
    · exact copyRule_applyByMode pp srv rt s a ha

theorem copyRule_chainColour (pp : PostProcess) (c : Chain) (a : ℚ)
    (ha : c.scene.gPostProcessingConstants.copyAlpha = a) :
    Issues (CopyRule a (pp.Mode = Area)) c.scene (chainColour pp c).scene := by
  have h1 := copyRule_ApplyPostProcess pp c.srv c.renderTarget c.scene a ha
  rw [chainColour_scene]
  split
  · exact h1.append (copyRule_FullScreenPostProcess _ _ _ _ _ a _
      ((frame_ApplyPostProcess _ _ _ _).copyAlpha.trans ha) (Or.inl rfl))
  · exact h1

theorem copyRule_auxiliaryApply (pp : PostProcess) (c : Chain) (a : ℚ)
    (ha : c.scene.gPostProcessingConstants.copyAlpha = a) :
    Issues (CopyRule a (pp.Mode = Area)) c.scene (auxiliaryApply pp c) := by
  have h1 := copyRule_ApplyPostProcess pp c.scene.gCurrentNormalDepthTextureSRV
    c.ndRenderTarget c.scene a ha
  unfold auxiliaryApply
  dsimp only
  split
  · exact h1.append (copyRule_ApplyPostProcess _ _ _ _ a
      ((frame_ApplyPostProcess _ _ _ _).copyAlpha.trans ha))
  · exact h1

theorem copyRule_auxiliaryCopy (pp : PostProcess) (c : Chain) (a : ℚ) (area : Prop)
    (ha : c.scene.gPostProcessingConstants.copyAlpha = a) :
    Issues (CopyRule a area) c.scene (auxiliaryCopy pp c) := by
  have h1 := copyRule_FullScreenPostProcess Copy c.scene.gCurrentNormalDepthTextureSRV
    c.ndRenderTarget gNoBlendingState c.scene a area ha (Or.inl rfl)
  unfold auxiliaryCopy
  split
  · dsimp only
    split
    · exact h1.append (copyRule_FullScreenPostProcess _ _ _ _ _ a area
        ((frame_FullScreenPostProcess _ _ _ _ _).copyAlpha.trans ha) (Or.inl rfl))
    · exact h1
  · exact Issues.nothing _ _

theorem copyRule_chainAuxiliary (pp : PostProcess) (c : Chain) (a : ℚ)
    (ha : c.scene.gPostProcessingConstants.copyAlpha = a) :
    Issues (CopyRule a (pp.Mode = Area)) c.scene (chainAuxiliary pp c).scene := by
  have h1 := copyRule_auxiliaryApply pp c a ha
  have hsw := auxiliarySwitch_fields { c with scene := auxiliaryApply pp c }
  have h2 : Issues (CopyRule a (pp.Mode = Area)) (auxiliaryApply pp c)
      (auxiliarySwitch { c with scene := auxiliaryApply pp c }).scene :=
    Issues.of_draws_eq hsw.2.2.2.2.2.2.1
  have h3 := copyRule_auxiliaryCopy pp
    (auxiliarySwitch { c with scene := auxiliaryApply pp c }) a (pp.Mode = Area)
    (hsw.2.2.2.2.2.2.2.copyAlpha.trans ((frame_auxiliaryApply pp c).copyAlpha.trans ha))
  exact (h1.append h2).append h3

theorem copyRule_chainBody (pp : PostProcess) (c : Chain) (a : ℚ)
    (ha : c.scene.gPostProcessingConstants.copyAlpha = a) :
    Issues (CopyRule a (pp.Mode = Area)) c.scene (chainBody pp c).scene := by
  rw [chainBody_eq, (chainAdvance_fields _).1]
  have h1 := copyRule_chainColour pp c a ha
  split
  · exact h1.append (copyRule_chainAuxiliary pp (chainColour pp c) a
      ((frame_chainColour pp c).copyAlpha.trans ha))
  · exact h1

theorem copyRule_chainPasses (l : List PostProcess) (c : Chain) (a : ℚ)
    (ha : c.scene.gPostProcessingConstants.copyAlpha = a) :
    Issues (CopyRule a (∃ pp ∈ l, pp.Mode = Area)) c.scene (chainPasses l c).scene := by
  induction l generalizing c with
  | nil => exact Issues.nothing _ _
  | cons pp l ih =>
    rw [chainPasses_cons]
    have h1 := (copyRule_chainBody pp c a ha).mono
      (R := CopyRule a (∃ q ∈ pp :: l, q.Mode = Area))
      (fun d hd => hd.weaken (fun h => ⟨pp, List.mem_cons_self _ _, h⟩))
    have h2 := (ih (chainBody pp c) ((globals_chainBody pp c).copyAlpha.trans ha)).mono
      (R := CopyRule a (∃ q ∈ pp :: l, q.Mode = Area))
      (fun d hd => hd.weaken (fun ⟨q, hq, h⟩ => ⟨q, List.mem_cons_of_mem _ hq, h⟩))
    exact h1.append h2

/-- The copy that follows a polygon or area effect in a loop pass: the last
draw of the colour part, with the copy shader, no blending and the `copyAlpha`
of the state before the pass. -/
theorem chainColour_copy (pp : PostProcess) (c : Chain)
    (hm : pp.Mode = Polygon ∨ pp.Mode = Area) :
    ∃ d : DrawCall,
      (chainColour pp c).scene.draws
        = (ApplyPostProcess pp c.srv c.renderTarget c.scene).draws ++ [d] ∧
      d.pixelShader = Copy ∧ d.blendState = gNoBlendingState ∧
      d.constants.copyAlpha = c.scene.gPostProcessingConstants.copyAlpha := by
  rw [chainColour_scene, if_pos hm]
  have h := fullScreenDraw_currentDraw Copy (chainColour pp c).srv (chainColour pp c).renderTarget
    gNoBlendingState (ApplyPostProcess pp c.srv c.renderTarget c.scene)
  refine ⟨_, draws_FullScreenPostProcess _ _ _ _ _, h.2.2.2.1 (by decide), h.2.1, ?_⟩
  exact h.2.2.2.2.1.trans (frame_ApplyPostProcess _ _ _ _).copyAlpha

/-- C29: after `UpdateScene`, for every frame time and key input,
`0.05 ≤ gCopyAlpha ≤ 1`.  In `RenderScene`, whatever `copyAlpha` the constants
held at the start of the frame, the draws are those of the chain followed by
the final composite into the back buffer, and the chain begins with the
initial copies, drawn with the copy shader, no blending and `copyAlpha = 1`;
every draw of the chain has `copyAlpha = 1`, and one with the copy shader is
not blended unless an entry of the lists has mode `Area` (its own draw is alpha
blended, with the pixel shader of its type); the copy that follows the
application of a polygon or area entry is drawn with no blending and
`copyAlpha = 1` in every case. -/
theorem C29_copies_opaque_before_composite (frameTime : ℚ) (keys : Input) (u : UpdateState)
    (s : Scene) (k : Nat) :
    (1 / 20 ≤ (UpdateScene frameTime keys u).scene.gCopyAlpha ∧
      (UpdateScene frameTime keys u).scene.gCopyAlpha ≤ 1) ∧
    (∃ (t : Scene) (initial loop : List DrawCall) (composite : DrawCall),
      RenderScene (s.gPolygonPostProcesses.length + s.gFullScreenPostProcesses.length + k) s
        = some t ∧
      t.draws = s.draws ++ (initial ++ loop) ++ [composite] ∧
      (chainInit s).scene.draws = s.draws ++ initial ∧
      composite.renderTarget = gBackBuffer ∧
      (∀ d ∈ initial, d.pixelShader = Copy ∧ d.blendState = gNoBlendingState ∧
        d.constants.copyAlpha = 1) ∧
      (∀ d ∈ initial ++ loop, d.constants.copyAlpha = 1) ∧
      (∀ d ∈ initial ++ loop, d.pixelShader = Copy →
        d.blendState = gNoBlendingState ∨
          ∃ pp ∈ s.gPolygonPostProcesses ++ s.gFullScreenPostProcesses, pp.Mode = Area)) ∧
    (∀ (before after : List PostProcess) (pp : PostProcess),
      s.gPolygonPostProcesses ++ s.gFullScreenPostProcesses = before ++ pp :: after →
      pp.Mode = Polygon ∨ pp.Mode = Area →
      ∃ d : DrawCall,
        (chainColour pp (chainPasses before (chainInit s))).scene.draws
          = (ApplyPostProcess pp (chainPasses before (chainInit s)).srv
              (chainPasses before (chainInit s)).renderTarget
              (chainPasses before (chainInit s)).scene).draws ++ [d] ∧
        d.pixelShader = Copy ∧ d.blendState = gNoBlendingState ∧
        d.constants.copyAlpha = 1) := by
  have h1 : (chainInit s).scene.gPostProcessingConstants.copyAlpha = 1 :=
    (chainInit_globals s).2.2.2.2.2.1
  refine ⟨UpdateScene_alpha frameTime keys u, ?_, ?_⟩
  · obtain ⟨initial, hinit, hQi⟩ := issues_chainInit_copies s
    obtain ⟨loop, hloop, hQl⟩ := copyRule_chainPasses
      (s.gPolygonPostProcesses ++ s.gFullScreenPostProcesses) (chainInit s) 1 h1
    obtain ⟨composite, hcomp, hfull⟩ := finalComposite_draw
      (chainPasses (s.gPolygonPostProcesses ++ s.gFullScreenPostProcesses) (chainInit s))
    refine ⟨_, initial, loop, composite, RenderScene_eq s k, ?_, hinit, hfull.1.2.2, hQi, ?_, ?_⟩
    · rw [hcomp, hloop, hinit, List.append_assoc s.draws]
    · intro d hd
      rcases List.mem_append.mp hd with h | h
      · exact (hQi d h).2.2
      · exact (hQl d h).1
    · intro d hd hc
      rcases List.mem_append.mp hd with h | h
      · exact Or.inl (hQi d h).2.1
      · exact (hQl d h).2 hc
  · intro before after pp _ hm
    obtain ⟨d, hd, hp, hb, ha⟩ := chainColour_copy pp (chainPasses before (chainInit s)) hm
    exact ⟨d, hd, hp, hb, ha.trans
      ((globals_chainPasses before (chainInit s)).copyAlpha.trans h1)⟩

/-- In the sample scene with a polygon-scope Underwater entry followed by a
full-screen Gradient, the copy after the polygon entry is drawn with the copy
shader, no blending and `copyAlpha = 1`. -/
theorem C29_copies_opaque_before_composite_witness :
    samplePolygonThenGradient.gPolygonPostProcesses
        ++ samplePolygonThenGradient.gFullScreenPostProcesses
      = [] ++ polygonAt Underwater 1 :: [{ Type_ := Gradient }] ∧
    ((polygonAt Underwater 1).Mode = Polygon ∨ (polygonAt Underwater 1).Mode = Area) ∧
    ∃ d : DrawCall,
      (chainColour (polygonAt Underwater 1)
          (chainPasses [] (chainInit samplePolygonThenGradient))).scene.draws
        = (ApplyPostProcess (polygonAt Underwater 1)
            (chainPasses [] (chainInit samplePolygonThenGradient)).srv
            (chainPasses [] (chainInit samplePolygonThenGradient)).renderTarget
            (chainPasses [] (chainInit samplePolygonThenGradient)).scene).draws ++ [d] ∧
      d.pixelShader = Copy ∧ d.blendState = gNoBlendingState ∧ d.constants.copyAlpha = 1 :=
  ⟨rfl, Or.inl rfl,
    (C29_copies_opaque_before_composite 0 noKeys sampleUpdateState samplePolygonThenGradient
      0).2.2 [] [{ Type_ := Gradient }] (polygonAt Underwater 1) rfl (Or.inl rfl)⟩

/-! ## The draws of a loop pass -/

theorem pixelShader_AreaSetup (t : PostProcessType) (srv rt : Texture) (b : BlendState)
    (w : CVector3) (a : CVector2) (s : Scene) (ht : t ≠ None) :
    (currentDraw (AreaSetup t srv rt b w a s)).pixelShader = t :=
  pixelShader_Select t (PostProcessSetup srv rt b s) ht

theorem pixelShader_PolygonSetup (t : PostProcessType) (srv rt : Texture) (b : BlendState)
    (pts : Fin 4 → CVector3) (m : CMatrix4x4) (s : Scene) (ht : t ≠ None) :
    (currentDraw (PolygonSetup t srv rt b pts m s)).pixelShader = t := by
  unfold PolygonSetup currentDraw
  dsimp only
  unfold SelectPostProcessShaderAndTextures
  rw [if_neg ht]

/-- The draw of the effect itself is made with the pixel shader of the
entry's type. -/
theorem effectDraws_pixelShader (pp : PostProcess) (srv rt : Texture) (s : Scene)
    (ht : pp.Type_ ≠ None) :
    ∀ d ∈ effectDraws pp srv rt s, d.pixelShader = pp.Type_ := by
  intro d hd
  unfold effectDraws at hd
  cases he : effectDrawState pp srv rt s with
  | none => rw [he] at hd; exact absurd hd (List.not_mem_nil _)
  | some t =>
    rw [he] at hd
    have hdt : d = currentDraw t := List.mem_singleton.mp hd
    obtain ⟨u, hu⟩ := effectDrawState_mode pp srv rt s t he
    rcases modeDrawState_cases pp srv rt u t hu with ⟨-, h⟩ | ⟨-, h⟩ | ⟨-, pd, -, h⟩
    · rw [hdt, h]; exact pixelShader_FullScreenSetup _ _ _ _ _ ht
    · rw [hdt, h]; exact pixelShader_AreaSetup _ _ _ _ _ _ _ ht
    · rw [hdt, h]; exact pixelShader_PolygonSetup _ _ _ _ _ _ _ ht

theorem effectDraws_once (pp : PostProcess) (srv rt : Texture) (s : Scene) :
    (Skipped pp s → effectDraws pp srv rt s = []) ∧
    (¬ Skipped pp s → ∃ d : DrawCall, effectDraws pp srv rt s = [d]) := by
  unfold effectDraws
  cases he : effectDrawState pp srv rt s with
  | none =>
    refine ⟨fun _ => rfl, fun hs => ?_⟩
    exact absurd ((effectDrawState_eq_none_iff pp srv rt s).mp he) hs
  | some t =>
    refine ⟨fun hs => ?_, fun _ => ⟨_, rfl⟩⟩
    rw [(effectDrawState_eq_none_iff pp srv rt s).mpr hs] at he
    cases he

/-- The draws of one loop pass from a state that the chain maintains: the
bloom sub-pipeline (for a Bloom entry), the draw of the effect itself from
`srv` into `renderTarget`, the copy back for a polygon or area entry, and
then draws within the auxiliary pairs only. -/
theorem draws_chainBody (pp : PostProcess) (c : Chain) (h : ChainInv c) :
    ∃ (bloom copy auxiliary : List DrawCall),
      (ApplyPostProcess pp c.srv c.renderTarget c.scene).draws
        = c.scene.draws ++ bloom ++ effectDraws pp c.srv c.renderTarget c.scene ∧
      (chainBody pp c).scene.draws
        = c.scene.draws ++ bloom ++ effectDraws pp c.srv c.renderTarget c.scene ++ copy
            ++ auxiliary ∧
      (∀ d ∈ bloom, ScratchDraw c.srv d ∧ pp.Type_ = Bloom) ∧
      (pp.Mode = Fullscreen → copy = []) ∧
      (pp.Mode ≠ Fullscreen →
        ∃ d : DrawCall, copy = [d] ∧ PassDraw Copy c.renderTarget c.srv gNoBlendingState d) ∧
      (∀ d ∈ auxiliary, AuxiliaryDraw d) ∧
      (distorts pp.Type_ = false → auxiliary = []) := by
  obtain ⟨bloom, hbloom, hscratch, -⟩ := draws_ApplyPostProcess pp c.srv c.renderTarget c.scene
  have hfields := chainColour_fields pp c
  have hswap : (chainColour pp c).srv = c.renderTarget ∧ (chainColour pp c).renderTarget = c.srv := by
    rw [hfields.2.2.2.2.2.2.1, hfields.2.2.2.2.2.2.2]
    have hc := h.colour
    by_cases hi : c.i % 2 = 0
    · rw [if_pos hi, Prod.mk.injEq] at hc
      rw [if_pos hi, if_pos hi, hc.1, hc.2]
      exact ⟨rfl, rfl⟩
    · rw [if_neg hi, Prod.mk.injEq] at hc
      rw [if_neg hi, if_neg hi, hc.1, hc.2]
      exact ⟨rfl, rfl⟩
  -- the colour part
  have hcolour : ∃ copy : List DrawCall,
      (chainColour pp c).scene.draws
        = c.scene.draws ++ bloom ++ effectDraws pp c.srv c.renderTarget c.scene ++ copy ∧
      (pp.Mode = Fullscreen → copy = []) ∧
      (pp.Mode ≠ Fullscreen →
        ∃ d : DrawCall, copy = [d] ∧
          PassDraw Copy c.renderTarget c.srv gNoBlendingState d) := by
    rw [chainColour_scene]
    by_cases hm : pp.Mode = Polygon ∨ pp.Mode = Area
    · rw [if_pos hm, hswap.1, hswap.2]
      refine ⟨[currentDraw (FullScreenSetup Copy c.renderTarget c.srv gNoBlendingState
        (ApplyPostProcess pp c.srv c.renderTarget c.scene))], ?_, ?_, ?_⟩
      · rw [draws_FullScreenPostProcess, hbloom]
      · intro hf
        rcases hm with hm | hm <;> rw [hf] at hm <;> cases hm
      · intro _
        exact ⟨_, rfl, passDraw_of_fullScreenDraw (by decide)
          (fullScreenDraw_currentDraw Copy c.renderTarget c.srv gNoBlendingState _)⟩
    · rw [if_neg hm]
      refine ⟨[], ?_, fun _ => rfl, ?_⟩
      · rw [hbloom, List.append_nil]
      · intro hf
        exfalso
        apply hm
        cases hmode : pp.Mode with
        | Fullscreen => exact absurd hmode hf
        | Area => exact Or.inr rfl
        | Polygon => exact Or.inl rfl
  obtain ⟨copy, hcopy, hfull, hpoly⟩ := hcolour
  rw [chainBody_eq, (chainAdvance_fields _).1]
  by_cases hd : distorts pp.Type_ = true
  · rw [if_pos hd]
    have hfr := frame_chainColour pp c
    have hn : NormalDepthPair (chainColour pp c).scene.gCurrentNormalDepthTextureSRV
        (chainColour pp c).ndRenderTarget := by
      rw [hfr.normalDepth, hfields.2.2.2.2.1]; exact h.normalDepthPair
    have hf : FocusedObjectPair (chainColour pp c).scene.gCurrentFocusedObjectTextureSRV
        (chainColour pp c).foRenderTarget := by
      rw [hfr.focusedObject, hfields.2.2.2.2.2.1]; exact h.focusedObjectPair
    obtain ⟨auxiliary, haux, hQ⟩ := issues_chainAuxiliary pp (chainColour pp c) hd hn hf
    refine ⟨bloom, copy, auxiliary, hbloom, ?_, hscratch, hfull, hpoly, hQ, ?_⟩
    · rw [haux, hcopy]
    · intro hnot
      rw [hd] at hnot
      cases hnot
  · rw [if_neg hd]
    refine ⟨bloom, copy, [], hbloom, ?_, hscratch, hfull, hpoly, ?_, fun _ => rfl⟩
    · rw [hcopy, List.append_nil]
    · intro d hmem
      exact absurd hmem (List.not_mem_nil _)

/-- C1: for all contents of the two lists, the loop of `RenderScene` applies
to the colour pair exactly the entries of the polygon list followed by those
of the full-screen list, each once and in insertion order.  With any fuel of
at least `|polygon| + |fullScreen|` passes the loop ends in the state reached
by one pass for each entry of `gPolygonPostProcesses ++ gFullScreenPostProcesses`
in order, with the pass counter `i` at `|polygon| + |fullScreen|`; with less
fuel it has not ended.  The pass for an entry, from the state `c` left by the
passes for the entries before it, reads and writes the colour pair by the
parity of their number; it makes the one call
`ApplyPostProcess(entry, srv, renderTarget)`, whose draws are those of the
bloom sub-pipeline into the scratch textures (for a Bloom entry) and then the
draw of the effect itself, from `srv` into `renderTarget` with the pixel
shader of the entry's type: exactly one draw unless the effect is skipped.
The only other draws of the pass are the copy back from `renderTarget` into
`srv` after a polygon or area entry and draws within the auxiliary pairs. -/
theorem C1_applied_sequence (s : Scene) :
    (∀ k : Nat,
      chainLoop (s.gPolygonPostProcesses.length + s.gFullScreenPostProcesses.length + k)
          (chainInit s)
        = some (chainPasses (s.gPolygonPostProcesses ++ s.gFullScreenPostProcesses) (chainInit s),
            s.gPolygonPostProcesses ++ s.gFullScreenPostProcesses) ∧
      (chainPasses (s.gPolygonPostProcesses ++ s.gFullScreenPostProcesses) (chainInit s)).i
        = s.gPolygonPostProcesses.length + s.gFullScreenPostProcesses.length) ∧
    (∀ fuel : Fin (s.gPolygonPostProcesses.length + s.gFullScreenPostProcesses.length),
      chainLoop fuel (chainInit s) = none) ∧
    (∀ (before after : List PostProcess) (pp : PostProcess),
      s.gPolygonPostProcesses ++ s.gFullScreenPostProcesses = before ++ pp :: after →
      chainPasses (before ++ [pp]) (chainInit s)
        = chainBody pp (chainPasses before (chainInit s)) ∧
      ((chainPasses before (chainInit s)).srv, (chainPasses before (chainInit s)).renderTarget)
        = (if before.length % 2 = 0 then (gSceneTexture, gSceneTexture2)
           else (gSceneTexture2, gSceneTexture)) ∧
      ∃ (bloom copy auxiliary : List DrawCall),
        (ApplyPostProcess pp (chainPasses before (chainInit s)).srv
            (chainPasses before (chainInit s)).renderTarget
            (chainPasses before (chainInit s)).scene).draws
          = (chainPasses before (chainInit s)).scene.draws ++ bloom
              ++ effectDraws pp (chainPasses before (chainInit s)).srv
                  (chainPasses before (chainInit s)).renderTarget
                  (chainPasses before (chainInit s)).scene ∧
        (chainBody pp (chainPasses before (chainInit s))).scene.draws
          = (chainPasses before (chainInit s)).scene.draws ++ bloom
              ++ effectDraws pp (chainPasses before (chainInit s)).srv
                  (chainPasses before (chainInit s)).renderTarget
                  (chainPasses before (chainInit s)).scene
              ++ copy ++ auxiliary ∧
        (∀ d ∈ bloom, pp.Type_ = Bloom ∧ d.renderTarget ≠ gSceneTexture ∧
          d.renderTarget ≠ gSceneTexture2) ∧
        (∀ d ∈ effectDraws pp (chainPasses before (chainInit s)).srv
              (chainPasses before (chainInit s)).renderTarget
              (chainPasses before (chainInit s)).scene,
          d.vertexCount = 4 ∧ d.srv = (chainPasses before (chainInit s)).srv ∧
          d.renderTarget = (chainPasses before (chainInit s)).renderTarget ∧
          (pp.Type_ ≠ None → d.pixelShader = pp.Type_)) ∧
        (Skipped pp (chainPasses before (chainInit s)).scene →
          effectDraws pp (chainPasses before (chainInit s)).srv
            (chainPasses before (chainInit s)).renderTarget
            (chainPasses before (chainInit s)).scene = []) ∧
        (¬ Skipped pp (chainPasses before (chainInit s)).scene →
          ∃ d : DrawCall,
            effectDraws pp (chainPasses before (chainInit s)).srv
              (chainPasses before (chainInit s)).renderTarget
              (chainPasses before (chainInit s)).scene = [d]) ∧
        (pp.Mode = Fullscreen → copy = []) ∧
        (pp.Mode ≠ Fullscreen →
          ∃ d : DrawCall, copy = [d] ∧
            PassDraw Copy (chainPasses before (chainInit s)).renderTarget
              (chainPasses before (chainInit s)).srv gNoBlendingState d) ∧
        (∀ d ∈ auxiliary, d.renderTarget ≠ gSceneTexture ∧ d.renderTarget ≠ gSceneTexture2)) := by
  refine ⟨?_, ?_, ?_⟩
  · intro k
    refine ⟨chainLoop_chainInit s k, ?_⟩
    rw [chainPasses_i, List.length_append]
    show 0 + _ = _
    omega
  · intro fuel
    have h := (chainLoop_spec fuel (chainInit s) (Nat.zero_le _) (Nat.zero_le _)).2
    rw [chainInit_remaining, List.length_append] at h
    exact h fuel.isLt
  · intro before after pp _
    have hinv := chainInv_chainPasses before (chainInit s) (chainInv_chainInit s)
    obtain ⟨bloom, copy, auxiliary, h1, h2, h3, h4, h5, h6, -⟩ :=
      draws_chainBody pp (chainPasses before (chainInit s)) hinv
    refine ⟨?_, ?_, bloom, copy, auxiliary, h1, h2, ?_, ?_, (effectDraws_once _ _ _ _).1,
      (effectDraws_once _ _ _ _).2, h4, h5, ?_⟩
    · rw [chainPasses_append]
      rfl
    · have hc := hinv.colour
      rw [chainPasses_i] at hc
      have hi : (chainInit s).i = 0 := rfl
      rw [hi, Nat.zero_add] at hc
      exact hc
    · intro d hd
      obtain ⟨hs, hb⟩ := h3 d hd
      refine ⟨hb, ?_, ?_⟩
      · rcases hs.2 with ⟨ht, -⟩ | ⟨ht, -⟩ <;> rw [ht] <;> decide
      · rcases hs.2 with ⟨ht, -⟩ | ⟨ht, -⟩ <;> rw [ht] <;> decide
    · intro d hd
      have hdir := effectDraws_direct pp _ _ _ d hd
      exact ⟨hdir.1, hdir.2.1, hdir.2.2, fun ht => effectDraws_pixelShader pp _ _ _ ht d hd⟩
    · intro d hd
      rcases (h6 d hd).2 with hp | hp
      · rcases hp with ⟨-, ht⟩ | ⟨-, ht⟩ <;> rw [ht] <;> exact ⟨by decide, by decide⟩
      · rcases hp with ⟨-, ht⟩ | ⟨-, ht⟩ <;> rw [ht] <;> exact ⟨by decide, by decide⟩

/-- In the sample scene with a polygon-scope Underwater entry and a
full-screen Gradient entry, the draws of the frame are the two initial
copies, Underwater on the colour pair with its copy back, Underwater on the
normal/depth pair with its copy, Gradient on the colour pair (now read from
`gSceneTexture2`), and the final composite. -/
theorem C1_applied_sequence_witness :
    samplePolygonThenGradient.gPolygonPostProcesses
        ++ samplePolygonThenGradient.gFullScreenPostProcesses
      = [polygonAt Underwater 1] ++ { Type_ := Gradient } :: [] ∧
    ((chainPasses [polygonAt Underwater 1] (chainInit samplePolygonThenGradient)).srv,
      (chainPasses [polygonAt Underwater 1] (chainInit samplePolygonThenGradient)).renderTarget)
      = (if [polygonAt Underwater 1].length % 2 = 0 then (gSceneTexture, gSceneTexture2)
         else (gSceneTexture2, gSceneTexture)) ∧
    (RenderScene 2 samplePolygonThenGradient).map
        (fun t => t.draws.map (fun d => (d.pixelShader, d.srv, d.renderTarget)))
      = some [(Copy, gSceneTexture, gSceneTexture2),
          (Copy, gNormalDepthTexture, gNormalDepthTexture2),
          (Underwater, gSceneTexture, gSceneTexture2),
          (Copy, gSceneTexture2, gSceneTexture),
          (Underwater, gNormalDepthTexture, gNormalDepthTexture2),
          (Copy, gNormalDepthTexture2, gNormalDepthTexture),
          (Gradient, gSceneTexture2, gSceneTexture),
          (Copy, gSceneTexture, gBackBuffer)] :=
  ⟨rfl,
    ((C1_applied_sequence samplePolygonThenGradient).2.2 [polygonAt Underwater 1] []
      { Type_ := Gradient } rfl).2.1,
    by decide!⟩

/-! ## The binary32 arithmetic of the area depth -/

theorem twoPow_eq (k : Int) : twoPow k = (2 : ℚ) ^ k := by
  unfold twoPow
  split_ifs with h
  · obtain ⟨n, rfl⟩ := Int.eq_ofNat_of_zero_le h
    simp
  · push_neg at h
    obtain ⟨n, hn⟩ := Int.exists_eq_neg_ofNat (le_of_lt h)
    subst hn
    simp [zpow_neg]

theorem twoPow_pos (k : Int) : 0 < twoPow k := by
  rw [twoPow_eq]
  positivity

theorem log2Loop_eq (fuel n : Nat) (h : n ≤ fuel) : log2Loop fuel n = Nat.log2 n := by
  induction fuel generalizing n with
  | zero =>
    have : n = 0 := by omega
    subst this
    show 0 = Nat.log2 0
    rw [Nat.log2_zero]
  | succ fuel ih =>
    unfold log2Loop
    rw [Nat.log2]
    split_ifs with h2
    · rw [ih (n / 2) (by omega)]
    · rfl

theorem natLog2_eq (n : Nat) : natLog2 n = Nat.log2 n := log2Loop_eq n n (le_refl n)

theorem floorLog2_spec (q : ℚ) (hq : 0 < q) :
    (2 : ℚ) ^ floorLog2 q ≤ q ∧ q < (2 : ℚ) ^ (floorLog2 q + 1) := by
  have hnum : 0 < q.num := Rat.num_pos.mpr hq
  have hn0 : q.num.natAbs ≠ 0 := Int.natAbs_ne_zero.mpr (ne_of_gt hnum)
  have hd0 : q.den ≠ 0 := q.den_nz
  have hcast : ((q.num.natAbs : Nat) : ℚ) = (q.num : ℚ) := by
    rw [← Int.cast_natCast, Int.natAbs_of_nonneg (le_of_lt hnum)]
  have hq' : q = (q.num.natAbs : ℚ) / (q.den : ℚ) := by
    rw [hcast]; exact (Rat.num_div_den q).symm
  have hdpos : (0 : ℚ) < (q.den : ℚ) := by exact_mod_cast q.den_pos
  have hn1 : (2 : ℚ) ^ (q.num.natAbs.log2 : Int) ≤ (q.num.natAbs : ℚ) := by
    rw [zpow_natCast]; exact_mod_cast Nat.log2_self_le hn0
  have hn2 : (q.num.natAbs : ℚ) < (2 : ℚ) ^ ((q.num.natAbs.log2 : Int) + 1) := by
    have h : q.num.natAbs < 2 ^ (q.num.natAbs.log2 + 1) := Nat.lt_log2_self
    have h2 : ((q.num.natAbs.log2 : Int) + 1) = ((q.num.natAbs.log2 + 1 : Nat) : Int) := by
      push_cast; rfl
    rw [h2, zpow_natCast]; exact_mod_cast h
  have hd1 : (2 : ℚ) ^ (q.den.log2 : Int) ≤ (q.den : ℚ) := by
    rw [zpow_natCast]; exact_mod_cast Nat.log2_self_le hd0
  have hd2 : (q.den : ℚ) < (2 : ℚ) ^ ((q.den.log2 : Int) + 1) := by
    have h : q.den < 2 ^ (q.den.log2 + 1) := Nat.lt_log2_self
    have h2 : ((q.den.log2 : Int) + 1) = ((q.den.log2 + 1 : Nat) : Int) := by
      push_cast; rfl
    rw [h2, zpow_natCast]; exact_mod_cast h
  have hupper : q < (2 : ℚ) ^ ((q.num.natAbs.log2 : Int) - (q.den.log2 : Int) + 1) := by
    have e : (2 : ℚ) ^ ((q.num.natAbs.log2 : Int) - (q.den.log2 : Int) + 1)
        = (2 : ℚ) ^ ((q.num.natAbs.log2 : Int) + 1) / (2 : ℚ) ^ (q.den.log2 : Int) := by
      rw [← zpow_sub₀ (two_ne_zero)]; congr 1; ring
    rw [e]
    refine lt_of_eq_of_lt hq' ?_
    rw [div_lt_div_iff₀ hdpos (by positivity)]
    calc (q.num.natAbs : ℚ) * (2 : ℚ) ^ (q.den.log2 : Int)
        ≤ (q.num.natAbs : ℚ) * (q.den : ℚ) := by
          apply mul_le_mul_of_nonneg_left hd1; positivity
      _ < (2 : ℚ) ^ ((q.num.natAbs.log2 : Int) + 1) * (q.den : ℚ) := by
          apply mul_lt_mul_of_pos_right hn2 hdpos
  have hlower : (2 : ℚ) ^ ((q.num.natAbs.log2 : Int) - (q.den.log2 : Int) - 1) < q := by
    have e : (2 : ℚ) ^ ((q.num.natAbs.log2 : Int) - (q.den.log2 : Int) - 1)
        = (2 : ℚ) ^ (q.num.natAbs.log2 : Int) / (2 : ℚ) ^ ((q.den.log2 : Int) + 1) := by
      rw [← zpow_sub₀ (two_ne_zero)]; congr 1; ring
    rw [e]
    refine lt_of_lt_of_eq ?_ hq'.symm
    rw [div_lt_div_iff₀ (by positivity) hdpos]
    calc (2 : ℚ) ^ (q.num.natAbs.log2 : Int) * (q.den : ℚ)
        < (2 : ℚ) ^ (q.num.natAbs.log2 : Int) * (2 : ℚ) ^ ((q.den.log2 : Int) + 1) := by
          apply mul_lt_mul_of_pos_left hd2; positivity
      _ ≤ (q.num.natAbs : ℚ) * (2 : ℚ) ^ ((q.den.log2 : Int) + 1) := by
          apply mul_le_mul_of_nonneg_right hn1; positivity
  unfold floorLog2
  dsimp only
  rw [natLog2_eq, natLog2_eq, twoPow_eq]
  split_ifs with h
  · exact ⟨h, hupper⟩
  · refine ⟨le_of_lt hlower, ?_⟩
    rw [sub_add_cancel]
    exact lt_of_not_le h

theorem floorLog2_le_of_lt (q : ℚ) (hq : 0 < q) (k : Int) (h : q < (2 : ℚ) ^ k) :
    floorLog2 q < k := by
  have h1 := (floorLog2_spec q hq).1
  have h2 : (2 : ℚ) ^ floorLog2 q < (2 : ℚ) ^ k := lt_of_le_of_lt h1 h
  exact (zpow_lt_zpow_iff_right₀ (by norm_num : (1 : ℚ) < 2)).mp h2

theorem le_floorLog2 (q : ℚ) (hq : 0 < q) (k : Int) (h : (2 : ℚ) ^ k ≤ q) :
    k ≤ floorLog2 q := by
  have h1 := (floorLog2_spec q hq).2
  have h2 : (2 : ℚ) ^ k < (2 : ℚ) ^ (floorLog2 q + 1) := lt_of_le_of_lt h h1
  have := (zpow_lt_zpow_iff_right₀ (by norm_num : (1 : ℚ) < 2)).mp h2
  omega

theorem floorLog2_mono (x y : ℚ) (hx : 0 < x) (hxy : x ≤ y) : floorLog2 x ≤ floorLog2 y :=
  le_floorLog2 y (lt_of_lt_of_le hx hxy) _ (le_trans (floorLog2_spec x hx).1 hxy)

theorem roundHalfEven_cases (y : ℚ) : roundHalfEven y = ⌊y⌋ ∧ y - ⌊y⌋ ≤ 1 / 2 ∨
    roundHalfEven y = ⌊y⌋ + 1 ∧ 1 / 2 ≤ y - ⌊y⌋ := by
  unfold roundHalfEven
  split_ifs with h1 h2 h3
  · exact Or.inl ⟨rfl, le_of_lt h1⟩
  · exact Or.inr ⟨rfl, le_of_lt h2⟩
  · exact Or.inl ⟨rfl, not_lt.mp h2⟩
  · exact Or.inr ⟨rfl, not_lt.mp h1⟩

theorem roundHalfEven_error (y : ℚ) : |(roundHalfEven y : ℚ) - y| ≤ 1 / 2 := by
  have h1 := Int.floor_le y
  have h2 := Int.lt_floor_add_one y
  rw [abs_le]
  rcases roundHalfEven_cases y with ⟨h, hr⟩ | ⟨h, hr⟩
  · rw [h]; constructor <;> linarith
  · rw [h]; push_cast; constructor <;> linarith

theorem roundHalfEven_intCast (n : Int) : roundHalfEven (n : ℚ) = n := by
  unfold roundHalfEven
  simp

theorem roundHalfEven_le (y : ℚ) (n : Int) (h : y ≤ n) : roundHalfEven y ≤ n := by
  have hf : ⌊y⌋ ≤ n := by
    have := Int.floor_le_floor h
    rwa [Int.floor_intCast] at this
  rcases roundHalfEven_cases y with ⟨e, -⟩ | ⟨e, hr⟩
  · rw [e]; exact hf
  · rw [e]
    by_contra hc
    have hfn : ⌊y⌋ = n := by omega
    rw [hfn] at hr
    linarith

theorem le_roundHalfEven (y : ℚ) (n : Int) (h : (n : ℚ) ≤ y) : n ≤ roundHalfEven y := by
  have hf : n ≤ ⌊y⌋ := Int.le_floor.mpr h
  rcases roundHalfEven_cases y with ⟨e, -⟩ | ⟨e, -⟩ <;> rw [e] <;> omega

namespace Float32

theorem spacing_eq (q : ℚ) : spacing q = (2 : ℚ) ^ exponent q := twoPow_eq _

theorem spacing_pos (q : ℚ) : 0 < spacing q := twoPow_pos _

theorem exponent_ge (q : ℚ) : -149 ≤ exponent q := le_max_right _ _

theorem exponent_mono (x y : ℚ) (hx : 0 < x) (hxy : x ≤ y) : exponent x ≤ exponent y := by
  unfold exponent
  have := floorLog2_mono x y hx hxy
  omega

theorem exponent_of_le (q : ℚ) (k : Int) (hq : 0 < q) (h : (2 : ℚ) ^ k ≤ q) :
    k - 23 ≤ exponent q := by
  unfold exponent
  have := le_floorLog2 q hq k h
  omega

theorem exponent_normal (q : ℚ) (h : (2 : ℚ) ^ (-126 : Int) ≤ q) :
    exponent q = floorLog2 q - 23 := by
  have hq : 0 < q := lt_of_lt_of_le (by positivity) h
  unfold exponent
  have := le_floorLog2 q hq _ h
  omega

theorem roundMagnitude_eq (q : ℚ) :
    roundMagnitude q = (roundHalfEven (q / (2 : ℚ) ^ exponent q) : ℚ) * (2 : ℚ) ^ exponent q := by
  unfold roundMagnitude
  rw [spacing_eq]

theorem roundMagnitude_nonneg (q : ℚ) (hq : 0 ≤ q) : 0 ≤ roundMagnitude q := by
  rw [roundMagnitude_eq]
  have h : (0 : Int) ≤ roundHalfEven (q / (2 : ℚ) ^ exponent q) :=
    le_roundHalfEven _ 0 (by push_cast; positivity)
  have h2 : (0 : ℚ) ≤ (roundHalfEven (q / (2 : ℚ) ^ exponent q) : ℚ) := by exact_mod_cast h
  positivity

theorem roundMagnitude_error (q : ℚ) :
    |roundMagnitude q - q| ≤ (2 : ℚ) ^ exponent q / 2 := by
  rw [roundMagnitude_eq]
  have hp : (0 : ℚ) < (2 : ℚ) ^ exponent q := by positivity
  have h := roundHalfEven_error (q / (2 : ℚ) ^ exponent q)
  have e : (roundHalfEven (q / (2 : ℚ) ^ exponent q) : ℚ) * (2 : ℚ) ^ exponent q - q
      = ((roundHalfEven (q / (2 : ℚ) ^ exponent q) : ℚ) - q / (2 : ℚ) ^ exponent q)
          * (2 : ℚ) ^ exponent q := by
    field_simp
  rw [e, abs_mul, abs_of_pos hp]
  calc |(roundHalfEven (q / (2 : ℚ) ^ exponent q) : ℚ) - q / (2 : ℚ) ^ exponent q|
        * (2 : ℚ) ^ exponent q
      ≤ 1 / 2 * (2 : ℚ) ^ exponent q := mul_le_mul_of_nonneg_right h (le_of_lt hp)
    _ = (2 : ℚ) ^ exponent q / 2 := by ring

/-- In the normal range the rounding error is at most `2 ^ (-24)` of the
value. -/
theorem roundMagnitude_relative (q : ℚ) (h : (2 : ℚ) ^ (-126 : Int) ≤ q) :
    |roundMagnitude q - q| ≤ q / 2 ^ 24 := by
  have hq : 0 < q := lt_of_lt_of_le (by positivity) h
  have h1 := roundMagnitude_error q
  have h2 := (floorLog2_spec q hq).1
  rw [exponent_normal q h] at h1
  have e : (2 : ℚ) ^ (floorLog2 q - 23) / 2 = (2 : ℚ) ^ floorLog2 q / 2 ^ 24 := by
    rw [zpow_sub₀ (two_ne_zero)]
    norm_num
    ring
  rw [e] at h1
  refine le_trans h1 ?_
  exact div_le_div_of_nonneg_right h2 (by positivity)

/-- A number that rounding leaves as it is is a multiple of `2 ^ k` for every
`k` up to its exponent. -/
theorem exact_multiple (g : ℚ) (hg : roundMagnitude g = g) (k : Int) (hk : k ≤ exponent g) :
    ∃ M : Int, g = (M : ℚ) * (2 : ℚ) ^ k := by
  obtain ⟨n, hn⟩ := Int.eq_ofNat_of_zero_le (sub_nonneg.mpr hk)
  refine ⟨roundHalfEven (g / (2 : ℚ) ^ exponent g) * 2 ^ n, ?_⟩
  have e : exponent g = k + n := by omega
  have h := roundMagnitude_eq g
  rw [hg, e] at h
  rw [e]
  rw [zpow_add₀ (two_ne_zero)] at h
  push_cast
  rw [zpow_add₀ (two_ne_zero), zpow_natCast] at *
  calc g = _ := h
    _ = _ := by ring

/-- Rounding does not pass a number that it leaves as it is: upper side. -/
theorem roundMagnitude_le_exact (x g : ℚ) (hx : 0 < x) (hxg : x ≤ g)
    (hg : roundMagnitude g = g) : roundMagnitude x ≤ g := by
  obtain ⟨M, hM⟩ := exact_multiple g hg (exponent x) (exponent_mono x g hx hxg)
  rw [roundMagnitude_eq]
  have hp : (0 : ℚ) < (2 : ℚ) ^ exponent x := by positivity
  have h1 : x / (2 : ℚ) ^ exponent x ≤ (M : ℚ) := by
    rw [div_le_iff₀ hp, ← hM]; exact hxg
  have h2 : ((roundHalfEven (x / (2 : ℚ) ^ exponent x) : Int) : ℚ) ≤ (M : ℚ) := by
    exact_mod_cast roundHalfEven_le _ M h1
  calc (roundHalfEven (x / (2 : ℚ) ^ exponent x) : ℚ) * (2 : ℚ) ^ exponent x
      ≤ (M : ℚ) * (2 : ℚ) ^ exponent x := mul_le_mul_of_nonneg_right h2 (le_of_lt hp)
    _ = g := hM.symm

/-- Rounding does not pass a number that it leaves as it is: lower side. -/
theorem exact_le_roundMagnitude (x g : ℚ) (hg0 : 0 < g) (hgx : g ≤ x)
    (hg : roundMagnitude g = g) : g ≤ roundMagnitude x := by
  have hx : 0 < x := lt_of_lt_of_le hg0 hgx
  have hp : (0 : ℚ) < (2 : ℚ) ^ exponent x := by positivity
  have hmono := exponent_mono g x hg0 hgx
  rw [roundMagnitude_eq]
  by_cases he : exponent x ≤ exponent g
  · obtain ⟨M, hM⟩ := exact_multiple g hg (exponent x) he
    have h1 : (M : ℚ) ≤ x / (2 : ℚ) ^ exponent x := by
      rw [le_div_iff₀ hp, ← hM]; exact hgx
    have h2 : (M : ℚ) ≤ ((roundHalfEven (x / (2 : ℚ) ^ exponent x) : Int) : ℚ) := by
      exact_mod_cast le_roundHalfEven _ M h1
    calc g = (M : ℚ) * (2 : ℚ) ^ exponent x := hM
      _ ≤ _ := mul_le_mul_of_nonneg_right h2 (le_of_lt hp)
  · push_neg at he
    have hfl : floorLog2 g < floorLog2 x := by
      unfold exponent at he
      omega
    have hex : exponent x = floorLog2 x - 23 := by
      have := exponent_ge g
      unfold exponent at he ⊢
      omega
    have hxlow := (floorLog2_spec x hx).1
    have hgup := (floorLog2_spec g hg0).2
    have hpow : (2 : ℚ) ^ (floorLog2 g + 1) ≤ (2 : ℚ) ^ floorLog2 x :=
      zpow_le_zpow_right₀ (by norm_num) (by omega)
    have e23 : (2 : ℚ) ^ (floorLog2 x - 23) = (2 : ℚ) ^ floorLog2 x / 8388608 := by
      rw [zpow_sub₀ (two_ne_zero)]
      norm_num
    have h1 : ((8388608 : Int) : ℚ) ≤ x / (2 : ℚ) ^ exponent x := by
      rw [le_div_iff₀ hp, hex, e23]
      push_cast
      have : (8388608 : ℚ) * ((2 : ℚ) ^ floorLog2 x / 8388608) = (2 : ℚ) ^ floorLog2 x := by
        ring
      rw [this]
      exact hxlow
    have h2 : ((8388608 : Int) : ℚ)
        ≤ ((roundHalfEven (x / (2 : ℚ) ^ exponent x) : Int) : ℚ) := by
      exact_mod_cast le_roundHalfEven _ _ h1
    have h3 : (2 : ℚ) ^ floorLog2 x
        ≤ (roundHalfEven (x / (2 : ℚ) ^ exponent x) : ℚ) * (2 : ℚ) ^ exponent x := by
      have e : (2 : ℚ) ^ floorLog2 x = ((8388608 : Int) : ℚ) * (2 : ℚ) ^ exponent x := by
        rw [hex, e23]
        push_cast
        ring
      rw [e]
      exact mul_le_mul_of_nonneg_right h2 (le_of_lt hp)
    linarith

theorem roundMagnitude_smallest :
    roundMagnitude (twoPow (-149)) = twoPow (-149) := by decide!

theorem roundMagnitude_ge_smallest (x : ℚ) (h : (2 : ℚ) ^ (-149 : Int) ≤ x) :
    (2 : ℚ) ^ (-149 : Int) ≤ roundMagnitude x := by
  have hs := roundMagnitude_smallest
  rw [twoPow_eq] at hs
  exact exact_le_roundMagnitude x _ (by positivity) h hs

theorem round_zero (z : Bool) : round z 0 = finite z 0 := by
  unfold round
  rw [if_pos rfl]

theorem round_pos (z : Bool) (q : ℚ) (hq : 0 < q)
    (h : roundMagnitude q < (2 : ℚ) ^ (128 : Int)) :
    round z q = finite false (roundMagnitude q) := by
  unfold round
  rw [if_neg (ne_of_gt hq), abs_of_pos hq, twoPow_eq, if_neg (not_le.mpr h),
    decide_eq_false (not_lt.mpr (le_of_lt hq))]

/-- The result for a non-negative exact value is a non-negative number or
the positive infinity. -/
theorem round_nonneg (z : Bool) (q : ℚ) (hq : 0 ≤ q) :
    (∃ v : ℚ, round z q = finite (z && decide (q = 0)) v ∧ 0 ≤ v) ∨
      round z q = infinite false := by
  by_cases h0 : q = 0
  · left
    refine ⟨0, ?_, le_refl _⟩
    rw [h0, round_zero]
    simp
  · have hpos : 0 < q := lt_of_le_of_ne hq (Ne.symm h0)
    by_cases hov : roundMagnitude q < (2 : ℚ) ^ (128 : Int)
    · left
      refine ⟨roundMagnitude q, ?_, roundMagnitude_nonneg q hq⟩
      rw [round_pos z q hpos hov]
      simp [h0]
    · right
      unfold round
      rw [if_neg h0, abs_of_pos hpos, twoPow_eq, if_pos (not_lt.mp hov),
        decide_eq_false (not_lt.mpr hq)]

theorem sub_finite (a b : ℚ) :
    sub (finite false a) (finite false b) = round false (a - b) := by
  show round (false && !false) ((finite false a).toRat + (finite (!false) b).toRat) = _
  simp [toRat, sub_eq_add_neg]

theorem mul_finite (a b : ℚ) :
    mul (finite false a) (finite false b) = round false (a * b) := by
  show round (xor false false) ((finite false a).toRat * (finite false b).toRat) = _
  simp [toRat]

theorem div_finite (a b : ℚ) (hb : b ≠ 0) :
    div (finite false a) (finite false b) = round false (a / b) := by
  show (if b = 0 then (if a = 0 then nan else infinite (xor false false))
    else round (xor false false) ((finite false a).toRat / (finite false b).toRat)) = _
  rw [if_neg hb]
  simp [toRat]

/-- What it means for a positive number to be the value of a `float`. -/
theorem exact_of_ofRat (q : ℚ) (hq : 0 < q) (h : ofRat q = finite false q) :
    roundMagnitude q = q ∧ q < (2 : ℚ) ^ (128 : Int) := by
  unfold ofRat round at h
  rw [if_neg (ne_of_gt hq), abs_of_pos hq, twoPow_eq] at h
  by_cases hov : (2 : ℚ) ^ (128 : Int) ≤ roundMagnitude q
  · rw [if_pos hov] at h
    cases h
  · rw [if_neg hov] at h
    injection h with _ hm
    rw [hm] at hov
    exact ⟨hm, not_le.mp hov⟩

/-- The difference of two `float` values `0 < b < a` is a positive `float`:
it does not round to zero and does not overflow. -/
theorem sub_pos_of_exact (a b : ℚ) (hb0 : 0 < b) (hab : b < a)
    (ha : roundMagnitude a = a ∧ a < (2 : ℚ) ^ (128 : Int)) (hb : roundMagnitude b = b) :
    sub (finite false a) (finite false b) = finite false (roundMagnitude (a - b)) ∧
      0 < roundMagnitude (a - b) := by
  have ha0 : 0 < a := lt_trans hb0 hab
  have hx : 0 < a - b := sub_pos.mpr hab
  obtain ⟨Ma, hMa⟩ := exact_multiple a ha.1 (-149) (exponent_ge a)
  obtain ⟨Mb, hMb⟩ := exact_multiple b hb (-149) (exponent_ge b)
  have hp : (0 : ℚ) < (2 : ℚ) ^ (-149 : Int) := by positivity
  have hM : Mb < Ma := by
    have : (Mb : ℚ) * (2 : ℚ) ^ (-149 : Int) < (Ma : ℚ) * (2 : ℚ) ^ (-149 : Int) := by
      rw [← hMa, ← hMb]; exact hab
    have := lt_of_mul_lt_mul_right this (le_of_lt hp)
    exact_mod_cast this
  have hge : (2 : ℚ) ^ (-149 : Int) ≤ a - b := by
    have h1 : (1 : ℚ) ≤ (Ma : ℚ) - (Mb : ℚ) := by
      have : Mb + 1 ≤ Ma := hM
      have : ((Mb + 1 : Int) : ℚ) ≤ (Ma : ℚ) := by exact_mod_cast this
      push_cast at this
      linarith
    have e : a - b = ((Ma : ℚ) - (Mb : ℚ)) * (2 : ℚ) ^ (-149 : Int) := by
      rw [sub_mul, ← hMa, ← hMb]
    rw [e]
    calc (2 : ℚ) ^ (-149 : Int) = 1 * (2 : ℚ) ^ (-149 : Int) := (one_mul _).symm
      _ ≤ ((Ma : ℚ) - (Mb : ℚ)) * (2 : ℚ) ^ (-149 : Int) :=
          mul_le_mul_of_nonneg_right h1 (le_of_lt hp)
  have hlow := roundMagnitude_ge_smallest (a - b) hge
  have hup : roundMagnitude (a - b) ≤ a :=
    roundMagnitude_le_exact (a - b) a hx (by linarith) ha.1
  refine ⟨?_, lt_of_lt_of_le hp hlow⟩
  rw [sub_finite]
  exact round_pos false (a - b) hx (lt_of_le_of_lt hup ha.2)

theorem round_false_nonneg (q : ℚ) (hq : 0 ≤ q) :
    (∃ v : ℚ, round false q = finite false v ∧ 0 ≤ v) ∨ round false q = infinite false := by
  rcases round_nonneg false q hq with ⟨v, hv, h0⟩ | h
  · exact Or.inl ⟨v, by simpa using hv, h0⟩
  · exact Or.inr h

/-- Rounding in the normal range: the result is finite and within the
relative error `2 ^ (-24)`. -/
theorem round_normal (q : ℚ) (hlo : 1 / 2 ^ 126 ≤ q) (hhi : q ≤ 2 ^ 127) :
    round false q = finite false (roundMagnitude q) ∧
    q * (1 - 1 / 2 ^ 24) ≤ roundMagnitude q ∧ roundMagnitude q ≤ q * (1 + 1 / 2 ^ 24) := by
  have hq : 0 < q := lt_of_lt_of_le (by positivity) hlo
  have hlo2 : (2 : ℚ) ^ (-126 : Int) ≤ q := by
    have e : (2 : ℚ) ^ (-126 : Int) = 1 / 2 ^ 126 := by
      rw [zpow_neg, zpow_ofNat, one_div]
    rw [e]; exact hlo
  have h := roundMagnitude_relative q hlo2
  rw [abs_le] at h
  have h1 : q * (1 - 1 / 2 ^ 24) ≤ roundMagnitude q := by
    have : q * (1 - 1 / 2 ^ 24) = q - q / 2 ^ 24 := by ring
    rw [this]; linarith [h.1]
  have h2 : roundMagnitude q ≤ q * (1 + 1 / 2 ^ 24) := by
    have : q * (1 + 1 / 2 ^ 24) = q + q / 2 ^ 24 := by ring
    rw [this]; linarith [h.2]
  refine ⟨round_pos false q hq ?_, h1, h2⟩
  have e128 : (2 : ℚ) ^ (128 : Int) = 2 ^ 128 := zpow_ofNat 2 128
  rw [e128]
  have h3 : q * (1 + 1 / 2 ^ 24) ≤ 2 ^ 127 * (1 + 1 / 2 ^ 24) :=
    mul_le_mul_of_nonneg_right hhi (by norm_num)
  have h4 : (2 : ℚ) ^ 127 * (1 + 1 / 2 ^ 24) < 2 ^ 128 := by norm_num
  linarith

/-- Two `float` values of at least `2 ^ k` (in the normal range) that differ,
differ by at least `2 ^ (k - 23)`. -/
theorem sub_ge_of_exact (a b : ℚ) (k : Int) (hkb : (2 : ℚ) ^ k ≤ b) (hab : b < a)
    (ha : roundMagnitude a = a) (hb : roundMagnitude b = b) :
    (2 : ℚ) ^ (k - 23) ≤ a - b := by
  have hb0 : 0 < b := lt_of_lt_of_le (by positivity) hkb
  have ha0 : 0 < a := lt_trans hb0 hab
  obtain ⟨Ma, hMa⟩ := exact_multiple a ha (k - 23)
    (exponent_of_le a k ha0 (le_trans hkb (le_of_lt hab)))
  obtain ⟨Mb, hMb⟩ := exact_multiple b hb (k - 23) (exponent_of_le b k hb0 hkb)
  have hp : (0 : ℚ) < (2 : ℚ) ^ (k - 23) := by positivity
  have hM : Mb < Ma := by
    have : (Mb : ℚ) * (2 : ℚ) ^ (k - 23) < (Ma : ℚ) * (2 : ℚ) ^ (k - 23) := by
      rw [← hMa, ← hMb]; exact hab
    have := lt_of_mul_lt_mul_right this (le_of_lt hp)
    exact_mod_cast this
  have h1 : (1 : ℚ) ≤ (Ma : ℚ) - (Mb : ℚ) := by
    have : Mb + 1 ≤ Ma := hM
    have : ((Mb + 1 : Int) : ℚ) ≤ (Ma : ℚ) := by exact_mod_cast this
    push_cast at this
    linarith
  have e : a - b = ((Ma : ℚ) - (Mb : ℚ)) * (2 : ℚ) ^ (k - 23) := by
    rw [sub_mul, ← hMa, ← hMb]
  rw [e]
  calc (2 : ℚ) ^ (k - 23) = 1 * (2 : ℚ) ^ (k - 23) := (one_mul _).symm
    _ ≤ ((Ma : ℚ) - (Mb : ℚ)) * (2 : ℚ) ^ (k - 23) :=
        mul_le_mul_of_nonneg_right h1 (le_of_lt hp)

end Float32

open Float32 in
/-- For `float` clip distances `0 < near < far` and a `float` depth
`d ≥ near`: the divisor `far - near` is a positive number, the depth is a
non-negative number or the positive infinity, and it is `+0` at `d = near`. -/
theorem areaDepthFloat_nonneg (near far d : ℚ) (hnear : 0 < near) (hfar : near < far)
    (hd : near ≤ d) (en : ofRat near = finite false near) (ef : ofRat far = finite false far)
    (ed : ofRat d = finite false d) :
    (∃ m : ℚ, Float32.sub (ofRat far) (ofRat near) = finite false m ∧ 0 < m) ∧
    ((∃ v : ℚ, areaDepthFloat near far d = finite false v ∧ 0 ≤ v) ∨
      areaDepthFloat near far d = infinite false) ∧
    (d = near → areaDepthFloat near far d = finite false 0) := by
  have hf0 : 0 < far := lt_trans hnear hfar
  have hd0 : 0 < d := lt_of_lt_of_le hnear hd
  have xn := exact_of_ofRat near hnear en
  have xf := exact_of_ofRat far hf0 ef
  obtain ⟨h3, h3pos⟩ := sub_pos_of_exact far near hnear hfar xf xn.1
  have hm0 : roundMagnitude (far - near) ≠ 0 := ne_of_gt h3pos
  unfold areaDepthFloat
  rw [en, ef, ed, h3]
  refine ⟨⟨_, rfl, h3pos⟩, ?_, ?_⟩
  · -- never negative, never a NaN
    rw [sub_finite]
    rcases round_false_nonneg (d - near) (sub_nonneg.mpr hd) with ⟨v1, e1, p1⟩ | e1
    · rw [e1, mul_finite]
      rcases round_false_nonneg (far * v1) (mul_nonneg (le_of_lt hf0) p1) with ⟨v2, e2, p2⟩ | e2
      · rw [e2, div_finite _ _ hm0]
        rcases round_false_nonneg (v2 / roundMagnitude (far - near))
          (div_nonneg p2 (le_of_lt h3pos)) with ⟨v4, e4, p4⟩ | e4
        · rw [e4, div_finite _ _ (ne_of_gt hd0)]
          exact round_false_nonneg (v4 / d) (div_nonneg p4 (le_of_lt hd0))
        · rw [e4]
          exact Or.inr rfl
      · rw [e2]
        exact Or.inr rfl
    · rw [e1]
      right
      show Float32.div (Float32.div (if far = 0 then nan else infinite (xor false false))
        (finite false (roundMagnitude (far - near)))) (finite false d) = infinite false
      rw [if_neg (ne_of_gt hf0)]
      rfl
  · intro hdn
    rw [hdn, sub_finite, sub_self, round_zero, mul_finite, mul_zero, round_zero,
      div_finite _ _ hm0, zero_div, round_zero, div_finite _ _ (ne_of_gt hnear), zero_div,
      round_zero]

open Float32 in
/-- For `float` clip distances and depth with
`2 ^ (-20) ≤ near < far ≤ 2 ^ 20` and `near ≤ d ≤ far`, no operation
overflows or underflows and the stored depth is within the relative error
`6 * 2 ^ (-24)` of the exact value. -/
theorem areaDepthFloat_accurate (near far d : ℚ) (hlo : 1 / 2 ^ 20 ≤ near) (hfar : near < far)
    (hhi : far ≤ 2 ^ 20) (hd : near ≤ d) (hdf : d ≤ far)
    (en : ofRat near = finite false near) (ef : ofRat far = finite false far)
    (ed : ofRat d = finite false d) :
    ∃ v : ℚ, areaDepthFloat near far d = finite false v ∧
      areaDepthSpec near far d * (1 - 6 / 2 ^ 24) ≤ v ∧
      v ≤ areaDepthSpec near far d * (1 + 6 / 2 ^ 24) := by
  have hnear : 0 < near := lt_of_lt_of_le (by positivity) hlo
  have hf0 : 0 < far := lt_trans hnear hfar
  have hd0 : 0 < d := lt_of_lt_of_le hnear hd
  by_cases hdn : d = near
  · refine ⟨0, (areaDepthFloat_nonneg near far d hnear hfar hd en ef ed).2.2 hdn, ?_, ?_⟩
    · rw [hdn, areaDepthSpec_near, zero_mul]
    · rw [hdn, areaDepthSpec_near, zero_mul]
  have hnd : near < d := lt_of_le_of_ne hd (Ne.symm hdn)
  have xn := exact_of_ofRat near hnear en
  have xf := exact_of_ofRat far hf0 ef
  have xd := exact_of_ofRat d hd0 ed
  have hk : (2 : ℚ) ^ (-20 : Int) ≤ near := by
    have e : (2 : ℚ) ^ (-20 : Int) = 1 / 2 ^ 20 := by rw [zpow_neg, zpow_ofNat, one_div]
    rw [e]; exact hlo
  have e43 : (2 : ℚ) ^ ((-20 : Int) - 23) = 1 / 2 ^ 43 := by
    rw [show ((-20 : Int) - 23) = -(43 : Int) by norm_num, zpow_neg, zpow_ofNat, one_div]
  -- the two differences
  have hx1lo : 1 / 2 ^ 43 ≤ d - near := by
    rw [← e43]; exact sub_ge_of_exact d near (-20) hk hnd xd.1 xn.1
  have hx3lo : 1 / 2 ^ 43 ≤ far - near := by
    rw [← e43]; exact sub_ge_of_exact far near (-20) hk hfar xf.1 xn.1
  have hx1hi : d - near ≤ 2 ^ 20 := by linarith
  have hx3hi : far - near ≤ 2 ^ 20 := by linarith
  have hx1 : 0 < d - near := sub_pos.mpr hnd
  have hx3 : 0 < far - near := sub_pos.mpr hfar
  -- the rounding constants
  obtain ⟨cp, hcp⟩ : ∃ c : ℚ, c = 1 + 1 / 2 ^ 24 := ⟨_, rfl⟩
  obtain ⟨cm, hcm⟩ : ∃ c : ℚ, c = 1 - 1 / 2 ^ 24 := ⟨_, rfl⟩
  have hcp1 : 1 ≤ cp := by rw [hcp]; norm_num
  have hcp2 : cp ≤ 2 := by rw [hcp]; norm_num
  have hcm1 : cm ≤ 1 := by rw [hcm]; norm_num
  have hcm2 : 1 / 2 ≤ cm := by rw [hcm]; norm_num
  have hcp0 : 0 < cp := by linarith
  have hcm0 : 0 < cm := by linarith
  -- first operation: d - near
  obtain ⟨r1, l1, u1⟩ := round_normal (d - near)
    (le_trans (by norm_num) hx1lo) (le_trans hx1hi (by norm_num))
  rw [← hcm] at l1
  rw [← hcp] at u1
  have t1lo : 1 / 2 ^ 44 ≤ roundMagnitude (d - near) := by
    have : (1 / 2 ^ 43 : ℚ) * (1 / 2) ≤ (d - near) * cm :=
      mul_le_mul hx1lo hcm2 (by norm_num) (le_of_lt hx1)
    have e : (1 / 2 ^ 43 : ℚ) * (1 / 2) = 1 / 2 ^ 44 := by norm_num
    linarith
  have t1hi : roundMagnitude (d - near) ≤ 2 ^ 21 := by
    have : (d - near) * cp ≤ 2 ^ 20 * 2 :=
      mul_le_mul hx1hi hcp2 (le_of_lt hcp0) (by norm_num)
    have e : (2 ^ 20 : ℚ) * 2 = 2 ^ 21 := by norm_num
    linarith
  have t1pos : 0 < roundMagnitude (d - near) := lt_of_lt_of_le (by positivity) t1lo
  -- second operation: far * t1
  have x2lo : 1 / 2 ^ 64 ≤ far * roundMagnitude (d - near) := by
    have : (1 / 2 ^ 20 : ℚ) * (1 / 2 ^ 44) ≤ far * roundMagnitude (d - near) :=
      mul_le_mul (le_trans hlo (le_of_lt hfar)) t1lo (by positivity) (le_of_lt hf0)
    have e : (1 / 2 ^ 20 : ℚ) * (1 / 2 ^ 44) = 1 / 2 ^ 64 := by norm_num
    linarith
  have x2hi : far * roundMagnitude (d - near) ≤ 2 ^ 41 := by
    have : far * roundMagnitude (d - near) ≤ 2 ^ 20 * 2 ^ 21 :=
      mul_le_mul hhi t1hi (le_of_lt t1pos) (by positivity)
    have e : (2 ^ 20 : ℚ) * 2 ^ 21 = 2 ^ 41 := by norm_num
    linarith
  obtain ⟨r2, l2, u2⟩ := round_normal (far * roundMagnitude (d - near))
    (le_trans (by norm_num) x2lo) (le_trans x2hi (by norm_num))
  rw [← hcm] at l2
  rw [← hcp] at u2
  have x2pos : 0 < far * roundMagnitude (d - near) := mul_pos hf0 t1pos
  have t2lo : 1 / 2 ^ 65 ≤ roundMagnitude (far * roundMagnitude (d - near)) := by
    have : (1 / 2 ^ 64 : ℚ) * (1 / 2) ≤ far * roundMagnitude (d - near) * cm :=
      mul_le_mul x2lo hcm2 (by norm_num) (le_of_lt x2pos)
    have e : (1 / 2 ^ 64 : ℚ) * (1 / 2) = 1 / 2 ^ 65 := by norm_num
    linarith
  have t2hi : roundMagnitude (far * roundMagnitude (d - near)) ≤ 2 ^ 42 := by
    have : far * roundMagnitude (d - near) * cp ≤ 2 ^ 41 * 2 :=
      mul_le_mul x2hi hcp2 (le_of_lt hcp0) (by norm_num)
    have e : (2 ^ 41 : ℚ) * 2 = 2 ^ 42 := by norm_num
    linarith
  have t2pos : 0 < roundMagnitude (far * roundMagnitude (d - near)) :=
    lt_of_lt_of_le (by positivity) t2lo
  -- third operation: far - near
  obtain ⟨r3, l3, u3⟩ := round_normal (far - near)
    (le_trans (by norm_num) hx3lo) (le_trans hx3hi (by norm_num))
  rw [← hcm] at l3
  rw [← hcp] at u3
  have t3lo : 1 / 2 ^ 44 ≤ roundMagnitude (far - near) := by
    have : (1 / 2 ^ 43 : ℚ) * (1 / 2) ≤ (far - near) * cm :=
      mul_le_mul hx3lo hcm2 (by norm_num) (le_of_lt hx3)
    have e : (1 / 2 ^ 43 : ℚ) * (1 / 2) = 1 / 2 ^ 44 := by norm_num
    linarith
  have t3hi : roundMagnitude (far - near) ≤ 2 ^ 21 := by
    have : (far - near) * cp ≤ 2 ^ 20 * 2 :=
      mul_le_mul hx3hi hcp2 (le_of_lt hcp0) (by norm_num)
    have e : (2 ^ 20 : ℚ) * 2 = 2 ^ 21 := by norm_num
    linarith
  have t3pos : 0 < roundMagnitude (far - near) := lt_of_lt_of_le (by positivity) t3lo
  -- fourth operation: t2 / t3
  have x4lo : 1 / 2 ^ 86
      ≤ roundMagnitude (far * roundMagnitude (d - near)) / roundMagnitude (far - near) := by
    rw [le_div_iff₀ t3pos]
    have : (1 / 2 ^ 86 : ℚ) * roundMagnitude (far - near) ≤ 1 / 2 ^ 86 * 2 ^ 21 :=
      mul_le_mul_of_nonneg_left t3hi (by positivity)
    have e : (1 / 2 ^ 86 : ℚ) * 2 ^ 21 = 1 / 2 ^ 65 := by norm_num
    linarith
  have x4hi : roundMagnitude (far * roundMagnitude (d - near)) / roundMagnitude (far - near)
      ≤ 2 ^ 86 := by
    rw [div_le_iff₀ t3pos]
    have : (2 ^ 86 : ℚ) * (1 / 2 ^ 44) ≤ 2 ^ 86 * roundMagnitude (far - near) :=
      mul_le_mul_of_nonneg_left t3lo (by positivity)
    have e : (2 ^ 86 : ℚ) * (1 / 2 ^ 44) = 2 ^ 42 := by norm_num
    linarith
  obtain ⟨r4, l4, u4⟩ := round_normal
    (roundMagnitude (far * roundMagnitude (d - near)) / roundMagnitude (far - near))
    (le_trans (by norm_num) x4lo) (le_trans x4hi (by norm_num))
  rw [← hcm] at l4
  rw [← hcp] at u4
  have x4pos : 0 < roundMagnitude (far * roundMagnitude (d - near))
      / roundMagnitude (far - near) := div_pos t2pos t3pos
  have t4lo : 1 / 2 ^ 87 ≤ roundMagnitude
      (roundMagnitude (far * roundMagnitude (d - near)) / roundMagnitude (far - near)) := by
    have : (1 / 2 ^ 86 : ℚ) * (1 / 2)
        ≤ roundMagnitude (far * roundMagnitude (d - near)) / roundMagnitude (far - near) * cm :=
      mul_le_mul x4lo hcm2 (by norm_num) (le_of_lt x4pos)
    have e : (1 / 2 ^ 86 : ℚ) * (1 / 2) = 1 / 2 ^ 87 := by norm_num
    linarith
  have t4hi : roundMagnitude
      (roundMagnitude (far * roundMagnitude (d - near)) / roundMagnitude (far - near))
      ≤ 2 ^ 87 := by
    have : roundMagnitude (far * roundMagnitude (d - near)) / roundMagnitude (far - near) * cp
        ≤ 2 ^ 86 * 2 :=
      mul_le_mul x4hi hcp2 (le_of_lt hcp0) (by norm_num)
    have e : (2 ^ 86 : ℚ) * 2 = 2 ^ 87 := by norm_num
    linarith
  have t4pos : 0 < roundMagnitude
      (roundMagnitude (far * roundMagnitude (d - near)) / roundMagnitude (far - near)) :=
    lt_of_lt_of_le (by positivity) t4lo
  -- fifth operation: t4 / d
  have hdlo : 1 / 2 ^ 20 ≤ d := le_trans hlo hd
  have hdhi : d ≤ 2 ^ 20 := le_trans hdf hhi
  have x5lo : 1 / 2 ^ 107 ≤ roundMagnitude
      (roundMagnitude (far * roundMagnitude (d - near)) / roundMagnitude (far - near)) / d := by
    rw [le_div_iff₀ hd0]
    have : (1 / 2 ^ 107 : ℚ) * d ≤ 1 / 2 ^ 107 * 2 ^ 20 :=
      mul_le_mul_of_nonneg_left hdhi (by positivity)
    have e : (1 / 2 ^ 107 : ℚ) * 2 ^ 20 = 1 / 2 ^ 87 := by norm_num
    linarith
  have x5hi : roundMagnitude
      (roundMagnitude (far * roundMagnitude (d - near)) / roundMagnitude (far - near)) / d
      ≤ 2 ^ 107 := by
    rw [div_le_iff₀ hd0]
    have : (2 ^ 107 : ℚ) * (1 / 2 ^ 20) ≤ 2 ^ 107 * d :=
      mul_le_mul_of_nonneg_left hdlo (by positivity)
    have e : (2 ^ 107 : ℚ) * (1 / 2 ^ 20) = 2 ^ 87 := by norm_num
    linarith
  obtain ⟨r5, l5, u5⟩ := round_normal
    (roundMagnitude (roundMagnitude (far * roundMagnitude (d - near))
      / roundMagnitude (far - near)) / d)
    (le_trans (by norm_num) x5lo) (le_trans x5hi (by norm_num))
  rw [← hcm] at l5
  rw [← hcp] at u5
  -- the value
  refine ⟨roundMagnitude (roundMagnitude (roundMagnitude (far * roundMagnitude (d - near))
      / roundMagnitude (far - near)) / d), ?_, ?_, ?_⟩
  · unfold areaDepthFloat
    rw [en, ef, ed, sub_finite, r1, mul_finite, r2, sub_finite, r3,
      div_finite _ _ (ne_of_gt t3pos), r4, div_finite _ _ (ne_of_gt hd0), r5]
  · -- lower bound
    have a2 : far * (d - near) * cm ^ 2 ≤ roundMagnitude (far * roundMagnitude (d - near)) := by
      have : far * ((d - near) * cm) * cm ≤ far * roundMagnitude (d - near) * cm :=
        mul_le_mul_of_nonneg_right (mul_le_mul_of_nonneg_left l1 (le_of_lt hf0)) (le_of_lt hcm0)
      have e : far * (d - near) * cm ^ 2 = far * ((d - near) * cm) * cm := by ring
      linarith
    have a4 : far * (d - near) * cm ^ 3 / ((far - near) * cp)
        ≤ roundMagnitude (roundMagnitude (far * roundMagnitude (d - near))
            / roundMagnitude (far - near)) := by
      have h1 : far * (d - near) * cm ^ 2 / ((far - near) * cp)
          ≤ roundMagnitude (far * roundMagnitude (d - near)) / roundMagnitude (far - near) :=
        div_le_div₀ (le_of_lt t2pos) a2 t3pos u3
      have h2 := mul_le_mul_of_nonneg_right h1 (le_of_lt hcm0)
      have e : far * (d - near) * cm ^ 3 / ((far - near) * cp)
          = far * (d - near) * cm ^ 2 / ((far - near) * cp) * cm := by ring
      linarith
    have a5 : far * (d - near) * cm ^ 4 / ((far - near) * cp * d)
        ≤ roundMagnitude (roundMagnitude (roundMagnitude (far * roundMagnitude (d - near))
            / roundMagnitude (far - near)) / d) := by
      have h1 : far * (d - near) * cm ^ 3 / ((far - near) * cp) / d
          ≤ roundMagnitude (roundMagnitude (far * roundMagnitude (d - near))
            / roundMagnitude (far - near)) / d :=
        div_le_div_of_nonneg_right a4 (le_of_lt hd0)
      have h2 := mul_le_mul_of_nonneg_right h1 (le_of_lt hcm0)
      have e : far * (d - near) * cm ^ 4 / ((far - near) * cp * d)
          = far * (d - near) * cm ^ 3 / ((far - near) * cp) / d * cm := by
        field_simp
        ring
      linarith
    have hs : 0 ≤ areaDepthSpec near far d := by
      unfold areaDepthSpec
      positivity
    have hc : (1 : ℚ) - 6 / 2 ^ 24 ≤ cm ^ 4 / cp := by
      rw [hcm, hcp]; norm_num
    have e : far * (d - near) * cm ^ 4 / ((far - near) * cp * d)
        = areaDepthSpec near far d * (cm ^ 4 / cp) := by
      unfold areaDepthSpec
      field_simp
      ring
    rw [e] at a5
    exact le_trans (mul_le_mul_of_nonneg_left hc hs) a5
  · -- upper bound
    have b2 : roundMagnitude (far * roundMagnitude (d - near)) ≤ far * (d - near) * cp ^ 2 := by
      have : far * roundMagnitude (d - near) * cp ≤ far * ((d - near) * cp) * cp :=
        mul_le_mul_of_nonneg_right (mul_le_mul_of_nonneg_left u1 (le_of_lt hf0)) (le_of_lt hcp0)
      have e : far * (d - near) * cp ^ 2 = far * ((d - near) * cp) * cp := by ring
      linarith
    have b4 : roundMagnitude (roundMagnitude (far * roundMagnitude (d - near))
            / roundMagnitude (far - near))
        ≤ far * (d - near) * cp ^ 3 / ((far - near) * cm) := by
      have hnum : 0 ≤ far * (d - near) * cp ^ 2 := by positivity
      have h1 : roundMagnitude (far * roundMagnitude (d - near)) / roundMagnitude (far - near)
          ≤ far * (d - near) * cp ^ 2 / ((far - near) * cm) :=
        div_le_div₀ hnum b2 (mul_pos hx3 hcm0) l3
      have h2 := mul_le_mul_of_nonneg_right h1 (le_of_lt hcp0)
      have e : far * (d - near) * cp ^ 3 / ((far - near) * cm)
          = far * (d - near) * cp ^ 2 / ((far - near) * cm) * cp := by ring
      linarith
    have b5 : roundMagnitude (roundMagnitude (roundMagnitude (far * roundMagnitude (d - near))
            / roundMagnitude (far - near)) / d)
        ≤ far * (d - near) * cp ^ 4 / ((far - near) * cm * d) := by
      have h1 : roundMagnitude (roundMagnitude (far * roundMagnitude (d - near))
            / roundMagnitude (far - near)) / d
          ≤ far * (d - near) * cp ^ 3 / ((far - near) * cm) / d :=
        div_le_div_of_nonneg_right b4 (le_of_lt hd0)
      have h2 := mul_le_mul_of_nonneg_right h1 (le_of_lt hcp0)
      have e : far * (d - near) * cp ^ 4 / ((far - near) * cm * d)
          = far * (d - near) * cp ^ 3 / ((far - near) * cm) / d * cp := by
        field_simp
        ring
      linarith
    have hs : 0 ≤ areaDepthSpec near far d := by
      unfold areaDepthSpec
      positivity
    have hc : cp ^ 4 / cm ≤ (1 : ℚ) + 6 / 2 ^ 24 := by
      rw [hcm, hcp]; norm_num
    have e : far * (d - near) * cp ^ 4 / ((far - near) * cm * d)
        = areaDepthSpec near far d * (cp ^ 4 / cm) := by
      unfold areaDepthSpec
      field_simp
      ring
    rw [e] at b5
    exact le_trans b5 (mul_le_mul_of_nonneg_left hc hs)

/-- The constants after an area call whose anchor is not nearer than the near
clip distance are those of `AreaSetup`. -/
theorem constants_AreaPostProcess (t : PostProcessType) (srv rt : Texture) (b : BlendState)
    (w : CVector3) (a : CVector2) (s : Scene) (h : ¬ areaDistance s w < s.gCamera.NearClip) :
    (AreaPostProcess t srv rt b w a s).gPostProcessingConstants
      = { s.gPostProcessingConstants with
          area2DTopLeft :=
            { x := Float32.sub
                (Float32.div
                  (Float32.ofRat
                    (s.gCamera.PixelFromWorldPt w s.gViewportWidth s.gViewportHeight).x)
                  (Float32.ofInt s.gViewportWidth))
                (Float32.mul (Float32.ofRat (1 / 2))
                  (Float32.div
                    (Float32.div (Float32.ofRat a.x)
                      (Float32.ofRat (s.gCamera.PixelSizeInWorldSpace (areaDistance s w)
                        s.gViewportWidth s.gViewportHeight).x))
                    (Float32.ofInt s.gViewportWidth)))
              y := Float32.sub
                (Float32.div
                  (Float32.ofRat
                    (s.gCamera.PixelFromWorldPt w s.gViewportWidth s.gViewportHeight).y)
                  (Float32.ofInt s.gViewportHeight))
                (Float32.mul (Float32.ofRat (1 / 2))
                  (Float32.div
                    (Float32.div (Float32.ofRat a.y)
                      (Float32.ofRat (s.gCamera.PixelSizeInWorldSpace (areaDistance s w)
                        s.gViewportWidth s.gViewportHeight).y))
                    (Float32.ofInt s.gViewportHeight))) }
          area2DSize :=
            { x := Float32.div
                (Float32.div (Float32.ofRat a.x)
                  (Float32.ofRat (s.gCamera.PixelSizeInWorldSpace (areaDistance s w)
                    s.gViewportWidth s.gViewportHeight).x))
                (Float32.ofInt s.gViewportWidth)
              y := Float32.div
                (Float32.div (Float32.ofRat a.y)
                  (Float32.ofRat (s.gCamera.PixelSizeInWorldSpace (areaDistance s w)
                    s.gViewportWidth s.gViewportHeight).y))
                (Float32.ofInt s.gViewportHeight) }
          area2DDepth :=
            areaDepthFloat s.gCamera.NearClip s.gCamera.FarClip (areaDistance s w) } := by
  have hf := frame_Select t (PostProcessSetup srv rt b s)
  have hc := constants_Select t (PostProcessSetup srv rt b s)
  unfold AreaPostProcess
  rw [if_neg h]
  show (AreaSetup t srv rt b w a s).gPostProcessingConstants = _
  unfold AreaSetup
  dsimp only
  rw [hc, hf.camera, hf.width, hf.height]
  rfl

/-- C24: for `float` clip distances `0 < near < far` and an anchor at a
`float` view depth `d >= near`, `AreaPostProcess` sets `area2DDepth` to the
binary32 value of `far * (d - near) / (far - near) / d`, each of the five
operations rounded to nearest, with no division by zero: `far - near` rounds
to a positive number and `d > 0`.  In exact arithmetic this expression is
`far * (d - near) / ((far - near) * d)`, which is `0` at `d = near`, `1` at
`d = far`, strictly increasing in `d` from `near` on and within `[0, 1]` when
`d <= far`.  The stored value is never a NaN and never negative (a
non-negative number or the positive infinity), it is `+0` at `d = near`, and
when `2 ^ (-20) <= near`, `far <= 2 ^ 20` and `d <= far` it is a number
within the relative error `6 * 2 ^ (-24)` of the exact value, hence at most
`1 + 6 * 2 ^ (-24)`.  `area2DTopLeft` is the binary32 difference of the
projected anchor (in 0..1 coordinates) and half of `area2DSize`. -/
theorem C24_area_depth_and_rectangle (postProcess : PostProcessType) (srv renderTarget : Texture)
    (blendState : BlendState) (worldPoint : CVector3) (areaSize : CVector2) (s : Scene)
    (hnear : 0 < s.gCamera.NearClip) (hfar : s.gCamera.NearClip < s.gCamera.FarClip)
    (hd : s.gCamera.NearClip ≤ areaDistance s worldPoint)
    (en : Float32.ofRat s.gCamera.NearClip = Float32.finite false s.gCamera.NearClip)
    (ef : Float32.ofRat s.gCamera.FarClip = Float32.finite false s.gCamera.FarClip)
    (ed : Float32.ofRat (areaDistance s worldPoint)
      = Float32.finite false (areaDistance s worldPoint)) :
    (∃ m : ℚ, Float32.sub (Float32.ofRat s.gCamera.FarClip) (Float32.ofRat s.gCamera.NearClip)
        = Float32.finite false m ∧ 0 < m) ∧
    areaDistance s worldPoint ≠ 0 ∧
    (AreaPostProcess postProcess srv renderTarget blendState worldPoint areaSize
        s).gPostProcessingConstants.area2DDepth
      = Float32.div
          (Float32.div
            (Float32.mul (Float32.ofRat s.gCamera.FarClip)
              (Float32.sub (Float32.ofRat (areaDistance s worldPoint))
                (Float32.ofRat s.gCamera.NearClip)))
            (Float32.sub (Float32.ofRat s.gCamera.FarClip) (Float32.ofRat s.gCamera.NearClip)))
          (Float32.ofRat (areaDistance s worldPoint)) ∧
    s.gCamera.FarClip * (areaDistance s worldPoint - s.gCamera.NearClip)
        / (s.gCamera.FarClip - s.gCamera.NearClip) / areaDistance s worldPoint
      = areaDepthSpec s.gCamera.NearClip s.gCamera.FarClip (areaDistance s worldPoint) ∧
    areaDepthSpec s.gCamera.NearClip s.gCamera.FarClip s.gCamera.NearClip = 0 ∧
    areaDepthSpec s.gCamera.NearClip s.gCamera.FarClip s.gCamera.FarClip = 1 ∧
    (∀ d₁ d₂ : ℚ, s.gCamera.NearClip ≤ d₁ → d₁ < d₂ →
      areaDepthSpec s.gCamera.NearClip s.gCamera.FarClip d₁
        < areaDepthSpec s.gCamera.NearClip s.gCamera.FarClip d₂) ∧
    (areaDistance s worldPoint ≤ s.gCamera.FarClip →
      0 ≤ areaDepthSpec s.gCamera.NearClip s.gCamera.FarClip (areaDistance s worldPoint) ∧
      areaDepthSpec s.gCamera.NearClip s.gCamera.FarClip (areaDistance s worldPoint) ≤ 1) ∧
    ((∃ v : ℚ,
        (AreaPostProcess postProcess srv renderTarget blendState worldPoint areaSize
          s).gPostProcessingConstants.area2DDepth = Float32.finite false v ∧ 0 ≤ v) ∨
      (AreaPostProcess postProcess srv renderTarget blendState worldPoint areaSize
        s).gPostProcessingConstants.area2DDepth = Float32.infinite false) ∧
    (areaDistance s worldPoint = s.gCamera.NearClip →
      (AreaPostProcess postProcess srv renderTarget blendState worldPoint areaSize
        s).gPostProcessingConstants.area2DDepth = Float32.finite false 0) ∧
    (1 / 2 ^ 20 ≤ s.gCamera.NearClip → s.gCamera.FarClip ≤ 2 ^ 20 →
      areaDistance s worldPoint ≤ s.gCamera.FarClip →
      ∃ v : ℚ,
        (AreaPostProcess postProcess srv renderTarget blendState worldPoint areaSize
          s).gPostProcessingConstants.area2DDepth = Float32.finite false v ∧
        areaDepthSpec s.gCamera.NearClip s.gCamera.FarClip (areaDistance s worldPoint)
            * (1 - 6 / 2 ^ 24) ≤ v ∧
        v ≤ areaDepthSpec s.gCamera.NearClip s.gCamera.FarClip (areaDistance s worldPoint)
            * (1 + 6 / 2 ^ 24) ∧
        v ≤ 1 + 6 / 2 ^ 24) ∧
    (AreaPostProcess postProcess srv renderTarget blendState worldPoint areaSize
        s).gPostProcessingConstants.area2DTopLeft.x
      = Float32.sub
          (Float32.div
            (Float32.ofRat
              (s.gCamera.PixelFromWorldPt worldPoint s.gViewportWidth s.gViewportHeight).x)
            (Float32.ofInt s.gViewportWidth))
          (Float32.mul (Float32.ofRat (1 / 2))
            (AreaPostProcess postProcess srv renderTarget blendState worldPoint areaSize
              s).gPostProcessingConstants.area2DSize.x) ∧
    (AreaPostProcess postProcess srv renderTarget blendState worldPoint areaSize
        s).gPostProcessingConstants.area2DTopLeft.y
      = Float32.sub
          (Float32.div
            (Float32.ofRat
              (s.gCamera.PixelFromWorldPt worldPoint s.gViewportWidth s.gViewportHeight).y)
            (Float32.ofInt s.gViewportHeight))
          (Float32.mul (Float32.ofRat (1 / 2))
            (AreaPostProcess postProcess srv renderTarget blendState worldPoint areaSize
              s).gPostProcessingConstants.area2DSize.y) := by
  have hfn : s.gCamera.FarClip - s.gCamera.NearClip ≠ 0 := ne_of_gt (sub_pos.mpr hfar)
  have hd0 : areaDistance s worldPoint ≠ 0 := ne_of_gt (lt_of_lt_of_le hnear hd)
  have hc := constants_AreaPostProcess postProcess srv renderTarget blendState worldPoint
    areaSize s (not_lt.mpr hd)
  have hdepth : (AreaPostProcess postProcess srv renderTarget blendState worldPoint areaSize
      s).gPostProcessingConstants.area2DDepth
      = areaDepthFloat s.gCamera.NearClip s.gCamera.FarClip (areaDistance s worldPoint) := by
    rw [hc]
  obtain ⟨g1, g2, g3⟩ := areaDepthFloat_nonneg s.gCamera.NearClip s.gCamera.FarClip
    (areaDistance s worldPoint) hnear hfar hd en ef ed
  refine ⟨g1, hd0, hdepth, ?_, areaDepthSpec_near _ _, areaDepthSpec_far _ _ hnear hfar,
    fun d₁ d₂ h₁ h₁₂ => areaDepthSpec_lt _ _ d₁ d₂ hnear hfar h₁ h₁₂,
    fun hle => areaDepthSpec_range _ _ _ hnear hfar hd hle, ?_, ?_, ?_, ?_, ?_⟩
  · unfold areaDepthSpec
    rw [div_div]
  · rw [hdepth]
    exact g2
  · rw [hdepth]
    exact g3
  · intro hlo hhi hle
    obtain ⟨v, hv, hl, hu⟩ := areaDepthFloat_accurate s.gCamera.NearClip s.gCamera.FarClip
      (areaDistance s worldPoint) hlo hfar hhi hd hle en ef ed
    refine ⟨v, by rw [hdepth]; exact hv, hl, hu, le_trans hu ?_⟩
    have hr := (areaDepthSpec_range _ _ _ hnear hfar hd hle).2
    calc areaDepthSpec s.gCamera.NearClip s.gCamera.FarClip (areaDistance s worldPoint)
          * (1 + 6 / 2 ^ 24)
        ≤ 1 * (1 + 6 / 2 ^ 24) := mul_le_mul_of_nonneg_right hr (by norm_num)
      _ = 1 + 6 / 2 ^ 24 := one_mul _
  · rw [hc]
  · rw [hc]

/-- The sample scene (clip distances `1` and `1000`) with an anchor at view
depth `10`: the stored depth is the binary32 number next to
`1000 * 9 / (999 * 10)`. -/
theorem C24_area_depth_and_rectangle_witness :
    0 < sampleScene.gCamera.NearClip ∧
    sampleScene.gCamera.NearClip < sampleScene.gCamera.FarClip ∧
    sampleScene.gCamera.NearClip ≤ areaDistance sampleScene { x := 640, y := 480, z := 10 } ∧
    (1 : ℚ) / 2 ^ 20 ≤ sampleScene.gCamera.NearClip ∧
    sampleScene.gCamera.FarClip ≤ 2 ^ 20 ∧
    areaDistance sampleScene { x := 640, y := 480, z := 10 } ≤ sampleScene.gCamera.FarClip ∧
    (∃ v : ℚ,
      (AreaPostProcess Tint gSceneTexture gSceneTexture2 gAlphaBlendingState
          { x := 640, y := 480, z := 10 } { x := 10, y := 10 }
          sampleScene).gPostProcessingConstants.area2DDepth = Float32.finite false v ∧
      areaDepthSpec sampleScene.gCamera.NearClip sampleScene.gCamera.FarClip
          (areaDistance sampleScene { x := 640, y := 480, z := 10 }) * (1 - 6 / 2 ^ 24) ≤ v ∧
      v ≤ areaDepthSpec sampleScene.gCamera.NearClip sampleScene.gCamera.FarClip
          (areaDistance sampleScene { x := 640, y := 480, z := 10 }) * (1 + 6 / 2 ^ 24) ∧
      v ≤ 1 + 6 / 2 ^ 24) ∧
    (AreaPostProcess Tint gSceneTexture gSceneTexture2 gAlphaBlendingState
        { x := 640, y := 480, z := 10 } { x := 10, y := 10 }
        sampleScene).gPostProcessingConstants.area2DDepth
      = Float32.finite false (7557305 / 8388608) ∧
    areaDepthSpec sampleScene.gCamera.NearClip sampleScene.gCamera.FarClip
        (areaDistance sampleScene { x := 640, y := 480, z := 10 }) = 100 / 111 :=
  ⟨by decide!, by decide!, by decide!, by decide!, by decide!, by decide!,
    (C24_area_depth_and_rectangle Tint gSceneTexture gSceneTexture2 gAlphaBlendingState
      { x := 640, y := 480, z := 10 } { x := 10, y := 10 } sampleScene (by decide!) (by decide!)
      (by decide!) (by decide!) (by decide!) (by decide!)).2.2.2.2.2.2.2.2.2.2.1
      (by decide!) (by decide!) (by decide!),
    by decide!, by decide!⟩

/-- C24, the depth in exact arithmetic against the stored one: with the clip
distances `0.1f` and `1000` and the `float` depths
`d₁ = 999.99969... < d₂ = 999.99975... < far`, the exact value at `d₁` is
below `1` but the stored depth is `1 + 2 ^ (-23) > 1`, and the stored depth at
the larger `d₂` is the smaller number `1`. -/
theorem C24_float_depth_exceeds_one :
    0 < sampleTenthScene.gCamera.NearClip ∧
    sampleTenthScene.gCamera.NearClip < sampleTenthScene.gCamera.FarClip ∧
    sampleTenthScene.gCamera.NearClip
      ≤ areaDistance sampleTenthScene { x := 640, y := 480, z := 16383995 / 16384 } ∧
    areaDistance sampleTenthScene { x := 640, y := 480, z := 16383995 / 16384 }
      < areaDistance sampleTenthScene { x := 640, y := 480, z := 4095999 / 4096 } ∧
    areaDistance sampleTenthScene { x := 640, y := 480, z := 4095999 / 4096 }
      ≤ sampleTenthScene.gCamera.FarClip ∧
    Float32.ofRat sampleTenthScene.gCamera.NearClip
      = Float32.finite false sampleTenthScene.gCamera.NearClip ∧
    Float32.ofRat sampleTenthScene.gCamera.FarClip
      = Float32.finite false sampleTenthScene.gCamera.FarClip ∧
    Float32.ofRat (16383995 / 16384) = Float32.finite false (16383995 / 16384) ∧
    Float32.ofRat (4095999 / 4096) = Float32.finite false (4095999 / 4096) ∧
    areaDepthSpec sampleTenthScene.gCamera.NearClip sampleTenthScene.gCamera.FarClip
      (16383995 / 16384) < 1 ∧
    (AreaPostProcess Tint gSceneTexture gSceneTexture2 gAlphaBlendingState
        { x := 640, y := 480, z := 16383995 / 16384 } { x := 10, y := 10 }
        sampleTenthScene).gPostProcessingConstants.area2DDepth
      = Float32.finite false (8388609 / 8388608) ∧
    ¬ ((8388609 : ℚ) / 8388608 ≤ 1) ∧
    (AreaPostProcess Tint gSceneTexture gSceneTexture2 gAlphaBlendingState
        { x := 640, y := 480, z := 4095999 / 4096 } { x := 10, y := 10 }
        sampleTenthScene).gPostProcessingConstants.area2DDepth
      = Float32.finite false 1 ∧
    ¬ ((8388609 : ℚ) / 8388608 < 1) := by
  refine ⟨by decide!, by decide!, by decide!, by decide!, by decide!, by decide!, by decide!,
    by decide!, by decide!, by decide!, by decide!, by decide!, by decide!, by decide!⟩

end PostProcessing
